import Mathlib

/-!
# Cornwall room ray tracer: the recursive renderer of `RenderStrategy.h`

A shallow embedding of `RayTracingStrategy` (file `RenderStrategy.h`) together with the
records it reads (`Material.h`, `Light.h`, `Vertex.h`, `Face.h`, `Mesh.h`, `Scene.h`).

Numbers.  The C++ code computes in `float`.  Here every `float` is an element of an arbitrary
linearly ordered field `F` (exact arithmetic, no rounding, no NaN): decimal literals such as
`1e-3f` denote the rationals they spell.  The three `<cmath>` functions the renderer calls
(`std::sqrt`, `std::pow`, `std::tan`) are not part of the repository; they are taken as the
parameter `MathFns F`.  Instantiated at `ℚ` with `ratMath` every definition is executable.

Rounding.  The numerical routines are embedded a second time, in the namespace `Fl`, over an
arbitrary arithmetic `FloatOps R` (literal, operations, comparisons; no law assumed), with
every operation applied in the order of the C++ expression.  At `exactOps m` they are the
routines over the ordered field; at `f32` they compute in IEEE-754 binary32 (`F32`: NaN,
infinities, round to nearest even).  Statements that rounding or NaN can break are made on
the `Fl` routines: for every arithmetic where they hold for every arithmetic, at `exactOps`
where they need exact arithmetic, and at `f32` for the inputs on which binary32 departs.

Integers.  `depth` is a C++ `int`; it is only ever incremented below `MAX_DEPTH`, so it is
modelled as an `Int` without wrap-around.
-/

namespace CornwallRT

/-! ## glm vectors and matrices -/

/-- Three floats: `glm::vec3`. -/
structure Vec3 (F : Type) where
  x : F
  y : F
  z : F
deriving DecidableEq, Repr

/-- Four floats: `glm::vec4`. -/
structure Vec4 (F : Type) where
  x : F
  y : F
  z : F
  w : F
deriving DecidableEq, Repr

/-- Column-major 3x3 matrix `glm::mat3`: `c0`, `c1`, `c2` are the columns `m[0]`, `m[1]`, `m[2]`. -/
structure Mat3 (F : Type) where
  c0 : Vec3 F
  c1 : Vec3 F
  c2 : Vec3 F
deriving DecidableEq, Repr

/-- Column-major 4x4 matrix `glm::mat4`: `c0` .. `c3` are the columns `m[0]` .. `m[3]`. -/
structure Mat4 (F : Type) where
  c0 : Vec4 F
  c1 : Vec4 F
  c2 : Vec4 F
  c3 : Vec4 F
deriving DecidableEq, Repr

/-- The `<cmath>` functions used by the renderer, supplied from outside. -/
structure MathFns (F : Type) where
  sqrt : F → F
  pow : F → F → F
  tan : F → F

section Glm

variable {F : Type} [LinearOrderedField F]

/-- Constructor `glm::vec3(s)`: all three components equal to `s`. -/
def Vec3.splat (s : F) : Vec3 F := ⟨s, s, s⟩

/-- Component-wise `a + b`. -/
def Vec3.add (a b : Vec3 F) : Vec3 F := ⟨a.x + b.x, a.y + b.y, a.z + b.z⟩

/-- Component-wise `a - b`. -/
def Vec3.sub (a b : Vec3 F) : Vec3 F := ⟨a.x - b.x, a.y - b.y, a.z - b.z⟩

/-- Unary minus `-a`. -/
def Vec3.neg (a : Vec3 F) : Vec3 F := ⟨-a.x, -a.y, -a.z⟩

/-- Vector times scalar, `a * s` (also used for `s * a`). -/
def Vec3.smul (a : Vec3 F) (s : F) : Vec3 F := ⟨a.x * s, a.y * s, a.z * s⟩

/-- Vector divided by scalar, `a / s`. -/
def Vec3.sdiv (a : Vec3 F) (s : F) : Vec3 F := ⟨a.x / s, a.y / s, a.z / s⟩

/-- Component-wise product `a * b` of two `glm::vec3`. -/
def Vec3.mul (a b : Vec3 F) : Vec3 F := ⟨a.x * b.x, a.y * b.y, a.z * b.z⟩

/-- Inner product `glm::dot`. -/
def dot (a b : Vec3 F) : F := a.x * b.x + a.y * b.y + a.z * b.z

/-- Cross product `glm::cross`. -/
def cross (a b : Vec3 F) : Vec3 F :=
  ⟨a.y * b.z - b.y * a.z, a.z * b.x - b.z * a.x, a.x * b.y - b.x * a.y⟩

/-- Euclidean length `glm::length(v) = sqrt(dot(v, v))`. -/
def length (m : MathFns F) (v : Vec3 F) : F := m.sqrt (dot v v)

/-- Unit vector `glm::normalize(v) = v * inversesqrt(dot(v, v))`. -/
def normalize (m : MathFns F) (v : Vec3 F) : Vec3 F := v.smul (1 / m.sqrt (dot v v))

/-- Scalar clamp `std::clamp(v, lo, hi)`. -/
def clampS (v lo hi : F) : F := if v < lo then lo else if hi < v then hi else v

/-- Vector clamp `glm::clamp(v, lo, hi) = min(max(v, lo), hi)` on every component. -/
def Vec3.clamp (v : Vec3 F) (lo hi : F) : Vec3 F :=
  ⟨min (max v.x lo) hi, min (max v.y lo) hi, min (max v.z lo) hi⟩

/-- Product `M * v` of a `glm::mat3` and a `glm::vec3`. -/
def Mat3.mulVec (M : Mat3 F) (v : Vec3 F) : Vec3 F :=
  ((M.c0.smul v.x).add (M.c1.smul v.y)).add (M.c2.smul v.z)

/-- Product `M * v` of a `glm::mat4` and a `glm::vec4`. -/
def Mat4.mulVec (M : Mat4 F) (v : Vec4 F) : Vec4 F :=
  ⟨M.c0.x * v.x + M.c1.x * v.y + M.c2.x * v.z + M.c3.x * v.w,
   M.c0.y * v.x + M.c1.y * v.y + M.c2.y * v.z + M.c3.y * v.w,
   M.c0.z * v.x + M.c1.z * v.y + M.c2.z * v.z + M.c3.z * v.w,
   M.c0.w * v.x + M.c1.w * v.y + M.c2.w * v.z + M.c3.w * v.w⟩

/-- Conversion `glm::vec3(v)` of a `glm::vec4`: drop `w`. -/
def Vec4.xyz (v : Vec4 F) : Vec3 F := ⟨v.x, v.y, v.z⟩

/-- Constructor `glm::vec4(v, w)`. -/
def Vec3.withW (v : Vec3 F) (w : F) : Vec4 F := ⟨v.x, v.y, v.z, w⟩

end Glm

/-! ## Records read by the renderer -/

/-- Record `Material` of `Material.h`. -/
structure Material (F : Type) where
  diffuseColor : Vec3 F
  specularColor : Vec3 F
  shininess : F
  reflectivity : F
  isMirror : Bool
  transparency : F
  isTransparent : Bool
  refractiveIndex : F
deriving DecidableEq, Repr

/-- Record `Light` of `Light.h`. -/
structure Light (F : Type) where
  position : Vec3 F
  color : Vec3 F
  intensity : F
deriving DecidableEq, Repr

/-- Record `Vertex` of `Vertex.h`; `texCoord` and `color` are never read by the ray tracer. -/
structure Vertex (F : Type) where
  position : Vec3 F
  normal : Vec3 F
deriving DecidableEq, Repr

/-- Class `Face` of `Face.h`: only `vertices` is read by the ray tracer. -/
structure Face (F : Type) where
  vertices : List (Vertex F)
deriving DecidableEq, Repr

/-- Class `Mesh` of `Mesh.h`: the intersection routines read `faces` and `material`,
`buildRTObjects` also reads `name`, `position`, `rotation` and `scale`. -/
structure Mesh (F : Type) where
  name : String
  faces : List (Face F)
  position : Vec3 F
  rotation : Vec3 F
  scale : Vec3 F
  material : Material F
deriving DecidableEq, Repr

/-- Flattened mesh `RTMesh`: the matrices are stored, as computed by `buildRTObjects`. -/
structure RTMesh (F : Type) where
  mesh : Mesh F
  model : Mat4 F
  invModel : Mat4 F
  normalMat : Mat3 F
  isLight : Bool
  isHidden : Bool
deriving DecidableEq, Repr

/-- Flattened sphere `RTSphere`. -/
structure RTSphere (F : Type) where
  center : Vec3 F
  radius : F
  material : Material F
  isLight : Bool
  isHidden : Bool
deriving DecidableEq, Repr

/-- Hit record `HitInfo`. -/
structure HitInfo (F : Type) where
  t : F
  p : Vec3 F
  nGeom : Vec3 F
  nShade : Vec3 F
  frontFace : Bool
  hit : Bool
  hitLight : Bool
  material : Material F
deriving DecidableEq, Repr

/-- What `traceRay` and `shadeDirect` read of a `Scene`: the two colours and
`scene.getCamera()->position`. -/
structure Scene (F : Type) where
  ambientLight : Vec3 F
  backgroundColor : Vec3 F
  cameraPosition : Vec3 F
deriving DecidableEq, Repr

section Renderer

variable {F : Type} [LinearOrderedField F]

/-- Recursion ceiling `MAX_DEPTH = 6`. -/
def MAX_DEPTH : Int := 6

/-- Self-intersection tolerance `EPS = 1e-3f`. -/
def EPS : F := 1 / 1000

/-- Tolerance `EPS_MT = 1e-6f` local to `rayTri`. -/
def EPS_MT : F := 1 / 1000000

/-- Largest finite float `std::numeric_limits<float>::max() = (2^24 - 1) * 2^104`. -/
def FLT_MAX : F := (2 ^ 24 - 1) * 2 ^ 104

/-- Source `reflectVec`: `v - 2 * dot(v, n) * n`. -/
def reflectVec (v nUnit : Vec3 F) : Vec3 F := v.sub (nUnit.smul (2 * dot v nUnit))

/-- Source `schlick`. -/
def schlick (cosTheta n1 n2 : F) : F :=
  let cosTheta := clampS cosTheta 0 1
  let r0 := (n1 - n2) / (n1 + n2)
  let r0 := r0 * r0
  let x := 1 - cosTheta
  r0 + (1 - r0) * x * x * x * x * x

/-- Source `refractVec`: `none` is the return value `false` (total internal reflection),
`some T` is `true` with `outT = T`. -/
def refractVec (m : MathFns F) (I_unit N_unit : Vec3 F) (eta : F) : Option (Vec3 F) :=
  let cosTheta := min (dot I_unit.neg N_unit) 1
  let rOutPerp := (I_unit.add (N_unit.smul cosTheta)).smul eta
  let k := 1 - dot rOutPerp rOutPerp
  if k < 0 then none
  else
    let rOutParallel := N_unit.smul (-(m.sqrt k))
    some (rOutPerp.add rOutParallel)

/-- Tail of `intersectSphere` once the root `t` is accepted: fills the hit record (lines
`outHit.t = t` to `return true`). -/
def sphereHit (m : MathFns F) (o d : Vec3 F) (s : RTSphere F) (t : F) : HitInfo F :=
  let p := o.add (d.smul t)
  let outward := normalize m (p.sub s.center)
  let frontFace : Bool := decide (dot d outward < 0)
  let nGeom := if frontFace then outward else outward.neg
  { t := t, p := p, nGeom := nGeom, nShade := nGeom, frontFace := frontFace,
    hit := true, hitLight := false, material := s.material }

/-- Source `intersectSphere`, called on a freshly constructed `HitInfo` (as both callers do):
`none` is the return value `false`, `some h` is `true` with `outHit = h`. -/
def intersectSphere (m : MathFns F) (o d : Vec3 F) (s : RTSphere F) : Option (HitInfo F) :=
  let oc := o.sub s.center
  let a := dot d d
  let halfB := dot oc d
  let c := dot oc oc - s.radius * s.radius
  let disc := halfB * halfB - a * c
  if disc < 0 then none
  else
    let sqrtD := m.sqrt disc
    let t := (-halfB - sqrtD) / a
    if t ≤ EPS then
      let t := (-halfB + sqrtD) / a
      if t ≤ EPS then none else some (sphereHit m o d s t)
    else some (sphereHit m o d s t)

/-- Source `rayTri` (Moeller-Trumbore): `none` is `false`, `some (t, u, v)` is `true` with
the three out-parameters. -/
def rayTri (o d v0 v1 v2 : Vec3 F) : Option (F × F × F) :=
  let e1 := v1.sub v0
  let e2 := v2.sub v0
  let p := cross d e2
  let det := dot e1 p
  if |det| < EPS_MT then none
  else
    let invDet := 1 / det
    let tv := o.sub v0
    let u := dot tv p * invDet
    if u < 0 ∨ u > 1 then none
    else
      let q := cross tv e1
      let v := dot d q * invDet
      if v < 0 ∨ u + v > 1 then none
      else
        let t := dot e2 q * invDet
        if t > EPS_MT then some (t, u, v) else none

/-- Fan triangulation of one face, as the inner loop of `intersectMesh` enumerates it:
`(V0, V_i, V_{i+1})` for `i = 1 .. n - 2`; nothing when the face has fewer than 3 vertices. -/
def fanTriangles (vs : List (Vertex F)) : List (Vertex F × Vertex F × Vertex F) :=
  match vs with
  | [] => []
  | v0 :: rest => (rest.zip rest.tail).map (fun e => (v0, e.1, e.2))

/-- Loop state of `intersectMesh`: the local `bestT` and the out-parameter (`none` while the
local `hit` is still `false`). -/
structure MeshState (F : Type) where
  bestT : F
  out : Option (HitInfo F)

/-- One iteration of the inner loop of `intersectMesh` on the triangle `(V0, V1, V2)`. -/
def meshStep (m : MathFns F) (originWorld dirWorldUnit : Vec3 F) (rt : RTMesh F)
    (localO localD : Vec3 F) (st : MeshState F) (tri : Vertex F × Vertex F × Vertex F) :
    MeshState F :=
  let V0 := tri.1
  let V1 := tri.2.1
  let V2 := tri.2.2
  match rayTri localO localD V0.position V1.position V2.position with
  | none => st
  | some (tLocal, u, v) =>
    if tLocal ≤ EPS then st
    else
      let localP := localO.add (localD.smul tLocal)
      let worldP := (rt.model.mulVec (localP.withW 1)).xyz
      let tWorld := dot (worldP.sub originWorld) dirWorldUnit
      if tWorld > EPS ∧ tWorld < st.bestT then
        let localNg := normalize m (cross (V1.position.sub V0.position) (V2.position.sub V0.position))
        let Ng := normalize m (rt.normalMat.mulVec localNg)
        let w := 1 - u - v
        let localNs := normalize m (((V0.normal.smul w).add (V1.normal.smul u)).add (V2.normal.smul v))
        let Ns := normalize m (rt.normalMat.mulVec localNs)
        let front : Bool := decide (dot dirWorldUnit Ng < 0)
        { bestT := tWorld,
          out := some { t := tWorld, p := worldP,
                        nGeom := if front then Ng else Ng.neg,
                        nShade := if front then Ns else Ns.neg,
                        frontFace := front, hit := true, hitLight := false,
                        material := rt.mesh.material } }
      else st

/-- Source `intersectMesh`, called on a freshly constructed `HitInfo`: `none` is `false`,
`some h` is `true` with `outHit = h`. -/
def intersectMesh (m : MathFns F) (originWorld dirWorldUnit : Vec3 F) (rt : RTMesh F) :
    Option (HitInfo F) :=
  let localO := (rt.invModel.mulVec (originWorld.withW 1)).xyz
  let localD := normalize m (rt.invModel.mulVec (dirWorldUnit.withW 0)).xyz
  let tris := rt.mesh.faces.flatMap (fun face => fanTriangles face.vertices)
  (tris.foldl (meshStep m originWorld dirWorldUnit rt localO localD) ⟨FLT_MAX, none⟩).out

/-- Loop state of `intersectScene`: the local `nearest` and the out-parameter (`none` while
`hitAny` is still `false`). -/
structure SceneState (F : Type) where
  nearest : F
  out : Option (HitInfo F)

/-- Common body of the two loops of `intersectScene`: `r` is the result of the primitive's
intersection routine, `isLight` the primitive's flag. -/
def sceneUpdate (st : SceneState F) (r : Option (HitInfo F)) (isLight : Bool) : SceneState F :=
  match r with
  | none => st
  | some h =>
    if h.t > EPS ∧ h.t < st.nearest then
      { nearest := h.t, out := some { h with hitLight := isLight } }
    else st

/-- One iteration of the sphere loop of `intersectScene`. -/
def sceneSphereStep (m : MathFns F) (origin dirUnit : Vec3 F) (skipHiddenForPrimary : Bool)
    (st : SceneState F) (s : RTSphere F) : SceneState F :=
  if skipHiddenForPrimary && s.isHidden then st
  else sceneUpdate st (intersectSphere m origin dirUnit s) s.isLight

/-- One iteration of the mesh loop of `intersectScene`. -/
def sceneMeshStep (m : MathFns F) (origin dirUnit : Vec3 F) (skipHiddenForPrimary : Bool)
    (st : SceneState F) (rt : RTMesh F) : SceneState F :=
  if skipHiddenForPrimary && rt.isHidden then st
  else sceneUpdate st (intersectMesh m origin dirUnit rt) rt.isLight

/-- Source `intersectScene`: `none` is `false`, `some h` is `true` with `outHit = h`. -/
def intersectScene (m : MathFns F) (origin dirUnit : Vec3 F) (meshes : List (RTMesh F))
    (spheres : List (RTSphere F)) (skipHiddenForPrimary : Bool) : Option (HitInfo F) :=
  let st := spheres.foldl (sceneSphereStep m origin dirUnit skipHiddenForPrimary) ⟨FLT_MAX, none⟩
  (meshes.foldl (sceneMeshStep m origin dirUnit skipHiddenForPrimary) st).out

/-- Test made on each candidate of `inShadow`: the routine reported a hit `h` with
`h.t > EPS && h.t < maxDist - EPS`. -/
def occludes (r : Option (HitInfo F)) (maxDist : F) : Bool :=
  match r with
  | none => false
  | some h => decide (h.t > EPS ∧ h.t < maxDist - EPS)

/-- Source `inShadow`. -/
def inShadow (m : MathFns F) (p Ng lightDir : Vec3 F) (maxDist : F) (meshes : List (RTMesh F))
    (spheres : List (RTSphere F)) : Bool :=
  let n := normalize m Ng
  let o := p.add (n.smul (if dot lightDir n > 0 then EPS else -EPS))
  spheres.any (fun s =>
      if s.material.isTransparent ∧ s.material.transparency > 0 then false
      else occludes (intersectSphere m o lightDir s) maxDist)
    || meshes.any (fun rt =>
      if rt.isLight then false
      else if rt.mesh.material.isTransparent ∧ rt.mesh.material.transparency > 0 then false
      else occludes (intersectMesh m o lightDir rt) maxDist)

/-- One iteration of the light loop of `shadeDirect`: `col` is the running colour. -/
def shadeLight (m : MathFns F) (hit : HitInfo F) (meshes : List (RTMesh F))
    (spheres : List (RTSphere F)) (N V : Vec3 F) (col : Vec3 F) (Ls : Light F) : Vec3 F :=
  let mat := hit.material
  let toL := Ls.position.sub hit.p
  let dist := length m toL
  if dist ≤ 1 / 1000000 then col
  else
    let L := toL.sdiv dist
    if inShadow m hit.p hit.nGeom L dist meshes spheres then col
    else
      let ndotl := max (dot N L) 0
      if ndotl ≤ 0 then col
      else
        let atten := 1 / (1 + (1 / 10) * dist + (1 / 100) * dist * dist)
        let lightCol := (Ls.color.smul Ls.intensity).smul atten
        let col := col.add (lightCol.mul (mat.diffuseColor.smul ndotl))
        if mat.shininess > 1 then
          let R := reflectVec L.neg N
          let spec := m.pow (max (dot V (normalize m R)) 0) mat.shininess
          col.add (lightCol.mul (mat.specularColor.smul spec))
        else col

/-- Source `shadeDirect`. -/
def shadeDirect (m : MathFns F) (hit : HitInfo F) (lights : List (Light F)) (scene : Scene F)
    (meshes : List (RTMesh F)) (spheres : List (RTSphere F)) : Vec3 F :=
  let N := normalize m hit.nShade
  let V := normalize m (scene.cameraPosition.sub hit.p)
  let col := scene.ambientLight.mul hit.material.diffuseColor
  lights.foldl (shadeLight m hit meshes spheres N V) col

/-- Origin of a secondary ray: `p + N * (dot(dir, N) > 0 ? EPS : -EPS)`. -/
def offsetOrigin (p N dir : Vec3 F) : Vec3 F :=
  p.add (N.smul (if dot dir N > 0 then EPS else -EPS))

/-- Refractive index used for a transparent material (line
`float ior = (mat.refractiveIndex > 1e-4f) ? mat.refractiveIndex : 1.5f`). -/
def glassIor (mat : Material F) : F :=
  if mat.refractiveIndex > 1 / 10000 then mat.refractiveIndex else 3 / 2

/-- The pair `(n1, n2)` of the transparent branch of `traceRay` (lines
`float n1 = environmentIor; float n2 = hit.frontFace ? ior : 1.0f`). -/
def refractionIndices (environmentIor : F) (hit : HitInfo F) : F × F :=
  let ior := glassIor hit.material
  let n1 := environmentIor
  let n2 := if hit.frontFace then ior else 1
  (n1, n2)

/-- The Fresnel weight `kr` of the transparent branch of `traceRay` as it stands before the
refraction test (lines `float cosTheta = ...` to `if (mat.isMirror) kr = std::max(...)`). -/
def fresnelWeight (environmentIor : F) (dirUnit : Vec3 F) (hit : HitInfo F) : F :=
  let mat := hit.material
  let n := refractionIndices environmentIor hit
  let N := hit.nGeom
  let cosTheta := clampS (dot dirUnit.neg N) 0 1
  let kr := schlick cosTheta n.1 n.2
  let kr := clampS kr 0 1
  if mat.isMirror then max kr (clampS mat.reflectivity 0 1) else kr

/-- Source `traceRay`.  The first argument bounds the number of nested activations: a call
needs one unit for itself and passes the rest to the calls it makes; `none` means the bound
was too small, `some c` that the call returned the colour `c`. -/
def traceRay (m : MathFns F) : Nat → Vec3 F → Vec3 F → List (RTMesh F) → List (RTSphere F) →
    List (Light F) → Scene F → Int → F → Option (Vec3 F)
  | 0, _, _, _, _, _, _, _, _ => none
  | fuel + 1, origin, dirUnit, meshes, spheres, lights, scene, depth, environmentIor =>
    if depth ≥ MAX_DEPTH then some scene.backgroundColor
    else
      let primary : Bool := decide (depth = 0)
      match intersectScene m origin dirUnit meshes spheres primary with
      | none => some scene.backgroundColor
      | some hit =>
        if hit.hitLight then some (Vec3.splat 1)
        else
          let mat := hit.material
          let direct := shadeDirect m hit lights scene meshes spheres
          if mat.isMirror ∧ mat.reflectivity > 0 then
            let k := clampS mat.reflectivity 0 1
            let R := normalize m (reflectVec dirUnit hit.nGeom)
            let o := offsetOrigin hit.p hit.nGeom R
            match traceRay m fuel o R meshes spheres lights scene (depth + 1) environmentIor with
            | none => none
            | some refl => some (((direct.smul (1 - k)).add (refl.smul k)).clamp 0 1)
          else if mat.isTransparent ∧ mat.transparency > 0 then
            let tr := clampS mat.transparency 0 1
            let ior := glassIor mat
            let n := refractionIndices environmentIor hit
            let eta := n.1 / n.2
            let N := hit.nGeom
            let kr := fresnelWeight environmentIor dirUnit hit
            let R := normalize m (reflectVec dirUnit N)
            let oR := offsetOrigin hit.p N R
            match traceRay m fuel oR R meshes spheres lights scene (depth + 1) environmentIor with
            | none => none
            | some refl =>
              match refractVec m dirUnit N eta with
              | some T =>
                let T := normalize m T
                let oT := offsetOrigin hit.p N T
                let nextEnvIor := if hit.frontFace then ior else 1
                match traceRay m fuel oT T meshes spheres lights scene (depth + 1) nextEnvIor with
                | none => none
                | some refr =>
                  let refr := refr.mul mat.diffuseColor
                  let glass := (refl.smul kr).add (refr.smul (1 - kr))
                  some (((direct.smul (1 - tr)).add (glass.smul tr)).clamp 0 1)
              | none =>
                let kr := 1
                let glass := (refl.smul kr).add ((Vec3.splat 0).smul (1 - kr))
                some (((direct.smul (1 - tr)).add (glass.smul tr)).clamp 0 1)
          else some (direct.clamp 0 1)

end Renderer

/-! ## An executable instance over the rationals -/

/-- Newton iteration for the integer square root, at most `fuel` steps from the guess `x`. -/
def natSqrtLoop : Nat → Nat → Nat → Nat
  | 0, _, x => x
  | fuel + 1, n, x =>
    let y := (x + n / x) / 2
    if y < x then natSqrtLoop fuel n y else x

/-- Integer square root by Newton iteration from the guess `n` (at most 256 steps). -/
def natSqrt (n : Nat) : Nat := if n = 0 then 0 else natSqrtLoop 256 n n

/-- Square root on `ℚ`, taken separately on numerator and denominator of the reduced
fraction: exact on the squares of rationals met in the concrete inputs below (`natSqrt` rounds
down elsewhere; a negative argument gives `0`). -/
def ratSqrt (q : ℚ) : ℚ := (natSqrt q.num.toNat : ℚ) / (natSqrt q.den : ℚ)

/-- Executable `MathFns ℚ`: `sqrt` is `ratSqrt`; `pow x y` is exact for natural `y`
(`x ^ ⌊y⌋`); `tan` is only exact at `0`. -/
def ratMath : MathFns ℚ where
  sqrt := ratSqrt
  pow x y := x ^ (Int.toNat (Int.floor y))
  tan _ := 0

/-! ## Predicates and concrete inputs used in the statements -/

/-- Every channel of the colour lies in `[0, 1]`. -/
def Vec3.InUnit {F : Type} [LinearOrderedField F] (c : Vec3 F) : Prop :=
  (0 ≤ c.x ∧ c.x ≤ 1) ∧ (0 ≤ c.y ∧ c.y ≤ 1) ∧ (0 ≤ c.z ∧ c.z ≤ 1)

/-- White material that is at once a mirror (`reflectivity = 1/2`) and glass
(`transparency = 1`, `refractiveIndex = 3/2`). -/
def glassMirrorMat : Material ℚ :=
  { diffuseColor := ⟨1, 1, 1⟩, specularColor := ⟨1, 1, 1⟩, shininess := 32,
    reflectivity := 1 / 2, isMirror := true,
    transparency := 1, isTransparent := true, refractiveIndex := 3 / 2 }

/-- Unit sphere at the origin made of `glassMirrorMat`. -/
def glassMirrorSphere : RTSphere ℚ :=
  { center := ⟨0, 0, 0⟩, radius := 1, material := glassMirrorMat, isLight := false,
    isHidden := false }

/-- Scene colours: black ambient light, white background, camera at `(0, 0, 5)`. -/
def whiteBackdrop : Scene ℚ :=
  { ambientLight := ⟨0, 0, 0⟩, backgroundColor := ⟨1, 1, 1⟩, cameraPosition := ⟨0, 0, 5⟩ }

/-- Matte white material (neither mirror nor glass). -/
def matteMat : Material ℚ :=
  { diffuseColor := ⟨1, 1, 1⟩, specularColor := ⟨1, 1, 1⟩, shininess := 32,
    reflectivity := 0, isMirror := false,
    transparency := 0, isTransparent := false, refractiveIndex := 1 }

/-- Unit sphere at the origin made of `matteMat`. -/
def matteSphere : RTSphere ℚ :=
  { center := ⟨0, 0, 0⟩, radius := 1, material := matteMat, isLight := false,
    isHidden := false }

/-- A white light of intensity 100 at the camera position `(0, 0, 5)`. -/
def brightLight : Light ℚ := { position := ⟨0, 0, 5⟩, color := ⟨1, 1, 1⟩, intensity := 100 }

/-- The hit of the ray from `(0, 0, 5)` along `(0, 0, -1)` on the unit sphere at the origin,
for a sphere of material `mat`. -/
def frontHit (mat : Material ℚ) : HitInfo ℚ :=
  { t := 4, p := ⟨0, 0, 1⟩, nGeom := ⟨0, 0, 1⟩, nShade := ⟨0, 0, 1⟩, frontFace := true,
    hit := true, hitLight := false, material := mat }

/-- White mirror material of reflectivity `1/2` (not transparent). -/
def mirrorMat : Material ℚ :=
  { diffuseColor := ⟨1, 1, 1⟩, specularColor := ⟨1, 1, 1⟩, shininess := 32,
    reflectivity := 1 / 2, isMirror := true,
    transparency := 0, isTransparent := false, refractiveIndex := 1 }

/-- Unit sphere at the origin made of `mirrorMat`. -/
def mirrorSphere : RTSphere ℚ :=
  { center := ⟨0, 0, 0⟩, radius := 1, material := mirrorMat, isLight := false,
    isHidden := false }

/-- White glass material: not a mirror, `transparency = 1`, `refractiveIndex = 3/2`. -/
def glassMat : Material ℚ :=
  { diffuseColor := ⟨1, 1, 1⟩, specularColor := ⟨1, 1, 1⟩, shininess := 32,
    reflectivity := 0, isMirror := false,
    transparency := 1, isTransparent := true, refractiveIndex := 3 / 2 }

/-- Unit sphere at the origin made of `glassMat`. -/
def glassSphere : RTSphere ℚ :=
  { center := ⟨0, 0, 0⟩, radius := 1, material := glassMat, isLight := false,
    isHidden := false }

/-- Origin inside the unit sphere of a ray that meets the sphere from inside at `(1, 0, 0)`. -/
def insideOrigin : Vec3 ℚ := ⟨2 / 5, -4 / 5, 0⟩

/-- Unit direction of the ray from `insideOrigin` (angle of incidence with sine `4/5`). -/
def grazingDir : Vec3 ℚ := ⟨3 / 5, 4 / 5, 0⟩

/-- The back-face hit of the ray from `insideOrigin` along `grazingDir` on `glassSphere`. -/
def grazingHit : HitInfo ℚ :=
  { t := 1, p := ⟨1, 0, 0⟩, nGeom := ⟨-1, 0, 0⟩, nShade := ⟨-1, 0, 0⟩, frontFace := false,
    hit := true, hitLight := false, material := glassMat }

/-- The pair `(n1, n2)` as the specification words it: `(1.0, ior)` at a front-face hit and
`(ior, 1.0)` at a back-face hit, whatever medium the ray travels in. -/
def specIndices {F : Type} [LinearOrderedField F] (hit : HitInfo F) : F × F :=
  if hit.frontFace then (1, glassIor hit.material) else (glassIor hit.material, 1)

/-- The colour the specification words for a transparent hit:
`clamp01(direct * (1 - tr) + glass * tr)` with
`glass = kr * refl + (1 - kr) * (diffuseColor ⊙ refr)`. -/
def specGlassBlend {F : Type} [LinearOrderedField F] (direct refl refr diffuseColor : Vec3 F)
    (kr tr : F) : Vec3 F :=
  ((direct.smul (1 - tr)).add
    (((refl.smul kr).add ((diffuseColor.mul refr).smul (1 - kr))).smul tr)).clamp 0 1

/-- Whether `shadeDirect` adds anything for the light `Ls`: the light is farther than `1e-6`
from the hit point, `inShadow` does not report it occluded, and `N·L > 0`. -/
def lightContributes {F : Type} [LinearOrderedField F] (m : MathFns F) (hit : HitInfo F)
    (meshes : List (RTMesh F)) (spheres : List (RTSphere F)) (N : Vec3 F) (Ls : Light F) : Bool :=
  decide (¬ length m (Ls.position.sub hit.p) ≤ 1 / 1000000) &&
  (!inShadow m hit.p hit.nGeom ((Ls.position.sub hit.p).sdiv (length m (Ls.position.sub hit.p)))
      (length m (Ls.position.sub hit.p)) meshes spheres) &&
  decide (0 < dot N ((Ls.position.sub hit.p).sdiv (length m (Ls.position.sub hit.p))))

/-- The Phong term of a contributing light:
`atten * intensity * lightColor ⊙ (N·L * diffuseColor + s * specularColor)` with
`s = max(normalize(R)·V, 0) ^ shininess` when `shininess > 1` and `s = 0` otherwise. -/
def phongTerm {F : Type} [LinearOrderedField F] (m : MathFns F) (hit : HitInfo F)
    (N V : Vec3 F) (Ls : Light F) : Vec3 F :=
  ((Ls.color.smul Ls.intensity).smul
      (1 / (1 + (1 / 10) * length m (Ls.position.sub hit.p)
        + (1 / 100) * length m (Ls.position.sub hit.p) * length m (Ls.position.sub hit.p)))).mul
    ((hit.material.diffuseColor.smul
        (dot N ((Ls.position.sub hit.p).sdiv (length m (Ls.position.sub hit.p))))).add
      (hit.material.specularColor.smul
        (if hit.material.shininess > 1 then
          m.pow (max (dot V (normalize m (reflectVec
            ((Ls.position.sub hit.p).sdiv (length m (Ls.position.sub hit.p))).neg N))) 0)
            hit.material.shininess
         else 0)))

/-- What the sphere loop of `intersectScene` obtains from the sphere `s`: nothing when the
sphere is skipped (hidden, on a primary ray) or `intersectSphere` reports no hit, otherwise the
hit record stamped with the sphere's `isLight` flag. -/
def sphereCandidate {F : Type} [LinearOrderedField F] (m : MathFns F) (origin dirUnit : Vec3 F)
    (skipHiddenForPrimary : Bool) (s : RTSphere F) : Option (HitInfo F) :=
  if skipHiddenForPrimary && s.isHidden then none
  else (intersectSphere m origin dirUnit s).map (fun h => { h with hitLight := s.isLight })

/-- What the mesh loop of `intersectScene` obtains from the mesh `rt`. -/
def meshCandidate {F : Type} [LinearOrderedField F] (m : MathFns F) (origin dirUnit : Vec3 F)
    (skipHiddenForPrimary : Bool) (rt : RTMesh F) : Option (HitInfo F) :=
  if skipHiddenForPrimary && rt.isHidden then none
  else (intersectMesh m origin dirUnit rt).map (fun h => { h with hitLight := rt.isLight })

/-- The intersections reported by the tested primitives, in the order `intersectScene` tests
them: spheres in list order, then meshes in list order. -/
def sceneCandidates {F : Type} [LinearOrderedField F] (m : MathFns F) (origin dirUnit : Vec3 F)
    (meshes : List (RTMesh F)) (spheres : List (RTSphere F)) (skipHiddenForPrimary : Bool) :
    List (HitInfo F) :=
  spheres.filterMap (sphereCandidate m origin dirUnit skipHiddenForPrimary)
    ++ meshes.filterMap (meshCandidate m origin dirUnit skipHiddenForPrimary)

/-- The acceptance step of `intersectScene` on a reported intersection `h`. -/
def pickStep {F : Type} [LinearOrderedField F] (st : SceneState F) (h : HitInfo F) :
    SceneState F :=
  if h.t > EPS ∧ h.t < st.nearest then { nearest := h.t, out := some h } else st

/-- State of the scan after the reported intersections `l`: either nothing was accepted and
no element of `l` lies in `(EPS, FLT_MAX)`, or the accepted record is the first element of `l`
with the least `t` among those with `t > EPS`. -/
def ScanInv {F : Type} [LinearOrderedField F] (l : List (HitInfo F)) (st : SceneState F) : Prop :=
  (st.out = none ∧ st.nearest = FLT_MAX ∧ ∀ h ∈ l, ¬ (EPS < h.t ∧ h.t < FLT_MAX)) ∨
  (∃ h pre post, st.out = some h ∧ st.nearest = h.t ∧ l = pre ++ h :: post ∧
    EPS < h.t ∧ h.t < FLT_MAX ∧ (∀ x ∈ pre, EPS < x.t → h.t < x.t) ∧
    (∀ x ∈ post, EPS < x.t → h.t ≤ x.t))

/-- Unit sphere centred at `(0, 0, -3)`, behind the sphere at the origin for a ray that comes
from `(0, 0, 5)`. -/
def farSphere : RTSphere ℚ :=
  { center := ⟨0, 0, -3⟩, radius := 1, material := mirrorMat, isLight := false,
    isHidden := false }

/-- Sphere centred at the origin whose radius is the largest finite `float`. -/
def hugeSphere : RTSphere ℚ :=
  { center := ⟨0, 0, 0⟩, radius := FLT_MAX, material := matteMat, isLight := false,
    isHidden := false }

/-- Unit sphere at the origin flagged `isLight`. -/
def lampSphere : RTSphere ℚ :=
  { center := ⟨0, 0, 0⟩, radius := 1, material := matteMat, isLight := true,
    isHidden := false }

/-- Unit sphere at the origin flagged `isHidden`. -/
def hiddenSphere : RTSphere ℚ :=
  { center := ⟨0, 0, 0⟩, radius := 1, material := matteMat, isLight := false,
    isHidden := true }

/-- Origin of the shadow ray as the specification words it: `p + s * EPS * normalize(Ng)` with
`s = +1` if `L·Ng > 0` and `s = -1` otherwise. -/
def specShadowOrigin {F : Type} [LinearOrderedField F] (m : MathFns F) (p Ng lightDir : Vec3 F) :
    Vec3 F :=
  p.add ((normalize m Ng).smul ((if dot lightDir Ng > 0 then 1 else -1) * EPS))

/-- Opaque white material whose `transparency` is `7/10` while `isTransparent` is off, as
the editor leaves it when transparency is enabled and then disabled. -/
def frostedMat : Material ℚ :=
  { diffuseColor := ⟨1, 1, 1⟩, specularColor := ⟨1, 1, 1⟩, shininess := 32,
    reflectivity := 0, isMirror := false,
    transparency := 7 / 10, isTransparent := false, refractiveIndex := 1 }

/-- Sphere of radius `1/2` centred at `(0, 0, 3)`, of material `mat`. -/
def blocker (mat : Material ℚ) : RTSphere ℚ :=
  { center := ⟨0, 0, 3⟩, radius := 1 / 2, material := mat, isLight := false,
    isHidden := false }

/-- Identity matrix `glm::mat4(1.0f)`. -/
def Mat4.identity {F : Type} [LinearOrderedField F] : Mat4 F :=
  ⟨⟨1, 0, 0, 0⟩, ⟨0, 1, 0, 0⟩, ⟨0, 0, 1, 0⟩, ⟨0, 0, 0, 1⟩⟩

/-- Identity matrix `glm::mat3(1.0f)`. -/
def Mat3.identity {F : Type} [LinearOrderedField F] : Mat3 F :=
  ⟨⟨1, 0, 0⟩, ⟨0, 1, 0⟩, ⟨0, 0, 1⟩⟩

/-- A mesh of one triangle in the plane `z = 3` that the `z` axis crosses, of material `mat`,
named `name`. -/
def panelMesh (name : String) (mat : Material ℚ) : Mesh ℚ :=
  { name := name,
    faces := [⟨[⟨⟨-1, -1, 3⟩, ⟨0, 0, 1⟩⟩, ⟨⟨1, -1, 3⟩, ⟨0, 0, 1⟩⟩, ⟨⟨0, 1, 3⟩, ⟨0, 0, 1⟩⟩]⟩],
    position := ⟨0, 0, 0⟩, rotation := ⟨0, 0, 0⟩, scale := ⟨1, 1, 1⟩, material := mat }

/-- The flattened `panelMesh` (identity transform) with the given `isLight` flag. -/
def panel (name : String) (mat : Material ℚ) (isLight : Bool) : RTMesh ℚ :=
  { mesh := panelMesh name mat, model := Mat4.identity, invModel := Mat4.identity,
    normalMat := Mat3.identity, isLight := isLight, isHidden := false }

/-! ## Setting up the camera and flattening the scene -/

/-- Library functions called while the camera is set up and the scene is flattened, supplied
from outside: `glm::inverse` on `mat4` and on `mat3`, `glm::radians`, `std::cos`,
`std::sin`. -/
structure SetupFns (F : Type) where
  inverse4 : Mat4 F → Mat4 F
  inverse3 : Mat3 F → Mat3 F
  radians : F → F
  cos : F → F
  sin : F → F

/-- Product `A * B` of two `glm::mat4`: column `j` is `A * B[j]`. -/
def Mat4.mul {F : Type} [LinearOrderedField F] (A B : Mat4 F) : Mat4 F :=
  ⟨A.mulVec B.c0, A.mulVec B.c1, A.mulVec B.c2, A.mulVec B.c3⟩

/-- Conversion `glm::mat3(M)` of a `glm::mat4`: the upper-left 3x3 block. -/
def Mat4.linear {F : Type} [LinearOrderedField F] (M : Mat4 F) : Mat3 F :=
  ⟨M.c0.xyz, M.c1.xyz, M.c2.xyz⟩

/-- Transpose `glm::transpose` of a `glm::mat3`. -/
def Mat3.transpose {F : Type} [LinearOrderedField F] (M : Mat3 F) : Mat3 F :=
  ⟨⟨M.c0.x, M.c1.x, M.c2.x⟩, ⟨M.c0.y, M.c1.y, M.c2.y⟩, ⟨M.c0.z, M.c1.z, M.c2.z⟩⟩

/-- Source `AffineTransform::translation`. -/
def translation {F : Type} [LinearOrderedField F] (t : Vec3 F) : Mat4 F :=
  ⟨⟨1, 0, 0, 0⟩, ⟨0, 1, 0, 0⟩, ⟨0, 0, 1, 0⟩, ⟨t.x, t.y, t.z, 1⟩⟩

/-- Source `AffineTransform::scaling`. -/
def scaling {F : Type} [LinearOrderedField F] (s : Vec3 F) : Mat4 F :=
  ⟨⟨s.x, 0, 0, 0⟩, ⟨0, s.y, 0, 0⟩, ⟨0, 0, s.z, 0⟩, ⟨0, 0, 0, 1⟩⟩

/-- Source `AffineTransform::rotationX`. -/
def rotationX {F : Type} [LinearOrderedField F] (g : SetupFns F) (angle : F) : Mat4 F :=
  let c := g.cos angle
  let s := g.sin angle
  ⟨⟨1, 0, 0, 0⟩, ⟨0, c, s, 0⟩, ⟨0, -s, c, 0⟩, ⟨0, 0, 0, 1⟩⟩

/-- Source `AffineTransform::rotationY`. -/
def rotationY {F : Type} [LinearOrderedField F] (g : SetupFns F) (angle : F) : Mat4 F :=
  let c := g.cos angle
  let s := g.sin angle
  ⟨⟨c, 0, -s, 0⟩, ⟨0, 1, 0, 0⟩, ⟨s, 0, c, 0⟩, ⟨0, 0, 0, 1⟩⟩

/-- Source `AffineTransform::rotationZ`. -/
def rotationZ {F : Type} [LinearOrderedField F] (g : SetupFns F) (angle : F) : Mat4 F :=
  let c := g.cos angle
  let s := g.sin angle
  ⟨⟨c, s, 0, 0⟩, ⟨-s, c, 0, 0⟩, ⟨0, 0, 1, 0⟩, ⟨0, 0, 0, 1⟩⟩

/-- Source `Mesh::getTransformMatrix`:
`translation * rotationX * rotationY * rotationZ * scaling`. -/
def getTransformMatrix {F : Type} [LinearOrderedField F] (g : SetupFns F) (msh : Mesh F) :
    Mat4 F :=
  ((((translation msh.position).mul (rotationX g msh.rotation.x)).mul
    (rotationY g msh.rotation.y)).mul (rotationZ g msh.rotation.z)).mul (scaling msh.scale)

/-- Test `name.find(pat) != std::string::npos`: `pat` occurs in `name`. -/
def nameContains (name pat : String) : Bool := decide (pat.toList <:+: name.toList)

/-- The sphere that `buildRTObjects` pushes for a mesh whose name contains `"Sphere"`
(lines `RTSphere s;` to `outSpheres.push_back(s)`). -/
def flattenSphere {F : Type} [LinearOrderedField F] (msh : Mesh F) : RTSphere F :=
  let r := max (max |msh.scale.x| |msh.scale.y|) |msh.scale.z|
  { center := msh.position, radius := max (1 / 10000) r, material := msh.material,
    isLight := false, isHidden := false }

/-- The flattened mesh that `buildRTObjects` pushes for any other mesh (lines `RTMesh r;` to
`outMeshes.push_back(r)`). -/
def flattenMesh {F : Type} [LinearOrderedField F] (g : SetupFns F) (msh : Mesh F) : RTMesh F :=
  let model := getTransformMatrix g msh
  { mesh := msh, model := model, invModel := g.inverse4 model,
    normalMat := (g.inverse3 model.linear).transpose,
    isLight := nameContains msh.name "LightCapsule" || nameContains msh.name "Light_",
    isHidden := decide (msh.name = "Wall_FrontWall") }

/-- One iteration of the loop of `buildRTObjects` on the mesh `msh`: `acc` holds `outMeshes`
and `outSpheres`. -/
def buildStep {F : Type} [LinearOrderedField F] (g : SetupFns F)
    (acc : List (RTMesh F) × List (RTSphere F)) (msh : Mesh F) :
    List (RTMesh F) × List (RTSphere F) :=
  let isSphere := nameContains msh.name "Sphere"
  if isSphere then (acc.1, acc.2 ++ [flattenSphere msh])
  else (acc.1 ++ [flattenMesh g msh], acc.2)

/-- A node of the scene graph (`SceneNode.h`): its name, the mesh and the light it may own and
its children; `transform` and `parent` are not read by the renderer. -/
inductive SceneNode (F : Type) where
  | mk (name : String) (mesh : Option (Mesh F)) (light : Option (Light F))
      (children : List (SceneNode F)) : SceneNode F

/-- The light owned by a node, if any. -/
def SceneNode.light {F : Type} : SceneNode F → Option (Light F)
  | .mk _ _ light _ => light

mutual
/-- Source `Scene::collectMeshes`: the node's own mesh, then the meshes of its children, in
order. -/
def collectMeshes {F : Type} : SceneNode F → List (Mesh F)
  | .mk _ mesh _ children => mesh.toList ++ collectMeshesList children
/-- The loop of `collectMeshes` over the children of a node. -/
def collectMeshesList {F : Type} : List (SceneNode F) → List (Mesh F)
  | [] => []
  | child :: rest => collectMeshes child ++ collectMeshesList rest
end

/-- Class `Camera` of `Camera.h`: `fov` is in degrees; `nearPlane`, `farPlane` and
`projectionType` are not read by the ray tracer. -/
structure Camera (F : Type) where
  position : Vec3 F
  target : Vec3 F
  up : Vec3 F
  fov : F
  aspectRatio : F

/-- Source `Camera::getViewMatrix`. -/
def getViewMatrix {F : Type} [LinearOrderedField F] (m : MathFns F) (cam : Camera F) : Mat4 F :=
  let zaxis := normalize m (cam.position.sub cam.target)
  let xaxis := normalize m (cross cam.up zaxis)
  let yaxis := cross zaxis xaxis
  ⟨⟨xaxis.x, yaxis.x, zaxis.x, 0⟩, ⟨xaxis.y, yaxis.y, zaxis.y, 0⟩, ⟨xaxis.z, yaxis.z, zaxis.z, 0⟩,
   ⟨-(dot xaxis cam.position), -(dot yaxis cam.position), -(dot zaxis cam.position), 1⟩⟩

/-- Class `Scene` of `Scene.h` in full: the graph, the camera (a pointer that may be null),
the light nodes (pointers that may be null) and the two colours. -/
structure SceneGraph (F : Type) where
  root : SceneNode F
  camera : Option (Camera F)
  lights : List (Option (SceneNode F))
  ambientLight : Vec3 F
  backgroundColor : Vec3 F

/-- Source `Scene::getAllMeshes`. -/
def SceneGraph.getAllMeshes {F : Type} (scene : SceneGraph F) : List (Mesh F) :=
  collectMeshes scene.root

/-- Source `Scene::getLights`. -/
def SceneGraph.getLights {F : Type} (scene : SceneGraph F) : List (Light F) :=
  scene.lights.filterMap (fun lightNode => lightNode.bind SceneNode.light)

/-- What `traceRay` reads of the scene once the camera is known. -/
def SceneGraph.toScene {F : Type} (scene : SceneGraph F) (cam : Camera F) : Scene F :=
  { ambientLight := scene.ambientLight, backgroundColor := scene.backgroundColor,
    cameraPosition := cam.position }

/-- Source `buildRTObjects`: the pair `(outMeshes, outSpheres)`. -/
def buildRTObjects {F : Type} [LinearOrderedField F] (g : SetupFns F) (scene : SceneGraph F) :
    List (RTMesh F) × List (RTSphere F) :=
  scene.getAllMeshes.foldl (buildStep g) ([], [])

/-- The lambda `toByte` of `toSFMLColor`: the cast to `std::uint8_t` truncates the
non-negative value `v * 255 + 0.5` and keeps 8 bits. -/
def toByte {F : Type} [LinearOrderedField F] [FloorRing F] (v : F) : Nat :=
  let v := clampS v 0 1
  (Int.toNat ⌊v * 255 + 1 / 2⌋) % 256

/-- One channel of `toSFMLColor`: clamp, gamma-encode with exponent `1 / 2.2`, `toByte`. -/
def toSFMLChannel {F : Type} [LinearOrderedField F] [FloorRing F] (m : MathFns F) (c : F) :
    Nat :=
  toByte (m.pow (min (max c 0) 1) (1 / (22 / 10)))

/-- Source `toSFMLColor`: the three channels `(r, g, b)` of the `sf::Color`. -/
def toSFMLColor {F : Type} [LinearOrderedField F] [FloorRing F] (m : MathFns F)
    (colorLinear01 : Vec3 F) : Nat × Nat × Nat :=
  (toSFMLChannel m colorLinear01.x, toSFMLChannel m colorLinear01.y,
   toSFMLChannel m colorLinear01.z)

/-- The ray of pixel `(x, y)`, as the body of the loops of `renderToImage` computes it from
`aspect`, `scale`, `invView` and the camera position: origin and direction. -/
def primaryRay {F : Type} [LinearOrderedField F] (m : MathFns F) (cameraPosition : Vec3 F)
    (invView : Mat4 F) (aspect scale : F) (width height x y : Nat) : Vec3 F × Vec3 F :=
  let ndcX := 2 * ((x : F) + 1 / 2) / (width : F) - 1
  let ndcY := 1 - 2 * ((y : F) + 1 / 2) / (height : F)
  let ndcX := ndcX * (aspect * scale)
  let ndcY := ndcY * scale
  let rayDirCam := normalize m ⟨ndcX, ndcY, -1⟩
  let rayDirWorld := normalize m (invView.mulVec (rayDirCam.withW 0)).xyz
  let rayOrigin := cameraPosition
  (rayOrigin, rayDirWorld)

/-- Source `renderToImage` on an image of size `width x height`: the calls of
`image.setPixel` in order, each with its pixel `(x, y)` and the colour written (`none` if
`traceRay` did not return within `MAX_DEPTH + 1` nested activations). -/
def renderToImage {F : Type} [LinearOrderedField F] [FloorRing F] (m : MathFns F)
    (g : SetupFns F) (width height : Nat) (scene : SceneGraph F) :
    List ((Nat × Nat) × Option (Nat × Nat × Nat)) :=
  match scene.camera with
  | none => []
  | some camera =>
    if width = 0 ∨ height = 0 then []
    else
      let built := buildRTObjects g scene
      let meshes := built.1
      let spheres := built.2
      let lights := scene.getLights
      let fov := g.radians camera.fov
      let aspect := (width : F) / (height : F)
      let scale := m.tan (fov * (1 / 2))
      let invView := g.inverse4 (getViewMatrix m camera)
      (List.range height).flatMap (fun y =>
        (List.range width).map (fun x =>
          let ray := primaryRay m camera.position invView aspect scale width height x y
          let color := traceRay m (MAX_DEPTH.toNat + 1) ray.1 ray.2 meshes spheres lights
            (scene.toScene camera) 0 1
          ((x, y), color.map (toSFMLColor m))))

/-! ## Executable instances of the set-up functions -/

/-- Component `i` of a `glm::vec4`. -/
def Vec4.get {F : Type} (v : Vec4 F) : Fin 4 → F
  | 0 => v.x
  | 1 => v.y
  | 2 => v.z
  | 3 => v.w

/-- Entry in row `r` and column `c` of a `glm::mat4`. -/
def Mat4.entry {F : Type} (M : Mat4 F) (r c : Fin 4) : F :=
  match c with
  | 0 => M.c0.get r
  | 1 => M.c1.get r
  | 2 => M.c2.get r
  | 3 => M.c3.get r

/-- The three indices other than `i`, in increasing order. -/
def otherIndices : Fin 4 → Fin 4 × Fin 4 × Fin 4
  | 0 => (1, 2, 3)
  | 1 => (0, 2, 3)
  | 2 => (0, 1, 3)
  | 3 => (0, 1, 2)

/-- Determinant of the 3x3 matrix left when row `r` and column `c` are removed. -/
def Mat4.minor {F : Type} [LinearOrderedField F] (M : Mat4 F) (r c : Fin 4) : F :=
  let rs := otherIndices r
  let cs := otherIndices c
  dot ⟨M.entry rs.1 cs.1, M.entry rs.2.1 cs.1, M.entry rs.2.2 cs.1⟩
    (cross ⟨M.entry rs.1 cs.2.1, M.entry rs.2.1 cs.2.1, M.entry rs.2.2 cs.2.1⟩
      ⟨M.entry rs.1 cs.2.2, M.entry rs.2.1 cs.2.2, M.entry rs.2.2 cs.2.2⟩)

/-- Cofactor of the entry in row `r` and column `c`. -/
def Mat4.cofactor {F : Type} [LinearOrderedField F] (M : Mat4 F) (r c : Fin 4) : F :=
  (if (r.val + c.val) % 2 = 0 then 1 else -1) * M.minor r c

/-- Determinant of a `glm::mat4`, expanded along the first row. -/
def Mat4.det {F : Type} [LinearOrderedField F] (M : Mat4 F) : F :=
  M.entry 0 0 * M.cofactor 0 0 + M.entry 0 1 * M.cofactor 0 1 + M.entry 0 2 * M.cofactor 0 2
    + M.entry 0 3 * M.cofactor 0 3

/-- Inverse of a `glm::mat4` by cofactors: the transposed cofactor matrix divided by the
determinant (the zero matrix when the determinant is zero). -/
def Mat4.cofactorInverse {F : Type} [LinearOrderedField F] (M : Mat4 F) : Mat4 F :=
  let col := fun (c : Fin 4) =>
    (⟨M.cofactor c 0 / M.det, M.cofactor c 1 / M.det, M.cofactor c 2 / M.det,
      M.cofactor c 3 / M.det⟩ : Vec4 F)
  ⟨col 0, col 1, col 2, col 3⟩

/-- Inverse of a `glm::mat3` by cofactors (the zero matrix when the determinant is zero). -/
def Mat3.cofactorInverse {F : Type} [LinearOrderedField F] (M : Mat3 F) : Mat3 F :=
  let d := dot M.c0 (cross M.c1 M.c2)
  let r0 := (cross M.c1 M.c2).sdiv d
  let r1 := (cross M.c2 M.c0).sdiv d
  let r2 := (cross M.c0 M.c1).sdiv d
  ⟨⟨r0.x, r1.x, r2.x⟩, ⟨r0.y, r1.y, r2.y⟩, ⟨r0.z, r1.z, r2.z⟩⟩

/-- The constant of `glm::radians`, `π / 180` to 32 digits. -/
def radiansPerDegree : ℚ := 1745329251994329576923690768489 / 10 ^ 32

/-- Executable `SetupFns ℚ`: inverses by cofactors, `radians` the multiplication by
`radiansPerDegree`, `cos` and `sin` tabulated at `0` only. -/
def ratSetup : SetupFns ℚ where
  inverse4 := Mat4.cofactorInverse
  inverse3 := Mat3.cofactorInverse
  radians d := d * radiansPerDegree
  cos a := if a = 0 then 1 else 0
  sin _ := 0

/-- The functions of `ratMath` with the tangent tabulated at `glm::radians(90) / 2`, where it
is `1` (and `0` elsewhere). -/
def ratMathTan : MathFns ℚ where
  sqrt := ratSqrt
  pow := ratMath.pow
  tan a := if a = 90 * radiansPerDegree * (1 / 2) then 1 else 0

/-- The square root is exact at `x`: `sqrt(x) >= 0` and `sqrt(x)^2 = x`. -/
def ExactSqrtAt {F : Type} [LinearOrderedField F] (m : MathFns F) (x : F) : Prop :=
  0 ≤ m.sqrt x ∧ m.sqrt x * m.sqrt x = x

/-- The default camera of `Camera.h` (at `(0, 0, 5)`, looking at the origin, aspect ratio
`16/9`) with the field of view set to 90 degrees. -/
def wideCamera : Camera ℚ :=
  { position := ⟨0, 0, 5⟩, target := ⟨0, 0, 0⟩, up := ⟨0, 1, 0⟩, fov := 90,
    aspectRatio := 16 / 9 }

/-- A camera straight above its target: `up` is parallel to `position - target`. -/
def zenithCamera : Camera ℚ :=
  { position := ⟨0, 5, 0⟩, target := ⟨0, 0, 0⟩, up := ⟨0, 1, 0⟩, fov := 90,
    aspectRatio := 16 / 9 }

/-- The camera-space vector of pixel `(x, y)` as the specification words it:
`((2(x+0.5)/W - 1) * aspect * tanHalf, (1 - 2(y+0.5)/H) * tanHalf, -1)`. -/
def specCameraVector {F : Type} [LinearOrderedField F] (aspect tanHalf : F)
    (width height x y : Nat) : Vec3 F :=
  ⟨(2 * ((x : F) + 1 / 2) / (width : F) - 1) * aspect * tanHalf,
   (1 - 2 * ((y : F) + 1 / 2) / (height : F)) * tanHalf, -1⟩

/-- The functions of `ratMathTan` with a power that is exact at the bases `0` and `1`. -/
def ratMathImage : MathFns ℚ where
  sqrt := ratSqrt
  pow x y := if x = 1 then 1 else if x = 0 ∧ 0 < y then 0 else ratMath.pow x y
  tan := ratMathTan.tan

/-- A sphere mesh node: named `"Sphere"`, at `(2, 1, 3)`, scale `1/8`, matte white. -/
def ballNode : SceneNode ℚ :=
  .mk "Ball" (some { name := "Sphere", faces := [], position := ⟨2, 1, 3⟩,
                     rotation := ⟨0, 0, 0⟩, scale := ⟨1 / 8, 1 / 8, 1 / 8⟩,
                     material := matteMat }) none []

/-- Scene with `ballNode` only, seen by `wideCamera`: white ambient light, black background,
no lights. -/
def ballScene : SceneGraph ℚ :=
  { root := .mk "Root" none none [ballNode], camera := some wideCamera, lights := [],
    ambientLight := ⟨1, 1, 1⟩, backgroundColor := ⟨0, 0, 0⟩ }

/-- The world-space vector that `renderToImage` normalises into the direction of the primary
ray of pixel `(x, y)`: the image of `rayDirCam` under the inverse view matrix. -/
def primaryWorldVector {F : Type} [LinearOrderedField F] (m : MathFns F) (invView : Mat4 F)
    (aspect scale : F) (width height x y : Nat) : Vec3 F :=
  (invView.mulVec ((normalize m
    ⟨(2 * ((x : F) + 1 / 2) / (width : F) - 1) * (aspect * scale),
     (1 - 2 * ((y : F) + 1 / 2) / (height : F)) * scale, -1⟩).withW 0)).xyz

/-- A sphere mesh node whose scale has a zero and a negative component. -/
def oddBallNode : SceneNode ℚ :=
  .mk "OddBall" (some { name := "GlassSphere_2", faces := [], position := ⟨1, 2, 3⟩,
                        rotation := ⟨0, 0, 0⟩, scale := ⟨0, -3, 2⟩,
                        material := glassMat }) none []

/-- A sphere mesh node whose scale is zero, under a node that owns a wall mesh. -/
def pointBallScene : SceneGraph ℚ :=
  { root := .mk "Root" (some (panelMesh "Wall" matteMat)) none
      [oddBallNode,
       .mk "Dot" (some { name := "Sphere", faces := [], position := ⟨0, 0, 0⟩,
                         rotation := ⟨0, 0, 0⟩, scale := ⟨0, 0, 0⟩,
                         material := matteMat }) none []],
    camera := some wideCamera, lights := [],
    ambientLight := ⟨1, 1, 1⟩, backgroundColor := ⟨0, 0, 0⟩ }

/-- The mesh owned by a node, if any. -/
def SceneNode.mesh {F : Type} : SceneNode F → Option (Mesh F)
  | .mk _ mesh _ _ => mesh

mutual
/-- The nodes of the subtree of `node` in depth-first pre-order: the node itself, then the
subtrees of its children, in order. -/
def preorder {F : Type} : SceneNode F → List (SceneNode F)
  | .mk name mesh light children => .mk name mesh light children :: preorderList children
/-- The subtrees of a list of nodes in depth-first pre-order, one after the other. -/
def preorderList {F : Type} : List (SceneNode F) → List (SceneNode F)
  | [] => []
  | child :: rest => preorder child ++ preorderList rest
end

/-- A mesh named `"Light_Sphere"`: the name contains `"Light_"` and `"Sphere"`. -/
def lampBallMesh : Mesh ℚ :=
  { name := "Light_Sphere", faces := [], position := ⟨0, 4, 0⟩, rotation := ⟨0, 0, 0⟩,
    scale := ⟨1, 1, 1⟩, material := matteMat }

/-- Scene whose root owns the light capsule mesh and whose children own `lampBallMesh`, the
front wall and, one level down, a sphere. -/
def lampBallScene : SceneGraph ℚ :=
  { root := .mk "Root" (some (panelMesh "LightCapsule" matteMat)) none
      [.mk "Lamp" (some lampBallMesh) none [ballNode],
       .mk "Front" (some (panelMesh "Wall_FrontWall" matteMat)) none [],
       .mk "Empty" none none []],
    camera := some wideCamera, lights := [],
    ambientLight := ⟨1, 1, 1⟩, backgroundColor := ⟨0, 0, 0⟩ }

/-- Rotation about the x axis of the vector `v`, by the angle of cosine `c` and sine `s`. -/
def specRotX {F : Type} [LinearOrderedField F] (c s : F) (v : Vec3 F) : Vec3 F :=
  ⟨v.x, c * v.y - s * v.z, s * v.y + c * v.z⟩

/-- Rotation about the y axis of the vector `v`, by the angle of cosine `c` and sine `s`. -/
def specRotY {F : Type} [LinearOrderedField F] (c s : F) (v : Vec3 F) : Vec3 F :=
  ⟨c * v.x + s * v.z, v.y, c * v.z - s * v.x⟩

/-- Rotation about the z axis of the vector `v`, by the angle of cosine `c` and sine `s`. -/
def specRotZ {F : Type} [LinearOrderedField F] (c s : F) (v : Vec3 F) : Vec3 F :=
  ⟨c * v.x - s * v.y, s * v.x + c * v.y, v.z⟩

/-- The image of the local point `p` as the specification words it:
`position + Rx(Ry(Rz(scale ⊙ p)))`. -/
def specModelPoint {F : Type} [LinearOrderedField F] (g : SetupFns F) (msh : Mesh F)
    (p : Vec3 F) : Vec3 F :=
  msh.position.add
    (specRotX (g.cos msh.rotation.x) (g.sin msh.rotation.x)
      (specRotY (g.cos msh.rotation.y) (g.sin msh.rotation.y)
        (specRotZ (g.cos msh.rotation.z) (g.sin msh.rotation.z) (msh.scale.mul p))))

/-- A mesh of one triangle in its local plane `z = 0`, placed at `(0, 0, -3)` with the
anisotropic scale `(2, 1, 1/2)`. -/
def stretchedMesh : Mesh ℚ :=
  { name := "Cube_A",
    faces := [⟨[⟨⟨-1, -1, 0⟩, ⟨0, 0, 1⟩⟩, ⟨⟨1, -1, 0⟩, ⟨0, 0, 1⟩⟩, ⟨⟨0, 1, 0⟩, ⟨0, 0, 1⟩⟩]⟩],
    position := ⟨0, 0, -3⟩, rotation := ⟨0, 0, 0⟩, scale := ⟨2, 1, 1 / 2⟩,
    material := matteMat }

/-- Scene whose only mesh is `stretchedMesh`. -/
def stretchedScene : SceneGraph ℚ :=
  { root := .mk "Root" none none [.mk "Cube" (some stretchedMesh) none []],
    camera := some wideCamera, lights := [],
    ambientLight := ⟨1, 1, 1⟩, backgroundColor := ⟨0, 0, 0⟩ }

/-- The colours of a default `Scene` (`ambientLight = vec3(0.1)`, `backgroundColor =
vec3(0)`) with the camera at `(0, 0, 5)`. -/
def defaultScene {F : Type} [LinearOrderedField F] : Scene F :=
  { ambientLight := Vec3.splat (1 / 10), backgroundColor := Vec3.splat 0,
    cameraPosition := ⟨0, 0, 5⟩ }

/-- Sphere of radius 1 centred at the origin, of material `mat`. -/
def unitSphere {F : Type} [LinearOrderedField F] (mat : Material F) : RTSphere F :=
  { center := ⟨0, 0, 0⟩, radius := 1, material := mat, isLight := false, isHidden := false }

/-- White light of intensity 1 at `(0, 5, 0)`. -/
def topLight {F : Type} [LinearOrderedField F] : Light F :=
  { position := ⟨0, 5, 0⟩, color := ⟨1, 1, 1⟩, intensity := 1 }

/-- The parameter `t` solves the quadratic `|o + t d - c|² = r²` of the sphere `s`. -/
def OnSphereAt {F : Type} [LinearOrderedField F] (o d : Vec3 F) (s : RTSphere F) (t : F) :
    Prop :=
  dot ((o.add (d.smul t)).sub s.center) ((o.add (d.smul t)).sub s.center)
    = s.radius * s.radius

/-- The local `disc` of `intersectSphere`: `halfB * halfB - a * c`. -/
def sphereDisc {F : Type} [LinearOrderedField F] (o d : Vec3 F) (s : RTSphere F) : F :=
  dot (o.sub s.center) d * dot (o.sub s.center) d
    - dot d d * (dot (o.sub s.center) (o.sub s.center) - s.radius * s.radius)

/-- The first value of the local `t` of `intersectSphere`: `(-halfB - sqrtD) / a`. -/
def sphereNearRoot {F : Type} [LinearOrderedField F] (m : MathFns F) (o d : Vec3 F)
    (s : RTSphere F) : F :=
  (-(dot (o.sub s.center) d) - m.sqrt (sphereDisc o d s)) / dot d d

/-- The second value of the local `t` of `intersectSphere`: `(-halfB + sqrtD) / a`. -/
def sphereFarRoot {F : Type} [LinearOrderedField F] (m : MathFns F) (o d : Vec3 F)
    (s : RTSphere F) : F :=
  (-(dot (o.sub s.center) d) + m.sqrt (sphereDisc o d s)) / dot d d

/-- What one iteration of the inner loop of `intersectMesh` computes on the triangle `tri`
before it compares with `bestT`: nothing when `rayTri` fails or `tLocal <= EPS`, otherwise the
hit record the iteration would write (with `t = tWorld` and `p = worldP`). -/
def triangleHit {F : Type} [LinearOrderedField F] (m : MathFns F)
    (originWorld dirWorldUnit : Vec3 F) (rt : RTMesh F) (localO localD : Vec3 F)
    (tri : Vertex F × Vertex F × Vertex F) : Option (HitInfo F) :=
  let V0 := tri.1
  let V1 := tri.2.1
  let V2 := tri.2.2
  match rayTri localO localD V0.position V1.position V2.position with
  | none => none
  | some (tLocal, u, v) =>
    if tLocal ≤ EPS then none
    else
      let localP := localO.add (localD.smul tLocal)
      let worldP := (rt.model.mulVec (localP.withW 1)).xyz
      let tWorld := dot (worldP.sub originWorld) dirWorldUnit
      let localNg := normalize m (cross (V1.position.sub V0.position) (V2.position.sub V0.position))
      let Ng := normalize m (rt.normalMat.mulVec localNg)
      let w := 1 - u - v
      let localNs := normalize m (((V0.normal.smul w).add (V1.normal.smul u)).add (V2.normal.smul v))
      let Ns := normalize m (rt.normalMat.mulVec localNs)
      let front : Bool := decide (dot dirWorldUnit Ng < 0)
      some { t := tWorld, p := worldP,
             nGeom := if front then Ng else Ng.neg,
             nShade := if front then Ns else Ns.neg,
             frontFace := front, hit := true, hitLight := false,
             material := rt.mesh.material }

/-- The local ray origin of `intersectMesh`. -/
def meshLocalO {F : Type} [LinearOrderedField F] (originWorld : Vec3 F) (rt : RTMesh F) :
    Vec3 F :=
  (rt.invModel.mulVec (originWorld.withW 1)).xyz

/-- The local ray direction of `intersectMesh`. -/
def meshLocalD {F : Type} [LinearOrderedField F] (m : MathFns F) (dirWorldUnit : Vec3 F)
    (rt : RTMesh F) : Vec3 F :=
  normalize m (rt.invModel.mulVec (dirWorldUnit.withW 0)).xyz

/-- The triangles `intersectMesh` tests, in order: the fan of every face. -/
def meshTriangles {F : Type} [LinearOrderedField F] (rt : RTMesh F) :
    List (Vertex F × Vertex F × Vertex F) :=
  rt.mesh.faces.flatMap (fun face => fanTriangles face.vertices)

/-- The records of the triangles that pass `rayTri` and the test `tLocal > EPS`, in the order
`intersectMesh` meets them. -/
def triangleHits {F : Type} [LinearOrderedField F] (m : MathFns F)
    (originWorld dirWorldUnit : Vec3 F) (rt : RTMesh F) : List (HitInfo F) :=
  (meshTriangles rt).filterMap
    (triangleHit m originWorld dirWorldUnit rt (meshLocalO originWorld rt)
      (meshLocalD m dirWorldUnit rt))

/-- The loop state of `intersectMesh` read as a state of the scan `pickStep`. -/
def MeshState.toScan {F : Type} (st : MeshState F) : SceneState F :=
  { nearest := st.bestT, out := st.out }

/-- A mesh of one triangle in its local plane `z = 0`, at the origin, with scale `10` (the
upper end of the editor's scale range). -/
def bigMesh : Mesh ℚ :=
  { name := "Cube_B",
    faces := [⟨[⟨⟨-1, -1, 0⟩, ⟨0, 0, 1⟩⟩, ⟨⟨1, -1, 0⟩, ⟨0, 0, 1⟩⟩, ⟨⟨0, 1, 0⟩, ⟨0, 0, 1⟩⟩]⟩],
    position := ⟨0, 0, 0⟩, rotation := ⟨0, 0, 0⟩, scale := ⟨10, 10, 10⟩,
    material := matteMat }

/-- The hit of the ray from `(0, 0, 5)` along `(0, 0, -1)` on the flattened `stretchedMesh`. -/
def stretchedHit : HitInfo ℚ :=
  { t := 8, p := ⟨0, 0, -3⟩, nGeom := ⟨0, 0, 1⟩, nShade := ⟨0, 0, 1⟩, frontFace := true,
    hit := true, hitLight := false, material := matteMat }

/-! ## The OBJ loader -/

/-- A `Face` as `OBJLoader::loadFromFile` builds it: the vertices and the field `normal`,
which the loader sets and the ray tracer never reads. -/
structure LoadedFace (F : Type) where
  vertices : List (Vertex F)
  normal : Vec3 F
deriving DecidableEq, Repr

/-- One vertex token `v/vt/vn` of an `f` line after `std::stoi`: the 1-based indices, `vt`
and `vn` absent when their field is empty. -/
structure FaceToken where
  v : Int
  vt : Option Int
  vn : Option Int
deriving DecidableEq, Repr

/-- A line of an OBJ file as the loader dispatches on its first word: `v x y z`, `vn x y z`,
`vt u v`, `f` followed by its vertex tokens, or anything else. -/
inductive ObjLine (F : Type) where
  | v (p : Vec3 F) : ObjLine F
  | vn (n : Vec3 F) : ObjLine F
  | vt : ObjLine F
  | f (tokens : List FaceToken) : ObjLine F
  | other : ObjLine F

/-- The locals of `loadFromFile` that the claims read: `vertices`, `normals` and
`mesh.faces` (`texCoords` only feeds `Vertex::texCoord`). -/
structure LoaderState (F : Type) where
  vertices : List (Vec3 F)
  normals : List (Vec3 F)
  faces : List (LoadedFace F)

/-- Guarded table access `if (i >= 0 && i < table.size()) x = table[i]`, on a default
`glm::vec3(0.0f)`. -/
def lookupVec {F : Type} [LinearOrderedField F] (table : List (Vec3 F)) (i : Int) : Vec3 F :=
  if 0 ≤ i ∧ i < table.length then table.getD i.toNat ⟨0, 0, 0⟩ else ⟨0, 0, 0⟩

/-- The `Vertex` built from one token of an `f` line. -/
def tokenVertex {F : Type} [LinearOrderedField F] (vertices normals : List (Vec3 F))
    (tok : FaceToken) : Vertex F :=
  { position := lookupVec vertices (tok.v - 1),
    normal := match tok.vn with
      | some vn => lookupVec normals (vn - 1)
      | none => ⟨0, 0, 0⟩ }

/-- Source `Face::calculateNormal`, `normalize(cross(v1 - v0, v2 - v0))`: `none` stands for
an undefined normal.  In `float` arithmetic `glm::normalize` of the zero vector is
`0 * inversesqrt(0) = 0 * inf`, NaN in every component; over an exact field this is the one
way the result can be undefined.  With fewer than 3 vertices the routine returns without
setting the normal. -/
def calculateNormal {F : Type} [LinearOrderedField F] (m : MathFns F)
    (vertices : List (Vertex F)) : Option (Vec3 F) :=
  match vertices with
  | v0 :: v1 :: v2 :: _ =>
    let c := cross (v1.position.sub v0.position) (v2.position.sub v0.position)
    if dot c c = 0 then none else some (normalize m c)
  | _ => none

/-- The triangle pushed by one iteration of the fan loop of `loadFromFile`: the normal is
computed, and replaced by `(0, 1, 0)` when it is NaN. -/
def loaderTriangle {F : Type} [LinearOrderedField F] (m : MathFns F)
    (tri : Vertex F × Vertex F × Vertex F) : LoadedFace F :=
  let vertices := [tri.1, tri.2.1, tri.2.2]
  { vertices := vertices, normal := (calculateNormal m vertices).getD ⟨0, 1, 0⟩ }

/-- One iteration of the line loop of `loadFromFile`. -/
def loadStep {F : Type} [LinearOrderedField F] (m : MathFns F) (st : LoaderState F) :
    ObjLine F → LoaderState F
  | .v p => { st with vertices := st.vertices ++ [p] }
  | .vn n => { st with normals := st.normals ++ [n] }
  | .vt => st
  | .f tokens =>
    let faceVertices := tokens.map (tokenVertex st.vertices st.normals)
    if faceVertices.length ≥ 3 then
      { st with faces := st.faces ++ (fanTriangles faceVertices).map (loaderTriangle m) }
    else st
  | .other => st

/-- The loader state after the lines read so far. -/
def loadState {F : Type} [LinearOrderedField F] (m : MathFns F) (lines : List (ObjLine F)) :
    LoaderState F :=
  lines.foldl (loadStep m) ⟨[], [], []⟩

/-- Source `OBJLoader::loadFromFile` on a file that opens: the faces of the returned mesh. -/
def loadFromFile {F : Type} [LinearOrderedField F] (m : MathFns F) (lines : List (ObjLine F)) :
    List (LoadedFace F) :=
  (loadState m lines).faces

/-- A file with four vertices, a quad, a two-token face and a triangle with a repeated
vertex. -/
def quadFile : List (ObjLine ℚ) :=
  [.v ⟨0, 0, 0⟩, .v ⟨1, 0, 0⟩, .v ⟨1, 1, 0⟩, .v ⟨0, 1, 0⟩,
   .f [⟨1, none, none⟩, ⟨2, none, none⟩, ⟨3, none, none⟩, ⟨4, none, none⟩],
   .f [⟨1, none, none⟩, ⟨2, none, none⟩],
   .f [⟨1, none, none⟩, ⟨2, none, none⟩, ⟨2, none, none⟩]]

/-- Glass of the scenario: not a mirror, `reflectivity = 0`, `transparency = 1`,
`refractiveIndex = 3/2`, with diffuse colour `s`. -/
def tintedGlass (s : Vec3 ℚ) : Material ℚ :=
  { diffuseColor := s, specularColor := ⟨1, 1, 1⟩, shininess := 32,
    reflectivity := 0, isMirror := false,
    transparency := 1, isTransparent := true, refractiveIndex := 3 / 2 }

/-- Opaque matte material with diffuse colour `w`. -/
def wallMat (w : Vec3 ℚ) : Material ℚ :=
  { diffuseColor := w, specularColor := ⟨1, 1, 1⟩, shininess := 32,
    reflectivity := 0, isMirror := false,
    transparency := 0, isTransparent := false, refractiveIndex := 1 }

/-- Mesh of one triangle, named `name` and of material `mat`, in the plane `z = -3` behind
the unit sphere, facing the camera. -/
def backWallMesh (mat : Material ℚ) : Mesh ℚ :=
  { name := "Wall_BackWall",
    faces := [⟨[⟨⟨-4, -4, -3⟩, ⟨0, 0, 1⟩⟩, ⟨⟨4, -4, -3⟩, ⟨0, 0, 1⟩⟩, ⟨⟨0, 4, -3⟩, ⟨0, 0, 1⟩⟩]⟩],
    position := ⟨0, 0, 0⟩, rotation := ⟨0, 0, 0⟩, scale := ⟨1, 1, 1⟩, material := mat }

/-- The flattened wall behind the sphere (identity transform), of material `mat`. -/
def backWall (mat : Material ℚ) : RTMesh ℚ :=
  { mesh := backWallMesh mat, model := Mat4.identity, invModel := Mat4.identity,
    normalMat := Mat3.identity, isLight := false, isHidden := false }

/-- White light of intensity 10 at `(0, 0, -2)`, between the sphere and the wall. -/
def wallLight : Light ℚ := { position := ⟨0, 0, -2⟩, color := ⟨1, 1, 1⟩, intensity := 10 }

/-- Scene colours of the scenario: ambient light `a`, black background, camera at
`(0, 0, 5)`. -/
def glassScene (a : Vec3 ℚ) : Scene ℚ :=
  { ambientLight := a, backgroundColor := ⟨0, 0, 0⟩, cameraPosition := ⟨0, 0, 5⟩ }

/-- The back-face hit at `(0, 0, -1)` of the ray inside the unit sphere from
`(0, 0, 999/1000)` along `(0, 0, -1)`. -/
def rearHit (mat : Material ℚ) : HitInfo ℚ :=
  { t := 1999 / 1000, p := ⟨0, 0, -1⟩, nGeom := ⟨0, 0, 1⟩, nShade := ⟨0, 0, 1⟩,
    frontFace := false, hit := true, hitLight := false, material := mat }

/-- The back-face hit at `(0, 0, 1)` of the ray inside the unit sphere from
`(0, 0, -999/1000)` along `(0, 0, 1)`. -/
def innerHit (mat : Material ℚ) : HitInfo ℚ :=
  { t := 1999 / 1000, p := ⟨0, 0, 1⟩, nGeom := ⟨0, 0, -1⟩, nShade := ⟨0, 0, -1⟩,
    frontFace := false, hit := true, hitLight := false, material := mat }

/-- The hit on the wall at `(0, 0, -3)` of a ray along `(0, 0, -1)`, at parameter `t`. -/
def wallHit (t : ℚ) (mat : Material ℚ) : HitInfo ℚ :=
  { t := t, p := ⟨0, 0, -3⟩, nGeom := ⟨0, 0, 1⟩, nShade := ⟨0, 0, 1⟩,
    frontFace := true, hit := true, hitLight := false, material := mat }

/-- The colour of the transparent branch for the glass of the scenario at normal incidence:
`clamp01(kr * refl + (1 - kr) * (refr ⊙ s))` with `kr = 1/25`. -/
def glassMix (s refl refr : Vec3 ℚ) : Vec3 ℚ :=
  ((refl.smul (1 / 25)).add ((refr.mul s).smul (1 - 1 / 25))).clamp 0 1

/-- The divisors of the divisions a call of `rayTri` evaluates: `det`, in `1.0f / det`, once
the test `fabs(det) < EPS_MT` has not returned; none when it has. -/
def rayTriDivisors {F : Type} [LinearOrderedField F] (d v0 v1 v2 : Vec3 F) : List F :=
  let e1 := v1.sub v0
  let e2 := v2.sub v0
  let p := cross d e2
  let det := dot e1 p
  if |det| < EPS_MT then [] else [det]

/-- The local `k` of `refractVec` as the specification words it:
`1 - eta² (1 - (I·N)²)`. -/
def specRefractK {F : Type} [LinearOrderedField F] (I N : Vec3 F) (eta : F) : F :=
  1 - eta * eta * (1 - dot I N * dot I N)

/-- The value `r0 = ((n1 - n2) / (n1 + n2))²` of `schlick`. -/
def schlickR0 {F : Type} [LinearOrderedField F] (n1 n2 : F) : F :=
  (n1 - n2) / (n1 + n2) * ((n1 - n2) / (n1 + n2))

/-- Determinant of a `glm::mat3`: the triple product of its columns. -/
def Mat3.det {F : Type} [LinearOrderedField F] (M : Mat3 F) : F :=
  dot M.c0 (cross M.c1 M.c2)

/-- The world-space geometric normal `Ng` that `intersectMesh` computes for the triangle
`tri`, before it is oriented against the ray. -/
def meshGeomNormal {F : Type} [LinearOrderedField F] (m : MathFns F) (rt : RTMesh F)
    (tri : Vertex F × Vertex F × Vertex F) : Vec3 F :=
  normalize m (rt.normalMat.mulVec
    (normalize m (cross (tri.2.1.position.sub tri.1.position)
      (tri.2.2.position.sub tri.1.position))))

/-- The arguments of an activation of `traceRay` that change along the recursion. -/
structure RayCall (F : Type) where
  origin : Vec3 F
  dirUnit : Vec3 F
  depth : Int
  environmentIor : F
deriving DecidableEq, Repr

/-- The recursive calls that the activation `c` of `traceRay` makes, in order: none at the
depth limit, on a miss, on a light marker and on a diffuse hit; the reflection call in the
mirror branch; the reflection call and, unless `refractVec` fails, the refraction call in the
transparent branch. -/
def nestedCalls {F : Type} [LinearOrderedField F] (m : MathFns F) (meshes : List (RTMesh F))
    (spheres : List (RTSphere F)) (c : RayCall F) : List (RayCall F) :=
  if c.depth ≥ MAX_DEPTH then []
  else
    let primary : Bool := decide (c.depth = 0)
    match intersectScene m c.origin c.dirUnit meshes spheres primary with
    | none => []
    | some hit =>
      if hit.hitLight then []
      else
        let mat := hit.material
        if mat.isMirror ∧ mat.reflectivity > 0 then
          let R := normalize m (reflectVec c.dirUnit hit.nGeom)
          let o := offsetOrigin hit.p hit.nGeom R
          [⟨o, R, c.depth + 1, c.environmentIor⟩]
        else if mat.isTransparent ∧ mat.transparency > 0 then
          let ior := glassIor mat
          let n := refractionIndices c.environmentIor hit
          let eta := n.1 / n.2
          let N := hit.nGeom
          let R := normalize m (reflectVec c.dirUnit N)
          let oR := offsetOrigin hit.p N R
          ⟨oR, R, c.depth + 1, c.environmentIor⟩ ::
            (match refractVec m c.dirUnit N eta with
              | some T =>
                let T := normalize m T
                let oT := offsetOrigin hit.p N T
                let nextEnvIor := if hit.frontFace then ior else 1
                [⟨oT, T, c.depth + 1, nextEnvIor⟩]
              | none => [])
        else []

/-- The activations of `traceRay` reachable from the activation `root`: `root` itself and
the recursive calls of every reachable activation. -/
inductive Reachable {F : Type} [LinearOrderedField F] (m : MathFns F)
    (meshes : List (RTMesh F)) (spheres : List (RTSphere F)) (root : RayCall F) :
    RayCall F → Prop
  | root : Reachable m meshes spheres root root
  | step (c c2 : RayCall F) : Reachable m meshes spheres root c →
      c2 ∈ nestedCalls m meshes spheres c → Reachable m meshes spheres root c2

/-- The local `zaxis` of `Camera::getViewMatrix`. -/
def viewZ {F : Type} [LinearOrderedField F] (m : MathFns F) (cam : Camera F) : Vec3 F :=
  normalize m (cam.position.sub cam.target)

/-- The local `xaxis` of `Camera::getViewMatrix`. -/
def viewX {F : Type} [LinearOrderedField F] (m : MathFns F) (cam : Camera F) : Vec3 F :=
  normalize m (cross cam.up (viewZ m cam))

/-- The local `yaxis` of `Camera::getViewMatrix`. -/
def viewY {F : Type} [LinearOrderedField F] (m : MathFns F) (cam : Camera F) : Vec3 F :=
  cross (viewZ m cam) (viewX m cam)

/-- Source `AffineTransform::rotationAroundAxis`: `res[i][j]` of a `glm::mat4` is component
`j` of column `i`, so the four groups of assignments fill the four columns. -/
def rotationAroundAxis {F : Type} [LinearOrderedField F] (m : MathFns F) (g : SetupFns F)
    (axis : Vec3 F) (angle : F) : Mat4 F :=
  let a := normalize m axis
  let c := g.cos angle
  let s := g.sin angle
  let t := 1 - c
  ⟨⟨c + a.x * a.x * t, a.x * a.y * t - a.z * s, a.x * a.z * t + a.y * s, 0⟩,
   ⟨a.y * a.x * t + a.z * s, c + a.y * a.y * t, a.y * a.z * t - a.x * s, 0⟩,
   ⟨a.z * a.x * t - a.y * s, a.z * a.y * t + a.x * s, c + a.z * a.z * t, 0⟩,
   ⟨0, 0, 0, 1⟩⟩

/-- Source `Mesh::applyTransform`: every vertex position is transformed as a point, every
vertex normal by the linear part and normalised. -/
def applyTransform {F : Type} [LinearOrderedField F] (m : MathFns F) (msh : Mesh F)
    (transform : Mat4 F) : Mesh F :=
  { msh with
    faces := msh.faces.map (fun face =>
      ⟨face.vertices.map (fun vertex =>
        ⟨(transform.mulVec (vertex.position.withW 1)).xyz,
         normalize m (transform.linear.mulVec vertex.normal)⟩)⟩) }

/-- Source `Mesh::getCenter`: the mean of all vertex positions (the zero vector for a mesh
without faces). -/
def getCenter {F : Type} [LinearOrderedField F] (msh : Mesh F) : Vec3 F :=
  if msh.faces.isEmpty then ⟨0, 0, 0⟩
  else
    let positions := msh.faces.flatMap (fun face => face.vertices.map Vertex.position)
    (positions.foldl Vec3.add ⟨0, 0, 0⟩).sdiv (positions.length : F)

/-- Source `Mesh::rotateAroundCenter`. -/
def rotateAroundCenter {F : Type} [LinearOrderedField F] (m : MathFns F) (g : SetupFns F)
    (msh : Mesh F) (angle : F) (axis : Vec3 F) : Mesh F :=
  let center := getCenter msh
  let toOrigin := translation center.neg
  let rotation := rotationAroundAxis m g axis angle
  let fromOrigin := translation center
  applyTransform m msh ((fromOrigin.mul rotation).mul toOrigin)

/-- Source `Mesh::rotateAroundCenterX`. -/
def rotateAroundCenterX {F : Type} [LinearOrderedField F] (m : MathFns F) (g : SetupFns F)
    (msh : Mesh F) (angle : F) : Mesh F :=
  rotateAroundCenter m g msh angle ⟨1, 0, 0⟩

/-- Source `Mesh::rotateAroundCenterY`. -/
def rotateAroundCenterY {F : Type} [LinearOrderedField F] (m : MathFns F) (g : SetupFns F)
    (msh : Mesh F) (angle : F) : Mesh F :=
  rotateAroundCenter m g msh angle ⟨0, 1, 0⟩

/-- Source `Mesh::rotateAroundCenterZ`. -/
def rotateAroundCenterZ {F : Type} [LinearOrderedField F] (m : MathFns F) (g : SetupFns F)
    (msh : Mesh F) (angle : F) : Mesh F :=
  rotateAroundCenter m g msh angle ⟨0, 0, 1⟩

/-- The angle `atan(3/4)` of the 3-4-5 triangle, to four digits (in radians). -/
def turnAngle : ℚ := 6435 / 10000

/-- The functions of `ratSetup` with `cos` and `sin` tabulated at `turnAngle` as well:
`cos = 4/5`, `sin = 3/5`. -/
def turnSetup : SetupFns ℚ where
  inverse4 := ratSetup.inverse4
  inverse3 := ratSetup.inverse3
  radians := ratSetup.radians
  cos a := if a = turnAngle then 4 / 5 else ratSetup.cos a
  sin a := if a = turnAngle then 3 / 5 else ratSetup.sin a

/-- A mesh of one triangle in the plane `x = 0` whose centre is the origin, with normals
along the `x` axis; `rotation` is the value of the mesh's rotation field. -/
def centredMesh (rotation : Vec3 ℚ) : Mesh ℚ :=
  { name := "Panel",
    faces := [⟨[⟨⟨0, 2, 0⟩, ⟨1, 0, 0⟩⟩, ⟨⟨0, -1, 1⟩, ⟨1, 0, 0⟩⟩, ⟨⟨0, -1, -1⟩, ⟨1, 0, 0⟩⟩]⟩],
    position := ⟨0, 0, 0⟩, rotation := rotation, scale := ⟨1, 1, 1⟩, material := matteMat }

/-- The world positions of the vertices of a mesh under its `getTransformMatrix`. -/
def worldVertices {F : Type} [LinearOrderedField F] (g : SetupFns F) (msh : Mesh F) :
    List (Vec3 F) :=
  msh.faces.flatMap (fun face => face.vertices.map (fun vertex =>
    ((getTransformMatrix g msh).mulVec (vertex.position.withW 1)).xyz))

/-- The ray `o + t d` meets the triangle `(a, b, c)` at the parameter `t`: the point
`o + t d` is a convex combination of the three vertices. -/
def MeetsTriangleAt {F : Type} [LinearOrderedField F] (o d a b c : Vec3 F) (t : F) : Prop :=
  ∃ u v : F, 0 ≤ u ∧ 0 ≤ v ∧ u + v ≤ 1 ∧
    o.add (d.smul t) = ((a.smul (1 - u - v)).add (b.smul u)).add (c.smul v)

/-- Colour of the transparent branch for glass of index `3/2` and transparency `1` struck
head-on: `clamp01(refl * kr + (refr ⊙ s) * (1 - kr))` with `kr = 1/25`, `s` the diffuse
colour of the glass. -/
def glassBlend {F : Type} [LinearOrderedField F] (s refl refr : Vec3 F) : Vec3 F :=
  ((refl.smul (1 / 25)).add ((refr.mul s).smul (1 - 1 / 25))).clamp 0 1

/-- Colour of the primary ray through the centre of a glass sphere of diffuse colour `s`, as
the nested calls of `traceRay` build it up to `MAX_DEPTH = 6`: `B` is the background colour
(returned by the rays that leave towards the camera and by the calls at depth 6), `W` the
colour returned for the wall. -/
def centreRayColour {F : Type} [LinearOrderedField F] (s B W : Vec3 F) : Vec3 F :=
  glassBlend s B
    (glassBlend s
      (glassBlend s
        (glassBlend s (glassBlend s (glassBlend s B B) B) W)
        B)
      W)

/-- Scene colours with a coloured background: ambient light `1/10`, background
`(1/5, 2/5, 1)`, camera at `(0, 0, 5)`. -/
def skyScene : Scene ℚ :=
  { ambientLight := ⟨1 / 10, 1 / 10, 1 / 10⟩, backgroundColor := ⟨1 / 5, 2 / 5, 1⟩,
    cameraPosition := ⟨0, 0, 5⟩ }

/-! ## The renderer over an arbitrary `float` arithmetic

The definitions above compute in an ordered field.  The ones below repeat the numerical
routines of `RenderStrategy.h` over an arbitrary arithmetic `FloatOps R`, of which no law is
assumed: `R` may contain NaN and infinities, the operations may round, and the two
comparisons need not be related.  Every operation is applied in the order in which the C++
expression applies it.  `exactOps` is the arithmetic of the ordered field (the routines then
agree with the definitions above), `f32` is IEEE-754 binary32 with round-to-nearest-even. -/

/-- The arithmetic of the C++ type `float` as the renderer uses it: the literal nearest to a
rational, the four operations, unary minus, `std::fabs`, `std::sqrt`, `std::pow`, and the
comparisons `<` and `<=` (`a > b` is `b < a`, `a >= b` is `b <= a`). -/
structure FloatOps (R : Type) where
  lit : ℚ → R
  add : R → R → R
  sub : R → R → R
  mul : R → R → R
  div : R → R → R
  neg : R → R
  abs : R → R
  sqrt : R → R
  pow : R → R → R
  lt : R → R → Bool
  le : R → R → Bool

/-- The exact arithmetic of an ordered field, with the `<cmath>` functions `m`. -/
def exactOps {F : Type} [LinearOrderedField F] (m : MathFns F) : FloatOps F where
  lit q := (q : F)
  add a b := a + b
  sub a b := a - b
  mul a b := a * b
  div a b := a / b
  neg a := -a
  abs a := |a|
  sqrt := m.sqrt
  pow := m.pow
  lt a b := decide (a < b)
  le a b := decide (a ≤ b)

namespace Fl

variable {R : Type} (A : FloatOps R)

/-- Component-wise `a + b`. -/
def vadd (a b : Vec3 R) : Vec3 R := ⟨A.add a.x b.x, A.add a.y b.y, A.add a.z b.z⟩

/-- Component-wise `a - b`. -/
def vsub (a b : Vec3 R) : Vec3 R := ⟨A.sub a.x b.x, A.sub a.y b.y, A.sub a.z b.z⟩

/-- Unary minus `-a`. -/
def vneg (a : Vec3 R) : Vec3 R := ⟨A.neg a.x, A.neg a.y, A.neg a.z⟩

/-- Vector times scalar, `a * s`. -/
def vscale (a : Vec3 R) (s : R) : Vec3 R := ⟨A.mul a.x s, A.mul a.y s, A.mul a.z s⟩

/-- Scalar times vector, `s * a`. -/
def scalev (s : R) (a : Vec3 R) : Vec3 R := ⟨A.mul s a.x, A.mul s a.y, A.mul s a.z⟩

/-- Vector divided by scalar, `a / s`. -/
def vdiv (a : Vec3 R) (s : R) : Vec3 R := ⟨A.div a.x s, A.div a.y s, A.div a.z s⟩

/-- Component-wise product `a * b`. -/
def vmul (a b : Vec3 R) : Vec3 R := ⟨A.mul a.x b.x, A.mul a.y b.y, A.mul a.z b.z⟩

/-- Constructor `glm::vec3(s)` of a literal. -/
def splat (q : ℚ) : Vec3 R := ⟨A.lit q, A.lit q, A.lit q⟩

/-- Inner product `glm::dot`: the three products, summed from the left. -/
def dot (a b : Vec3 R) : R := A.add (A.add (A.mul a.x b.x) (A.mul a.y b.y)) (A.mul a.z b.z)

/-- Cross product `glm::cross`. -/
def cross (a b : Vec3 R) : Vec3 R :=
  ⟨A.sub (A.mul a.y b.z) (A.mul b.y a.z), A.sub (A.mul a.z b.x) (A.mul b.z a.x),
   A.sub (A.mul a.x b.y) (A.mul b.x a.y)⟩

/-- Euclidean length `glm::length(v) = sqrt(dot(v, v))`. -/
def length (v : Vec3 R) : R := A.sqrt (dot A v v)

/-- Unit vector `glm::normalize(v) = v * inversesqrt(dot(v, v))`, with
`inversesqrt(x) = 1 / sqrt(x)`. -/
def normalize (v : Vec3 R) : Vec3 R := vscale A v (A.div (A.lit 1) (A.sqrt (dot A v v)))

/-- Maximum `std::max(a, b) = (a < b) ? b : a` (also `glm::max`). -/
def fmax (a b : R) : R := if A.lt a b then b else a

/-- Minimum `std::min(a, b) = (b < a) ? b : a` (also `glm::min`). -/
def fmin (a b : R) : R := if A.lt b a then b else a

/-- Scalar clamp `std::clamp(v, lo, hi) = (v < lo) ? lo : (hi < v) ? hi : v`. -/
def clampS (v lo hi : R) : R := if A.lt v lo then lo else if A.lt hi v then hi else v

/-- Vector clamp `glm::clamp(v, lo, hi) = min(max(v, lo), hi)` on every component. -/
def vclamp (v : Vec3 R) (lo hi : R) : Vec3 R :=
  ⟨fmin A (fmax A v.x lo) hi, fmin A (fmax A v.y lo) hi, fmin A (fmax A v.z lo) hi⟩

/-- Product `M * v` of a `glm::mat3` and a `glm::vec3`: every row summed from the left. -/
def mat3MulVec (M : Mat3 R) (v : Vec3 R) : Vec3 R :=
  ⟨A.add (A.add (A.mul M.c0.x v.x) (A.mul M.c1.x v.y)) (A.mul M.c2.x v.z),
   A.add (A.add (A.mul M.c0.y v.x) (A.mul M.c1.y v.y)) (A.mul M.c2.y v.z),
   A.add (A.add (A.mul M.c0.z v.x) (A.mul M.c1.z v.y)) (A.mul M.c2.z v.z)⟩

/-- Product `M * v` of a `glm::mat4` and a `glm::vec4`: glm adds the first two and the last
two column multiples, then the two sums. -/
def mat4MulVec (M : Mat4 R) (v : Vec4 R) : Vec4 R :=
  ⟨A.add (A.add (A.mul M.c0.x v.x) (A.mul M.c1.x v.y))
      (A.add (A.mul M.c2.x v.z) (A.mul M.c3.x v.w)),
   A.add (A.add (A.mul M.c0.y v.x) (A.mul M.c1.y v.y))
      (A.add (A.mul M.c2.y v.z) (A.mul M.c3.y v.w)),
   A.add (A.add (A.mul M.c0.z v.x) (A.mul M.c1.z v.y))
      (A.add (A.mul M.c2.z v.z) (A.mul M.c3.z v.w)),
   A.add (A.add (A.mul M.c0.w v.x) (A.mul M.c1.w v.y))
      (A.add (A.mul M.c2.w v.z) (A.mul M.c3.w v.w))⟩

/-- Self-intersection tolerance `EPS = 1e-3f`. -/
def EPS : R := A.lit (1 / 1000)

/-- Tolerance `EPS_MT = 1e-6f` local to `rayTri`. -/
def EPS_MT : R := A.lit (1 / 1000000)

/-- Largest finite float `std::numeric_limits<float>::max()`. -/
def FLT_MAX : R := A.lit ((2 ^ 24 - 1) * 2 ^ 104)

/-- Source `reflectVec`: `v - 2.0f * glm::dot(v, nUnit) * nUnit`. -/
def reflectVec (v nUnit : Vec3 R) : Vec3 R :=
  vsub A v (scalev A (A.mul (A.lit 2) (dot A v nUnit)) nUnit)

/-- Source `schlick`. -/
def schlick (cosTheta n1 n2 : R) : R :=
  let cosTheta := clampS A cosTheta (A.lit 0) (A.lit 1)
  let r0 := A.div (A.sub n1 n2) (A.add n1 n2)
  let r0 := A.mul r0 r0
  let x := A.sub (A.lit 1) cosTheta
  A.add r0 (A.mul (A.mul (A.mul (A.mul (A.mul (A.sub (A.lit 1) r0) x) x) x) x) x)

/-- Source `refractVec`: `none` is the return value `false`, `some T` is `true` with
`outT = T`. -/
def refractVec (I_unit N_unit : Vec3 R) (eta : R) : Option (Vec3 R) :=
  let cosTheta := fmin A (dot A (vneg A I_unit) N_unit) (A.lit 1)
  let rOutPerp := scalev A eta (vadd A I_unit (scalev A cosTheta N_unit))
  let k := A.sub (A.lit 1) (dot A rOutPerp rOutPerp)
  if A.lt k (A.lit 0) then none
  else
    let rOutParallel := scalev A (A.neg (A.sqrt k)) N_unit
    some (vadd A rOutPerp rOutParallel)

/-- Tail of `intersectSphere` once the parameter `t` is accepted: fills the hit record (lines
`outHit.t = t` to `return true`). -/
def sphereHit (o d : Vec3 R) (s : RTSphere R) (t : R) : HitInfo R :=
  let p := vadd A o (vscale A d t)
  let outward := normalize A (vsub A p s.center)
  let frontFace : Bool := A.lt (dot A d outward) (A.lit 0)
  let nGeom := if frontFace then outward else vneg A outward
  { t := t, p := p, nGeom := nGeom, nShade := nGeom, frontFace := frontFace,
    hit := true, hitLight := false, material := s.material }

/-- The local `disc` of `intersectSphere`. -/
def sphereDisc (o d : Vec3 R) (s : RTSphere R) : R :=
  let oc := vsub A o s.center
  let a := dot A d d
  let halfB := dot A oc d
  let c := A.sub (dot A oc oc) (A.mul s.radius s.radius)
  A.sub (A.mul halfB halfB) (A.mul a c)

/-- The first value of the local `t` of `intersectSphere`: `(-halfB - sqrtD) / a`. -/
def sphereNear (o d : Vec3 R) (s : RTSphere R) : R :=
  A.div (A.sub (A.neg (dot A (vsub A o s.center) d)) (A.sqrt (sphereDisc A o d s)))
    (dot A d d)

/-- The second value of the local `t` of `intersectSphere`: `(-halfB + sqrtD) / a`. -/
def sphereFar (o d : Vec3 R) (s : RTSphere R) : R :=
  A.div (A.add (A.neg (dot A (vsub A o s.center) d)) (A.sqrt (sphereDisc A o d s)))
    (dot A d d)

/-- Source `intersectSphere`, called on a freshly constructed `HitInfo`: `none` is the return
value `false`, `some h` is `true` with `outHit = h`. -/
def intersectSphere (o d : Vec3 R) (s : RTSphere R) : Option (HitInfo R) :=
  let oc := vsub A o s.center
  let a := dot A d d
  let halfB := dot A oc d
  let c := A.sub (dot A oc oc) (A.mul s.radius s.radius)
  let disc := A.sub (A.mul halfB halfB) (A.mul a c)
  if A.lt disc (A.lit 0) then none
  else
    let sqrtD := A.sqrt disc
    let t := A.div (A.sub (A.neg halfB) sqrtD) a
    if A.le t (EPS A) then
      let t := A.div (A.add (A.neg halfB) sqrtD) a
      if A.le t (EPS A) then none else some (sphereHit A o d s t)
    else some (sphereHit A o d s t)

/-- The local `det` of `rayTri`. -/
def rayTriDet (d v0 v1 v2 : Vec3 R) : R :=
  dot A (vsub A v1 v0) (cross A d (vsub A v2 v0))

/-- Source `rayTri`: `none` is `false`, `some (t, u, v)` is `true` with the three
out-parameters. -/
def rayTri (o d v0 v1 v2 : Vec3 R) : Option (R × R × R) :=
  let e1 := vsub A v1 v0
  let e2 := vsub A v2 v0
  let p := cross A d e2
  let det := dot A e1 p
  if A.lt (A.abs det) (EPS_MT A) then none
  else
    let invDet := A.div (A.lit 1) det
    let tv := vsub A o v0
    let u := A.mul (dot A tv p) invDet
    if A.lt u (A.lit 0) || A.lt (A.lit 1) u then none
    else
      let q := cross A tv e1
      let v := A.mul (dot A d q) invDet
      if A.lt v (A.lit 0) || A.lt (A.lit 1) (A.add u v) then none
      else
        let t := A.mul (dot A e2 q) invDet
        if A.lt (EPS_MT A) t then some (t, u, v) else none

/-- The divisors of the divisions a call of `rayTri` evaluates: `det`, in `1.0f / det`, once
the test `fabs(det) < EPS_MT` has not returned; none when it has. -/
def rayTriDivisors (d v0 v1 v2 : Vec3 R) : List R :=
  if A.lt (A.abs (rayTriDet A d v0 v1 v2)) (EPS_MT A) then [] else [rayTriDet A d v0 v1 v2]

/-- The geometric normal `Ng` that `intersectMesh` computes for a triangle. -/
def meshGeomNormal (rt : RTMesh R) (tri : Vertex R × Vertex R × Vertex R) : Vec3 R :=
  normalize A (mat3MulVec A rt.normalMat
    (normalize A (cross A (vsub A tri.2.1.position tri.1.position)
      (vsub A tri.2.2.position tri.1.position))))

/-- One iteration of the inner loop of `intersectMesh` on the triangle `(V0, V1, V2)`. -/
def meshStep (originWorld dirWorldUnit : Vec3 R) (rt : RTMesh R)
    (localO localD : Vec3 R) (st : MeshState R) (tri : Vertex R × Vertex R × Vertex R) :
    MeshState R :=
  let V0 := tri.1
  let V1 := tri.2.1
  let V2 := tri.2.2
  match rayTri A localO localD V0.position V1.position V2.position with
  | none => st
  | some (tLocal, u, v) =>
    if A.le tLocal (EPS A) then st
    else
      let localP := vadd A localO (vscale A localD tLocal)
      let worldP := (mat4MulVec A rt.model ⟨localP.x, localP.y, localP.z, A.lit 1⟩).xyz
      let tWorld := dot A (vsub A worldP originWorld) dirWorldUnit
      if A.lt (EPS A) tWorld && A.lt tWorld st.bestT then
        let Ng := meshGeomNormal A rt tri
        let w := A.sub (A.sub (A.lit 1) u) v
        let localNs := normalize A
          (vadd A (vadd A (vscale A V0.normal w) (vscale A V1.normal u)) (vscale A V2.normal v))
        let Ns := normalize A (mat3MulVec A rt.normalMat localNs)
        let front : Bool := A.lt (dot A dirWorldUnit Ng) (A.lit 0)
        { bestT := tWorld,
          out := some { t := tWorld, p := worldP,
                        nGeom := if front then Ng else vneg A Ng,
                        nShade := if front then Ns else vneg A Ns,
                        frontFace := front, hit := true, hitLight := false,
                        material := rt.mesh.material } }
      else st

/-- The triangles `intersectMesh` tests, in order: the fan `(V0, V_i, V_{i+1})` of every
face. -/
def meshTriangles (rt : RTMesh R) : List (Vertex R × Vertex R × Vertex R) :=
  rt.mesh.faces.flatMap (fun face =>
    match face.vertices with
    | [] => []
    | v0 :: rest => (rest.zip rest.tail).map (fun e => (v0, e.1, e.2)))

/-- Source `intersectMesh`, called on a freshly constructed `HitInfo`: `none` is `false`,
`some h` is `true` with `outHit = h`. -/
def intersectMesh (originWorld dirWorldUnit : Vec3 R) (rt : RTMesh R) : Option (HitInfo R) :=
  let localO := (mat4MulVec A rt.invModel
    ⟨originWorld.x, originWorld.y, originWorld.z, A.lit 1⟩).xyz
  let localD := normalize A (mat4MulVec A rt.invModel
    ⟨dirWorldUnit.x, dirWorldUnit.y, dirWorldUnit.z, A.lit 0⟩).xyz
  ((meshTriangles rt).foldl (meshStep A originWorld dirWorldUnit rt localO localD)
    ⟨FLT_MAX A, none⟩).out

/-- Common body of the two loops of `intersectScene`. -/
def sceneUpdate (st : SceneState R) (r : Option (HitInfo R)) (isLight : Bool) : SceneState R :=
  match r with
  | none => st
  | some h =>
    if A.lt (EPS A) h.t && A.lt h.t st.nearest then
      { nearest := h.t, out := some { h with hitLight := isLight } }
    else st

/-- One iteration of the sphere loop of `intersectScene`. -/
def sceneSphereStep (origin dirUnit : Vec3 R) (skipHiddenForPrimary : Bool)
    (st : SceneState R) (s : RTSphere R) : SceneState R :=
  if skipHiddenForPrimary && s.isHidden then st
  else sceneUpdate A st (intersectSphere A origin dirUnit s) s.isLight

/-- One iteration of the mesh loop of `intersectScene`. -/
def sceneMeshStep (origin dirUnit : Vec3 R) (skipHiddenForPrimary : Bool)
    (st : SceneState R) (rt : RTMesh R) : SceneState R :=
  if skipHiddenForPrimary && rt.isHidden then st
  else sceneUpdate A st (intersectMesh A origin dirUnit rt) rt.isLight

/-- Source `intersectScene`: `none` is `false`, `some h` is `true` with `outHit = h`. -/
def intersectScene (origin dirUnit : Vec3 R) (meshes : List (RTMesh R))
    (spheres : List (RTSphere R)) (skipHiddenForPrimary : Bool) : Option (HitInfo R) :=
  let st := spheres.foldl (sceneSphereStep A origin dirUnit skipHiddenForPrimary)
    ⟨FLT_MAX A, none⟩
  (meshes.foldl (sceneMeshStep A origin dirUnit skipHiddenForPrimary) st).out

/-- Test made on each candidate of `inShadow`: the routine reported a hit `h` with
`h.t > EPS && h.t < maxDist - EPS`. -/
def occludes (r : Option (HitInfo R)) (maxDist : R) : Bool :=
  match r with
  | none => false
  | some h => A.lt (EPS A) h.t && A.lt h.t (A.sub maxDist (EPS A))

/-- Origin of a secondary ray: `p + N * (dot(dir, N) > 0 ? EPS : -EPS)`. -/
def offsetOrigin (p N dir : Vec3 R) : Vec3 R :=
  vadd A p (vscale A N (if A.lt (A.lit 0) (dot A dir N) then EPS A else A.neg (EPS A)))

/-- Source `inShadow`. -/
def inShadow (p Ng lightDir : Vec3 R) (maxDist : R) (meshes : List (RTMesh R))
    (spheres : List (RTSphere R)) : Bool :=
  let n := normalize A Ng
  let o := offsetOrigin A p n lightDir
  spheres.any (fun s =>
      if s.material.isTransparent && A.lt (A.lit 0) s.material.transparency then false
      else occludes A (intersectSphere A o lightDir s) maxDist)
    || meshes.any (fun rt =>
      if rt.isLight then false
      else if rt.mesh.material.isTransparent && A.lt (A.lit 0) rt.mesh.material.transparency
        then false
      else occludes A (intersectMesh A o lightDir rt) maxDist)

/-- One iteration of the light loop of `shadeDirect`: `col` is the running colour. -/
def shadeLight (hit : HitInfo R) (meshes : List (RTMesh R)) (spheres : List (RTSphere R))
    (N V : Vec3 R) (col : Vec3 R) (Ls : Light R) : Vec3 R :=
  let mat := hit.material
  let toL := vsub A Ls.position hit.p
  let dist := length A toL
  if A.le dist (A.lit (1 / 1000000)) then col
  else
    let L := vdiv A toL dist
    if inShadow A hit.p hit.nGeom L dist meshes spheres then col
    else
      let ndotl := fmax A (dot A N L) (A.lit 0)
      if A.le ndotl (A.lit 0) then col
      else
        let atten := A.div (A.lit 1)
          (A.add (A.add (A.lit 1) (A.mul (A.lit (1 / 10)) dist))
            (A.mul (A.mul (A.lit (1 / 100)) dist) dist))
        let lightCol := vscale A (vscale A Ls.color Ls.intensity) atten
        let col := vadd A col (vmul A lightCol (vscale A mat.diffuseColor ndotl))
        if A.lt (A.lit 1) mat.shininess then
          let R := reflectVec A (vneg A L) N
          let spec := A.pow (fmax A (dot A V (normalize A R)) (A.lit 0)) mat.shininess
          vadd A col (vmul A lightCol (vscale A mat.specularColor spec))
        else col

/-- Source `shadeDirect`. -/
def shadeDirect (hit : HitInfo R) (lights : List (Light R)) (scene : Scene R)
    (meshes : List (RTMesh R)) (spheres : List (RTSphere R)) : Vec3 R :=
  let N := normalize A hit.nShade
  let V := normalize A (vsub A scene.cameraPosition hit.p)
  let col := vmul A scene.ambientLight hit.material.diffuseColor
  lights.foldl (shadeLight A hit meshes spheres N V) col

/-- The local `kr` of the transparent branch of `traceRay` as it stands before the
refraction test. -/
def fresnelWeight (environmentIor : R) (dirUnit : Vec3 R) (hit : HitInfo R) : R :=
  let mat := hit.material
  let ior := if A.lt (A.lit (1 / 10000)) mat.refractiveIndex then mat.refractiveIndex
    else A.lit (3 / 2)
  let n1 := environmentIor
  let n2 := if hit.frontFace then ior else A.lit 1
  let cosTheta := clampS A (dot A (vneg A dirUnit) hit.nGeom) (A.lit 0) (A.lit 1)
  let kr := schlick A cosTheta n1 n2
  let kr := clampS A kr (A.lit 0) (A.lit 1)
  if mat.isMirror then fmax A kr (clampS A mat.reflectivity (A.lit 0) (A.lit 1)) else kr

/-- Source `traceRay`.  The first argument bounds the number of nested activations; `none`
means the bound was too small, `some c` that the call returned the colour `c`. -/
def traceRay : Nat → Vec3 R → Vec3 R → List (RTMesh R) → List (RTSphere R) →
    List (Light R) → Scene R → Int → R → Option (Vec3 R)
  | 0, _, _, _, _, _, _, _, _ => none
  | fuel + 1, origin, dirUnit, meshes, spheres, lights, scene, depth, environmentIor =>
    if depth ≥ MAX_DEPTH then some scene.backgroundColor
    else
      let primary : Bool := decide (depth = 0)
      match intersectScene A origin dirUnit meshes spheres primary with
      | none => some scene.backgroundColor
      | some hit =>
        if hit.hitLight then some (splat A 1)
        else
          let mat := hit.material
          let direct := shadeDirect A hit lights scene meshes spheres
          if mat.isMirror && A.lt (A.lit 0) mat.reflectivity then
            let k := clampS A mat.reflectivity (A.lit 0) (A.lit 1)
            let R := normalize A (reflectVec A dirUnit hit.nGeom)
            let o := offsetOrigin A hit.p hit.nGeom R
            match traceRay fuel o R meshes spheres lights scene (depth + 1) environmentIor with
            | none => none
            | some refl =>
              some (vclamp A (vadd A (vscale A direct (A.sub (A.lit 1) k)) (vscale A refl k))
                (A.lit 0) (A.lit 1))
          else if mat.isTransparent && A.lt (A.lit 0) mat.transparency then
            let tr := clampS A mat.transparency (A.lit 0) (A.lit 1)
            let ior := if A.lt (A.lit (1 / 10000)) mat.refractiveIndex then mat.refractiveIndex
              else A.lit (3 / 2)
            let n1 := environmentIor
            let n2 := if hit.frontFace then ior else A.lit 1
            let eta := A.div n1 n2
            let N := hit.nGeom
            let kr := fresnelWeight A environmentIor dirUnit hit
            let R := normalize A (reflectVec A dirUnit N)
            let oR := offsetOrigin A hit.p N R
            match traceRay fuel oR R meshes spheres lights scene (depth + 1) environmentIor with
            | none => none
            | some refl =>
              match refractVec A dirUnit N eta with
              | some T =>
                let T := normalize A T
                let oT := offsetOrigin A hit.p N T
                let nextEnvIor := if hit.frontFace then ior else A.lit 1
                match traceRay fuel oT T meshes spheres lights scene (depth + 1) nextEnvIor with
                | none => none
                | some refr =>
                  let refr := vmul A refr mat.diffuseColor
                  let glass := vadd A (vscale A refl kr) (vscale A refr (A.sub (A.lit 1) kr))
                  some (vclamp A
                    (vadd A (vscale A direct (A.sub (A.lit 1) tr)) (vscale A glass tr))
                    (A.lit 0) (A.lit 1))
              | none =>
                let kr := A.lit 1
                let glass := vadd A (vscale A refl kr)
                  (vscale A (splat A 0) (A.sub (A.lit 1) kr))
                some (vclamp A
                  (vadd A (vscale A direct (A.sub (A.lit 1) tr)) (vscale A glass tr))
                  (A.lit 0) (A.lit 1))
          else some (vclamp A direct (A.lit 0) (A.lit 1))

/-- Sign symmetry of an arithmetic, as it holds in IEEE-754: the product and the sum commute
with unary minus, `0 < -x` is `x < 0`, and `x < 0` excludes `0 < x`. -/
def SignLaws : Prop :=
  (∀ x y, A.mul x (A.neg y) = A.neg (A.mul x y)) ∧
  (∀ x y, A.add (A.neg x) (A.neg y) = A.neg (A.add x y)) ∧
  (∀ x, A.lt (A.lit 0) (A.neg x) = A.lt x (A.lit 0)) ∧
  (∀ x, A.lt x (A.lit 0) = true → A.lt (A.lit 0) x = false)

/-- The value `x` is neither below `0` nor above `1`: both comparisons `x < 0` and `1 < x`
are false (for a NaN they are). -/
def NotOutside (x : R) : Prop := A.lt x (A.lit 0) = false ∧ A.lt (A.lit 1) x = false

/-- No channel of the colour is below `0` or above `1`. -/
def NotOutsideV (c : Vec3 R) : Prop :=
  NotOutside A c.x ∧ NotOutside A c.y ∧ NotOutside A c.z

end Fl

/-! ## IEEE-754 binary32 -/

/-- Values of binary32: NaN, the two infinities and the finite values, given by the rational
they denote (the two zeros are not distinguished; `1 / 0` is `+∞`). -/
inductive F32 where
  | nan : F32
  | inf (negative : Bool) : F32
  | fin (q : ℚ) : F32
deriving DecidableEq, Repr

/-- The power `2 ^ e` for an integer `e`. -/
def pow2 (e : Int) : ℚ := if 0 ≤ e then (2 : ℚ) ^ e.toNat else 1 / (2 : ℚ) ^ (-e).toNat

/-- Halving loop of `natLog2`: at most `fuel` halvings. -/
def natLog2Loop : Nat → Nat → Nat → Nat
  | 0, _, acc => acc
  | fuel + 1, n, acc => if n < 2 then acc else natLog2Loop fuel (n / 2) (acc + 1)

/-- Floor of the binary logarithm of a positive natural number (below `2 ^ 4096`). -/
def natLog2 (n : Nat) : Nat := natLog2Loop 4096 n 0

/-- Floor of the binary logarithm of a positive rational. -/
def floorLog2 (q : ℚ) : Int :=
  let k : Int := (natLog2 q.num.toNat : Int) - (natLog2 q.den : Int)
  if pow2 k ≤ q then k else k - 1

/-- The integer nearest to a non-negative rational, ties to the even one. -/
def roundHalfEven (q : ℚ) : Nat :=
  let n : Nat := q.num.toNat / q.den
  let r : ℚ := q - (n : ℚ)
  if r < 1 / 2 then n else if 1 / 2 < r then n + 1 else if n % 2 = 0 then n else n + 1

/-- Unary minus of binary32. -/
def F32.neg : F32 → F32
  | .nan => .nan
  | .inf s => .inf (!s)
  | .fin q => .fin (-q)

/-- A positive rational rounded to binary32: 24 significant bits, least exponent `-126`
(subnormals below), ties to even, `+∞` from `2 ^ 128` on. -/
def F32.roundPos (q : ℚ) : F32 :=
  let e := max (floorLog2 q) (-126)
  let quantum := pow2 (e - 23)
  let r := (roundHalfEven (q / quantum) : ℚ) * quantum
  if r < pow2 128 then .fin r else .inf false

/-- A rational rounded to binary32 (round to nearest, ties to even). -/
def F32.round (q : ℚ) : F32 :=
  if q = 0 then .fin 0 else if 0 < q then F32.roundPos q else (F32.roundPos (-q)).neg

/-- Sum of binary32. -/
def F32.add : F32 → F32 → F32
  | .nan, _ => .nan
  | _, .nan => .nan
  | .inf s, .inf t => if s = t then .inf s else .nan
  | .inf s, .fin _ => .inf s
  | .fin _, .inf t => .inf t
  | .fin a, .fin b => F32.round (a + b)

/-- Difference of binary32. -/
def F32.sub (a b : F32) : F32 := F32.add a (F32.neg b)

/-- Product of binary32. -/
def F32.mul : F32 → F32 → F32
  | .nan, _ => .nan
  | _, .nan => .nan
  | .inf s, .inf t => .inf (xor s t)
  | .inf s, .fin q => if q = 0 then .nan else .inf (xor s (decide (q < 0)))
  | .fin q, .inf t => if q = 0 then .nan else .inf (xor (decide (q < 0)) t)
  | .fin a, .fin b => F32.round (a * b)

/-- Quotient of binary32. -/
def F32.div : F32 → F32 → F32
  | .nan, _ => .nan
  | _, .nan => .nan
  | .inf _, .inf _ => .nan
  | .inf s, .fin q => .inf (xor s (decide (q < 0)))
  | .fin _, .inf _ => .fin 0
  | .fin a, .fin b =>
    if b = 0 then (if a = 0 then .nan else .inf (decide (a < 0))) else F32.round (a / b)

/-- Absolute value `std::fabs` of binary32. -/
def F32.abs : F32 → F32
  | .nan => .nan
  | .inf _ => .inf false
  | .fin q => .fin |q|

/-- Correctly rounded square root of a positive rational: the integer square root of
`q * 4 ^ k` (at least 32 bits), with a sticky half when it is not exact. -/
def F32.sqrtPos (q : ℚ) : F32 :=
  let k : Nat := ((64 - floorLog2 q) / 2).toNat
  let x : ℚ := q * (4 : ℚ) ^ k
  let s : Nat := natSqrt (x.num.toNat / x.den)
  let sticky : Nat := if ((s : ℚ) * (s : ℚ) = x) then 0 else 1
  F32.round (((2 * s + sticky : Nat) : ℚ) / (2 * (2 : ℚ) ^ k))

/-- Square root `std::sqrt` of binary32. -/
def F32.sqrt : F32 → F32
  | .nan => .nan
  | .inf s => if s then .nan else .inf false
  | .fin q => if q < 0 then .nan else if q = 0 then .fin 0 else F32.sqrtPos q

/-- Comparison `a < b` of binary32: false when an operand is NaN. -/
def F32.lt : F32 → F32 → Bool
  | .nan, _ => false
  | _, .nan => false
  | .inf s, .inf t => s && !t
  | .inf s, .fin _ => s
  | .fin _, .inf t => !t
  | .fin a, .fin b => decide (a < b)

/-- Comparison `a <= b` of binary32: false when an operand is NaN. -/
def F32.le : F32 → F32 → Bool
  | .nan, _ => false
  | _, .nan => false
  | .inf s, .inf t => s || !t
  | .inf s, .fin _ => s
  | .fin _, .inf t => !t
  | .fin a, .fin b => decide (a ≤ b)

/-- Stand-in for `std::pow` on binary32 (the library does not fix its last bit): `1` for the
exponent `0` and for the base `1`, NaN for a NaN operand, the rounded power for a
non-negative base and a natural exponent, NaN elsewhere. -/
def F32.pow (x y : F32) : F32 :=
  if y = .fin 0 then .fin 1
  else if x = .fin 1 then .fin 1
  else
    match x, y with
    | .fin a, .fin b => if 0 ≤ a ∧ 0 ≤ b then F32.round (ratMath.pow a b) else .nan
    | _, _ => .nan

/-- The arithmetic of IEEE-754 binary32, round to nearest even, every operation rounded on
its own (no fused multiply-add, no extended precision). -/
def f32 : FloatOps F32 where
  lit := F32.round
  add := F32.add
  sub := F32.sub
  mul := F32.mul
  div := F32.div
  neg := F32.neg
  abs := F32.abs
  sqrt := F32.sqrt
  pow := F32.pow
  lt := F32.lt
  le := F32.le

/-- The rational denoted by a finite binary32 value (`0` for NaN and the infinities). -/
def F32.toRat : F32 → ℚ
  | .fin q => q
  | _ => 0

/-- The rational vector denoted by a vector of finite binary32 values. -/
def Vec3.ofF32 (v : Vec3 F32) : Vec3 ℚ := ⟨v.x.toRat, v.y.toRat, v.z.toRat⟩

/-- The binary32 vector nearest to a rational vector. -/
def Vec3.toF32 (v : Vec3 ℚ) : Vec3 F32 := ⟨F32.round v.x, F32.round v.y, F32.round v.z⟩

/-- The binary32 material nearest to a rational material. -/
def Material.toF32 (m : Material ℚ) : Material F32 :=
  { diffuseColor := m.diffuseColor.toF32, specularColor := m.specularColor.toF32,
    shininess := F32.round m.shininess, reflectivity := F32.round m.reflectivity,
    isMirror := m.isMirror, transparency := F32.round m.transparency,
    isTransparent := m.isTransparent, refractiveIndex := F32.round m.refractiveIndex }

/-- The binary32 sphere nearest to a rational sphere. -/
def RTSphere.toF32 (s : RTSphere ℚ) : RTSphere F32 :=
  { center := s.center.toF32, radius := F32.round s.radius, material := s.material.toF32,
    isLight := s.isLight, isHidden := s.isHidden }

/-- The binary32 light nearest to a rational light. -/
def Light.toF32 (l : Light ℚ) : Light F32 :=
  { position := l.position.toF32, color := l.color.toF32, intensity := F32.round l.intensity }

/-- The binary32 scene colours nearest to rational scene colours. -/
def Scene.toF32 (s : Scene ℚ) : Scene F32 :=
  { ambientLight := s.ambientLight.toF32, backgroundColor := s.backgroundColor.toF32,
    cameraPosition := s.cameraPosition.toF32 }

/-- A sphere of radius `1/64` (scale `1/64` in the editor) centred at the origin, matte
white. -/
def tinySphere : RTSphere ℚ :=
  { center := ⟨0, 0, 0⟩, radius := 1 / 64, material := matteMat, isLight := false,
    isHidden := false }

section Proofs

variable {F : Type} [LinearOrderedField F]

theorem clamp01_inUnit (v : Vec3 F) : (v.clamp 0 1).InUnit := by
  simp [Vec3.InUnit, Vec3.clamp]

theorem splat_one_inUnit : (Vec3.splat (1 : F)).InUnit := by
  simp [Vec3.InUnit, Vec3.splat]

section Branches

variable (m : MathFns F) (fuel : Nat) (origin dirUnit : Vec3 F) (meshes : List (RTMesh F))
  (spheres : List (RTSphere F)) (lights : List (Light F)) (scene : Scene F) (depth : Int)
  (environmentIor : F)

theorem traceRay_deep (hd : depth ≥ MAX_DEPTH) :
    traceRay m (fuel + 1) origin dirUnit meshes spheres lights scene depth environmentIor
      = some scene.backgroundColor := by
  rw [traceRay, if_pos hd]

theorem traceRay_miss
    (hmiss : intersectScene m origin dirUnit meshes spheres (decide (depth = 0)) = none) :
    traceRay m (fuel + 1) origin dirUnit meshes spheres lights scene depth environmentIor
      = some scene.backgroundColor := by
  rw [traceRay]
  split_ifs
  · rfl
  · simp only [hmiss]

variable (hit : HitInfo F)

theorem traceRay_light (hd : depth < MAX_DEPTH)
    (hhit : intersectScene m origin dirUnit meshes spheres (decide (depth = 0)) = some hit)
    (hl : hit.hitLight = true) :
    traceRay m (fuel + 1) origin dirUnit meshes spheres lights scene depth environmentIor
      = some (Vec3.splat 1) := by
  rw [traceRay, if_neg (not_le.mpr hd)]
  simp only [hhit, hl, if_true]

theorem traceRay_mirror (hd : depth < MAX_DEPTH)
    (hhit : intersectScene m origin dirUnit meshes spheres (decide (depth = 0)) = some hit)
    (hl : hit.hitLight = false)
    (hm : hit.material.isMirror = true ∧ hit.material.reflectivity > 0) (refl : Vec3 F)
    (hrefl : traceRay m fuel
        (offsetOrigin hit.p hit.nGeom (normalize m (reflectVec dirUnit hit.nGeom)))
        (normalize m (reflectVec dirUnit hit.nGeom)) meshes spheres lights scene (depth + 1)
        environmentIor = some refl) :
    traceRay m (fuel + 1) origin dirUnit meshes spheres lights scene depth environmentIor
      = some ((((shadeDirect m hit lights scene meshes spheres).smul
            (1 - clampS hit.material.reflectivity 0 1)).add
            (refl.smul (clampS hit.material.reflectivity 0 1))).clamp 0 1) := by
  rw [traceRay, if_neg (not_le.mpr hd)]
  simp only [hhit, hl, if_pos hm, hrefl]
  simp

theorem traceRay_glass_refract (hd : depth < MAX_DEPTH)
    (hhit : intersectScene m origin dirUnit meshes spheres (decide (depth = 0)) = some hit)
    (hl : hit.hitLight = false)
    (hm : ¬ (hit.material.isMirror = true ∧ hit.material.reflectivity > 0))
    (ht : hit.material.isTransparent = true ∧ hit.material.transparency > 0)
    (refl T refr : Vec3 F)
    (hrefl : traceRay m fuel
        (offsetOrigin hit.p hit.nGeom (normalize m (reflectVec dirUnit hit.nGeom)))
        (normalize m (reflectVec dirUnit hit.nGeom)) meshes spheres lights scene (depth + 1)
        environmentIor = some refl)
    (hT : refractVec m dirUnit hit.nGeom
        ((refractionIndices environmentIor hit).1 / (refractionIndices environmentIor hit).2)
        = some T)
    (hrefr : traceRay m fuel (offsetOrigin hit.p hit.nGeom (normalize m T)) (normalize m T)
        meshes spheres lights scene (depth + 1)
        (if hit.frontFace = true then glassIor hit.material else 1) = some refr) :
    traceRay m (fuel + 1) origin dirUnit meshes spheres lights scene depth environmentIor
      = some ((((shadeDirect m hit lights scene meshes spheres).smul
            (1 - clampS hit.material.transparency 0 1)).add
            (((refl.smul (fresnelWeight environmentIor dirUnit hit)).add
              ((refr.mul hit.material.diffuseColor).smul
                (1 - fresnelWeight environmentIor dirUnit hit))).smul
              (clampS hit.material.transparency 0 1))).clamp 0 1) := by
  rw [traceRay, if_neg (not_le.mpr hd)]
  simp only [hhit, hl, if_neg hm, if_pos ht, hrefl, hT, hrefr]
  simp

theorem traceRay_glass_tir (hd : depth < MAX_DEPTH)
    (hhit : intersectScene m origin dirUnit meshes spheres (decide (depth = 0)) = some hit)
    (hl : hit.hitLight = false)
    (hm : ¬ (hit.material.isMirror = true ∧ hit.material.reflectivity > 0))
    (ht : hit.material.isTransparent = true ∧ hit.material.transparency > 0)
    (refl : Vec3 F)
    (hrefl : traceRay m fuel
        (offsetOrigin hit.p hit.nGeom (normalize m (reflectVec dirUnit hit.nGeom)))
        (normalize m (reflectVec dirUnit hit.nGeom)) meshes spheres lights scene (depth + 1)
        environmentIor = some refl)
    (hT : refractVec m dirUnit hit.nGeom
        ((refractionIndices environmentIor hit).1 / (refractionIndices environmentIor hit).2)
        = none) :
    traceRay m (fuel + 1) origin dirUnit meshes spheres lights scene depth environmentIor
      = some ((((shadeDirect m hit lights scene meshes spheres).smul
            (1 - clampS hit.material.transparency 0 1)).add
            (((refl.smul 1).add ((Vec3.splat 0).smul (1 - 1))).smul
              (clampS hit.material.transparency 0 1))).clamp 0 1) := by
  rw [traceRay, if_neg (not_le.mpr hd)]
  simp only [hhit, hl, if_neg hm, if_pos ht, hrefl, hT]
  simp

theorem traceRay_diffuse (hd : depth < MAX_DEPTH)
    (hhit : intersectScene m origin dirUnit meshes spheres (decide (depth = 0)) = some hit)
    (hl : hit.hitLight = false)
    (hm : ¬ (hit.material.isMirror = true ∧ hit.material.reflectivity > 0))
    (ht : ¬ (hit.material.isTransparent = true ∧ hit.material.transparency > 0)) :
    traceRay m (fuel + 1) origin dirUnit meshes spheres lights scene depth environmentIor
      = some ((shadeDirect m hit lights scene meshes spheres).clamp 0 1) := by
  rw [traceRay, if_neg (not_le.mpr hd)]
  simp only [hhit, hl, if_neg hm, if_neg ht]
  simp

end Branches

/-- A call of `traceRay` returns as soon as its bound exceeds `MAX_DEPTH - depth`; after a
hit below `MAX_DEPTH` the colour it returns has every channel in `[0, 1]`. -/
theorem traceRay_returns (m : MathFns F) (meshes : List (RTMesh F))
    (spheres : List (RTSphere F)) (lights : List (Light F)) (scene : Scene F) (fuel : Nat) :
    ∀ (origin dirUnit : Vec3 F) (depth : Int) (environmentIor : F),
      (MAX_DEPTH - depth).toNat < fuel →
      ∃ c, traceRay m fuel origin dirUnit meshes spheres lights scene depth environmentIor = some c
        ∧ (depth < MAX_DEPTH →
            intersectScene m origin dirUnit meshes spheres (decide (depth = 0)) ≠ none →
            c.InUnit) := by
  induction fuel with
  | zero => intro _ _ _ _ h; omega
  | succ n ih =>
    intro origin dirUnit depth environmentIor h
    by_cases hd : depth ≥ MAX_DEPTH
    · exact ⟨_, traceRay_deep m n origin dirUnit meshes spheres lights scene depth _ hd,
        fun h1 => absurd hd (not_le.mpr h1)⟩
    · have hd := not_le.mp hd
      have hn : (MAX_DEPTH - (depth + 1)).toNat < n := by
        simp only [MAX_DEPTH] at *
        omega
      have rec := fun o d e => ih o d (depth + 1) e hn
      cases hhit : intersectScene m origin dirUnit meshes spheres (decide (depth = 0)) with
      | none =>
        exact ⟨_, traceRay_miss m n origin dirUnit meshes spheres lights scene depth _ hhit,
          fun _ h2 => absurd rfl h2⟩
      | some hit =>
        cases hl : hit.hitLight with
        | true =>
          exact ⟨_, traceRay_light m n origin dirUnit meshes spheres lights scene depth _ hit
            hd hhit hl, fun _ _ => splat_one_inUnit⟩
        | false =>
          obtain ⟨refl, hrefl, -⟩ := rec
            (offsetOrigin hit.p hit.nGeom (normalize m (reflectVec dirUnit hit.nGeom)))
            (normalize m (reflectVec dirUnit hit.nGeom)) environmentIor
          by_cases hm : hit.material.isMirror = true ∧ hit.material.reflectivity > 0
          · exact ⟨_, traceRay_mirror m n origin dirUnit meshes spheres lights scene depth _ hit
              hd hhit hl hm refl hrefl, fun _ _ => clamp01_inUnit _⟩
          · by_cases ht : hit.material.isTransparent = true ∧ hit.material.transparency > 0
            · cases hT : refractVec m dirUnit hit.nGeom
                ((refractionIndices environmentIor hit).1 / (refractionIndices environmentIor hit).2) with
              | none =>
                exact ⟨_, traceRay_glass_tir m n origin dirUnit meshes spheres lights scene depth
                  _ hit hd hhit hl hm ht refl hrefl hT, fun _ _ => clamp01_inUnit _⟩
              | some T =>
                obtain ⟨refr, hrefr, -⟩ := rec (offsetOrigin hit.p hit.nGeom (normalize m T))
                  (normalize m T) (if hit.frontFace = true then glassIor hit.material else 1)
                exact ⟨_, traceRay_glass_refract m n origin dirUnit meshes spheres lights scene
                  depth _ hit hd hhit hl hm ht refl T refr hrefl hT hrefr,
                  fun _ _ => clamp01_inUnit _⟩
            · exact ⟨_, traceRay_diffuse m n origin dirUnit meshes spheres lights scene depth _ hit
                hd hhit hl hm ht, fun _ _ => clamp01_inUnit _⟩

theorem EPS_pos : (0 : F) < EPS := by
  unfold EPS; positivity

theorem EPS_MT_pos : (0 : F) < EPS_MT := by
  unfold EPS_MT; positivity

theorem clampS_of_pos (k : F) (hk : 0 < k) : clampS k 0 1 = min k 1 := by
  unfold clampS
  rw [if_neg (not_lt.mpr hk.le)]
  by_cases h : 1 < k
  · rw [if_pos h, min_eq_right h.le]
  · rw [if_neg h, min_eq_left (not_lt.mp h)]

theorem offsetOrigin_side (p N dir : Vec3 F) : 0 ≤ dot ((offsetOrigin p N dir).sub p) dir := by
  have he := EPS_pos (F := F)
  have key : dot ((offsetOrigin p N dir).sub p) dir
      = (if dot dir N > 0 then EPS else -EPS) * dot dir N := by
    simp only [offsetOrigin, dot, Vec3.sub, Vec3.add, Vec3.smul]
    ring
  rw [key]
  by_cases h : dot dir N > 0
  · rw [if_pos h]; exact mul_nonneg he.le h.le
  · rw [if_neg h]
    have h' : dot dir N ≤ 0 := not_lt.mp h
    nlinarith

theorem clampS_nonneg (v : F) : 0 ≤ clampS v 0 1 := by
  unfold clampS
  split_ifs with h1 h2
  · exact le_refl 0
  · exact zero_le_one
  · exact not_lt.mp h1

theorem clampS_of_nonpos (k : F) (hk : ¬ 0 < k) : clampS k 0 1 = 0 := by
  unfold clampS
  have hk' : k ≤ 0 := not_lt.mp hk
  split_ifs with h1 h2
  · rfl
  · exact absurd (lt_of_lt_of_le h2 hk') (not_lt.mpr zero_le_one)
  · exact le_antisymm hk' (not_lt.mp h1)

/-- In the transparent branch of `traceRay` (reached only when the mirror test failed) the
Fresnel weight is the clamped Schlick term: the floor `std::max(kr, clamp(reflectivity))` never
raises it there. -/
theorem fresnelWeight_eq (environmentIor : F) (dirUnit : Vec3 F) (hit : HitInfo F)
    (hm : ¬ (hit.material.isMirror = true ∧ hit.material.reflectivity > 0)) :
    fresnelWeight environmentIor dirUnit hit
      = clampS (schlick (clampS (dot dirUnit.neg hit.nGeom) 0 1) environmentIor
          (if hit.frontFace = true then glassIor hit.material else 1)) 0 1 := by
  unfold fresnelWeight refractionIndices
  by_cases hmir : hit.material.isMirror = true
  · have hk : ¬ 0 < hit.material.reflectivity := fun h => hm ⟨hmir, h⟩
    simp only [hmir, if_true, clampS_of_nonpos _ hk]
    exact max_eq_left (clampS_nonneg _)
  · simp only [hmir]
    rfl

theorem vec3_mul_comm (a b : Vec3 F) : a.mul b = b.mul a := by
  simp only [Vec3.mul, Vec3.mk.injEq]
  exact ⟨mul_comm _ _, mul_comm _ _, mul_comm _ _⟩

theorem tir_glass (refl : Vec3 F) : (refl.smul 1).add ((Vec3.splat 0).smul (1 - 1)) = refl := by
  simp [Vec3.smul, Vec3.add, Vec3.splat]

theorem vec3_add_zero (a : Vec3 F) : a.add (Vec3.splat 0) = a := by
  simp [Vec3.add, Vec3.splat]

theorem vec3_mul_add (c a b : Vec3 F) : (c.mul a).add (c.mul b) = c.mul (a.add b) := by
  simp only [Vec3.mul, Vec3.add, Vec3.mk.injEq]
  refine ⟨?_, ?_, ?_⟩ <;> ring

theorem vec3_add_assoc (a b c : Vec3 F) : (a.add b).add c = a.add (b.add c) := by
  simp only [Vec3.add, Vec3.mk.injEq]
  refine ⟨?_, ?_, ?_⟩ <;> ring

theorem vec3_smul_zero (a : Vec3 F) : a.smul 0 = Vec3.splat 0 := by
  simp [Vec3.smul, Vec3.splat]

/-- One iteration of the light loop adds the Phong term of the light when the light
contributes, and nothing otherwise. -/
theorem shadeLight_eq (m : MathFns F) (hit : HitInfo F) (meshes : List (RTMesh F))
    (spheres : List (RTSphere F)) (N V col : Vec3 F) (Ls : Light F) :
    shadeLight m hit meshes spheres N V col Ls
      = if lightContributes m hit meshes spheres N Ls = true then
          col.add (phongTerm m hit N V Ls)
        else col := by
  unfold shadeLight lightContributes phongTerm
  simp only []
  generalize length m (Ls.position.sub hit.p) = dist
  generalize (Ls.position.sub hit.p).sdiv dist = L
  generalize inShadow m hit.p hit.nGeom L dist meshes spheres = sh
  generalize (1 / 1000000 : F) = ε
  generalize (Ls.color.smul Ls.intensity).smul
    (1 / (1 + (1 / 10) * dist + (1 / 100) * dist * dist)) = lightCol
  by_cases h1 : dist ≤ ε
  · simp [h1]
  · cases sh with
    | true => simp [h1]
    | false =>
      by_cases h3 : 0 < dot N L
      · have h3' : ¬ (max (dot N L) 0 ≤ 0) := by
          rw [max_eq_left h3.le]; exact not_le.mpr h3
        simp only [h1, h3, h3', if_false, max_eq_left h3.le, decide_True, decide_not,
          Bool.not_false, Bool.and_self, Bool.not_eq_true, if_true, not_false_eq_true,
          Bool.false_eq_true, decide_False, Bool.not_true]
        by_cases h4 : hit.material.shininess > 1
        · simp only [h4, if_true, vec3_add_assoc, vec3_mul_add, if_neg (not_le.mpr h3)]
        · simp only [h4, if_false, vec3_smul_zero, vec3_add_zero, if_neg (not_le.mpr h3)]
      · have h3' : max (dot N L) 0 ≤ 0 := by
          rw [max_eq_right (not_lt.mp h3)]
        simp [h1, h3, h3']

theorem foldl_shadeLight (m : MathFns F) (hit : HitInfo F) (meshes : List (RTMesh F))
    (spheres : List (RTSphere F)) (N V : Vec3 F) (lights : List (Light F)) :
    ∀ col : Vec3 F,
      lights.foldl (shadeLight m hit meshes spheres N V) col
        = ((lights.filter (lightContributes m hit meshes spheres N)).map
            (phongTerm m hit N V)).foldl Vec3.add col := by
  induction lights with
  | nil => intro col; rfl
  | cons Ls rest ih =>
    intro col
    rw [List.foldl_cons, ih, shadeLight_eq]
    by_cases h : lightContributes m hit meshes spheres N Ls = true
    · rw [if_pos h, List.filter_cons_of_pos h, List.map_cons, List.foldl_cons]
    · rw [if_neg h, List.filter_cons_of_neg h]

theorem sceneUpdate_eq (st : SceneState F) (r : Option (HitInfo F)) (isLight : Bool) :
    sceneUpdate st r isLight
      = match r.map (fun h => { h with hitLight := isLight }) with
        | none => st
        | some h => pickStep st h := by
  cases r with
  | none => rfl
  | some h => rfl

theorem foldl_sceneSphereStep (m : MathFns F) (origin dirUnit : Vec3 F) (skip : Bool)
    (spheres : List (RTSphere F)) :
    ∀ st : SceneState F,
      spheres.foldl (sceneSphereStep m origin dirUnit skip) st
        = (spheres.filterMap (sphereCandidate m origin dirUnit skip)).foldl pickStep st := by
  induction spheres with
  | nil => intro st; rfl
  | cons s rest ih =>
    intro st
    rw [List.foldl_cons, ih, List.filterMap_cons]
    have hstep : sceneSphereStep m origin dirUnit skip st s
        = match sphereCandidate m origin dirUnit skip s with
          | none => st
          | some h => pickStep st h := by
      unfold sceneSphereStep sphereCandidate
      by_cases hs : (skip && s.isHidden) = true
      · simp only [hs, if_true]
      · rw [if_neg hs, if_neg hs, sceneUpdate_eq]
    rw [hstep]
    cases sphereCandidate m origin dirUnit skip s with
    | none => rfl
    | some h => rfl

theorem foldl_sceneMeshStep (m : MathFns F) (origin dirUnit : Vec3 F) (skip : Bool)
    (meshes : List (RTMesh F)) :
    ∀ st : SceneState F,
      meshes.foldl (sceneMeshStep m origin dirUnit skip) st
        = (meshes.filterMap (meshCandidate m origin dirUnit skip)).foldl pickStep st := by
  induction meshes with
  | nil => intro st; rfl
  | cons rt rest ih =>
    intro st
    rw [List.foldl_cons, ih, List.filterMap_cons]
    have hstep : sceneMeshStep m origin dirUnit skip st rt
        = match meshCandidate m origin dirUnit skip rt with
          | none => st
          | some h => pickStep st h := by
      unfold sceneMeshStep meshCandidate
      by_cases hs : (skip && rt.isHidden) = true
      · simp only [hs, if_true]
      · rw [if_neg hs, if_neg hs, sceneUpdate_eq]
    rw [hstep]
    cases meshCandidate m origin dirUnit skip rt with
    | none => rfl
    | some h => rfl

/-- The scan of `intersectScene` is the acceptance step folded over the reported
intersections. -/
theorem intersectScene_eq_foldl (m : MathFns F) (origin dirUnit : Vec3 F)
    (meshes : List (RTMesh F)) (spheres : List (RTSphere F)) (skip : Bool) :
    intersectScene m origin dirUnit meshes spheres skip
      = ((sceneCandidates m origin dirUnit meshes spheres skip).foldl pickStep
          ⟨FLT_MAX, none⟩).out := by
  unfold intersectScene sceneCandidates
  simp only [foldl_sceneSphereStep, foldl_sceneMeshStep, List.foldl_append]

theorem scanInv_foldl (l : List (HitInfo F)) :
    ScanInv l (l.foldl pickStep ⟨FLT_MAX, none⟩) := by
  induction l using List.reverseRecOn with
  | nil => exact Or.inl ⟨rfl, rfl, fun h hh => absurd hh (List.not_mem_nil h)⟩
  | append_singleton l x ih =>
    rw [List.foldl_append, List.foldl_cons, List.foldl_nil]
    generalize l.foldl pickStep ⟨FLT_MAX, none⟩ = st at ih
    unfold pickStep
    rcases ih with ⟨hout, hnear, hall⟩ | ⟨h, pre, post, hout, hnear, hl, h1, h2, hpre, hpost⟩
    · by_cases hx : x.t > EPS ∧ x.t < st.nearest
      · rw [if_pos hx]
        refine Or.inr ⟨x, l, [], rfl, rfl, rfl, hx.1, hnear ▸ hx.2, ?_, ?_⟩
        · intro y hy hy1
          by_contra hlt
          exact hall y hy ⟨hy1, lt_of_le_of_lt (not_lt.mp hlt) (hnear ▸ hx.2)⟩
        · intro y hy; exact absurd hy (List.not_mem_nil y)
      · rw [if_neg hx]
        refine Or.inl ⟨hout, hnear, ?_⟩
        intro y hy
        rcases List.mem_append.mp hy with hy | hy
        · exact hall y hy
        · rw [List.mem_singleton.mp hy]
          exact hnear ▸ hx
    · by_cases hx : x.t > EPS ∧ x.t < st.nearest
      · rw [if_pos hx]
        have hxh : x.t < h.t := hnear ▸ hx.2
        refine Or.inr ⟨x, l, [], rfl, rfl, rfl, hx.1, lt_trans hxh h2, ?_, ?_⟩
        · intro y hy hy1
          rw [hl] at hy
          rcases List.mem_append.mp hy with hy | hy
          · exact lt_trans hxh (hpre y hy hy1)
          · rcases List.mem_cons.mp hy with hy | hy
            · rw [hy]; exact hxh
            · exact lt_of_lt_of_le hxh (hpost y hy hy1)
        · intro y hy; exact absurd hy (List.not_mem_nil y)
      · rw [if_neg hx]
        refine Or.inr ⟨h, pre, post ++ [x], hout, hnear, ?_, h1, h2, hpre, ?_⟩
        · rw [hl]; simp
        · intro y hy hy1
          rcases List.mem_append.mp hy with hy | hy
          · exact hpost y hy hy1
          · rw [List.mem_singleton.mp hy] at hy1 ⊢
            by_contra hlt
            exact hx ⟨hy1, hnear ▸ not_le.mp hlt⟩

theorem intersectMesh_setHidden (m : MathFns F) (o d : Vec3 F) (rt : RTMesh F) (b : Bool) :
    intersectMesh m o d { rt with isHidden := b } = intersectMesh m o d rt := rfl

theorem intersectSphere_setHidden (m : MathFns F) (o d : Vec3 F) (s : RTSphere F) (b : Bool) :
    intersectSphere m o d { s with isHidden := b } = intersectSphere m o d s := rfl

/-- With the flag `false` the reported intersections do not depend on `isHidden`. -/
theorem sceneCandidates_relabel (m : MathFns F) (o d : Vec3 F) (meshes : List (RTMesh F))
    (spheres : List (RTSphere F)) (fm : RTMesh F → Bool) (fs : RTSphere F → Bool) :
    sceneCandidates m o d (meshes.map (fun r => { r with isHidden := fm r }))
        (spheres.map (fun s => { s with isHidden := fs s })) false
      = sceneCandidates m o d meshes spheres false := by
  unfold sceneCandidates
  rw [List.filterMap_map, List.filterMap_map]
  rfl

/-- With the flag `true` the reported intersections are those of the primitives that are not
hidden. -/
theorem sceneCandidates_visible (m : MathFns F) (o d : Vec3 F) (meshes : List (RTMesh F))
    (spheres : List (RTSphere F)) (flag : Bool) :
    sceneCandidates m o d (meshes.filter (fun r => !r.isHidden))
        (spheres.filter (fun s => !s.isHidden)) flag
      = sceneCandidates m o d meshes spheres true := by
  unfold sceneCandidates
  rw [List.filterMap_filter, List.filterMap_filter]
  congr 1
  · congr 1
    funext s
    unfold sphereCandidate
    cases hs : s.isHidden <;> simp
  · congr 1
    funext r
    unfold meshCandidate
    cases hr : r.isHidden <;> simp

theorem inShadow_relabel (m : MathFns F) (p Ng lightDir : Vec3 F) (maxDist : F)
    (meshes : List (RTMesh F)) (spheres : List (RTSphere F)) (fm : RTMesh F → Bool)
    (fs : RTSphere F → Bool) :
    inShadow m p Ng lightDir maxDist (meshes.map (fun r => { r with isHidden := fm r }))
        (spheres.map (fun s => { s with isHidden := fs s }))
      = inShadow m p Ng lightDir maxDist meshes spheres := by
  unfold inShadow
  simp only [List.any_map]
  rfl

theorem shadeDirect_relabel (m : MathFns F) (hit : HitInfo F) (lights : List (Light F))
    (scene : Scene F) (meshes : List (RTMesh F)) (spheres : List (RTSphere F))
    (fm : RTMesh F → Bool) (fs : RTSphere F → Bool) :
    shadeDirect m hit lights scene (meshes.map (fun r => { r with isHidden := fm r }))
        (spheres.map (fun s => { s with isHidden := fs s }))
      = shadeDirect m hit lights scene meshes spheres := by
  unfold shadeDirect shadeLight
  simp only [inShadow_relabel]

theorem intersectScene_relabel (m : MathFns F) (o d : Vec3 F) (meshes : List (RTMesh F))
    (spheres : List (RTSphere F)) (fm : RTMesh F → Bool) (fs : RTSphere F → Bool) :
    intersectScene m o d (meshes.map (fun r => { r with isHidden := fm r }))
        (spheres.map (fun s => { s with isHidden := fs s })) false
      = intersectScene m o d meshes spheres false := by
  rw [intersectScene_eq_foldl, intersectScene_eq_foldl, sceneCandidates_relabel]

/-- Below the primary level no call of `traceRay` reads an `isHidden` flag. -/
theorem traceRay_relabel (m : MathFns F) (meshes : List (RTMesh F))
    (spheres : List (RTSphere F)) (lights : List (Light F)) (scene : Scene F)
    (fm : RTMesh F → Bool) (fs : RTSphere F → Bool) (fuel : Nat) :
    ∀ (origin dirUnit : Vec3 F) (depth : Int) (environmentIor : F), 1 ≤ depth →
      traceRay m fuel origin dirUnit (meshes.map (fun r => { r with isHidden := fm r }))
          (spheres.map (fun s => { s with isHidden := fs s })) lights scene depth environmentIor
        = traceRay m fuel origin dirUnit meshes spheres lights scene depth environmentIor := by
  induction fuel with
  | zero => intro _ _ _ _ _; rfl
  | succ n ih =>
    intro origin dirUnit depth environmentIor hd
    have hflag : decide (depth = 0) = false := by
      apply decide_eq_false
      omega
    have ih' : ∀ (o d : Vec3 F) (e : F),
        traceRay m n o d (meshes.map (fun r => { r with isHidden := fm r }))
          (spheres.map (fun s => { s with isHidden := fs s })) lights scene (depth + 1) e
        = traceRay m n o d meshes spheres lights scene (depth + 1) e :=
      fun o d e => ih o d (depth + 1) e (by omega)
    rw [traceRay, traceRay]
    simp only [hflag, intersectScene_relabel, shadeDirect_relabel, ih']

theorem dot_smul_right (a b : Vec3 F) (c : F) : dot a (b.smul c) = dot a b * c := by
  simp only [dot, Vec3.smul]; ring

theorem dot_eq_zero_of_dot_self (a b : Vec3 F) (h : dot b b = 0) : dot a b = 0 := by
  simp only [dot] at h ⊢
  have hx : b.x * b.x = 0 := by
    nlinarith [mul_self_nonneg b.x, mul_self_nonneg b.y, mul_self_nonneg b.z]
  have hy : b.y * b.y = 0 := by
    nlinarith [mul_self_nonneg b.x, mul_self_nonneg b.y, mul_self_nonneg b.z]
  have hz : b.z * b.z = 0 := by
    nlinarith [mul_self_nonneg b.x, mul_self_nonneg b.y, mul_self_nonneg b.z]
  rw [mul_self_eq_zero.mp hx, mul_self_eq_zero.mp hy, mul_self_eq_zero.mp hz]
  ring

/-- With an exact square root the sign test of `inShadow` on the normalised normal agrees with
the sign of `L·Ng`. -/
theorem dot_normalize_pos_iff (m : MathFns F) (lightDir Ng : Vec3 F)
    (hs0 : 0 ≤ m.sqrt (dot Ng Ng))
    (hsq : m.sqrt (dot Ng Ng) * m.sqrt (dot Ng Ng) = dot Ng Ng) :
    dot lightDir (normalize m Ng) > 0 ↔ dot lightDir Ng > 0 := by
  unfold normalize
  rw [dot_smul_right]
  rcases eq_or_lt_of_le hs0 with h0 | hpos
  · have hz : dot Ng Ng = 0 := by rw [← hsq, ← h0]; ring
    rw [← h0, dot_eq_zero_of_dot_self lightDir Ng hz]
    simp
  · have hinv : 0 < 1 / m.sqrt (dot Ng Ng) := one_div_pos.mpr hpos
    constructor
    · intro h
      by_contra hn
      have := mul_nonpos_of_nonpos_of_nonneg (not_lt.mp hn) hinv.le
      exact absurd h (not_lt.mpr this)
    · intro h
      exact mul_pos h hinv

theorem occludes_iff (r : Option (HitInfo F)) (maxDist : F) :
    occludes r maxDist = true ↔ ∃ h, r = some h ∧ EPS < h.t ∧ h.t < maxDist - EPS := by
  cases r with
  | none => simp [occludes]
  | some h => simp [occludes]

/-- The two loops of `inShadow`, read as a statement about the primitives. -/
theorem inShadow_iff_exists (m : MathFns F) (p Ng lightDir : Vec3 F) (maxDist : F)
    (meshes : List (RTMesh F)) (spheres : List (RTSphere F)) :
    inShadow m p Ng lightDir maxDist meshes spheres = true ↔
      (∃ s ∈ spheres, ¬ (s.material.isTransparent = true ∧ s.material.transparency > 0) ∧
        ∃ h, intersectSphere m
            (p.add ((normalize m Ng).smul (if dot lightDir (normalize m Ng) > 0 then EPS
              else -EPS))) lightDir s = some h ∧ EPS < h.t ∧ h.t < maxDist - EPS) ∨
      (∃ rt ∈ meshes, rt.isLight = false ∧
        ¬ (rt.mesh.material.isTransparent = true ∧ rt.mesh.material.transparency > 0) ∧
        ∃ h, intersectMesh m
            (p.add ((normalize m Ng).smul (if dot lightDir (normalize m Ng) > 0 then EPS
              else -EPS))) lightDir rt = some h ∧ EPS < h.t ∧ h.t < maxDist - EPS) := by
  unfold inShadow
  simp only [Bool.or_eq_true, List.any_eq_true]
  constructor
  · rintro (⟨s, hs, h⟩ | ⟨rt, hr, h⟩)
    · left
      refine ⟨s, hs, ?_⟩
      by_cases ht : s.material.isTransparent = true ∧ s.material.transparency > 0
      · rw [if_pos ht] at h; exact absurd h Bool.false_ne_true
      · rw [if_neg ht] at h; exact ⟨ht, (occludes_iff _ _).mp h⟩
    · right
      refine ⟨rt, hr, ?_⟩
      cases hl : rt.isLight with
      | true => rw [hl] at h; simp at h
      | false =>
        rw [hl] at h
        by_cases ht : rt.mesh.material.isTransparent = true ∧ rt.mesh.material.transparency > 0
        · simp only [Bool.false_eq_true, if_false, if_pos ht] at h
        · simp only [Bool.false_eq_true, if_false, if_neg ht] at h
          exact ⟨rfl, ht, (occludes_iff _ _).mp h⟩
  · rintro (⟨s, hs, ht, h⟩ | ⟨rt, hr, hl, ht, h⟩)
    · left
      refine ⟨s, hs, ?_⟩
      rw [if_neg ht]; exact (occludes_iff _ _).mpr h
    · right
      refine ⟨rt, hr, ?_⟩
      rw [hl]
      simp only [Bool.false_eq_true, if_false, if_neg ht]
      exact (occludes_iff _ _).mpr h

theorem mulVec_withW_zero (M : Mat4 F) (v : Vec3 F) :
    (M.mulVec (v.withW 0)).xyz = M.linear.mulVec v := by
  simp only [Mat4.mulVec, Vec3.withW, Vec4.xyz, Mat4.linear, Mat3.mulVec, Vec3.add, Vec3.smul,
    Vec3.mk.injEq]
  refine ⟨?_, ?_, ?_⟩ <;> ring

theorem mat3_mulVec_smul (M : Mat3 F) (v : Vec3 F) (c : F) :
    M.mulVec (v.smul c) = (M.mulVec v).smul c := by
  simp only [Mat3.mulVec, Vec3.add, Vec3.smul, Vec3.mk.injEq]
  refine ⟨?_, ?_, ?_⟩ <;> ring

theorem dot_smul_smul (v : Vec3 F) (c : F) : dot (v.smul c) (v.smul c) = dot v v * (c * c) := by
  simp only [dot, Vec3.smul]; ring

theorem vec3_smul_smul (v : Vec3 F) (a b : F) : (v.smul a).smul b = v.smul (a * b) := by
  simp only [Vec3.smul, Vec3.mk.injEq]
  refine ⟨?_, ?_, ?_⟩ <;> ring

theorem eq_of_mul_self_eq {a b : F} (ha : 0 ≤ a) (hb : 0 ≤ b) (h : a * a = b * b) : a = b := by
  rcases mul_self_eq_mul_self_iff.mp h with h | h
  · exact h
  · have hb0 : b = 0 := by linarith
    rw [h, hb0, neg_zero]

/-- Normalising before a linear map and again after it gives the normalised image, when the
square root is exact at the three squared lengths involved. -/
theorem normalize_mulVec_normalize (m : MathFns F) (M : Mat3 F) (v : Vec3 F)
    (hv : dot v v ≠ 0) (ha : ExactSqrtAt m (dot v v))
    (hb : ExactSqrtAt m (dot (M.mulVec v) (M.mulVec v)))
    (hc : ExactSqrtAt m (dot (M.mulVec (normalize m v)) (M.mulVec (normalize m v)))) :
    normalize m (M.mulVec (normalize m v)) = normalize m (M.mulVec v) := by
  have hsa : m.sqrt (dot v v) ≠ 0 := by
    intro h0
    apply hv
    rw [← ha.2, h0, zero_mul]
  have key : m.sqrt (dot (M.mulVec v) (M.mulVec v))
      = m.sqrt (dot v v)
        * m.sqrt (dot (M.mulVec (normalize m v)) (M.mulVec (normalize m v))) := by
    apply eq_of_mul_self_eq hb.1 (mul_nonneg ha.1 hc.1)
    rw [hb.2, mul_mul_mul_comm, ha.2, hc.2]
    unfold normalize
    rw [mat3_mulVec_smul, dot_smul_smul]
    have hane : dot v v = m.sqrt (dot v v) * m.sqrt (dot v v) := ha.2.symm
    field_simp
    rw [← hane]
    ring
  have hn : normalize m (M.mulVec (normalize m v))
      = (M.mulVec v).smul ((1 / m.sqrt (dot v v))
          * (1 / m.sqrt (dot (M.mulVec (normalize m v)) (M.mulVec (normalize m v))))) := by
    have hMn : M.mulVec (normalize m v) = (M.mulVec v).smul (1 / m.sqrt (dot v v)) :=
      mat3_mulVec_smul M v _
    show (M.mulVec (normalize m v)).smul _ = _
    conv_lhs => arg 1; rw [hMn]
    rw [vec3_smul_smul]
  rw [hn]
  conv_rhs => unfold normalize
  rw [key]
  congr 1
  rw [one_div_mul_one_div]

theorem dot_cameraVector_ne_zero (a b : F) : dot (⟨a, b, -1⟩ : Vec3 F) ⟨a, b, -1⟩ ≠ 0 := by
  simp only [dot]
  nlinarith [mul_self_nonneg a, mul_self_nonneg b]

theorem primaryRay_dir (m : MathFns F) (cameraPosition : Vec3 F) (invView : Mat4 F)
    (aspect scale : F) (width height x y : Nat) :
    (primaryRay m cameraPosition invView aspect scale width height x y).2
      = normalize m (primaryWorldVector m invView aspect scale width height x y) := rfl

theorem normalize_unit (m : MathFns F) (v : Vec3 F) (h : ExactSqrtAt m (dot v v))
    (hv : dot v v ≠ 0) : dot (normalize m v) (normalize m v) = 1 := by
  have hs : m.sqrt (dot v v) ≠ 0 := by
    intro h0
    apply hv
    rw [← h.2, h0, zero_mul]
  unfold normalize
  rw [dot_smul_smul]
  have h2 := h.2
  field_simp
  linear_combination -h2

theorem dot_sub_smul_self (a b : Vec3 F) (t : F) :
    dot (a.sub (b.smul t)) (a.sub (b.smul t)) = dot a a - 2 * t * dot a b + t * t * dot b b := by
  simp only [dot, Vec3.sub, Vec3.smul]; ring

theorem dot_add_smul_self (a b : Vec3 F) (t : F) :
    dot (a.add (b.smul t)) (a.add (b.smul t)) = dot a a + 2 * t * dot a b + t * t * dot b b := by
  simp only [dot, Vec3.add, Vec3.smul]; ring

/-- Reflecting a unit vector about a unit normal gives a unit vector. -/
theorem reflectVec_unit (v n : Vec3 F) (hv : dot v v = 1) (hn : dot n n = 1) :
    dot (reflectVec v n) (reflectVec v n) = 1 := by
  unfold reflectVec
  rw [dot_sub_smul_self, hv, hn]
  ring

theorem dot_mul_self_le (a b : Vec3 F) : dot a b * dot a b ≤ dot a a * dot b b := by
  have h : dot a a * dot b b - dot a b * dot a b = dot (cross a b) (cross a b) := by
    simp only [dot, cross]; ring
  have h2 : 0 ≤ dot (cross a b) (cross a b) := by
    simp only [dot]
    nlinarith [mul_self_nonneg (cross a b).x, mul_self_nonneg (cross a b).y,
      mul_self_nonneg (cross a b).z]
  linarith

/-- The vector `refractVec` returns for unit arguments is a unit vector, when the square root
is exact at `k`. -/
theorem refractVec_unit (m : MathFns F) (I N T : Vec3 F) (eta : F) (hI : dot I I = 1)
    (hN : dot N N = 1)
    (hk : ExactSqrtAt m (1 - dot ((I.add (N.smul (min (dot I.neg N) 1))).smul eta)
      ((I.add (N.smul (min (dot I.neg N) 1))).smul eta)))
    (hT : refractVec m I N eta = some T) : dot T T = 1 := by
  have hneg : dot I.neg N = -dot I N := by
    simp only [dot, Vec3.neg]; ring
  have hle : dot I.neg N ≤ 1 := by
    have h1 := dot_mul_self_le I N
    rw [hI, hN] at h1
    rw [hneg]
    nlinarith [mul_self_nonneg (dot I N + 1)]
  have hmin : min (dot I.neg N) 1 = -dot I N := by rw [min_eq_left hle, hneg]
  rw [hmin] at hk
  unfold refractVec at hT
  simp only [hmin] at hT
  split_ifs at hT with hneg'
  cases hT
  have hperpN : dot ((I.add (N.smul (-dot I N))).smul eta) N = 0 := by
    have : dot ((I.add (N.smul (-dot I N))).smul eta) N
        = eta * (dot I N + (-dot I N) * dot N N) := by
      simp only [dot, Vec3.add, Vec3.smul]; ring
    rw [this, hN]; ring
  rw [dot_add_smul_self, hperpN, hN]
  have h2 := hk.2
  linear_combination h2

theorem sdiv_unit (v : Vec3 F) (s : F) (hs : s * s = dot v v) (h0 : s ≠ 0) :
    dot (v.sdiv s) (v.sdiv s) = 1 := by
  have : dot (v.sdiv s) (v.sdiv s) = dot v v / (s * s) := by
    simp only [dot, Vec3.sdiv]; field_simp
  rw [this, hs]
  exact div_self (by rw [← hs]; exact mul_ne_zero h0 h0)

theorem foldl_buildStep (g : SetupFns F) (meshes : List (Mesh F)) :
    ∀ acc : List (RTMesh F) × List (RTSphere F),
      meshes.foldl (buildStep g) acc
        = (acc.1 ++ (meshes.filter (fun msh => !nameContains msh.name "Sphere")).map
              (flattenMesh g),
           acc.2 ++ (meshes.filter (fun msh => nameContains msh.name "Sphere")).map
              flattenSphere) := by
  induction meshes with
  | nil => intro acc; simp
  | cons msh rest ih =>
    intro acc
    rw [List.foldl_cons, ih]
    unfold buildStep
    cases h : nameContains msh.name "Sphere" <;> simp [h]

/-- The two lists of `buildRTObjects`: the meshes whose name does not contain `"Sphere"`,
flattened, and those whose name does, as spheres, both in the order of `getAllMeshes`. -/
theorem buildRTObjects_eq (g : SetupFns F) (scene : SceneGraph F) :
    buildRTObjects g scene
      = ((scene.getAllMeshes.filter (fun msh => !nameContains msh.name "Sphere")).map
            (flattenMesh g),
         (scene.getAllMeshes.filter (fun msh => nameContains msh.name "Sphere")).map
            flattenSphere) := by
  unfold buildRTObjects
  rw [foldl_buildStep]
  simp

theorem clampS_mem (v : F) : 0 ≤ clampS v 0 1 ∧ clampS v 0 1 ≤ 1 := by
  unfold clampS
  split_ifs with h1 h2
  · exact ⟨le_refl 0, zero_le_one⟩
  · exact ⟨zero_le_one, le_refl 1⟩
  · exact ⟨not_lt.mp h1, not_lt.mp h2⟩

theorem clampS_mono {a b : F} (h : a ≤ b) : clampS a 0 1 ≤ clampS b 0 1 := by
  unfold clampS
  split_ifs <;> linarith

theorem clampS_of_mem {v : F} (h0 : 0 ≤ v) (h1 : v ≤ 1) : clampS v 0 1 = v := by
  unfold clampS
  rw [if_neg (not_lt.mpr h0), if_neg (not_lt.mpr h1)]

theorem toByte_eq [FloorRing F] (v : F) : toByte v = Int.toNat ⌊clampS v 0 1 * 255 + 1 / 2⌋ := by
  unfold toByte
  obtain ⟨h0, h1⟩ := clampS_mem v
  apply Nat.mod_eq_of_lt
  have hlt : ⌊clampS v 0 1 * 255 + 1 / 2⌋ < 256 := by
    rw [Int.floor_lt]
    push_cast
    linarith
  omega

theorem toByte_le [FloorRing F] (v : F) : toByte v ≤ 255 := by
  rw [toByte_eq]
  obtain ⟨h0, h1⟩ := clampS_mem v
  have hlt : ⌊clampS v 0 1 * 255 + 1 / 2⌋ < 256 := by
    rw [Int.floor_lt]
    push_cast
    linarith
  omega

theorem toByte_mono [FloorRing F] {a b : F} (h : a ≤ b) : toByte a ≤ toByte b := by
  rw [toByte_eq, toByte_eq]
  apply Int.toNat_le_toNat
  apply Int.floor_mono
  have := clampS_mono h
  linarith

theorem toByte_zero [FloorRing F] : toByte (0 : F) = 0 := by
  rw [toByte_eq, clampS_of_mem (le_refl 0) zero_le_one]
  have : ⌊(0 : F) * 255 + 1 / 2⌋ = 0 := by
    rw [Int.floor_eq_iff]
    constructor <;> norm_num
  rw [this]
  rfl

theorem toByte_one [FloorRing F] : toByte (1 : F) = 255 := by
  rw [toByte_eq, clampS_of_mem zero_le_one (le_refl 1)]
  have : ⌊(1 : F) * 255 + 1 / 2⌋ = 255 := by
    rw [Int.floor_eq_iff]
    constructor <;> norm_num
  rw [this]
  rfl

mutual
theorem collectMeshes_preorder {F : Type} :
    ∀ node : SceneNode F, collectMeshes node = (preorder node).filterMap SceneNode.mesh
  | .mk name mesh light children => by
    rw [collectMeshes, preorder, List.filterMap_cons, collectMeshesList_preorder children]
    cases mesh <;> simp [SceneNode.mesh]
theorem collectMeshesList_preorder {F : Type} :
    ∀ nodes : List (SceneNode F),
      collectMeshesList nodes = (preorderList nodes).filterMap SceneNode.mesh
  | [] => by simp [collectMeshesList, preorderList]
  | child :: rest => by
    rw [collectMeshesList, preorderList, List.filterMap_append, collectMeshes_preorder child,
      collectMeshesList_preorder rest]
end

theorem length_filter_add {α : Type} (l : List α) (p : α → Bool) :
    ((l.filter (fun x => !p x)).length + (l.filter p).length) = l.length := by
  induction l with
  | nil => rfl
  | cons a t ih =>
    cases h : p a <;> simp [List.filter_cons, h] <;> omega

theorem length_filterMap_mesh {G : Type} (l : List (SceneNode G)) :
    (l.filterMap SceneNode.mesh).length
      = (l.filter (fun node => node.mesh.isSome)).length := by
  induction l with
  | nil => rfl
  | cons a t ih =>
    cases h : a.mesh <;> simp [List.filterMap_cons, List.filter_cons, h, ih]

theorem nameContains_sphere_ne_frontWall (name : String)
    (h : nameContains name "Sphere" = true) : name ≠ "Wall_FrontWall" := by
  intro hn
  rw [hn] at h
  revert h
  decide

set_option maxHeartbeats 4000000 in
theorem cofactorInverse_mul (M : Mat4 F) (h : M.det ≠ 0) :
    (Mat4.cofactorInverse M).mul M = Mat4.identity := by
  obtain ⟨⟨a0, a1, a2, a3⟩, ⟨b0, b1, b2, b3⟩, ⟨c0, c1, c2, c3⟩, ⟨d0, d1, d2, d3⟩⟩ := M
  generalize hD : Mat4.det (⟨⟨a0, a1, a2, a3⟩, ⟨b0, b1, b2, b3⟩, ⟨c0, c1, c2, c3⟩,
    ⟨d0, d1, d2, d3⟩⟩ : Mat4 F) = D at h
  have h3 : ((3 : Fin 4) : ℕ) = 3 := rfl
  have h2 : ((2 : Fin 4) : ℕ) = 2 := rfl
  have hD2 := hD
  simp only [Mat4.det, Mat4.cofactor, Mat4.minor, Mat4.entry, Vec4.get, otherIndices, dot, cross,
    Fin.val_zero, Fin.val_one, h3, h2] at hD2
  norm_num at hD2
  simp only [Mat4.cofactorInverse, Mat4.mul, Mat4.mulVec, Mat4.identity, hD, Mat4.cofactor,
    Mat4.minor, Mat4.entry, Vec4.get, otherIndices, dot, cross, Fin.val_zero, Fin.val_one, h3, h2]
  norm_num
  refine ⟨⟨?_, ?_, ?_, ?_⟩, ⟨?_, ?_, ?_, ?_⟩, ⟨?_, ?_, ?_, ?_⟩, ⟨?_, ?_, ?_, ?_⟩⟩
  all_goals (field_simp; first | ring1 | linear_combination hD2)

theorem getTransformMatrix_point (g : SetupFns F) (msh : Mesh F) (p : Vec3 F) :
    ((getTransformMatrix g msh).mulVec (p.withW 1)).xyz = specModelPoint g msh p := by
  simp only [getTransformMatrix, translation, rotationX, rotationY, rotationZ, scaling, Mat4.mul,
    Mat4.mulVec, Vec3.withW, Vec4.xyz, specModelPoint, specRotX, specRotY, specRotZ, Vec3.add,
    Vec3.mul, Vec3.mk.injEq, mul_zero, zero_mul, mul_one, one_mul, add_zero, zero_add]
  refine ⟨?_, ?_, ?_⟩ <;> ring

theorem getTransformMatrix_affine (g : SetupFns F) (msh : Mesh F) :
    (getTransformMatrix g msh).c0.w = 0 ∧ (getTransformMatrix g msh).c1.w = 0 ∧
    (getTransformMatrix g msh).c2.w = 0 ∧ (getTransformMatrix g msh).c3.w = 1 := by
  simp only [getTransformMatrix, translation, rotationX, rotationY, rotationZ, scaling, Mat4.mul,
    Mat4.mulVec, mul_zero, zero_mul, mul_one, one_mul, add_zero, zero_add]
  simp

theorem getTransformMatrix_det (g : SetupFns F) (msh : Mesh F) :
    (getTransformMatrix g msh).det
      = msh.scale.x * msh.scale.y * msh.scale.z
        * (g.cos msh.rotation.x * g.cos msh.rotation.x
            + g.sin msh.rotation.x * g.sin msh.rotation.x)
        * (g.cos msh.rotation.y * g.cos msh.rotation.y
            + g.sin msh.rotation.y * g.sin msh.rotation.y)
        * (g.cos msh.rotation.z * g.cos msh.rotation.z
            + g.sin msh.rotation.z * g.sin msh.rotation.z) := by
  have h3 : ((3 : Fin 4) : ℕ) = 3 := rfl
  have h2 : ((2 : Fin 4) : ℕ) = 2 := rfl
  simp only [getTransformMatrix, translation, rotationX, rotationY, rotationZ, scaling, Mat4.mul,
    Mat4.mulVec, Mat4.det, Mat4.cofactor, Mat4.minor, Mat4.entry, Vec4.get, otherIndices, dot,
    cross, Fin.val_zero, Fin.val_one, h3, h2, mul_zero, zero_mul, mul_one, one_mul, add_zero,
    zero_add, sub_zero, zero_sub, neg_zero]
  norm_num
  ring

theorem FLT_MAX_gt (x : F) (hx : x ≤ 1000000) : x < FLT_MAX := by
  have h : (1000000 : F) < FLT_MAX := by
    unfold FLT_MAX
    norm_num
  exact lt_of_le_of_lt hx h

theorem intersectSphere_unit_centre (m : MathFns F) (mat : Material F) (h1 : m.sqrt 1 = 1) :
    intersectSphere m ⟨0, 0, 5⟩ ⟨0, 0, -1⟩ (unitSphere mat)
      = some { t := 4, p := ⟨0, 0, 1⟩, nGeom := ⟨0, 0, 1⟩, nShade := ⟨0, 0, 1⟩,
               frontFace := true, hit := true, hitLight := false, material := mat } := by
  simp only [intersectSphere, unitSphere, sphereHit, Vec3.sub, Vec3.add, Vec3.smul, dot,
    normalize, EPS]
  norm_num
  simp only [h1]
  norm_num
  simp only [h1]
  norm_num

theorem intersectScene_single (m : MathFns F) (o d : Vec3 F) (s : RTSphere F) (h : HitInfo F)
    (hs : s.isHidden = false) (hh : intersectSphere m o d s = some h) (ht : EPS < h.t)
    (ht2 : h.t < FLT_MAX) (flag : Bool) :
    intersectScene m o d [] [s] flag = some { h with hitLight := s.isLight } := by
  simp [intersectScene, sceneSphereStep, sceneUpdate, hs, hh, ht, ht2]

theorem intersectScene_single_miss (m : MathFns F) (o d : Vec3 F) (s : RTSphere F)
    (hh : intersectSphere m o d s = none) (flag : Bool) :
    intersectScene m o d [] [s] flag = none := by
  simp only [intersectScene, List.foldl_cons, List.foldl_nil, sceneSphereStep, hh, sceneUpdate]
  split_ifs <;> rfl

theorem shadeDirect_topLight (m : MathFns F) (mat : Material F) (h1 : m.sqrt 1 = 1)
    (meshes : List (RTMesh F)) (spheres : List (RTSphere F)) :
    shadeDirect m
        { t := 4, p := ⟨0, 0, 1⟩, nGeom := ⟨0, 0, 1⟩, nShade := ⟨0, 0, 1⟩,
          frontFace := true, hit := true, hitLight := false, material := mat }
        [topLight] defaultScene meshes spheres
      = ((Vec3.splat (1 / 10)).mul mat.diffuseColor) := by
  unfold shadeDirect
  rw [foldl_shadeLight]
  have hc : lightContributes m
      { t := 4, p := ⟨0, 0, 1⟩, nGeom := ⟨0, 0, 1⟩, nShade := ⟨0, 0, 1⟩,
        frontFace := true, hit := true, hitLight := false, material := mat }
      meshes spheres (normalize m (⟨0, 0, 1⟩ : Vec3 F)) topLight = false := by
    unfold lightContributes
    generalize inShadow m _ _ _ _ meshes spheres = sh
    have hN : normalize m (⟨0, 0, 1⟩ : Vec3 F) = ⟨0, 0, 1⟩ := by
      simp [normalize, dot, Vec3.smul, h1]
    rw [hN]
    simp only [topLight, Vec3.sub, Vec3.sdiv, dot]
    by_cases hd : length m (⟨0 - 0, 5 - 0, 0 - 1⟩ : Vec3 F) ≤ 1 / 1000000
    · rw [decide_eq_false (not_not.mpr hd), Bool.false_and, Bool.false_and]
    · have hpos : 0 < length m (⟨0 - 0, 5 - 0, 0 - 1⟩ : Vec3 F) :=
        lt_trans (by norm_num) (not_le.mp hd)
      have hneg : ¬ (0 : F) < 0 * ((0 - 0) / length m (⟨0 - 0, 5 - 0, 0 - 1⟩ : Vec3 F))
          + 0 * ((5 - 0) / length m (⟨0 - 0, 5 - 0, 0 - 1⟩ : Vec3 F))
          + 1 * ((0 - 1) / length m (⟨0 - 0, 5 - 0, 0 - 1⟩ : Vec3 F)) := by
        have h := one_div_pos.mpr hpos
        have e : (0 : F) * ((0 - 0) / length m (⟨0 - 0, 5 - 0, 0 - 1⟩ : Vec3 F))
          + 0 * ((5 - 0) / length m (⟨0 - 0, 5 - 0, 0 - 1⟩ : Vec3 F))
          + 1 * ((0 - 1) / length m (⟨0 - 0, 5 - 0, 0 - 1⟩ : Vec3 F))
            = -(1 / length m (⟨0 - 0, 5 - 0, 0 - 1⟩ : Vec3 F)) := by ring
        rw [e]
        linarith
      rw [decide_eq_false hneg, Bool.and_false]
  simp [List.filter, hc, defaultScene]

theorem intersectSphere_eq (m : MathFns F) (o d : Vec3 F) (s : RTSphere F) :
    intersectSphere m o d s
      = if sphereDisc o d s < 0 then none
        else if sphereNearRoot m o d s ≤ EPS then
          if sphereFarRoot m o d s ≤ EPS then none
          else some (sphereHit m o d s (sphereFarRoot m o d s))
        else some (sphereHit m o d s (sphereNearRoot m o d s)) := rfl

theorem onSphereAt_iff (o d : Vec3 F) (s : RTSphere F) (t : F) (hd : dot d d = 1) :
    OnSphereAt o d s t ↔
      (t + dot (o.sub s.center) d) * (t + dot (o.sub s.center) d) = sphereDisc o d s := by
  unfold OnSphereAt sphereDisc
  rw [hd]
  simp only [dot, Vec3.sub, Vec3.add, Vec3.smul] at hd ⊢
  constructor
  · intro h
    linear_combination h - (t * t) * hd
  · intro h
    linear_combination h + (t * t) * hd

theorem onSphereAt_roots (m : MathFns F) (o d : Vec3 F) (s : RTSphere F) (t : F)
    (hd : dot d d = 1) (hsq : ExactSqrtAt m (sphereDisc o d s)) :
    OnSphereAt o d s t ↔ (t = sphereNearRoot m o d s ∨ t = sphereFarRoot m o d s) := by
  rw [onSphereAt_iff o d s t hd]
  unfold sphereNearRoot sphereFarRoot
  rw [hd, div_one, div_one]
  obtain ⟨-, h2⟩ := hsq
  constructor
  · intro h
    have hz : (t - (-(dot (o.sub s.center) d) - m.sqrt (sphereDisc o d s)))
        * (t - (-(dot (o.sub s.center) d) + m.sqrt (sphereDisc o d s))) = 0 := by
      linear_combination h - h2
    rcases mul_eq_zero.mp hz with h0 | h0
    · left; linear_combination h0
    · right; linear_combination h0
  · rintro (h | h)
    · rw [h]; linear_combination h2
    · rw [h]; linear_combination h2

theorem onSphereAt_disc_nonneg (o d : Vec3 F) (s : RTSphere F) (t : F) (hd : dot d d = 1)
    (h : OnSphereAt o d s t) : 0 ≤ sphereDisc o d s := by
  rw [onSphereAt_iff o d s t hd] at h
  rw [← h]
  exact mul_self_nonneg _

theorem rayTri_some_iff (o d v0 v1 v2 : Vec3 F) (t u v : F) :
    rayTri o d v0 v1 v2 = some (t, u, v) ↔
      (¬ |dot (v1.sub v0) (cross d (v2.sub v0))| < EPS_MT ∧
        u = dot (o.sub v0) (cross d (v2.sub v0)) * (1 / dot (v1.sub v0) (cross d (v2.sub v0))) ∧
        v = dot d (cross (o.sub v0) (v1.sub v0))
          * (1 / dot (v1.sub v0) (cross d (v2.sub v0))) ∧
        t = dot (v2.sub v0) (cross (o.sub v0) (v1.sub v0))
          * (1 / dot (v1.sub v0) (cross d (v2.sub v0))) ∧
        0 ≤ u ∧ u ≤ 1 ∧ 0 ≤ v ∧ u + v ≤ 1 ∧ EPS_MT < t) := by
  unfold rayTri
  simp only []
  constructor
  · intro h
    split_ifs at h with h1 h2 h3 h4
    simp only [Option.some.injEq, Prod.mk.injEq] at h
    obtain ⟨ht, hu, hv⟩ := h
    push_neg at h2 h3
    subst ht hu hv
    exact ⟨h1, rfl, rfl, rfl, h2.1, h2.2, h3.1, h3.2, h4⟩
  · rintro ⟨h1, hu, hv, ht, h2, h3, h4, h5, h6⟩
    subst hu hv ht
    rw [if_neg h1, if_neg (by push_neg; exact ⟨h2, h3⟩), if_neg (by push_neg; exact ⟨h4, h5⟩),
      if_pos h6]

theorem moller_trumbore (o d v0 v1 v2 : Vec3 F)
    (hdet : dot (v1.sub v0) (cross d (v2.sub v0)) ≠ 0) :
    o.add (d.smul (dot (v2.sub v0) (cross (o.sub v0) (v1.sub v0))
        * (1 / dot (v1.sub v0) (cross d (v2.sub v0)))))
      = ((v0.smul (1 - dot (o.sub v0) (cross d (v2.sub v0))
              * (1 / dot (v1.sub v0) (cross d (v2.sub v0)))
            - dot d (cross (o.sub v0) (v1.sub v0))
              * (1 / dot (v1.sub v0) (cross d (v2.sub v0))))).add
          (v1.smul (dot (o.sub v0) (cross d (v2.sub v0))
            * (1 / dot (v1.sub v0) (cross d (v2.sub v0)))))).add
          (v2.smul (dot d (cross (o.sub v0) (v1.sub v0))
            * (1 / dot (v1.sub v0) (cross d (v2.sub v0))))) := by
  generalize hD : dot (v1.sub v0) (cross d (v2.sub v0)) = D at hdet
  simp only [dot, cross, Vec3.sub] at hD
  simp only [dot, cross, Vec3.sub, Vec3.add, Vec3.smul, Vec3.mk.injEq]
  refine ⟨?_, ?_, ?_⟩
  · field_simp
    rw [← hD]
    ring
  · field_simp
    rw [← hD]
    ring
  · field_simp
    rw [← hD]
    ring

theorem fanTriangles_length {G : Type} (vs : List (Vertex G)) :
    (fanTriangles vs).length = vs.length - 2 := by
  cases vs with
  | nil => rfl
  | cons v0 rest =>
    simp only [fanTriangles, List.length_map, List.length_zip, List.length_tail, List.length_cons]
    omega

theorem fanTriangles_getElem {G : Type} (vs : List (Vertex G)) (k : Nat)
    (hk : k + 2 < vs.length) :
    (fanTriangles vs)[k]?
      = some (vs.get ⟨0, by omega⟩, vs.get ⟨k + 1, by omega⟩, vs.get ⟨k + 2, hk⟩) := by
  cases vs with
  | nil => simp at hk
  | cons v0 rest =>
    simp only [List.length_cons] at hk
    simp only [fanTriangles, List.getElem?_map, List.get_eq_getElem, List.getElem_cons_succ,
      List.getElem_cons_zero]
    rw [List.getElem?_eq_getElem (by rw [List.length_zip, List.length_tail]; omega)]
    simp only [List.getElem_zip, Option.map_some', List.getElem_tail]

theorem triangleHit_isSome_iff (m : MathFns F) (o d : Vec3 F) (rt : RTMesh F) (lO lD : Vec3 F)
    (tri : Vertex F × Vertex F × Vertex F) :
    (∃ h, triangleHit m o d rt lO lD tri = some h) ↔
      ∃ tL u v, rayTri lO lD tri.1.position tri.2.1.position tri.2.2.position = some (tL, u, v)
        ∧ EPS < tL := by
  unfold triangleHit
  simp only []
  cases hr : rayTri lO lD tri.1.position tri.2.1.position tri.2.2.position with
  | none => simp
  | some r =>
    obtain ⟨tL, u, v⟩ := r
    simp only []
    by_cases h1 : tL ≤ EPS
    · simp only [h1, if_true]
      constructor
      · rintro ⟨h, hh⟩; exact absurd hh (by simp)
      · rintro ⟨a, b, c, e, hlt⟩
        simp only [Option.some.injEq, Prod.mk.injEq] at e
        rw [← e.1] at hlt
        exact absurd h1 (not_le.mpr hlt)
    · simp only [h1, if_false]
      exact ⟨fun _ => ⟨tL, u, v, rfl, not_le.mp h1⟩, fun _ => ⟨_, rfl⟩⟩

theorem meshStep_eq (m : MathFns F) (o d : Vec3 F) (rt : RTMesh F) (lO lD : Vec3 F)
    (st : MeshState F) (tri : Vertex F × Vertex F × Vertex F) :
    (meshStep m o d rt lO lD st tri).toScan
      = match triangleHit m o d rt lO lD tri with
        | none => st.toScan
        | some h => pickStep st.toScan h := by
  unfold meshStep triangleHit
  simp only []
  cases hr : rayTri lO lD tri.1.position tri.2.1.position tri.2.2.position with
  | none => rfl
  | some r =>
    obtain ⟨tL, u, v⟩ := r
    simp only []
    by_cases h1 : tL ≤ EPS
    · simp only [h1, if_true]
    · simp only [h1, if_false, pickStep, MeshState.toScan]
      split_ifs <;> rfl

theorem foldl_meshStep (m : MathFns F) (o d : Vec3 F) (rt : RTMesh F) (lO lD : Vec3 F)
    (tris : List (Vertex F × Vertex F × Vertex F)) :
    ∀ st : MeshState F,
      (tris.foldl (meshStep m o d rt lO lD) st).toScan
        = (tris.filterMap (triangleHit m o d rt lO lD)).foldl pickStep st.toScan := by
  induction tris with
  | nil => intro st; rfl
  | cons tri rest ih =>
    intro st
    rw [List.foldl_cons, ih, meshStep_eq, List.filterMap_cons]
    cases triangleHit m o d rt lO lD tri <;> rfl

theorem intersectMesh_eq_foldl (m : MathFns F) (o d : Vec3 F) (rt : RTMesh F) :
    intersectMesh m o d rt
      = ((triangleHits m o d rt).foldl pickStep ⟨FLT_MAX, none⟩).out := by
  have h := foldl_meshStep m o d rt (meshLocalO o rt) (meshLocalD m d rt) (meshTriangles rt)
    ⟨FLT_MAX, none⟩
  exact congrArg SceneState.out h

theorem triangleHit_some (m : MathFns F) (o d : Vec3 F) (rt : RTMesh F) (lO lD : Vec3 F)
    (tri : Vertex F × Vertex F × Vertex F) (h : HitInfo F)
    (hh : triangleHit m o d rt lO lD tri = some h) :
    ∃ tL u v, rayTri lO lD tri.1.position tri.2.1.position tri.2.2.position = some (tL, u, v) ∧
      EPS < tL ∧ h.p = (rt.model.mulVec ((lO.add (lD.smul tL)).withW 1)).xyz ∧
      h.t = dot (h.p.sub o) d := by
  unfold triangleHit at hh
  simp only [] at hh
  cases hr : rayTri lO lD tri.1.position tri.2.1.position tri.2.2.position with
  | none => rw [hr] at hh; exact absurd hh (by simp)
  | some r =>
    obtain ⟨tL, u, v⟩ := r
    rw [hr] at hh
    simp only [] at hh
    by_cases h1 : tL ≤ EPS
    · rw [if_pos h1] at hh; exact absurd hh (by simp)
    · rw [if_neg h1] at hh
      have e := (Option.some.inj hh).symm
      subst e
      exact ⟨tL, u, v, rfl, not_le.mp h1, rfl, rfl⟩

theorem mat4_mulVec_mul (A B : Mat4 F) (v : Vec4 F) :
    (A.mul B).mulVec v = A.mulVec (B.mulVec v) := by
  simp only [Mat4.mul, Mat4.mulVec, Vec4.mk.injEq]
  refine ⟨?_, ?_, ?_, ?_⟩ <;> ring

theorem mat4_identity_mulVec (v : Vec4 F) : (Mat4.identity : Mat4 F).mulVec v = v := by
  simp [Mat4.identity, Mat4.mulVec]

theorem mat4_mulVec_affine (M : Mat4 F) (a b : Vec3 F) (c : F) :
    (M.mulVec ((a.add (b.smul c)).withW 1)).xyz
      = (M.mulVec (a.withW 1)).xyz.add ((M.mulVec (b.withW 0)).xyz.smul c) := by
  simp only [Mat4.mulVec, Vec3.withW, Vec4.xyz, Vec3.add, Vec3.smul, Vec3.mk.injEq]
  refine ⟨?_, ?_, ?_⟩ <;> ring

theorem inverse_affine_w (M N : Mat4 F) (hinv : M.mul N = Mat4.identity)
    (h0 : M.c0.w = 0) (h1 : M.c1.w = 0) (h2 : M.c2.w = 0) (h3 : M.c3.w = 1) (v : Vec3 F)
    (w : F) : N.mulVec (v.withW w) = ((N.mulVec (v.withW w)).xyz).withW w := by
  have e0 := congrArg (fun X : Mat4 F => X.c0.w) hinv
  have e1 := congrArg (fun X : Mat4 F => X.c1.w) hinv
  have e2 := congrArg (fun X : Mat4 F => X.c2.w) hinv
  have e3 := congrArg (fun X : Mat4 F => X.c3.w) hinv
  simp only [Mat4.mul, Mat4.mulVec, Mat4.identity, h0, h1, h2, h3, zero_mul, one_mul, zero_add]
    at e0 e1 e2 e3
  simp only [Mat4.mulVec, Vec3.withW, Vec4.xyz, Vec4.mk.injEq, true_and]
  rw [e0, e1, e2, e3]
  ring

theorem mesh_world_point (m : MathFns F) (o d : Vec3 F) (rt : RTMesh F) (tL : F)
    (hinv : rt.model.mul rt.invModel = Mat4.identity)
    (h0 : rt.model.c0.w = 0) (h1 : rt.model.c1.w = 0) (h2 : rt.model.c2.w = 0)
    (h3 : rt.model.c3.w = 1) :
    (rt.model.mulVec (((meshLocalO o rt).add ((meshLocalD m d rt).smul tL)).withW 1)).xyz
      = o.add (d.smul (1 / m.sqrt (dot (rt.invModel.mulVec (d.withW 0)).xyz
          (rt.invModel.mulVec (d.withW 0)).xyz) * tL)) := by
  have hO : rt.model.mulVec ((meshLocalO o rt).withW 1) = o.withW 1 := by
    unfold meshLocalO
    rw [← inverse_affine_w rt.model rt.invModel hinv h0 h1 h2 h3 o 1, ← mat4_mulVec_mul, hinv,
      mat4_identity_mulVec]
  have hD : rt.model.mulVec ((rt.invModel.mulVec (d.withW 0)).xyz.withW 0) = d.withW 0 := by
    rw [← inverse_affine_w rt.model rt.invModel hinv h0 h1 h2 h3 d 0, ← mat4_mulVec_mul, hinv,
      mat4_identity_mulVec]
  unfold meshLocalD normalize
  rw [vec3_smul_smul, mat4_mulVec_affine, hO, hD]
  rfl

theorem fanTriangles_map_getElem {G H : Type} (g : Vertex G × Vertex G × Vertex G → H)
    (vs : List (Vertex G)) (k : Nat) (hk : k + 2 < vs.length) :
    ((fanTriangles vs).map g)[k]?
      = some (g (vs.get ⟨0, by omega⟩, vs.get ⟨k + 1, by omega⟩, vs.get ⟨k + 2, hk⟩)) := by
  rw [List.getElem?_map, fanTriangles_getElem vs k hk]
  rfl

theorem loaderTriangle_normal (m : MathFns F) (tri : Vertex F × Vertex F × Vertex F) :
    (loaderTriangle m tri).normal
      = if dot (cross (tri.2.1.position.sub tri.1.position)
            (tri.2.2.position.sub tri.1.position))
          (cross (tri.2.1.position.sub tri.1.position)
            (tri.2.2.position.sub tri.1.position)) = 0 then ⟨0, 1, 0⟩
        else normalize m (cross (tri.2.1.position.sub tri.1.position)
          (tri.2.2.position.sub tri.1.position)) := by
  unfold loaderTriangle calculateNormal
  simp only []
  split_ifs <;> rfl

theorem loadStep_faces (m : MathFns F) (st : LoaderState F) (line : ObjLine F)
    (P : LoadedFace F → Prop) (hP : ∀ tri, P (loaderTriangle m tri))
    (hst : ∀ face ∈ st.faces, P face) : ∀ face ∈ (loadStep m st line).faces, P face := by
  cases line with
  | v p => exact hst
  | vn n => exact hst
  | vt => exact hst
  | other => exact hst
  | f tokens =>
    unfold loadStep
    simp only []
    split_ifs
    · intro face hface
      rcases List.mem_append.mp hface with h | h
      · exact hst face h
      · obtain ⟨tri, -, rfl⟩ := List.mem_map.mp h
        exact hP tri
    · exact hst

theorem loadState_faces (m : MathFns F) (P : LoadedFace F → Prop)
    (hP : ∀ tri, P (loaderTriangle m tri)) (lines : List (ObjLine F)) :
    ∀ face ∈ (loadState m lines).faces, P face := by
  induction lines using List.reverseRecOn with
  | nil => intro face hface; exact absurd hface (List.not_mem_nil face)
  | append_singleton rest line ih =>
    unfold loadState at ih ⊢
    rw [List.foldl_append, List.foldl_cons, List.foldl_nil]
    exact loadStep_faces m _ line P hP ih

theorem intersectSphere_material (m : MathFns F) (o d : Vec3 F) (s : RTSphere F)
    (mat : Material F) :
    intersectSphere m o d { s with material := mat }
      = (intersectSphere m o d s).map (fun h => { h with material := mat }) := by
  unfold intersectSphere sphereHit
  simp only []
  split_ifs <;> rfl

theorem triangleHit_material (m : MathFns F) (o d : Vec3 F) (rt : RTMesh F) (lO lD : Vec3 F)
    (tri : Vertex F × Vertex F × Vertex F) (mat : Material F) :
    triangleHit m o d { rt with mesh := { rt.mesh with material := mat } } lO lD tri
      = (triangleHit m o d rt lO lD tri).map (fun h => { h with material := mat }) := by
  unfold triangleHit
  simp only []
  cases rayTri lO lD tri.1.position tri.2.1.position tri.2.2.position with
  | none => rfl
  | some r =>
    obtain ⟨tL, u, v⟩ := r
    simp only []
    split_ifs <;> rfl

theorem foldl_pickStep_map (g : HitInfo F → HitInfo F) (hg : ∀ h, (g h).t = h.t)
    (l : List (HitInfo F)) :
    ∀ st : SceneState F,
      (l.map g).foldl pickStep ⟨st.nearest, st.out.map g⟩
        = ⟨(l.foldl pickStep st).nearest, (l.foldl pickStep st).out.map g⟩ := by
  induction l with
  | nil => intro st; rfl
  | cons h rest ih =>
    intro st
    rw [List.map_cons, List.foldl_cons, List.foldl_cons]
    have e : pickStep ⟨st.nearest, st.out.map g⟩ (g h)
        = ⟨(pickStep st h).nearest, (pickStep st h).out.map g⟩ := by
      unfold pickStep
      rw [hg]
      split_ifs <;> rfl
    rw [e, ih]

theorem intersectMesh_material (m : MathFns F) (o d : Vec3 F) (rt : RTMesh F)
    (mat : Material F) :
    intersectMesh m o d { rt with mesh := { rt.mesh with material := mat } }
      = (intersectMesh m o d rt).map (fun h => { h with material := mat }) := by
  rw [intersectMesh_eq_foldl, intersectMesh_eq_foldl]
  have e : triangleHits m o d { rt with mesh := { rt.mesh with material := mat } }
      = (triangleHits m o d rt).map (fun h => { h with material := mat }) := by
    unfold triangleHits
    rw [List.map_filterMap]
    apply List.filterMap_congr
    intro tri _
    exact triangleHit_material m o d rt _ _ tri mat
  rw [e]
  have h := foldl_pickStep_map (fun h : HitInfo F => { h with material := mat })
    (fun _ => rfl) (triangleHits m o d rt) ⟨FLT_MAX, none⟩
  exact congrArg SceneState.out h

theorem intersectScene_pair (m : MathFns F) (o d : Vec3 F) (rt : RTMesh F) (s : RTSphere F)
    (flag : Bool) (hs : s.isHidden = false) (hr : rt.isHidden = false) :
    intersectScene m o d [rt] [s] flag
      = (sceneUpdate (sceneUpdate ⟨FLT_MAX, none⟩ (intersectSphere m o d s) s.isLight)
          (intersectMesh m o d rt) rt.isLight).out := by
  simp [intersectScene, sceneSphereStep, sceneMeshStep, hs, hr]

theorem smul_zero_add_smul_one (a b : Vec3 F) : (a.smul (1 - 1)).add (b.smul 1) = b := by
  simp [Vec3.smul, Vec3.add]

theorem unitSphere_hit (o d : Vec3 ℚ) (r : Option (HitInfo ℚ)) (mat : Material ℚ)
    (e : intersectSphere ratMath o d (unitSphere glassMat) = r) :
    intersectSphere ratMath o d (unitSphere mat)
      = r.map (fun h => { h with material := mat }) := by
  rw [← e]
  exact intersectSphere_material ratMath o d (unitSphere glassMat) mat

theorem backWall_hit (o d : Vec3 ℚ) (r : Option (HitInfo ℚ)) (mat : Material ℚ)
    (e : intersectMesh ratMath o d (backWall glassMat) = r) :
    intersectMesh ratMath o d (backWall mat)
      = r.map (fun h => { h with material := mat }) := by
  rw [← e]
  exact intersectMesh_material ratMath o d (backWall glassMat) mat

theorem glassScene_front (ms mw : Material ℚ) (flag : Bool) :
    intersectScene ratMath ⟨0, 0, 5⟩ ⟨0, 0, -1⟩ [backWall mw] [unitSphere ms] flag
      = some (frontHit ms) := by
  rw [intersectScene_pair _ _ _ _ _ _ rfl rfl,
    unitSphere_hit _ _ (some (frontHit glassMat)) ms (by decide!),
    backWall_hit _ _ (some (wallHit 8 glassMat)) mw (by decide!)]
  simp only [sceneUpdate, Option.map, frontHit, wallHit, unitSphere, backWall, EPS, FLT_MAX]
  norm_num

theorem glassScene_rear (ms mw : Material ℚ) (flag : Bool) :
    intersectScene ratMath ⟨0, 0, 999 / 1000⟩ ⟨0, 0, -1⟩ [backWall mw] [unitSphere ms] flag
      = some (rearHit ms) := by
  rw [intersectScene_pair _ _ _ _ _ _ rfl rfl,
    unitSphere_hit _ _ (some (rearHit glassMat)) ms (by decide!),
    backWall_hit _ _ (some (wallHit (3999 / 1000) glassMat)) mw (by decide!)]
  simp only [sceneUpdate, Option.map, rearHit, wallHit, unitSphere, backWall, EPS, FLT_MAX]
  norm_num

theorem glassScene_inner (ms mw : Material ℚ) (flag : Bool) :
    intersectScene ratMath ⟨0, 0, -999 / 1000⟩ ⟨0, 0, 1⟩ [backWall mw] [unitSphere ms] flag
      = some (innerHit ms) := by
  rw [intersectScene_pair _ _ _ _ _ _ rfl rfl,
    unitSphere_hit _ _ (some (innerHit glassMat)) ms (by decide!),
    backWall_hit _ _ none mw (by decide!)]
  simp only [sceneUpdate, Option.map, innerHit, unitSphere, backWall, EPS, FLT_MAX]
  norm_num

theorem glassScene_wall (ms mw : Material ℚ) (flag : Bool) :
    intersectScene ratMath ⟨0, 0, -1001 / 1000⟩ ⟨0, 0, -1⟩ [backWall mw] [unitSphere ms] flag
      = some (wallHit (1999 / 1000) mw) := by
  rw [intersectScene_pair _ _ _ _ _ _ rfl rfl,
    unitSphere_hit _ _ none ms (by decide!),
    backWall_hit _ _ (some (wallHit (1999 / 1000) glassMat)) mw (by decide!)]
  simp only [sceneUpdate, Option.map, wallHit, unitSphere, backWall, EPS, FLT_MAX]
  norm_num

theorem glassScene_away (ms mw : Material ℚ) (flag : Bool) :
    intersectScene ratMath ⟨0, 0, 1001 / 1000⟩ ⟨0, 0, 1⟩ [backWall mw] [unitSphere ms] flag
      = none := by
  rw [intersectScene_pair _ _ _ _ _ _ rfl rfl,
    unitSphere_hit _ _ none ms (by decide!),
    backWall_hit _ _ none mw (by decide!)]
  rfl

theorem glass_level (s : Vec3 ℚ) (fuel : Nat) (o d : Vec3 ℚ) (meshes : List (RTMesh ℚ))
    (spheres : List (RTSphere ℚ)) (lights : List (Light ℚ)) (scene : Scene ℚ) (depth : Int)
    (env : ℚ) (hit : HitInfo ℚ) (R T o1 o2 : Vec3 ℚ) (env2 : ℚ) (refl refr : Vec3 ℚ)
    (hd : depth < MAX_DEPTH)
    (hhit : intersectScene ratMath o d meshes spheres (decide (depth = 0)) = some hit)
    (hl : hit.hitLight = false) (hmat : hit.material = tintedGlass s)
    (hR : normalize ratMath (reflectVec d hit.nGeom) = R)
    (ho1 : offsetOrigin hit.p hit.nGeom R = o1)
    (hT : refractVec ratMath d hit.nGeom
      ((refractionIndices env hit).1 / (refractionIndices env hit).2) = some T)
    (hTn : normalize ratMath T = T)
    (ho2 : offsetOrigin hit.p hit.nGeom T = o2)
    (henv : (if hit.frontFace = true then glassIor hit.material else 1) = env2)
    (hkr : fresnelWeight env d hit = 1 / 25)
    (hrefl : traceRay ratMath fuel o1 R meshes spheres lights scene (depth + 1) env
      = some refl)
    (hrefr : traceRay ratMath fuel o2 T meshes spheres lights scene (depth + 1) env2
      = some refr) :
    traceRay ratMath (fuel + 1) o d meshes spheres lights scene depth env
      = some (glassMix s refl refr) := by
  subst hR ho1 ho2 henv
  have hm : ¬ (hit.material.isMirror = true ∧ hit.material.reflectivity > 0) := by
    rw [hmat]; exact fun h => Bool.false_ne_true h.1
  have ht : hit.material.isTransparent = true ∧ hit.material.transparency > 0 := by
    rw [hmat]; exact ⟨rfl, by norm_num [tintedGlass]⟩
  have h := traceRay_glass_refract ratMath fuel o d meshes spheres lights scene depth env hit
    hd hhit hl hm ht refl T refr hrefl hT (by rw [hTn]; exact hrefr)
  have e1 : clampS hit.material.transparency 0 1 = 1 := by
    rw [hmat]; norm_num [tintedGlass, clampS]
  have e2 : hit.material.diffuseColor = s := by rw [hmat]; rfl
  rw [h, hkr, e1, e2, smul_zero_add_smul_one]
  rfl

theorem glass_away (a w s : Vec3 ℚ) (fuel : Nat) (depth : Int) :
    traceRay ratMath (fuel + 1) ⟨0, 0, 1001 / 1000⟩ ⟨0, 0, 1⟩ [backWall (wallMat w)]
        [unitSphere (tintedGlass s)] [] (glassScene a) depth 1 = some ⟨0, 0, 0⟩ :=
  traceRay_miss ratMath fuel _ _ _ _ [] (glassScene a) depth 1 (glassScene_away _ _ _)

theorem glass_wall (a w s : Vec3 ℚ) (fuel : Nat) (depth : Int) (hd : depth < MAX_DEPTH) :
    traceRay ratMath (fuel + 1) ⟨0, 0, -1001 / 1000⟩ ⟨0, 0, -1⟩ [backWall (wallMat w)]
        [unitSphere (tintedGlass s)] [] (glassScene a) depth 1
      = some ((a.mul w).clamp 0 1) :=
  traceRay_diffuse ratMath fuel _ _ _ _ [] (glassScene a) depth 1
    (wallHit (1999 / 1000) (wallMat w)) hd (glassScene_wall _ _ _) rfl
    (fun h => Bool.false_ne_true h.1) (fun h => Bool.false_ne_true h.1)

theorem glass_rear (a w s : Vec3 ℚ) (fuel : Nat) (depth : Int) (refl refr : Vec3 ℚ)
    (hd : depth < MAX_DEPTH)
    (hrefl : traceRay ratMath fuel ⟨0, 0, -999 / 1000⟩ ⟨0, 0, 1⟩ [backWall (wallMat w)]
        [unitSphere (tintedGlass s)] [] (glassScene a) (depth + 1) (3 / 2) = some refl)
    (hrefr : traceRay ratMath fuel ⟨0, 0, -1001 / 1000⟩ ⟨0, 0, -1⟩ [backWall (wallMat w)]
        [unitSphere (tintedGlass s)] [] (glassScene a) (depth + 1) 1 = some refr) :
    traceRay ratMath (fuel + 1) ⟨0, 0, 999 / 1000⟩ ⟨0, 0, -1⟩ [backWall (wallMat w)]
        [unitSphere (tintedGlass s)] [] (glassScene a) depth (3 / 2)
      = some (glassMix s refl refr) :=
  glass_level s fuel _ _ _ _ [] (glassScene a) depth (3 / 2) (rearHit (tintedGlass s))
    ⟨0, 0, 1⟩ ⟨0, 0, -1⟩ ⟨0, 0, -999 / 1000⟩ ⟨0, 0, -1001 / 1000⟩ 1 refl refr hd
    (glassScene_rear _ _ _) rfl rfl
    (by decide! : normalize ratMath (reflectVec (⟨0, 0, -1⟩ : Vec3 ℚ) ⟨0, 0, 1⟩) = ⟨0, 0, 1⟩)
    (by decide! : offsetOrigin (⟨0, 0, -1⟩ : Vec3 ℚ) ⟨0, 0, 1⟩ ⟨0, 0, 1⟩ = ⟨0, 0, -999 / 1000⟩)
    (by decide! : refractVec ratMath (⟨0, 0, -1⟩ : Vec3 ℚ) (rearHit glassMat).nGeom
      ((refractionIndices (3 / 2) (rearHit glassMat)).1
        / (refractionIndices (3 / 2) (rearHit glassMat)).2) = some ⟨0, 0, -1⟩)
    (by decide! : normalize ratMath (⟨0, 0, -1⟩ : Vec3 ℚ) = ⟨0, 0, -1⟩)
    (by decide! : offsetOrigin (⟨0, 0, -1⟩ : Vec3 ℚ) ⟨0, 0, 1⟩ ⟨0, 0, -1⟩
      = ⟨0, 0, -1001 / 1000⟩)
    rfl
    (by decide! : fresnelWeight (3 / 2) (⟨0, 0, -1⟩ : Vec3 ℚ) (rearHit glassMat) = 1 / 25)
    hrefl hrefr

theorem glass_inner (a w s : Vec3 ℚ) (fuel : Nat) (depth : Int) (refl refr : Vec3 ℚ)
    (hd : depth < MAX_DEPTH)
    (hrefl : traceRay ratMath fuel ⟨0, 0, 999 / 1000⟩ ⟨0, 0, -1⟩ [backWall (wallMat w)]
        [unitSphere (tintedGlass s)] [] (glassScene a) (depth + 1) (3 / 2) = some refl)
    (hrefr : traceRay ratMath fuel ⟨0, 0, 1001 / 1000⟩ ⟨0, 0, 1⟩ [backWall (wallMat w)]
        [unitSphere (tintedGlass s)] [] (glassScene a) (depth + 1) 1 = some refr) :
    traceRay ratMath (fuel + 1) ⟨0, 0, -999 / 1000⟩ ⟨0, 0, 1⟩ [backWall (wallMat w)]
        [unitSphere (tintedGlass s)] [] (glassScene a) depth (3 / 2)
      = some (glassMix s refl refr) :=
  glass_level s fuel _ _ _ _ [] (glassScene a) depth (3 / 2) (innerHit (tintedGlass s))
    ⟨0, 0, -1⟩ ⟨0, 0, 1⟩ ⟨0, 0, 999 / 1000⟩ ⟨0, 0, 1001 / 1000⟩ 1 refl refr hd
    (glassScene_inner _ _ _) rfl rfl
    (by decide! : normalize ratMath (reflectVec (⟨0, 0, 1⟩ : Vec3 ℚ) ⟨0, 0, -1⟩) = ⟨0, 0, -1⟩)
    (by decide! : offsetOrigin (⟨0, 0, 1⟩ : Vec3 ℚ) ⟨0, 0, -1⟩ ⟨0, 0, -1⟩ = ⟨0, 0, 999 / 1000⟩)
    (by decide! : refractVec ratMath (⟨0, 0, 1⟩ : Vec3 ℚ) (innerHit glassMat).nGeom
      ((refractionIndices (3 / 2) (innerHit glassMat)).1
        / (refractionIndices (3 / 2) (innerHit glassMat)).2) = some ⟨0, 0, 1⟩)
    (by decide! : normalize ratMath (⟨0, 0, 1⟩ : Vec3 ℚ) = ⟨0, 0, 1⟩)
    (by decide! : offsetOrigin (⟨0, 0, 1⟩ : Vec3 ℚ) ⟨0, 0, -1⟩ ⟨0, 0, 1⟩
      = ⟨0, 0, 1001 / 1000⟩)
    rfl
    (by decide! : fresnelWeight (3 / 2) (⟨0, 0, 1⟩ : Vec3 ℚ) (innerHit glassMat) = 1 / 25)
    hrefl hrefr

theorem glass_front (a w s : Vec3 ℚ) (fuel : Nat) (refl refr : Vec3 ℚ)
    (hrefl : traceRay ratMath fuel ⟨0, 0, 1001 / 1000⟩ ⟨0, 0, 1⟩ [backWall (wallMat w)]
        [unitSphere (tintedGlass s)] [] (glassScene a) (0 + 1) 1 = some refl)
    (hrefr : traceRay ratMath fuel ⟨0, 0, 999 / 1000⟩ ⟨0, 0, -1⟩ [backWall (wallMat w)]
        [unitSphere (tintedGlass s)] [] (glassScene a) (0 + 1) (3 / 2) = some refr) :
    traceRay ratMath (fuel + 1) ⟨0, 0, 5⟩ ⟨0, 0, -1⟩ [backWall (wallMat w)]
        [unitSphere (tintedGlass s)] [] (glassScene a) 0 1
      = some (glassMix s refl refr) :=
  glass_level s fuel _ _ _ _ [] (glassScene a) 0 1 (frontHit (tintedGlass s))
    ⟨0, 0, 1⟩ ⟨0, 0, -1⟩ ⟨0, 0, 1001 / 1000⟩ ⟨0, 0, 999 / 1000⟩ (3 / 2) refl refr (by decide)
    (glassScene_front _ _ _) rfl rfl
    (by decide! : normalize ratMath (reflectVec (⟨0, 0, -1⟩ : Vec3 ℚ) ⟨0, 0, 1⟩) = ⟨0, 0, 1⟩)
    (by decide! : offsetOrigin (⟨0, 0, 1⟩ : Vec3 ℚ) ⟨0, 0, 1⟩ ⟨0, 0, 1⟩ = ⟨0, 0, 1001 / 1000⟩)
    (by decide! : refractVec ratMath (⟨0, 0, -1⟩ : Vec3 ℚ) (frontHit glassMat).nGeom
      ((refractionIndices 1 (frontHit glassMat)).1
        / (refractionIndices 1 (frontHit glassMat)).2) = some ⟨0, 0, -1⟩)
    (by decide! : normalize ratMath (⟨0, 0, -1⟩ : Vec3 ℚ) = ⟨0, 0, -1⟩)
    (by decide! : offsetOrigin (⟨0, 0, 1⟩ : Vec3 ℚ) ⟨0, 0, 1⟩ ⟨0, 0, -1⟩
      = ⟨0, 0, 999 / 1000⟩)
    (by decide! : (if (frontHit glassMat).frontFace = true then glassIor glassMat else 1)
      = (3 / 2 : ℚ))
    (by decide! : fresnelWeight 1 (⟨0, 0, -1⟩ : Vec3 ℚ) (frontHit glassMat) = 1 / 25)
    hrefl hrefr

theorem mix_channel (s r t : ℚ) (hs : 0 ≤ s ∧ s ≤ 1) (hr : 0 ≤ r ∧ r ≤ 1)
    (ht : 0 ≤ t ∧ t ≤ 1) :
    min (max (r * (1 / 25) + t * s * (1 - 1 / 25)) 0) 1 = r * (1 / 25) + t * s * (24 / 25) ∧
    0 ≤ r * (1 / 25) + t * s * (24 / 25) ∧ r * (1 / 25) + t * s * (24 / 25) ≤ 1 := by
  have h1 : 0 ≤ t * s := mul_nonneg ht.1 hs.1
  have h2 : t * s ≤ 1 := by
    have := mul_le_mul ht.2 hs.2 hs.1 (by norm_num : (0 : ℚ) ≤ 1)
    linarith
  have e : r * (1 / 25) + t * s * (1 - 1 / 25) = r * (1 / 25) + t * s * (24 / 25) := by ring
  have h3 : 0 ≤ r * (1 / 25) + t * s * (24 / 25) := by linarith [hr.1]
  have h4 : r * (1 / 25) + t * s * (24 / 25) ≤ 1 := by linarith [hr.2]
  rw [e, max_eq_left h3, min_eq_left h4]
  exact ⟨rfl, h3, h4⟩

theorem glassMix_inUnit (s refl refr : Vec3 ℚ) (hs : s.InUnit) (hr : refl.InUnit)
    (ht : refr.InUnit) :
    glassMix s refl refr
        = ⟨refl.x * (1 / 25) + refr.x * s.x * (24 / 25),
           refl.y * (1 / 25) + refr.y * s.y * (24 / 25),
           refl.z * (1 / 25) + refr.z * s.z * (24 / 25)⟩ ∧
      (glassMix s refl refr).InUnit := by
  obtain ⟨hx, hx1, hx2⟩ := mix_channel s.x refl.x refr.x hs.1 hr.1 ht.1
  obtain ⟨hy, hy1, hy2⟩ := mix_channel s.y refl.y refr.y hs.2.1 hr.2.1 ht.2.1
  obtain ⟨hz, hz1, hz2⟩ := mix_channel s.z refl.z refr.z hs.2.2 hr.2.2 ht.2.2
  have e : glassMix s refl refr
      = ⟨refl.x * (1 / 25) + refr.x * s.x * (24 / 25),
         refl.y * (1 / 25) + refr.y * s.y * (24 / 25),
         refl.z * (1 / 25) + refr.z * s.z * (24 / 25)⟩ := by
    simp only [glassMix, Vec3.clamp, Vec3.add, Vec3.smul, Vec3.mul, Vec3.mk.injEq]
    exact ⟨hx, hy, hz⟩
  refine ⟨e, ?_⟩
  rw [e]
  exact ⟨⟨hx1, hx2⟩, ⟨hy1, hy2⟩, ⟨hz1, hz2⟩⟩

theorem zero_inUnit : (⟨0, 0, 0⟩ : Vec3 ℚ).InUnit := by
  simp [Vec3.InUnit]

theorem glass_chain (a w s : Vec3 ℚ) :
    traceRay ratMath 7 ⟨0, 0, 5⟩ ⟨0, 0, -1⟩ [backWall (wallMat w)]
        [unitSphere (tintedGlass s)] [] (glassScene a) 0 1
      = some (glassMix s ⟨0, 0, 0⟩
          (glassMix s
            (glassMix s
              (glassMix s (glassMix s (glassMix s ⟨0, 0, 0⟩ ⟨0, 0, 0⟩) ⟨0, 0, 0⟩)
                ((a.mul w).clamp 0 1))
              ⟨0, 0, 0⟩)
            ((a.mul w).clamp 0 1))) := by
  have c5 := glass_rear a w s 1 5 ⟨0, 0, 0⟩ ⟨0, 0, 0⟩ (by decide)
    (traceRay_deep ratMath 0 _ _ _ _ [] (glassScene a) (5 + 1) (3 / 2) (by decide))
    (traceRay_deep ratMath 0 _ _ _ _ [] (glassScene a) (5 + 1) 1 (by decide))
  have c4 := glass_inner a w s 2 4 _ _ (by decide) c5 (glass_away a w s 1 (4 + 1))
  have c3 := glass_rear a w s 3 3 _ _ (by decide) c4 (glass_wall a w s 2 (3 + 1) (by decide))
  have c2 := glass_inner a w s 4 2 _ _ (by decide) c3 (glass_away a w s 3 (2 + 1))
  have c1 := glass_rear a w s 5 1 _ _ (by decide) c2 (glass_wall a w s 4 (1 + 1) (by decide))
  exact glass_front a w s 6 _ _ (glass_away a w s 5 (0 + 1)) c1

theorem glass_closed_form (s W : Vec3 ℚ) (hs : s.InUnit) (hW : W.InUnit) :
    glassMix s ⟨0, 0, 0⟩
        (glassMix s
          (glassMix s
            (glassMix s (glassMix s (glassMix s ⟨0, 0, 0⟩ ⟨0, 0, 0⟩) ⟨0, 0, 0⟩) W)
            ⟨0, 0, 0⟩)
          W)
      = ((s.mul s).mul W).smul (360576 / 390625) := by
  obtain ⟨e5, u5⟩ := glassMix_inUnit s ⟨0, 0, 0⟩ ⟨0, 0, 0⟩ hs zero_inUnit zero_inUnit
  obtain ⟨e4, u4⟩ := glassMix_inUnit s _ ⟨0, 0, 0⟩ hs u5 zero_inUnit
  obtain ⟨e3, u3⟩ := glassMix_inUnit s _ W hs u4 hW
  obtain ⟨e2, u2⟩ := glassMix_inUnit s _ ⟨0, 0, 0⟩ hs u3 zero_inUnit
  obtain ⟨e1, u1⟩ := glassMix_inUnit s _ W hs u2 hW
  obtain ⟨e0, -⟩ := glassMix_inUnit s ⟨0, 0, 0⟩ _ hs zero_inUnit u1
  rw [e0, e1, e2, e3, e4, e5]
  simp only [Vec3.mul, Vec3.smul, Vec3.mk.injEq]
  refine ⟨?_, ?_, ?_⟩ <;> ring

theorem reflectVec_dot_self (v n : Vec3 F) (hn : dot n n = 1) :
    dot (reflectVec v n) (reflectVec v n) = dot v v := by
  unfold reflectVec
  rw [dot_sub_smul_self, hn]
  ring

theorem reflectVec_dot_normal (v n : Vec3 F) (hn : dot n n = 1) :
    dot (reflectVec v n) n = -dot v n := by
  simp only [reflectVec, dot, Vec3.sub, Vec3.smul] at hn ⊢
  linear_combination (-2 * (v.x * n.x + v.y * n.y + v.z * n.z)) * hn

theorem reflectVec_tangent (v n : Vec3 F) (hn : dot n n = 1) :
    (reflectVec v n).sub (n.smul (dot (reflectVec v n) n)) = v.sub (n.smul (dot v n)) := by
  rw [reflectVec_dot_normal v n hn]
  simp only [reflectVec, dot, Vec3.sub, Vec3.smul, Vec3.mk.injEq]
  refine ⟨?_, ?_, ?_⟩ <;> ring

theorem reflectVec_involution (v n : Vec3 F) (hn : dot n n = 1) :
    reflectVec (reflectVec v n) n = v := by
  obtain ⟨vx, vy, vz⟩ := v
  simp only [reflectVec, dot, Vec3.sub, Vec3.smul, Vec3.mk.injEq] at hn ⊢
  refine ⟨?_, ?_, ?_⟩
  · linear_combination (4 * (vx * n.x + vy * n.y + vz * n.z) * n.x) * hn
  · linear_combination (4 * (vx * n.x + vy * n.y + vz * n.z) * n.y) * hn
  · linear_combination (4 * (vx * n.x + vy * n.y + vz * n.z) * n.z) * hn

theorem schlick_eq (c n1 n2 : F) :
    schlick c n1 n2
      = schlickR0 n1 n2 + (1 - schlickR0 n1 n2) * (1 - clampS c 0 1) ^ 5 := by
  unfold schlick schlickR0
  ring

theorem schlickR0_lt_one (n1 n2 : F) (h1 : 0 < n1) (h2 : 0 < n2) :
    0 ≤ schlickR0 n1 n2 ∧ schlickR0 n1 n2 < 1 := by
  unfold schlickR0
  refine ⟨mul_self_nonneg _, ?_⟩
  have hs : 0 < n1 + n2 := add_pos h1 h2
  rw [div_mul_div_comm, div_lt_one (mul_pos hs hs)]
  nlinarith [mul_pos h1 h2]

theorem schlickR0_symm (n1 n2 : F) : schlickR0 n1 n2 = schlickR0 n2 n1 := by
  unfold schlickR0
  rw [div_mul_div_comm, div_mul_div_comm]
  congr 1 <;> ring

theorem dot_neg_left (a b : Vec3 F) : dot a.neg b = -dot a b := by
  simp only [dot, Vec3.neg]
  ring

theorem refract_perp_dot (I N : Vec3 F) (eta : F) (hI : dot I I = 1) (hN : dot N N = 1) :
    dot ((I.add (N.smul (-dot I N))).smul eta) ((I.add (N.smul (-dot I N))).smul eta)
      = eta * eta * (1 - dot I N * dot I N) := by
  rw [dot_smul_smul, dot_add_smul_self, hI, hN]
  ring

theorem refract_perp_normal (I N : Vec3 F) (eta : F) (hN : dot N N = 1) :
    dot ((I.add (N.smul (-dot I N))).smul eta) N = 0 := by
  simp only [dot, Vec3.add, Vec3.smul] at hN ⊢
  linear_combination (-(eta * (I.x * N.x + I.y * N.y + I.z * N.z))) * hN

theorem refractVec_eq (m : MathFns F) (I N : Vec3 F) (eta : F) (hI : dot I I = 1)
    (hN : dot N N = 1) :
    refractVec m I N eta
      = if specRefractK I N eta < 0 then none
        else some (((I.add (N.smul (-dot I N))).smul eta).add
          (N.smul (-(m.sqrt (specRefractK I N eta))))) := by
  have hcs : dot I N * dot I N ≤ 1 := by
    have := dot_mul_self_le I N
    rw [hI, hN] at this
    linarith
  have hle : -dot I N ≤ 1 := by nlinarith
  unfold refractVec
  simp only []
  rw [dot_neg_left, min_eq_left hle, refract_perp_dot I N eta hI hN]
  rfl

theorem mat3_cofactorInverse_mulVec (M : Mat3 F) (v : Vec3 F) (h : M.det ≠ 0) :
    (Mat3.cofactorInverse M).mulVec (M.mulVec v) = v := by
  obtain ⟨⟨a0, a1, a2⟩, ⟨b0, b1, b2⟩, ⟨c0, c1, c2⟩⟩ := M
  obtain ⟨x, y, z⟩ := v
  simp only [Mat3.det, dot, cross] at h
  simp only [Mat3.cofactorInverse, Mat3.mulVec, Vec3.add, Vec3.smul, Vec3.sdiv, dot, cross,
    Vec3.mk.injEq]
  refine ⟨?_, ?_, ?_⟩ <;> (field_simp; ring)

theorem mat3_transpose_dot (A : Mat3 F) (n w : Vec3 F) :
    dot (A.transpose.mulVec n) w = dot n (A.mulVec w) := by
  simp only [Mat3.transpose, Mat3.mulVec, Vec3.add, Vec3.smul, dot]
  ring

theorem dot_neg_right (a b : Vec3 F) : dot a b.neg = -dot a b := by
  simp only [dot, Vec3.neg]
  ring

theorem oriented_against (d n : Vec3 F) :
    dot d (if decide (dot d n < 0) = true then n else n.neg) ≤ 0 := by
  by_cases h : dot d n < 0
  · simp only [h, decide_True, if_true]
    exact le_of_lt h
  · simp only [h, decide_False, Bool.false_eq_true, if_false]
    rw [dot_neg_right]
    linarith [not_lt.mp h]

theorem sphereHit_normals (m : MathFns F) (o d : Vec3 F) (s : RTSphere F) (t : F) :
    ((sphereHit m o d s t).frontFace = true ↔
        dot d (normalize m ((sphereHit m o d s t).p.sub s.center)) < 0) ∧
    (sphereHit m o d s t).nGeom
      = (if (sphereHit m o d s t).frontFace = true then
          normalize m ((sphereHit m o d s t).p.sub s.center)
         else (normalize m ((sphereHit m o d s t).p.sub s.center)).neg) ∧
    dot d (sphereHit m o d s t).nGeom ≤ 0 := by
  refine ⟨?_, rfl, oriented_against d _⟩
  show decide (dot d (normalize m ((o.add (d.smul t)).sub s.center)) < 0) = true ↔ _
  exact decide_eq_true_iff

theorem intersectSphere_sphereHit (m : MathFns F) (o d : Vec3 F) (s : RTSphere F)
    (h : HitInfo F) (hh : intersectSphere m o d s = some h) :
    ∃ t, h = sphereHit m o d s t := by
  rw [intersectSphere_eq] at hh
  split_ifs at hh
  · exact ⟨_, (Option.some.inj hh).symm⟩
  · exact ⟨_, (Option.some.inj hh).symm⟩

theorem glassIor_pos (mat : Material F) :
    0 < glassIor mat ∧ (mat.refractiveIndex ≤ 1 / 10000 → glassIor mat = 3 / 2) ∧
    (1 / 10000 < mat.refractiveIndex → glassIor mat = mat.refractiveIndex) := by
  unfold glassIor
  refine ⟨?_, fun h => ?_, fun h => ?_⟩
  · split_ifs with h
    · exact lt_trans (by norm_num) h
    · norm_num
  · rw [if_neg (not_lt.mpr h)]
  · rw [if_pos h]

theorem nestedCalls_env (m : MathFns F) (meshes : List (RTMesh F))
    (spheres : List (RTSphere F)) (c c2 : RayCall F)
    (h : c2 ∈ nestedCalls m meshes spheres c) :
    c2.environmentIor = c.environmentIor ∨
      ∃ hit : HitInfo F, c2.environmentIor
        = if hit.frontFace = true then glassIor hit.material else 1 := by
  unfold nestedCalls at h
  simp only [] at h
  split_ifs at h with h1
  · exact absurd h (List.not_mem_nil _)
  · cases hi : intersectScene m c.origin c.dirUnit meshes spheres (decide (c.depth = 0)) with
    | none => rw [hi] at h; exact absurd h (List.not_mem_nil _)
    | some hit =>
      rw [hi] at h
      simp only [] at h
      by_cases h2 : hit.hitLight = true
      · rw [if_pos h2] at h; exact absurd h (List.not_mem_nil _)
      · rw [if_neg h2] at h
        by_cases h3 : hit.material.isMirror = true ∧ hit.material.reflectivity > 0
        · rw [if_pos h3] at h
          rw [List.mem_singleton.mp h]
          exact Or.inl rfl
        · rw [if_neg h3] at h
          by_cases h4 : hit.material.isTransparent = true ∧ hit.material.transparency > 0
          · rw [if_pos h4] at h
            rcases List.mem_cons.mp h with h5 | h5
            · rw [h5]; exact Or.inl rfl
            · cases hT : refractVec m c.dirUnit hit.nGeom
                  ((refractionIndices c.environmentIor hit).1
                    / (refractionIndices c.environmentIor hit).2) with
              | none => rw [hT] at h5; exact absurd h5 (List.not_mem_nil _)
              | some T =>
                rw [hT] at h5
                rw [List.mem_singleton.mp h5]
                exact Or.inr ⟨hit, rfl⟩
          · rw [if_neg h4] at h; exact absurd h (List.not_mem_nil _)

theorem reachable_env_pos (m : MathFns F) (meshes : List (RTMesh F))
    (spheres : List (RTSphere F)) (root c : RayCall F) (hroot : 0 < root.environmentIor)
    (hreach : Reachable m meshes spheres root c) : 0 < c.environmentIor := by
  induction hreach with
  | root => exact hroot
  | step c c2 _ hmem ih =>
    rcases nestedCalls_env m meshes spheres c c2 hmem with h | ⟨hit, h⟩
    · rw [h]; exact ih
    · rw [h]
      split_ifs
      · exact (glassIor_pos hit.material).1
      · exact one_pos

/-- The calls of `nestedCalls` are the calls an activation of `traceRay` waits for: it
returns exactly when each of them returns. -/
theorem traceRay_returns_iff_nested (m : MathFns F) (meshes : List (RTMesh F))
    (spheres : List (RTSphere F)) (lights : List (Light F)) (scene : Scene F) (fuel : Nat)
    (c : RayCall F) :
    (∃ col, traceRay m (fuel + 1) c.origin c.dirUnit meshes spheres lights scene c.depth
        c.environmentIor = some col) ↔
      ∀ c2 ∈ nestedCalls m meshes spheres c,
        ∃ col2, traceRay m fuel c2.origin c2.dirUnit meshes spheres lights scene c2.depth
          c2.environmentIor = some col2 := by
  rw [traceRay]
  unfold nestedCalls
  simp only []
  by_cases h1 : c.depth ≥ MAX_DEPTH
  · simp [h1]
  · rw [if_neg h1, if_neg h1]
    cases hi : intersectScene m c.origin c.dirUnit meshes spheres (decide (c.depth = 0)) with
    | none => simp
    | some hit =>
      simp only []
      by_cases h2 : hit.hitLight = true
      · simp [h2]
      · rw [if_neg h2, if_neg h2]
        by_cases h3 : hit.material.isMirror = true ∧ hit.material.reflectivity > 0
        · rw [if_pos h3, if_pos h3]
          cases hr : traceRay m fuel (offsetOrigin hit.p hit.nGeom
            (normalize m (reflectVec c.dirUnit hit.nGeom)))
            (normalize m (reflectVec c.dirUnit hit.nGeom)) meshes spheres lights scene
            (c.depth + 1) c.environmentIor <;> simp [hr]
        · rw [if_neg h3, if_neg h3]
          by_cases h4 : hit.material.isTransparent = true ∧ hit.material.transparency > 0
          · rw [if_pos h4, if_pos h4]
            cases hr : traceRay m fuel (offsetOrigin hit.p hit.nGeom
              (normalize m (reflectVec c.dirUnit hit.nGeom)))
              (normalize m (reflectVec c.dirUnit hit.nGeom)) meshes spheres lights scene
              (c.depth + 1) c.environmentIor with
            | none => simp [hr]
            | some refl =>
              cases hT : refractVec m c.dirUnit hit.nGeom
                  ((refractionIndices c.environmentIor hit).1
                    / (refractionIndices c.environmentIor hit).2) with
              | none => simp [hr]
              | some T =>
                simp only []
                cases hr2 : traceRay m fuel (offsetOrigin hit.p hit.nGeom (normalize m T))
                  (normalize m T) meshes spheres lights scene (c.depth + 1)
                  (if hit.frontFace = true then glassIor hit.material else 1) <;>
                  simp [hr, hr2]
          · simp [h4]

theorem getViewMatrix_eq (m : MathFns F) (cam : Camera F) :
    getViewMatrix m cam
      = ⟨⟨(viewX m cam).x, (viewY m cam).x, (viewZ m cam).x, 0⟩,
         ⟨(viewX m cam).y, (viewY m cam).y, (viewZ m cam).y, 0⟩,
         ⟨(viewX m cam).z, (viewY m cam).z, (viewZ m cam).z, 0⟩,
         ⟨-(dot (viewX m cam) cam.position), -(dot (viewY m cam) cam.position),
          -(dot (viewZ m cam) cam.position), 1⟩⟩ := rfl

theorem view_mulVec_point (m : MathFns F) (cam : Camera F) (v : Vec3 F) :
    (getViewMatrix m cam).mulVec (v.withW 1)
      = ⟨dot (viewX m cam) (v.sub cam.position), dot (viewY m cam) (v.sub cam.position),
         dot (viewZ m cam) (v.sub cam.position), 1⟩ := by
  rw [getViewMatrix_eq]
  simp only [Mat4.mulVec, Vec3.withW, dot, Vec3.sub, Vec4.mk.injEq]
  refine ⟨?_, ?_, ?_, ?_⟩ <;> ring

theorem view_mulVec_dir (m : MathFns F) (cam : Camera F) (v : Vec3 F) :
    (getViewMatrix m cam).mulVec (v.withW 0)
      = ⟨dot (viewX m cam) v, dot (viewY m cam) v, dot (viewZ m cam) v, 0⟩ := by
  rw [getViewMatrix_eq]
  simp only [Mat4.mulVec, Vec3.withW, dot, Vec4.mk.injEq]
  refine ⟨?_, ?_, ?_, ?_⟩ <;> ring

theorem vec_eq_zero_of_dot_self (w : Vec3 F) (h : dot w w = 0) : w = ⟨0, 0, 0⟩ := by
  obtain ⟨a, b, c⟩ := w
  simp only [dot] at h
  have ha : a = 0 := by nlinarith [mul_self_nonneg a, mul_self_nonneg b, mul_self_nonneg c]
  have hb : b = 0 := by nlinarith [mul_self_nonneg a, mul_self_nonneg b, mul_self_nonneg c]
  have hc : c = 0 := by nlinarith [mul_self_nonneg a, mul_self_nonneg b, mul_self_nonneg c]
  rw [ha, hb, hc]

theorem dot_self_ne_zero (w : Vec3 F) (h : w ≠ ⟨0, 0, 0⟩) : dot w w ≠ 0 :=
  fun h0 => h (vec_eq_zero_of_dot_self w h0)

theorem cross_smul_right (a b : Vec3 F) (k : F) : cross a (b.smul k) = (cross a b).smul k := by
  simp only [cross, Vec3.smul, Vec3.mk.injEq]
  refine ⟨?_, ?_, ?_⟩ <;> ring

theorem dot_cross_right (a b : Vec3 F) : dot (cross a b) b = 0 := by
  simp only [dot, cross]
  ring

theorem dot_cross_left (a b : Vec3 F) : dot (cross a b) a = 0 := by
  simp only [dot, cross]
  ring

theorem dot_smul_left (a b : Vec3 F) (k : F) : dot (a.smul k) b = dot a b * k := by
  simp only [dot, Vec3.smul]
  ring

theorem dot_comm (a b : Vec3 F) : dot a b = dot b a := by
  simp only [dot]
  ring

theorem cross_dot_self (a b : Vec3 F) :
    dot (cross a b) (cross a b) = dot a a * dot b b - dot a b * dot a b := by
  simp only [dot, cross]
  ring

theorem exactSqrt_pos (m : MathFns F) (x : F) (h : ExactSqrtAt m x) (hx : x ≠ 0) :
    0 < m.sqrt x := by
  obtain ⟨h0, h2⟩ := h
  rcases lt_or_eq_of_le h0 with h1 | h1
  · exact h1
  · exfalso
    apply hx
    rw [← h2, ← h1]
    ring

/-- The frame of the view matrix is orthonormal when `up` is not parallel to
`position - target` and the square root is exact at the two squared lengths. -/
theorem view_frame (m : MathFns F) (cam : Camera F)
    (hnp : cross cam.up (cam.position.sub cam.target) ≠ ⟨0, 0, 0⟩)
    (hz : ExactSqrtAt m (dot (cam.position.sub cam.target) (cam.position.sub cam.target)))
    (hx : ExactSqrtAt m (dot (cross cam.up (viewZ m cam)) (cross cam.up (viewZ m cam)))) :
    dot (viewX m cam) (viewX m cam) = 1 ∧ dot (viewY m cam) (viewY m cam) = 1 ∧
    dot (viewZ m cam) (viewZ m cam) = 1 ∧ dot (viewX m cam) (viewY m cam) = 0 ∧
    dot (viewX m cam) (viewZ m cam) = 0 ∧ dot (viewY m cam) (viewZ m cam) = 0 ∧
    0 < m.sqrt (dot (cam.position.sub cam.target) (cam.position.sub cam.target)) := by
  have hw : cam.position.sub cam.target ≠ ⟨0, 0, 0⟩ := by
    intro h0
    apply hnp
    rw [h0]
    simp [cross]
  have hww := dot_self_ne_zero _ hw
  have hs := exactSqrt_pos m _ hz hww
  have hZZ : dot (viewZ m cam) (viewZ m cam) = 1 := normalize_unit m _ hz hww
  have hc : cross cam.up (viewZ m cam) ≠ ⟨0, 0, 0⟩ := by
    unfold viewZ normalize
    rw [cross_smul_right]
    intro h0
    apply hnp
    have hk : (1 / m.sqrt (dot (cam.position.sub cam.target) (cam.position.sub cam.target)))
        ≠ 0 := one_div_ne_zero (ne_of_gt hs)
    have hx0 := congrArg Vec3.x h0
    have hy0 := congrArg Vec3.y h0
    have hz0 := congrArg Vec3.z h0
    simp only [Vec3.smul] at hx0 hy0 hz0
    have e1 := (mul_eq_zero.mp hx0).resolve_right hk
    have e2 := (mul_eq_zero.mp hy0).resolve_right hk
    have e3 := (mul_eq_zero.mp hz0).resolve_right hk
    cases hcr : cross cam.up (cam.position.sub cam.target) with
    | mk a b c =>
      rw [hcr] at e1 e2 e3
      simp only at e1 e2 e3
      rw [e1, e2, e3]
  have hcc := dot_self_ne_zero _ hc
  have hXX : dot (viewX m cam) (viewX m cam) = 1 := normalize_unit m _ hx hcc
  have hXZ : dot (viewX m cam) (viewZ m cam) = 0 := by
    unfold viewX normalize
    rw [dot_smul_left, dot_cross_right, zero_mul]
  have hYZ : dot (viewY m cam) (viewZ m cam) = 0 := dot_cross_left _ _
  have hYX : dot (viewY m cam) (viewX m cam) = 0 := dot_cross_right _ _
  have hYY : dot (viewY m cam) (viewY m cam) = 1 := by
    unfold viewY
    rw [cross_dot_self, hZZ, hXX, dot_comm (viewZ m cam) (viewX m cam), hXZ]
    ring
  exact ⟨hXX, hYY, hZZ, by rw [dot_comm]; exact hYX, hXZ, hYZ, hs⟩

theorem frame_complete (x z v w : Vec3 F) (hx : dot x x = 1) (hz : dot z z = 1)
    (hxz : dot x z = 0) :
    dot x v * dot x w + dot (cross z x) v * dot (cross z x) w + dot z v * dot z w
      = dot v w := by
  simp only [dot, cross] at hx hz hxz ⊢
  linear_combination
    ((x.x * x.x + x.y * x.y + x.z * x.z) * (v.x * w.x + v.y * w.y + v.z * w.z)
      - (x.x * w.x + x.y * w.y + x.z * w.z) * (x.x * v.x + x.y * v.y + x.z * v.z)) * hz
    + ((v.x * w.x + v.y * w.y + v.z * w.z)
      - (z.x * w.x + z.y * w.y + z.z * w.z) * (z.x * v.x + z.y * v.y + z.z * v.z)) * hx
    + ((z.x * w.x + z.y * w.y + z.z * w.z) * (x.x * v.x + x.y * v.y + x.z * v.z)
      - (x.x * z.x + x.y * z.y + x.z * z.z) * (v.x * w.x + v.y * w.y + v.z * w.z)
      + (x.x * w.x + x.y * w.y + x.z * w.z) * (z.x * v.x + z.y * v.y + z.z * v.z)) * hxz

theorem frame_det (a b c : Vec3 F) (p q r : F) :
    (⟨⟨a.x, b.x, c.x, 0⟩, ⟨a.y, b.y, c.y, 0⟩, ⟨a.z, b.z, c.z, 0⟩, ⟨p, q, r, 1⟩⟩ : Mat4 F).det
      = dot a (cross b c) := by
  have h3 : ((3 : Fin 4) : ℕ) = 3 := rfl
  have h2 : ((2 : Fin 4) : ℕ) = 2 := rfl
  simp only [Mat4.det, Mat4.cofactor, Mat4.minor, Mat4.entry, Vec4.get, otherIndices, dot,
    cross, Fin.val_zero, Fin.val_one, h3, h2, mul_zero, zero_mul, mul_one, one_mul, add_zero,
    zero_add, sub_zero, zero_sub, neg_zero]
  norm_num
  ring

theorem dot_triple_frame (x z : Vec3 F) :
    dot x (cross (cross z x) z) = dot x x * dot z z - dot x z * dot x z := by
  simp only [dot, cross]
  ring

theorem view_det (m : MathFns F) (cam : Camera F)
    (hX : dot (viewX m cam) (viewX m cam) = 1) (hZ : dot (viewZ m cam) (viewZ m cam) = 1)
    (hXZ : dot (viewX m cam) (viewZ m cam) = 0) : (getViewMatrix m cam).det = 1 := by
  rw [getViewMatrix_eq, frame_det]
  unfold viewY
  rw [dot_triple_frame, hX, hZ, hXZ]
  ring

theorem view_linear_mulVec (m : MathFns F) (cam : Camera F) (v : Vec3 F) :
    (getViewMatrix m cam).linear.mulVec v
      = ⟨dot (viewX m cam) v, dot (viewY m cam) v, dot (viewZ m cam) v⟩ := by
  rw [getViewMatrix_eq]
  simp only [Mat4.linear, Mat3.mulVec, Vec4.xyz, Vec3.add, Vec3.smul, dot, Vec3.mk.injEq]

theorem exactSqrt_one (m : MathFns F) (h : ExactSqrtAt m 1) : m.sqrt 1 = 1 := by
  obtain ⟨h0, h2⟩ := h
  have h3 : (m.sqrt 1 - 1) * (m.sqrt 1 + 1) = 0 := by linear_combination h2
  rcases mul_eq_zero.mp h3 with h4 | h4
  · linarith
  · linarith

theorem viewZ_smul (m : MathFns F) (cam : Camera F)
    (hs : 0 < m.sqrt (dot (cam.position.sub cam.target) (cam.position.sub cam.target))) :
    cam.target.sub cam.position
      = (viewZ m cam).smul
          (-(m.sqrt (dot (cam.position.sub cam.target) (cam.position.sub cam.target)))) := by
  unfold viewZ normalize
  generalize m.sqrt (dot (cam.position.sub cam.target) (cam.position.sub cam.target)) = s
    at hs ⊢
  have hne := ne_of_gt hs
  simp only [Vec3.smul, Vec3.sub, Vec3.mk.injEq]
  refine ⟨?_, ?_, ?_⟩ <;> (field_simp; ring)

theorem dot_sub_swap (a b : Vec3 F) : dot (a.sub b) (a.sub b) = dot (b.sub a) (b.sub a) := by
  simp only [dot, Vec3.sub]
  ring

theorem centre_ndc (x : Nat) : 2 * ((x : F) + 1 / 2) / ((2 * x + 1 : Nat) : F) - 1 = 0 := by
  have h : (2 * (x : F) + 1) ≠ 0 := by positivity
  push_cast
  field_simp
  ring

theorem centre_ndc_y (y : Nat) : 1 - 2 * ((y : F) + 1 / 2) / ((2 * y + 1 : Nat) : F) = 0 := by
  have h : (2 * (y : F) + 1) ≠ 0 := by positivity
  push_cast
  field_simp
  ring

/-- The vector that the centre pixel's ray normalises is the negated `zaxis`, when the
inverse view matrix undoes the view matrix. -/
theorem centre_world_vector (m : MathFns F) (cam : Camera F) (invView : Mat4 F)
    (aspect scale : F) (x y : Nat) (h1 : m.sqrt 1 = 1)
    (hZ : dot (viewZ m cam) (viewZ m cam) = 1) (hXZ : dot (viewX m cam) (viewZ m cam) = 0)
    (hYZ : dot (viewY m cam) (viewZ m cam) = 0)
    (hinv : invView.mul (getViewMatrix m cam) = Mat4.identity) :
    primaryWorldVector m invView aspect scale (2 * x + 1) (2 * y + 1) x y
      = (viewZ m cam).neg := by
  have hv : (getViewMatrix m cam).mulVec ((viewZ m cam).neg.withW 0) = ⟨0, 0, -1, 0⟩ := by
    rw [view_mulVec_dir, dot_neg_right, dot_neg_right, dot_neg_right, hXZ, hYZ, hZ]
    simp
  have hback : invView.mulVec ⟨0, 0, -1, 0⟩ = (viewZ m cam).neg.withW 0 := by
    rw [← hv, ← mat4_mulVec_mul, hinv, mat4_identity_mulVec]
  unfold primaryWorldVector
  rw [centre_ndc, centre_ndc_y]
  have hn : normalize m (⟨0 * (aspect * scale), 0 * scale, -1⟩ : Vec3 F) = ⟨0, 0, -1⟩ := by
    simp only [normalize, dot, Vec3.smul, zero_mul, mul_zero, add_zero, zero_add, neg_mul_neg,
      mul_one, h1, div_one]
  rw [hn]
  have hw : ((⟨0, 0, -1⟩ : Vec3 F).withW 0) = ⟨0, 0, -1, 0⟩ := rfl
  rw [hw, hback]
  rfl

theorem normalize_axisX (m : MathFns F) (h1 : m.sqrt 1 = 1) :
    normalize m (⟨1, 0, 0⟩ : Vec3 F) = ⟨1, 0, 0⟩ := by
  simp [normalize, dot, Vec3.smul, h1]

theorem normalize_axisY (m : MathFns F) (h1 : m.sqrt 1 = 1) :
    normalize m (⟨0, 1, 0⟩ : Vec3 F) = ⟨0, 1, 0⟩ := by
  simp [normalize, dot, Vec3.smul, h1]

theorem normalize_axisZ (m : MathFns F) (h1 : m.sqrt 1 = 1) :
    normalize m (⟨0, 0, 1⟩ : Vec3 F) = ⟨0, 0, 1⟩ := by
  simp [normalize, dot, Vec3.smul, h1]

/-- About the `x` axis `rotationAroundAxis` is `rotationX` with the sign of the sine
reversed, for every angle. -/
theorem rotationAroundAxis_axisX (m : MathFns F) (g : SetupFns F) (angle : F)
    (h1 : m.sqrt 1 = 1) :
    rotationAroundAxis m g ⟨1, 0, 0⟩ angle
      = ⟨⟨1, 0, 0, 0⟩, ⟨0, g.cos angle, -(g.sin angle), 0⟩,
         ⟨0, g.sin angle, g.cos angle, 0⟩, ⟨0, 0, 0, 1⟩⟩ := by
  unfold rotationAroundAxis
  rw [normalize_axisX m h1]
  simp

/-- About the `y` axis `rotationAroundAxis` is `rotationY` with the sign of the sine
reversed, for every angle. -/
theorem rotationAroundAxis_axisY (m : MathFns F) (g : SetupFns F) (angle : F)
    (h1 : m.sqrt 1 = 1) :
    rotationAroundAxis m g ⟨0, 1, 0⟩ angle
      = ⟨⟨g.cos angle, 0, g.sin angle, 0⟩, ⟨0, 1, 0, 0⟩,
         ⟨-(g.sin angle), 0, g.cos angle, 0⟩, ⟨0, 0, 0, 1⟩⟩ := by
  unfold rotationAroundAxis
  rw [normalize_axisY m h1]
  simp

/-- About the `z` axis `rotationAroundAxis` is `rotationZ` with the sign of the sine
reversed, for every angle. -/
theorem rotationAroundAxis_axisZ (m : MathFns F) (g : SetupFns F) (angle : F)
    (h1 : m.sqrt 1 = 1) :
    rotationAroundAxis m g ⟨0, 0, 1⟩ angle
      = ⟨⟨g.cos angle, -(g.sin angle), 0, 0⟩, ⟨g.sin angle, g.cos angle, 0, 0⟩,
         ⟨0, 0, 1, 0⟩, ⟨0, 0, 0, 1⟩⟩ := by
  unfold rotationAroundAxis
  rw [normalize_axisZ m h1]
  simp

/-! ### Head-on passage through glass -/

theorem vec3_neg_neg (d : Vec3 F) : d.neg.neg = d := by
  simp [Vec3.neg]

theorem dot_neg_neg (a b : Vec3 F) : dot a.neg b.neg = dot a b := by
  simp only [dot, Vec3.neg]
  ring

theorem normalize_of_unit (m : MathFns F) (v : Vec3 F) (h1 : m.sqrt 1 = 1)
    (hv : dot v v = 1) : normalize m v = v := by
  unfold normalize
  rw [hv, h1]
  simp [Vec3.smul]

theorem reflectVec_head_on (d : Vec3 F) (hd : dot d d = 1) : reflectVec d d.neg = d.neg := by
  simp only [reflectVec, dot, Vec3.neg, Vec3.sub, Vec3.smul, Vec3.mk.injEq] at hd ⊢
  refine ⟨?_, ?_, ?_⟩
  · linear_combination (-2 * d.x) * hd
  · linear_combination (-2 * d.y) * hd
  · linear_combination (-2 * d.z) * hd

theorem offsetOrigin_back (p d : Vec3 F) (hd : dot d d = 1) :
    offsetOrigin p d.neg d.neg = p.add (d.neg.smul EPS) := by
  unfold offsetOrigin
  rw [dot_neg_neg, hd, if_pos one_pos]

theorem offsetOrigin_through (p d : Vec3 F) (hd : dot d d = 1) :
    offsetOrigin p d.neg d = p.add (d.smul EPS) := by
  unfold offsetOrigin
  have h : ¬ dot d d.neg > 0 := by
    rw [dot_neg_right, hd]
    norm_num
  rw [if_neg h]
  simp [Vec3.neg, Vec3.smul]

theorem refractVec_head_on (m : MathFns F) (d : Vec3 F) (eta : F) (h1 : m.sqrt 1 = 1)
    (hd : dot d d = 1) : refractVec m d d.neg eta = some d := by
  have hc : min (dot d.neg d.neg) 1 = (1 : F) := by
    rw [dot_neg_neg, hd, min_self]
  have hp : (d.add (d.neg.smul 1)).smul eta = (⟨0, 0, 0⟩ : Vec3 F) := by
    simp [Vec3.add, Vec3.neg, Vec3.smul]
  unfold refractVec
  simp only [hc, hp]
  have hk : (1 : F) - dot (⟨0, 0, 0⟩ : Vec3 F) ⟨0, 0, 0⟩ = 1 := by
    simp [dot]
  rw [hk, if_neg (by norm_num), h1]
  simp [Vec3.add, Vec3.neg, Vec3.smul]

theorem schlick_head_on (n1 n2 : F) : schlick 1 n1 n2 = schlickR0 n1 n2 := by
  rw [schlick_eq]
  have h : clampS (1 : F) 0 1 = 1 := by
    unfold clampS
    norm_num
  rw [h]
  ring

/-- The Fresnel weight of glass of index `3/2` struck head-on, from outside (index 1
around) or from inside (index `3/2` around): `1/25`. -/
theorem fresnelWeight_head_on (env : F) (d : Vec3 F) (hit : HitInfo F) (hd : dot d d = 1)
    (hn : hit.nGeom = d.neg) (hm : hit.material.isMirror = false)
    (hi : hit.material.refractiveIndex = 3 / 2)
    (henv : (env = 1 ∧ hit.frontFace = true) ∨ (env = 3 / 2 ∧ hit.frontFace = false)) :
    fresnelWeight env d hit = 1 / 25 := by
  have hm2 : ¬ (hit.material.isMirror = true ∧ hit.material.reflectivity > 0) := by
    rw [hm]
    exact fun h => Bool.false_ne_true h.1
  have hior : glassIor hit.material = 3 / 2 := by
    unfold glassIor
    rw [hi, if_pos (by norm_num)]
  have hc : clampS (dot d.neg hit.nGeom) 0 1 = (1 : F) := by
    rw [hn, dot_neg_neg, hd]
    unfold clampS
    norm_num
  rw [fresnelWeight_eq env d hit hm2, hc, schlick_head_on, hior]
  rcases henv with ⟨he, hf⟩ | ⟨he, hf⟩
  · rw [he, hf]
    unfold schlickR0 clampS
    norm_num
  · rw [he, hf]
    unfold schlickR0 clampS
    norm_num

/-- One activation of `traceRay` on glass (index `3/2`, transparency 1, not a mirror) struck
head-on: the result is `glassBlend` of the colours of the two nested calls. -/
theorem glass_head_on (m : MathFns F) (fuel : Nat) (o d : Vec3 F) (meshes : List (RTMesh F))
    (spheres : List (RTSphere F)) (lights : List (Light F)) (scene : Scene F) (depth : Int)
    (env : F) (hit : HitInfo F) (refl refr : Vec3 F)
    (h1 : m.sqrt 1 = 1) (hd : dot d d = 1) (hdepth : depth < MAX_DEPTH)
    (hhit : intersectScene m o d meshes spheres (decide (depth = 0)) = some hit)
    (hl : hit.hitLight = false) (hn : hit.nGeom = d.neg)
    (hm : hit.material.isMirror = false) (ht : hit.material.isTransparent = true)
    (htr : hit.material.transparency = 1) (hi : hit.material.refractiveIndex = 3 / 2)
    (henv : (env = 1 ∧ hit.frontFace = true) ∨ (env = 3 / 2 ∧ hit.frontFace = false))
    (hrefl : traceRay m fuel (hit.p.add (d.neg.smul EPS)) d.neg meshes spheres lights scene
      (depth + 1) env = some refl)
    (hrefr : traceRay m fuel (hit.p.add (d.smul EPS)) d meshes spheres lights scene
      (depth + 1) (if hit.frontFace = true then 3 / 2 else 1) = some refr) :
    traceRay m (fuel + 1) o d meshes spheres lights scene depth env
      = some (glassBlend hit.material.diffuseColor refl refr) := by
  have hm2 : ¬ (hit.material.isMirror = true ∧ hit.material.reflectivity > 0) := by
    rw [hm]
    exact fun h => Bool.false_ne_true h.1
  have ht2 : hit.material.isTransparent = true ∧ hit.material.transparency > 0 := by
    rw [htr]
    exact ⟨ht, one_pos⟩
  have hior : glassIor hit.material = 3 / 2 := by
    unfold glassIor
    rw [hi, if_pos (by norm_num)]
  have hR : normalize m (reflectVec d hit.nGeom) = d.neg := by
    rw [hn, reflectVec_head_on d hd]
    exact normalize_of_unit m _ h1 (by rw [dot_neg_neg, hd])
  have hT : normalize m d = d := normalize_of_unit m d h1 hd
  have h := traceRay_glass_refract m fuel o d meshes spheres lights scene depth env hit
    hdepth hhit hl hm2 ht2 refl d refr
    (by rw [hR, hn, offsetOrigin_back _ d hd]; exact hrefl)
    (by rw [hn]; exact refractVec_head_on m d _ h1 hd)
    (by rw [hT, hn, offsetOrigin_through _ d hd, hior]; exact hrefr)
  have e1 : clampS hit.material.transparency 0 1 = 1 := by
    rw [htr]
    unfold clampS
    norm_num
  rw [h, fresnelWeight_head_on env d hit hd hn hm hi henv, e1, smul_zero_add_smul_one]
  rfl

theorem blend_channel (s r t : F) (hs : 0 ≤ s ∧ s ≤ 1) (hr : 0 ≤ r ∧ r ≤ 1)
    (ht : 0 ≤ t ∧ t ≤ 1) :
    min (max (r * (1 / 25) + t * s * (1 - 1 / 25)) 0) 1 = r * (1 / 25) + t * s * (24 / 25) ∧
    0 ≤ r * (1 / 25) + t * s * (24 / 25) ∧ r * (1 / 25) + t * s * (24 / 25) ≤ 1 := by
  have h1 : 0 ≤ t * s := mul_nonneg ht.1 hs.1
  have h2 : t * s ≤ 1 := by
    have := mul_le_mul ht.2 hs.2 hs.1 (by norm_num : (0 : F) ≤ 1)
    linarith
  have e : r * (1 / 25) + t * s * (1 - 1 / 25) = r * (1 / 25) + t * s * (24 / 25) := by ring
  have h3 : 0 ≤ r * (1 / 25) + t * s * (24 / 25) := by linarith [hr.1]
  have h4 : r * (1 / 25) + t * s * (24 / 25) ≤ 1 := by linarith [hr.2]
  rw [e, max_eq_left h3, min_eq_left h4]
  exact ⟨rfl, h3, h4⟩

theorem glassBlend_inUnit (s refl refr : Vec3 F) (hs : s.InUnit) (hr : refl.InUnit)
    (ht : refr.InUnit) :
    glassBlend s refl refr
        = ⟨refl.x * (1 / 25) + refr.x * s.x * (24 / 25),
           refl.y * (1 / 25) + refr.y * s.y * (24 / 25),
           refl.z * (1 / 25) + refr.z * s.z * (24 / 25)⟩ ∧
      (glassBlend s refl refr).InUnit := by
  obtain ⟨hx, hx1, hx2⟩ := blend_channel s.x refl.x refr.x hs.1 hr.1 ht.1
  obtain ⟨hy, hy1, hy2⟩ := blend_channel s.y refl.y refr.y hs.2.1 hr.2.1 ht.2.1
  obtain ⟨hz, hz1, hz2⟩ := blend_channel s.z refl.z refr.z hs.2.2 hr.2.2 ht.2.2
  have e : glassBlend s refl refr
      = ⟨refl.x * (1 / 25) + refr.x * s.x * (24 / 25),
         refl.y * (1 / 25) + refr.y * s.y * (24 / 25),
         refl.z * (1 / 25) + refr.z * s.z * (24 / 25)⟩ := by
    simp only [glassBlend, Vec3.clamp, Vec3.add, Vec3.smul, Vec3.mul, Vec3.mk.injEq]
    exact ⟨hx, hy, hz⟩
  refine ⟨e, ?_⟩
  rw [e]
  exact ⟨⟨hx1, hx2⟩, ⟨hy1, hy2⟩, ⟨hz1, hz2⟩⟩

/-- The colour of the centre ray is affine in the wall's colour, with the weight
`360576/390625 = (24/25)² (1 + 1/625)` times the square of the glass colour. -/
theorem centreRayColour_affine (s B W : Vec3 F) (hs : s.InUnit) (hB : B.InUnit)
    (hW : W.InUnit) :
    centreRayColour s B W
      = (((s.mul s).mul W).smul (360576 / 390625)).add
          ⟨B.x * (1 / 25) + B.x * s.x * s.x * (24 / 25) ^ 2 * (1 / 25)
              + B.x * s.x * s.x * (24 / 25) ^ 2 * (1 / 25) ^ 3
              + B.x * s.x * (24 / 25) * (1 / 25) ^ 5
              + B.x * s.x * s.x * (24 / 25) ^ 2 * (1 / 25) ^ 4,
           B.y * (1 / 25) + B.y * s.y * s.y * (24 / 25) ^ 2 * (1 / 25)
              + B.y * s.y * s.y * (24 / 25) ^ 2 * (1 / 25) ^ 3
              + B.y * s.y * (24 / 25) * (1 / 25) ^ 5
              + B.y * s.y * s.y * (24 / 25) ^ 2 * (1 / 25) ^ 4,
           B.z * (1 / 25) + B.z * s.z * s.z * (24 / 25) ^ 2 * (1 / 25)
              + B.z * s.z * s.z * (24 / 25) ^ 2 * (1 / 25) ^ 3
              + B.z * s.z * (24 / 25) * (1 / 25) ^ 5
              + B.z * s.z * s.z * (24 / 25) ^ 2 * (1 / 25) ^ 4⟩ := by
  unfold centreRayColour
  obtain ⟨e5, u5⟩ := glassBlend_inUnit s B B hs hB hB
  obtain ⟨e4, u4⟩ := glassBlend_inUnit s _ B hs u5 hB
  obtain ⟨e3, u3⟩ := glassBlend_inUnit s _ W hs u4 hW
  obtain ⟨e2, u2⟩ := glassBlend_inUnit s _ B hs u3 hB
  obtain ⟨e1, u1⟩ := glassBlend_inUnit s _ W hs u2 hW
  obtain ⟨e0, -⟩ := glassBlend_inUnit s B _ hs hB u1
  rw [e0, e1, e2, e3, e4, e5]
  simp only [Vec3.mul, Vec3.smul, Vec3.add, Vec3.mk.injEq]
  refine ⟨?_, ?_, ?_⟩ <;> ring

theorem weighted_eq_iff (x y z c : F) :
    x * x * y * (360576 / 390625) + c = x * x * z * (360576 / 390625) + c ↔
      (x = 0 ∨ y = z) := by
  constructor
  · intro h
    by_cases hx : x = 0
    · exact Or.inl hx
    · right
      have h2 : x * x * (y - z) = 0 := by linarith
      rcases mul_eq_zero.mp h2 with h3 | h3
      · exact absurd (mul_self_eq_zero.mp h3) hx
      · linarith
  · rintro (h | h)
    · rw [h]; ring
    · rw [h]

/-! ### The renderer over an arbitrary arithmetic -/

theorem fl_clamp_notOutside {R : Type} (A : FloatOps R)
    (h00 : A.lt (A.lit 0) (A.lit 0) = false) (h10 : A.lt (A.lit 1) (A.lit 0) = false)
    (h11 : A.lt (A.lit 1) (A.lit 1) = false) (x : R) :
    Fl.NotOutside A (Fl.fmin A (Fl.fmax A x (A.lit 0)) (A.lit 1)) := by
  have hf : ¬ (A.lt (A.lit 1) (A.lit 0) = true) := by rw [h10]; simp
  by_cases h1 : A.lt x (A.lit 0) = true
  · have e1 : Fl.fmax A x (A.lit 0) = A.lit 0 := if_pos h1
    have e2 : Fl.fmin A (A.lit 0) (A.lit 1) = A.lit 0 := if_neg hf
    rw [e1, e2]
    exact ⟨h00, h10⟩
  · have e1 : Fl.fmax A x (A.lit 0) = x := if_neg h1
    rw [e1]
    by_cases h2 : A.lt (A.lit 1) x = true
    · have e2 : Fl.fmin A x (A.lit 1) = A.lit 1 := if_pos h2
      rw [e2]
      exact ⟨h10, h11⟩
    · have e2 : Fl.fmin A x (A.lit 1) = x := if_neg h2
      rw [e2]
      exact ⟨Bool.eq_false_iff.mpr h1, Bool.eq_false_iff.mpr h2⟩

theorem fl_vclamp_notOutside {R : Type} (A : FloatOps R)
    (h00 : A.lt (A.lit 0) (A.lit 0) = false) (h10 : A.lt (A.lit 1) (A.lit 0) = false)
    (h11 : A.lt (A.lit 1) (A.lit 1) = false) (v : Vec3 R) :
    Fl.NotOutsideV A (Fl.vclamp A v (A.lit 0) (A.lit 1)) :=
  ⟨fl_clamp_notOutside A h00 h10 h11 v.x, fl_clamp_notOutside A h00 h10 h11 v.y,
    fl_clamp_notOutside A h00 h10 h11 v.z⟩

theorem fl_splat_one_notOutside {R : Type} (A : FloatOps R)
    (h10 : A.lt (A.lit 1) (A.lit 0) = false) (h11 : A.lt (A.lit 1) (A.lit 1) = false) :
    Fl.NotOutsideV A (Fl.splat A 1) :=
  ⟨⟨h10, h11⟩, ⟨h10, h11⟩, ⟨h10, h11⟩⟩

/-- A call of `Fl.traceRay` returns as soon as its bound exceeds `MAX_DEPTH - depth`; after
a hit below `MAX_DEPTH` no channel of the colour it returns is below `0` or above `1`. -/
theorem fl_traceRay_returns {R : Type} (A : FloatOps R)
    (h00 : A.lt (A.lit 0) (A.lit 0) = false) (h10 : A.lt (A.lit 1) (A.lit 0) = false)
    (h11 : A.lt (A.lit 1) (A.lit 1) = false) (meshes : List (RTMesh R))
    (spheres : List (RTSphere R)) (lights : List (Light R)) (scene : Scene R) (fuel : Nat) :
    ∀ (origin dirUnit : Vec3 R) (depth : Int) (environmentIor : R),
      (MAX_DEPTH - depth).toNat < fuel →
      ∃ c, Fl.traceRay A fuel origin dirUnit meshes spheres lights scene depth environmentIor
          = some c
        ∧ (depth < MAX_DEPTH →
            Fl.intersectScene A origin dirUnit meshes spheres (decide (depth = 0)) ≠ none →
            Fl.NotOutsideV A c) := by
  induction fuel with
  | zero => intro _ _ _ _ h; omega
  | succ n ih =>
    intro origin dirUnit depth environmentIor h
    rw [Fl.traceRay]
    by_cases hd : depth ≥ MAX_DEPTH
    · rw [if_pos hd]
      exact ⟨_, rfl, fun h1 => absurd hd (not_le.mpr h1)⟩
    · rw [if_neg hd]
      have hn : (MAX_DEPTH - (depth + 1)).toNat < n := by
        simp only [MAX_DEPTH] at *
        omega
      have rec := fun o d e => ih o d (depth + 1) e hn
      dsimp only
      cases hhit : Fl.intersectScene A origin dirUnit meshes spheres (decide (depth = 0)) with
      | none => exact ⟨_, rfl, fun _ h2 => absurd rfl h2⟩
      | some hit =>
        simp only []
        cases hl : hit.hitLight with
        | true =>
          simp only [if_true]
          exact ⟨_, rfl, fun _ _ => fl_splat_one_notOutside A h10 h11⟩
        | false =>
          simp only [Bool.false_eq_true, if_false]
          obtain ⟨refl, hrefl, -⟩ := rec
            (Fl.offsetOrigin A hit.p hit.nGeom
              (Fl.normalize A (Fl.reflectVec A dirUnit hit.nGeom)))
            (Fl.normalize A (Fl.reflectVec A dirUnit hit.nGeom)) environmentIor
          cases hm : (hit.material.isMirror && A.lt (A.lit 0) hit.material.reflectivity) with
          | true =>
            simp only [if_true, hrefl]
            exact ⟨_, rfl, fun _ _ => fl_vclamp_notOutside A h00 h10 h11 _⟩
          | false =>
            simp only [Bool.false_eq_true, if_false]
            cases ht : (hit.material.isTransparent
                && A.lt (A.lit 0) hit.material.transparency) with
            | true =>
              simp only [if_true, hrefl]
              cases hT : Fl.refractVec A dirUnit hit.nGeom
                (A.div environmentIor
                  (if hit.frontFace = true then
                    (if A.lt (A.lit (1 / 10000)) hit.material.refractiveIndex = true then
                      hit.material.refractiveIndex else A.lit (3 / 2))
                    else A.lit 1)) with
              | none =>
                simp only []
                exact ⟨_, rfl, fun _ _ => fl_vclamp_notOutside A h00 h10 h11 _⟩
              | some T =>
                simp only []
                obtain ⟨refr, hrefr, -⟩ := rec
                  (Fl.offsetOrigin A hit.p hit.nGeom (Fl.normalize A T)) (Fl.normalize A T)
                  (if hit.frontFace = true then
                    (if A.lt (A.lit (1 / 10000)) hit.material.refractiveIndex = true then
                      hit.material.refractiveIndex else A.lit (3 / 2))
                    else A.lit 1)
                simp only [hrefr]
                exact ⟨_, rfl, fun _ _ => fl_vclamp_notOutside A h00 h10 h11 _⟩
            | false =>
              simp only [Bool.false_eq_true, if_false]
              exact ⟨_, rfl, fun _ _ => fl_vclamp_notOutside A h00 h10 h11 _⟩

theorem f32_lit_zero : f32.lit 0 = F32.fin 0 := by decide!

theorem f32_lit_one : f32.lit 1 = F32.fin 1 := by decide!

/-- In binary32 a value is neither below `0` nor above `1` exactly when it is NaN or a
finite value in `[0, 1]`. -/
theorem f32_notOutside_iff (x : F32) :
    Fl.NotOutside f32 x ↔ (x = F32.nan ∨ ∃ q : ℚ, x = F32.fin q ∧ 0 ≤ q ∧ q ≤ 1) := by
  unfold Fl.NotOutside
  rw [f32_lit_zero, f32_lit_one]
  cases x with
  | nan => simp [f32, F32.lt]
  | inf s => cases s <;> simp [f32, F32.lt]
  | fin q => simp [f32, F32.lt]

/-- In exact arithmetic a value is neither below `0` nor above `1` exactly when it lies in
`[0, 1]`. -/
theorem exact_notOutside_iff (m : MathFns F) (x : F) :
    Fl.NotOutside (exactOps m) x ↔ (0 ≤ x ∧ x ≤ 1) := by
  simp [Fl.NotOutside, exactOps]

/-- Exact arithmetic is sign-symmetric. -/
theorem exact_signLaws (m : MathFns F) : Fl.SignLaws (exactOps m) := by
  refine ⟨?_, ?_, ?_, ?_⟩
  · intro x y
    simp [exactOps]
  · intro x y
    simp only [exactOps]
    ring
  · intro x
    simp [exactOps]
  · intro x h
    have h1 : x < 0 := by simpa [exactOps] using h
    have h2 : ¬ (0 < x) := by linarith
    simp [exactOps, h2]

theorem exact_lit (m : MathFns F) (q : ℚ) : (exactOps m).lit q = (q : F) := rfl

theorem fl_vsub_exact (m : MathFns F) (a b : Vec3 F) : Fl.vsub (exactOps m) a b = a.sub b := rfl

theorem fl_vadd_exact (m : MathFns F) (a b : Vec3 F) : Fl.vadd (exactOps m) a b = a.add b := rfl

theorem fl_vneg_exact (m : MathFns F) (a : Vec3 F) : Fl.vneg (exactOps m) a = a.neg := rfl

theorem fl_vscale_exact (m : MathFns F) (a : Vec3 F) (s : F) :
    Fl.vscale (exactOps m) a s = a.smul s := rfl

theorem fl_dot_exact (m : MathFns F) (a b : Vec3 F) : Fl.dot (exactOps m) a b = dot a b := rfl

theorem fl_cross_exact (m : MathFns F) (a b : Vec3 F) :
    Fl.cross (exactOps m) a b = cross a b := rfl

theorem fl_normalize_exact (m : MathFns F) (v : Vec3 F) :
    Fl.normalize (exactOps m) v = normalize m v := by
  simp [Fl.normalize, normalize, Fl.vscale, Fl.dot, dot, exactOps, Vec3.smul]

/-- In exact arithmetic `Fl.rayTri` is `rayTri`. -/
theorem fl_rayTri_exact (m : MathFns F) (o d v0 v1 v2 : Vec3 F) :
    Fl.rayTri (exactOps m) o d v0 v1 v2 = rayTri o d v0 v1 v2 := by
  unfold Fl.rayTri rayTri
  simp only [fl_vsub_exact, fl_cross_exact, fl_dot_exact, Fl.EPS_MT, EPS_MT]
  simp [exactOps]

/-- What a call of `Fl.rayTri` that returns true has tested and computed. -/
theorem fl_rayTri_some {R : Type} (A : FloatOps R) (o d v0 v1 v2 : Vec3 R) (t u v : R)
    (h : Fl.rayTri A o d v0 v1 v2 = some (t, u, v)) :
    A.lt (A.abs (Fl.rayTriDet A d v0 v1 v2)) (Fl.EPS_MT A) = false ∧
    u = A.mul (Fl.dot A (Fl.vsub A o v0) (Fl.cross A d (Fl.vsub A v2 v0)))
      (A.div (A.lit 1) (Fl.rayTriDet A d v0 v1 v2)) ∧
    v = A.mul (Fl.dot A d (Fl.cross A (Fl.vsub A o v0) (Fl.vsub A v1 v0)))
      (A.div (A.lit 1) (Fl.rayTriDet A d v0 v1 v2)) ∧
    t = A.mul (Fl.dot A (Fl.vsub A v2 v0) (Fl.cross A (Fl.vsub A o v0) (Fl.vsub A v1 v0)))
      (A.div (A.lit 1) (Fl.rayTriDet A d v0 v1 v2)) ∧
    A.lt u (A.lit 0) = false ∧ A.lt (A.lit 1) u = false ∧
    A.lt v (A.lit 0) = false ∧ A.lt (A.lit 1) (A.add u v) = false ∧
    A.lt (Fl.EPS_MT A) t = true := by
  unfold Fl.rayTri at h
  simp only [] at h
  unfold Fl.rayTriDet
  split at h
  · exact absurd h (by simp)
  · rename_i h1
    split at h
    · exact absurd h (by simp)
    · rename_i h2
      split at h
      · exact absurd h (by simp)
      · rename_i h3
        split at h
        · rename_i h4
          have e := Option.some.inj h
          simp only [Prod.mk.injEq] at e
          obtain ⟨et, eu, ev⟩ := e
          rw [Bool.or_eq_true, not_or] at h2 h3
          subst et eu ev
          exact ⟨Bool.eq_false_iff.mpr h1, rfl, rfl, rfl, Bool.eq_false_iff.mpr h2.1,
            Bool.eq_false_iff.mpr h2.2, Bool.eq_false_iff.mpr h3.1,
            Bool.eq_false_iff.mpr h3.2, h4⟩
        · exact absurd h (by simp)

theorem fl_rayTri_small_det {R : Type} (A : FloatOps R) (o d v0 v1 v2 : Vec3 R)
    (h : A.lt (A.abs (Fl.rayTriDet A d v0 v1 v2)) (Fl.EPS_MT A) = true) :
    Fl.rayTri A o d v0 v1 v2 = none := by
  unfold Fl.rayTriDet at h
  unfold Fl.rayTri
  simp only []
  rw [if_pos h]

theorem fl_sphereHit_exact (m : MathFns F) (o d : Vec3 F) (s : RTSphere F) (t : F) :
    Fl.sphereHit (exactOps m) o d s t = sphereHit m o d s t := by
  unfold Fl.sphereHit sphereHit
  simp only [fl_vsub_exact, fl_vadd_exact, fl_vscale_exact, fl_dot_exact, fl_vneg_exact,
    fl_normalize_exact]
  simp [exactOps]

/-- In exact arithmetic `Fl.intersectSphere` is `intersectSphere`. -/
theorem fl_intersectSphere_exact (m : MathFns F) (o d : Vec3 F) (s : RTSphere F) :
    Fl.intersectSphere (exactOps m) o d s = intersectSphere m o d s := by
  unfold Fl.intersectSphere intersectSphere
  simp only [fl_vsub_exact, fl_dot_exact, fl_sphereHit_exact, Fl.EPS, EPS]
  simp [exactOps]

/-- The control flow of `Fl.intersectSphere` in terms of the three values it computes. -/
theorem fl_intersectSphere_eq {R : Type} (A : FloatOps R) (o d : Vec3 R) (s : RTSphere R) :
    Fl.intersectSphere A o d s
      = if A.lt (Fl.sphereDisc A o d s) (A.lit 0) = true then none
        else if A.le (Fl.sphereNear A o d s) (Fl.EPS A) = true then
          (if A.le (Fl.sphereFar A o d s) (Fl.EPS A) = true then none
           else some (Fl.sphereHit A o d s (Fl.sphereFar A o d s)))
        else some (Fl.sphereHit A o d s (Fl.sphereNear A o d s)) := rfl

end Proofs

/-! ## The claims -/

section Claims

variable {F : Type} [LinearOrderedField F]

/-- C1: `traceRay` terminates for every scene, material configuration and starting depth.
A bound of `MAX_DEPTH - depth + 1` nested activations (the call itself included) is always
enough for the call to return: a call with `depth >= MAX_DEPTH` returns with bound 1, that is
without recursing, and a primary ray (`depth = 0`) returns with bound `MAX_DEPTH + 1 = 7`, that
is with at most `MAX_DEPTH` nested recursive calls below it. -/
theorem traceRay_terminates (m : MathFns F) (fuel : Nat) (origin dirUnit : Vec3 F)
    (meshes : List (RTMesh F)) (spheres : List (RTSphere F)) (lights : List (Light F))
    (scene : Scene F) (depth : Int) (environmentIor : F)
    (hfuel : (MAX_DEPTH - depth).toNat < fuel) :
    (traceRay m fuel origin dirUnit meshes spheres lights scene depth environmentIor).isSome
      = true := by
  obtain ⟨c, hc, -⟩ := traceRay_returns m meshes spheres lights scene fuel origin dirUnit depth
    environmentIor hfuel
  rw [hc]
  rfl

/-- A primary ray on the glass-and-mirror sphere returns within 7 nested activations. -/
theorem traceRay_terminates_witness :
    (MAX_DEPTH - 0).toNat < 7 ∧
    (traceRay ratMath 7 ⟨0, 0, 5⟩ ⟨0, 0, -1⟩ [] [glassMirrorSphere] [] whiteBackdrop 0 1).isSome
      = true :=
  ⟨by decide, traceRay_terminates ratMath 7 ⟨0, 0, 5⟩ ⟨0, 0, -1⟩ [] [glassMirrorSphere] []
    whiteBackdrop 0 1 (by decide)⟩

/-- C2 (amended): in every arithmetic in which `0 < 0`, `1 < 0` and `1 < 1` are false, a
call of `traceRay` that hits a primitive at `depth < MAX_DEPTH` returns, and no channel of
the colour it returns is below `0` or above `1`, whatever the material, the lights, the
ambient and the background colours are.  In exact arithmetic this says that every channel
lies in `[0, 1]`; in binary32 that every channel lies in `[0, 1]` or is NaN, which
`glm::clamp` passes through. -/
theorem traceRay_hit_not_outside {R : Type} (A : FloatOps R)
    (h00 : A.lt (A.lit 0) (A.lit 0) = false) (h10 : A.lt (A.lit 1) (A.lit 0) = false)
    (h11 : A.lt (A.lit 1) (A.lit 1) = false) (fuel : Nat) (origin dirUnit : Vec3 R)
    (meshes : List (RTMesh R)) (spheres : List (RTSphere R)) (lights : List (Light R))
    (scene : Scene R) (depth : Int) (environmentIor : R) (hit : HitInfo R)
    (hd : depth < MAX_DEPTH) (hfuel : (MAX_DEPTH - depth).toNat < fuel)
    (hhit : Fl.intersectScene A origin dirUnit meshes spheres (decide (depth = 0))
      = some hit) :
    (∃ c, Fl.traceRay A fuel origin dirUnit meshes spheres lights scene depth environmentIor
        = some c ∧ Fl.NotOutsideV A c) ∧
    (∀ (m : MathFns F) (x : F), Fl.NotOutside (exactOps m) x ↔ (0 ≤ x ∧ x ≤ 1)) ∧
    (∀ x : F32, Fl.NotOutside f32 x ↔ (x = F32.nan ∨ ∃ q : ℚ, x = F32.fin q ∧ 0 ≤ q ∧ q ≤ 1)) := by
  obtain ⟨c, hc, hu⟩ := fl_traceRay_returns A h00 h10 h11 meshes spheres lights scene fuel
    origin dirUnit depth environmentIor hfuel
  exact ⟨⟨c, hc, hu hd (by rw [hhit]; exact Option.some_ne_none hit)⟩,
    exact_notOutside_iff, f32_notOutside_iff⟩

/-- Witness of C2 in binary32: the primary ray from `(0, 0, 5)` that hits the matte unit
sphere under the light at `(0, 5, 0)` returns a colour with no channel outside `[0, 1]`. -/
theorem traceRay_hit_not_outside_witness :
    (f32.lt (f32.lit 0) (f32.lit 0) = false ∧ f32.lt (f32.lit 1) (f32.lit 0) = false ∧
      f32.lt (f32.lit 1) (f32.lit 1) = false ∧ (0 : Int) < MAX_DEPTH ∧
      (MAX_DEPTH - 0).toNat < 7 ∧
      (Fl.intersectScene f32 (Vec3.toF32 ⟨0, 0, 5⟩) (Vec3.toF32 ⟨0, 0, -1⟩) []
        [(unitSphere matteMat).toF32] (decide ((0 : Int) = 0))).map (fun h => (h.t, h.p))
        = some (F32.fin 4, Vec3.toF32 ⟨0, 0, 1⟩)) ∧
    ∃ c, Fl.traceRay f32 7 (Vec3.toF32 ⟨0, 0, 5⟩) (Vec3.toF32 ⟨0, 0, -1⟩) []
        [(unitSphere matteMat).toF32] [topLight.toF32] defaultScene.toF32 0 (F32.fin 1)
        = some c ∧ Fl.NotOutsideV f32 c :=
  ⟨by decide!,
   (traceRay_hit_not_outside (F := ℚ) f32 (by decide!) (by decide!) (by decide!) 7
      (Vec3.toF32 ⟨0, 0, 5⟩) (Vec3.toF32 ⟨0, 0, -1⟩) [] [(unitSphere matteMat).toF32]
      [topLight.toF32] defaultScene.toF32 0 (F32.fin 1)
      (Fl.sphereHit f32 (Vec3.toF32 ⟨0, 0, 5⟩) (Vec3.toF32 ⟨0, 0, -1⟩)
        (unitSphere matteMat).toF32 (F32.fin 4))
      (by decide) (by decide) (by decide!)).1⟩

/-- C2 fails as stated in binary32: the primary ray from `(0, 0, 128)` along `(0, 0, -1)`
hits the sphere of radius `1/64` at the origin; `r² = 2⁻¹²` is lost when it is subtracted
from `|o - c|² = 2¹⁴`, the discriminant is `0`, the hit is reported at `t = 128` with the
hit point at the centre, `glm::normalize` of the zero vector is NaN, and with the light at
`(0, 5, 0)` the colour returned is `(NaN, NaN, NaN)`: no channel lies in `[0, 1]`. -/
theorem traceRay_hit_nan :
    Fl.sphereDisc f32 (Vec3.toF32 ⟨0, 0, 128⟩) (Vec3.toF32 ⟨0, 0, -1⟩) tinySphere.toF32
      = F32.fin 0 ∧
    Fl.intersectScene f32 (Vec3.toF32 ⟨0, 0, 128⟩) (Vec3.toF32 ⟨0, 0, -1⟩) []
        [tinySphere.toF32] true
      = some { t := F32.fin 128, p := ⟨F32.fin 0, F32.fin 0, F32.fin 0⟩,
               nGeom := ⟨F32.nan, F32.nan, F32.nan⟩, nShade := ⟨F32.nan, F32.nan, F32.nan⟩,
               frontFace := false, hit := true, hitLight := false,
               material := matteMat.toF32 } ∧
    (0 : Int) < MAX_DEPTH ∧
    Fl.traceRay f32 (MAX_DEPTH.toNat + 1) (Vec3.toF32 ⟨0, 0, 128⟩) (Vec3.toF32 ⟨0, 0, -1⟩) []
        [tinySphere.toF32] [topLight.toF32] defaultScene.toF32 0 (F32.fin 1)
      = some ⟨F32.nan, F32.nan, F32.nan⟩ ∧
    f32.le (f32.lit 0) F32.nan = false ∧ f32.le F32.nan (f32.lit 1) = false := by
  decide!

/-- C3: `traceRay` returns exactly the scene's background colour when `depth >= MAX_DEPTH` or
when `intersectScene` reports no hit (already with bound 1, so without recursing); with empty
mesh and sphere lists it returns the background colour for every ray and every depth. -/
theorem traceRay_background (m : MathFns F) (fuel : Nat) (origin dirUnit : Vec3 F)
    (meshes : List (RTMesh F)) (spheres : List (RTSphere F)) (lights : List (Light F))
    (scene : Scene F) (depth : Int) (environmentIor : F) :
    (depth ≥ MAX_DEPTH ∨
        intersectScene m origin dirUnit meshes spheres (decide (depth = 0)) = none →
      traceRay m (fuel + 1) origin dirUnit meshes spheres lights scene depth environmentIor
        = some scene.backgroundColor) ∧
    traceRay m (fuel + 1) origin dirUnit [] [] lights scene depth environmentIor
      = some scene.backgroundColor := by
  refine ⟨fun h => ?_, ?_⟩
  · rcases h with h | h
    · exact traceRay_deep m fuel origin dirUnit meshes spheres lights scene depth _ h
    · exact traceRay_miss m fuel origin dirUnit meshes spheres lights scene depth _ h
  · exact traceRay_miss m fuel origin dirUnit [] [] lights scene depth _ rfl

/-- A primary ray that misses the matte sphere, and the same ray in the empty scene, return the
white background. -/
theorem traceRay_background_witness :
    intersectScene ratMath ⟨0, 0, 5⟩ ⟨0, 1, 0⟩ [] [matteSphere] (decide ((0 : Int) = 0)) = none ∧
    traceRay ratMath 1 ⟨0, 0, 5⟩ ⟨0, 1, 0⟩ [] [matteSphere] [brightLight] whiteBackdrop 0 1
      = some ⟨1, 1, 1⟩ ∧
    traceRay ratMath 1 ⟨0, 0, 5⟩ ⟨0, 1, 0⟩ [] [] [brightLight] whiteBackdrop 0 1
      = some ⟨1, 1, 1⟩ :=
  ⟨by decide!,
   (traceRay_background ratMath 0 ⟨0, 0, 5⟩ ⟨0, 1, 0⟩ [] [matteSphere] [brightLight]
      whiteBackdrop 0 1).1 (Or.inr (by decide!)),
   (traceRay_background ratMath 0 ⟨0, 0, 5⟩ ⟨0, 1, 0⟩ [] [matteSphere] [brightLight]
      whiteBackdrop 0 1).2⟩

/-- C6 fails on the code: on the unit sphere of material `glassMirrorMat` (mirror with
`reflectivity = 1/2` and glass with `transparency = 1`), black ambient, white background, no
lights, the primary ray from `(0, 0, 5)` along `(0, 0, -1)` is answered by the mirror branch:
`traceRay` returns `direct * (1 - k) + refl * k = (1/2, 1/2, 1/2)`.  The refraction ray that
the claim describes would be possible (`refractVec` succeeds) and would bring back
`(1/32, 1/32, 1/32)`, so the claimed colour, with Fresnel weight
`max(schlick, clamp(k, 0, 1)) = 1/2`, is `(33/64, 33/64, 33/64)`. -/
theorem traceRay_glass_mirror_takes_mirror_branch :
    intersectScene ratMath ⟨0, 0, 5⟩ ⟨0, 0, -1⟩ [] [glassMirrorSphere] (decide ((0 : Int) = 0))
      = some (frontHit glassMirrorMat) ∧
    traceRay ratMath 7 ⟨0, 0, 5⟩ ⟨0, 0, -1⟩ [] [glassMirrorSphere] [] whiteBackdrop 0 1
      = some ⟨1 / 2, 1 / 2, 1 / 2⟩ ∧
    shadeDirect ratMath (frontHit glassMirrorMat) [] whiteBackdrop [] [glassMirrorSphere]
      = ⟨0, 0, 0⟩ ∧
    traceRay ratMath 6
        (offsetOrigin (frontHit glassMirrorMat).p (frontHit glassMirrorMat).nGeom
          (normalize ratMath (reflectVec ⟨0, 0, -1⟩ (frontHit glassMirrorMat).nGeom)))
        (normalize ratMath (reflectVec ⟨0, 0, -1⟩ (frontHit glassMirrorMat).nGeom))
        [] [glassMirrorSphere] [] whiteBackdrop 1 1
      = some ⟨1, 1, 1⟩ ∧
    refractVec ratMath ⟨0, 0, -1⟩ (frontHit glassMirrorMat).nGeom (1 / (3 / 2))
      = some ⟨0, 0, -1⟩ ∧
    traceRay ratMath 6
        (offsetOrigin (frontHit glassMirrorMat).p (frontHit glassMirrorMat).nGeom ⟨0, 0, -1⟩)
        ⟨0, 0, -1⟩ [] [glassMirrorSphere] [] whiteBackdrop 1 (3 / 2)
      = some ⟨1 / 32, 1 / 32, 1 / 32⟩ ∧
    max (clampS (schlick (clampS (dot (Vec3.neg ⟨0, 0, -1⟩) (frontHit glassMirrorMat).nGeom) 0 1)
        1 (3 / 2)) 0 1) (clampS glassMirrorMat.reflectivity 0 1) = 1 / 2 ∧
    specGlassBlend ⟨0, 0, 0⟩ ⟨1, 1, 1⟩ ⟨1 / 32, 1 / 32, 1 / 32⟩ glassMirrorMat.diffuseColor
        (1 / 2) 1
      = ⟨33 / 64, 33 / 64, 33 / 64⟩ := by
  decide!

/-- C7: for a hit at `depth < MAX_DEPTH` that is not a light marker, on a material with
`isMirror` and reflectivity `k > 0`, `traceRay` returns
`clamp01(direct * (1 - k') + refl * k')` with `k' = min(k, 1)`, where
`direct = shadeDirect(hit)` and `refl` is what `traceRay` returns at `depth + 1` (same
`environmentIor`) along `R`, the normalised reflection of the incoming direction about the
geometric normal, from the origin `o = p + nGeom * (dot(R, nGeom) > 0 ? EPS : -EPS)`; the
offset `o - p` has a non-negative component along `R`. -/
theorem traceRay_mirror_blend (m : MathFns F) (fuel : Nat) (origin dirUnit : Vec3 F)
    (meshes : List (RTMesh F)) (spheres : List (RTSphere F)) (lights : List (Light F))
    (scene : Scene F) (depth : Int) (environmentIor : F) (hit : HitInfo F)
    (hd : depth < MAX_DEPTH) (hfuel : (MAX_DEPTH - depth).toNat < fuel + 1)
    (hhit : intersectScene m origin dirUnit meshes spheres (decide (depth = 0)) = some hit)
    (hl : hit.hitLight = false)
    (hmir : hit.material.isMirror = true) (hk : 0 < hit.material.reflectivity) :
    ∃ refl,
      traceRay m fuel
        (hit.p.add (hit.nGeom.smul
          (if dot (normalize m (reflectVec dirUnit hit.nGeom)) hit.nGeom > 0 then EPS else -EPS)))
        (normalize m (reflectVec dirUnit hit.nGeom)) meshes spheres lights scene (depth + 1)
        environmentIor = some refl ∧
      traceRay m (fuel + 1) origin dirUnit meshes spheres lights scene depth environmentIor
        = some ((((shadeDirect m hit lights scene meshes spheres).smul
              (1 - min hit.material.reflectivity 1)).add
            (refl.smul (min hit.material.reflectivity 1))).clamp 0 1) ∧
      0 ≤ dot ((hit.p.add (hit.nGeom.smul
          (if dot (normalize m (reflectVec dirUnit hit.nGeom)) hit.nGeom > 0 then EPS else -EPS))).sub
          hit.p) (normalize m (reflectVec dirUnit hit.nGeom)) := by
  have hn : (MAX_DEPTH - (depth + 1)).toNat < fuel := by
    simp only [MAX_DEPTH] at *
    omega
  obtain ⟨refl, hrefl, -⟩ := traceRay_returns m meshes spheres lights scene fuel
    (offsetOrigin hit.p hit.nGeom (normalize m (reflectVec dirUnit hit.nGeom)))
    (normalize m (reflectVec dirUnit hit.nGeom)) (depth + 1) environmentIor hn
  refine ⟨refl, hrefl, ?_, offsetOrigin_side _ _ _⟩
  rw [← clampS_of_pos _ hk]
  exact traceRay_mirror m fuel origin dirUnit meshes spheres lights scene depth environmentIor
    hit hd hhit hl ⟨hmir, hk⟩ refl hrefl

/-- A primary ray on the mirror sphere under the bright light. -/
theorem traceRay_mirror_blend_witness :
    ((0 : Int) < MAX_DEPTH ∧ (MAX_DEPTH - 0).toNat < 6 + 1 ∧
      intersectScene ratMath ⟨0, 0, 5⟩ ⟨0, 0, -1⟩ [] [mirrorSphere] (decide ((0 : Int) = 0))
        = some (frontHit mirrorMat) ∧
      (frontHit mirrorMat).hitLight = false ∧ (frontHit mirrorMat).material.isMirror = true ∧
      0 < (frontHit mirrorMat).material.reflectivity) ∧
    ∃ refl,
      traceRay ratMath 6
        ((frontHit mirrorMat).p.add ((frontHit mirrorMat).nGeom.smul
          (if dot (normalize ratMath (reflectVec ⟨0, 0, -1⟩ (frontHit mirrorMat).nGeom))
              (frontHit mirrorMat).nGeom > 0 then EPS else -EPS)))
        (normalize ratMath (reflectVec ⟨0, 0, -1⟩ (frontHit mirrorMat).nGeom)) [] [mirrorSphere]
        [brightLight] whiteBackdrop (0 + 1) 1 = some refl ∧
      traceRay ratMath (6 + 1) ⟨0, 0, 5⟩ ⟨0, 0, -1⟩ [] [mirrorSphere] [brightLight] whiteBackdrop
          0 1
        = some ((((shadeDirect ratMath (frontHit mirrorMat) [brightLight] whiteBackdrop []
                [mirrorSphere]).smul (1 - min (frontHit mirrorMat).material.reflectivity 1)).add
            (refl.smul (min (frontHit mirrorMat).material.reflectivity 1))).clamp 0 1) ∧
      0 ≤ dot (((frontHit mirrorMat).p.add ((frontHit mirrorMat).nGeom.smul
          (if dot (normalize ratMath (reflectVec ⟨0, 0, -1⟩ (frontHit mirrorMat).nGeom))
              (frontHit mirrorMat).nGeom > 0 then EPS else -EPS))).sub (frontHit mirrorMat).p)
          (normalize ratMath (reflectVec ⟨0, 0, -1⟩ (frontHit mirrorMat).nGeom)) :=
  ⟨⟨by decide, by decide, by decide!, rfl, rfl, by decide!⟩,
   traceRay_mirror_blend ratMath 6 ⟨0, 0, 5⟩ ⟨0, 0, -1⟩ [] [mirrorSphere] [brightLight]
    whiteBackdrop 0 1 (frontHit mirrorMat) (by decide) (by decide) (by decide!) rfl rfl
    (by decide!)⟩

/-- C8: for a hit at `depth < MAX_DEPTH` on a non-mirror material with `isTransparent` and
transparency `tr > 0` for which `refractVec` succeeds, `traceRay` returns
`clamp01(direct * (1 - tr') + tr' * (kr * refl + (1 - kr) * (diffuseColor ⊙ refr)))` with
`tr' = min(tr, 1)`, `kr` the clamped Schlick reflectance, `refl` the colour traced along the
reflected direction and `refr` the colour traced along the refracted direction, both at
`depth + 1`. -/
theorem traceRay_glass_blend (m : MathFns F) (fuel : Nat) (origin dirUnit : Vec3 F)
    (meshes : List (RTMesh F)) (spheres : List (RTSphere F)) (lights : List (Light F))
    (scene : Scene F) (depth : Int) (environmentIor : F) (hit : HitInfo F) (T : Vec3 F)
    (hd : depth < MAX_DEPTH) (hfuel : (MAX_DEPTH - depth).toNat < fuel + 1)
    (hhit : intersectScene m origin dirUnit meshes spheres (decide (depth = 0)) = some hit)
    (hl : hit.hitLight = false)
    (hnm : hit.material.isMirror = false)
    (ht : hit.material.isTransparent = true) (htr : 0 < hit.material.transparency)
    (hT : refractVec m dirUnit hit.nGeom
        (environmentIor / (if hit.frontFace = true then glassIor hit.material else 1)) = some T) :
    ∃ refl refr,
      traceRay m fuel
        (offsetOrigin hit.p hit.nGeom (normalize m (reflectVec dirUnit hit.nGeom)))
        (normalize m (reflectVec dirUnit hit.nGeom)) meshes spheres lights scene (depth + 1)
        environmentIor = some refl ∧
      traceRay m fuel (offsetOrigin hit.p hit.nGeom (normalize m T)) (normalize m T)
        meshes spheres lights scene (depth + 1)
        (if hit.frontFace = true then glassIor hit.material else 1) = some refr ∧
      traceRay m (fuel + 1) origin dirUnit meshes spheres lights scene depth environmentIor
        = some ((((shadeDirect m hit lights scene meshes spheres).smul
              (1 - min hit.material.transparency 1)).add
            (((refl.smul
                (clampS (schlick (clampS (dot dirUnit.neg hit.nGeom) 0 1) environmentIor
                  (if hit.frontFace = true then glassIor hit.material else 1)) 0 1)).add
              ((hit.material.diffuseColor.mul refr).smul
                (1 - clampS (schlick (clampS (dot dirUnit.neg hit.nGeom) 0 1) environmentIor
                  (if hit.frontFace = true then glassIor hit.material else 1)) 0 1))).smul
              (min hit.material.transparency 1))).clamp 0 1) := by
  have hn : (MAX_DEPTH - (depth + 1)).toNat < fuel := by
    simp only [MAX_DEPTH] at *
    omega
  have hm : ¬ (hit.material.isMirror = true ∧ hit.material.reflectivity > 0) := by
    rw [hnm]; exact fun h => Bool.false_ne_true h.1
  obtain ⟨refl, hrefl, -⟩ := traceRay_returns m meshes spheres lights scene fuel
    (offsetOrigin hit.p hit.nGeom (normalize m (reflectVec dirUnit hit.nGeom)))
    (normalize m (reflectVec dirUnit hit.nGeom)) (depth + 1) environmentIor hn
  obtain ⟨refr, hrefr, -⟩ := traceRay_returns m meshes spheres lights scene fuel
    (offsetOrigin hit.p hit.nGeom (normalize m T)) (normalize m T) (depth + 1)
    (if hit.frontFace = true then glassIor hit.material else 1) hn
  refine ⟨refl, refr, hrefl, hrefr, ?_⟩
  rw [← clampS_of_pos _ htr, ← fresnelWeight_eq environmentIor dirUnit hit hm,
    vec3_mul_comm hit.material.diffuseColor refr]
  exact traceRay_glass_refract m fuel origin dirUnit meshes spheres lights scene depth
    environmentIor hit hd hhit hl hm ⟨ht, htr⟩ refl T refr hrefl hT hrefr

/-- A primary ray on the glass sphere, refracted straight on at normal incidence. -/
theorem traceRay_glass_blend_witness :
    ((0 : Int) < MAX_DEPTH ∧ (MAX_DEPTH - 0).toNat < 6 + 1 ∧
      intersectScene ratMath ⟨0, 0, 5⟩ ⟨0, 0, -1⟩ [] [glassSphere] (decide ((0 : Int) = 0))
        = some (frontHit glassMat) ∧
      (frontHit glassMat).hitLight = false ∧ (frontHit glassMat).material.isMirror = false ∧
      (frontHit glassMat).material.isTransparent = true ∧
      0 < (frontHit glassMat).material.transparency ∧
      refractVec ratMath ⟨0, 0, -1⟩ (frontHit glassMat).nGeom
        (1 / (if (frontHit glassMat).frontFace = true then glassIor (frontHit glassMat).material
          else 1)) = some ⟨0, 0, -1⟩) ∧
    ∃ refl refr,
      traceRay ratMath 6
        (offsetOrigin (frontHit glassMat).p (frontHit glassMat).nGeom
          (normalize ratMath (reflectVec ⟨0, 0, -1⟩ (frontHit glassMat).nGeom)))
        (normalize ratMath (reflectVec ⟨0, 0, -1⟩ (frontHit glassMat).nGeom)) [] [glassSphere]
        [brightLight] whiteBackdrop (0 + 1) 1 = some refl ∧
      traceRay ratMath 6
        (offsetOrigin (frontHit glassMat).p (frontHit glassMat).nGeom
          (normalize ratMath ⟨0, 0, -1⟩))
        (normalize ratMath ⟨0, 0, -1⟩) [] [glassSphere] [brightLight] whiteBackdrop (0 + 1)
        (if (frontHit glassMat).frontFace = true then glassIor (frontHit glassMat).material
          else 1) = some refr ∧
      traceRay ratMath (6 + 1) ⟨0, 0, 5⟩ ⟨0, 0, -1⟩ [] [glassSphere] [brightLight] whiteBackdrop
          0 1
        = some ((((shadeDirect ratMath (frontHit glassMat) [brightLight] whiteBackdrop []
                [glassSphere]).smul (1 - min (frontHit glassMat).material.transparency 1)).add
            (((refl.smul
                (clampS (schlick (clampS (dot (Vec3.neg ⟨0, 0, -1⟩) (frontHit glassMat).nGeom)
                    0 1) 1
                  (if (frontHit glassMat).frontFace = true then
                    glassIor (frontHit glassMat).material else 1)) 0 1)).add
              (((frontHit glassMat).material.diffuseColor.mul refr).smul
                (1 - clampS (schlick (clampS (dot (Vec3.neg ⟨0, 0, -1⟩)
                    (frontHit glassMat).nGeom) 0 1) 1
                  (if (frontHit glassMat).frontFace = true then
                    glassIor (frontHit glassMat).material else 1)) 0 1))).smul
              (min (frontHit glassMat).material.transparency 1))).clamp 0 1) :=
  ⟨⟨by decide, by decide, by decide!, rfl, rfl, rfl, by decide!, by decide!⟩,
   traceRay_glass_blend ratMath 6 ⟨0, 0, 5⟩ ⟨0, 0, -1⟩ [] [glassSphere] [brightLight]
    whiteBackdrop 0 1 (frontHit glassMat) ⟨0, 0, -1⟩ (by decide) (by decide) (by decide!) rfl rfl
    rfl (by decide!) (by decide!)⟩

/-- C9 fails as stated: the primary ray (`environmentIor = 1`, as `renderToImage` passes it)
from `insideOrigin` along `grazingDir` meets the glass sphere from inside, at a back-face
hit.  The code computes with `(n1, n2) = (1, 1)`, not `(ior, 1) = (3/2, 1)`: with its ratio
`eta = 1` the ray is refracted straight on, while with the claimed ratio `3/2` refraction
would be impossible. -/
theorem refractionIndices_follow_environment :
    intersectScene ratMath insideOrigin grazingDir [] [glassSphere] (decide ((0 : Int) = 0))
      = some grazingHit ∧
    grazingHit.frontFace = false ∧
    grazingHit.material.isMirror = false ∧
    grazingHit.material.isTransparent = true ∧
    0 < grazingHit.material.transparency ∧
    refractionIndices 1 grazingHit = (1, 1) ∧
    specIndices grazingHit = (3 / 2, 1) ∧
    refractVec ratMath grazingDir grazingHit.nGeom (1 / 1) = some grazingDir ∧
    refractVec ratMath grazingDir grazingHit.nGeom ((3 / 2) / 1) = none ∧
    fresnelWeight 1 grazingDir grazingHit = 32 / 3125 ∧
    clampS (schlick (clampS (dot grazingDir.neg grazingHit.nGeom) 0 1) (3 / 2) 1) 0 1
      = 3893 / 78125 := by
  decide!

/-- C9 (amended): at every hit processed by the transparent branch of `traceRay` (at any depth
below `MAX_DEPTH`), the Schlick reflectance and the Snell ratio `eta = n1 / n2` are computed
with `n1 = environmentIor`, the index handed down by the caller, and `n2 = ior` when the hit is
front-face, `n2 = 1.0` when it is back-face.  The reflection ray is traced with the same
`environmentIor`, the refraction ray with `n2` as its `environmentIor`. -/
theorem traceRay_glass_indices (m : MathFns F) (fuel : Nat) (origin dirUnit : Vec3 F)
    (meshes : List (RTMesh F)) (spheres : List (RTSphere F)) (lights : List (Light F))
    (scene : Scene F) (depth : Int) (environmentIor : F) (hit : HitInfo F)
    (hd : depth < MAX_DEPTH) (hfuel : (MAX_DEPTH - depth).toNat < fuel + 1)
    (hhit : intersectScene m origin dirUnit meshes spheres (decide (depth = 0)) = some hit)
    (hl : hit.hitLight = false)
    (hm : ¬ (hit.material.isMirror = true ∧ 0 < hit.material.reflectivity))
    (ht : hit.material.isTransparent = true) (htr : 0 < hit.material.transparency) :
    refractionIndices environmentIor hit
      = (environmentIor, if hit.frontFace = true then glassIor hit.material else 1) ∧
    ∃ refl,
      traceRay m fuel
        (offsetOrigin hit.p hit.nGeom (normalize m (reflectVec dirUnit hit.nGeom)))
        (normalize m (reflectVec dirUnit hit.nGeom)) meshes spheres lights scene (depth + 1)
        environmentIor = some refl ∧
      (∀ T, refractVec m dirUnit hit.nGeom
            (environmentIor / (if hit.frontFace = true then glassIor hit.material else 1))
          = some T →
        ∃ refr,
          traceRay m fuel (offsetOrigin hit.p hit.nGeom (normalize m T)) (normalize m T)
            meshes spheres lights scene (depth + 1)
            (if hit.frontFace = true then glassIor hit.material else 1) = some refr ∧
          traceRay m (fuel + 1) origin dirUnit meshes spheres lights scene depth environmentIor
            = some (specGlassBlend (shadeDirect m hit lights scene meshes spheres) refl refr
                hit.material.diffuseColor
                (clampS (schlick (clampS (dot dirUnit.neg hit.nGeom) 0 1) environmentIor
                  (if hit.frontFace = true then glassIor hit.material else 1)) 0 1)
                (min hit.material.transparency 1))) ∧
      (refractVec m dirUnit hit.nGeom
            (environmentIor / (if hit.frontFace = true then glassIor hit.material else 1))
          = none →
        traceRay m (fuel + 1) origin dirUnit meshes spheres lights scene depth environmentIor
          = some ((((shadeDirect m hit lights scene meshes spheres).smul
                (1 - min hit.material.transparency 1)).add
              (refl.smul (min hit.material.transparency 1))).clamp 0 1)) := by
  have hn : (MAX_DEPTH - (depth + 1)).toNat < fuel := by
    simp only [MAX_DEPTH] at *
    omega
  obtain ⟨refl, hrefl, -⟩ := traceRay_returns m meshes spheres lights scene fuel
    (offsetOrigin hit.p hit.nGeom (normalize m (reflectVec dirUnit hit.nGeom)))
    (normalize m (reflectVec dirUnit hit.nGeom)) (depth + 1) environmentIor hn
  refine ⟨rfl, refl, hrefl, fun T hT => ?_, fun hT => ?_⟩
  · obtain ⟨refr, hrefr, -⟩ := traceRay_returns m meshes spheres lights scene fuel
      (offsetOrigin hit.p hit.nGeom (normalize m T)) (normalize m T) (depth + 1)
      (if hit.frontFace = true then glassIor hit.material else 1) hn
    refine ⟨refr, hrefr, ?_⟩
    unfold specGlassBlend
    rw [← clampS_of_pos _ htr, ← fresnelWeight_eq environmentIor dirUnit hit hm,
      vec3_mul_comm hit.material.diffuseColor refr]
    exact traceRay_glass_refract m fuel origin dirUnit meshes spheres lights scene depth
      environmentIor hit hd hhit hl hm ⟨ht, htr⟩ refl T refr hrefl hT hrefr
  · have h := traceRay_glass_tir m fuel origin dirUnit meshes spheres lights scene depth
      environmentIor hit hd hhit hl hm ⟨ht, htr⟩ refl hrefl hT
    rw [tir_glass, clampS_of_pos _ htr] at h
    exact h

/-- A ray inside the glass sphere (`environmentIor = 3/2`) meeting its back face: the pair of
indices is `(3/2, 1)`. -/
theorem traceRay_glass_indices_witness :
    ((0 : Int) < MAX_DEPTH ∧ (MAX_DEPTH - 0).toNat < 6 + 1 ∧
      intersectScene ratMath insideOrigin grazingDir [] [glassSphere] (decide ((0 : Int) = 0))
        = some grazingHit ∧
      grazingHit.hitLight = false ∧
      ¬ (grazingHit.material.isMirror = true ∧ 0 < grazingHit.material.reflectivity) ∧
      grazingHit.material.isTransparent = true ∧ 0 < grazingHit.material.transparency) ∧
    refractionIndices (3 / 2) grazingHit = (3 / 2, 1) :=
  ⟨⟨by decide, by decide, by decide!, rfl, by decide!, rfl, by decide!⟩,
   (traceRay_glass_indices ratMath 6 insideOrigin grazingDir [] [glassSphere] [] whiteBackdrop
      0 (3 / 2) grazingHit (by decide) (by decide) (by decide!) rfl (by decide!) rfl
      (by decide!)).1⟩

/-- C10: at a hit processed by the transparent branch (`depth < MAX_DEPTH`, not a light
marker, mirror test failed, `isTransparent` with transparency `tr > 0`) where `refractVec`
reports that refraction is impossible, `traceRay` returns
`clamp01(direct * (1 - tr') + tr' * refl)` with `tr' = min(tr, 1)`: the Fresnel weight is 1,
and the only nested call whose result is used is the reflection ray. -/
theorem traceRay_total_internal_reflection (m : MathFns F) (fuel : Nat)
    (origin dirUnit : Vec3 F) (meshes : List (RTMesh F)) (spheres : List (RTSphere F))
    (lights : List (Light F)) (scene : Scene F) (depth : Int) (environmentIor : F)
    (hit : HitInfo F)
    (hd : depth < MAX_DEPTH) (hfuel : (MAX_DEPTH - depth).toNat < fuel + 1)
    (hhit : intersectScene m origin dirUnit meshes spheres (decide (depth = 0)) = some hit)
    (hl : hit.hitLight = false)
    (hm : ¬ (hit.material.isMirror = true ∧ 0 < hit.material.reflectivity))
    (ht : hit.material.isTransparent = true) (htr : 0 < hit.material.transparency)
    (hT : refractVec m dirUnit hit.nGeom
        (environmentIor / (if hit.frontFace = true then glassIor hit.material else 1)) = none) :
    ∃ refl,
      traceRay m fuel
        (offsetOrigin hit.p hit.nGeom (normalize m (reflectVec dirUnit hit.nGeom)))
        (normalize m (reflectVec dirUnit hit.nGeom)) meshes spheres lights scene (depth + 1)
        environmentIor = some refl ∧
      traceRay m (fuel + 1) origin dirUnit meshes spheres lights scene depth environmentIor
        = some ((((shadeDirect m hit lights scene meshes spheres).smul
              (1 - min hit.material.transparency 1)).add
            (refl.smul (min hit.material.transparency 1))).clamp 0 1) := by
  have hn : (MAX_DEPTH - (depth + 1)).toNat < fuel := by
    simp only [MAX_DEPTH] at *
    omega
  obtain ⟨refl, hrefl, -⟩ := traceRay_returns m meshes spheres lights scene fuel
    (offsetOrigin hit.p hit.nGeom (normalize m (reflectVec dirUnit hit.nGeom)))
    (normalize m (reflectVec dirUnit hit.nGeom)) (depth + 1) environmentIor hn
  refine ⟨refl, hrefl, ?_⟩
  have h := traceRay_glass_tir m fuel origin dirUnit meshes spheres lights scene depth
    environmentIor hit hd hhit hl hm ⟨ht, htr⟩ refl hrefl hT
  rw [tir_glass, clampS_of_pos _ htr] at h
  exact h

/-- A ray inside the glass sphere (`environmentIor = 3/2`) meeting its back face at an angle
of incidence with sine `4/5 > 2/3`: total internal reflection. -/
theorem traceRay_total_internal_reflection_witness :
    ((0 : Int) < MAX_DEPTH ∧ (MAX_DEPTH - 0).toNat < 6 + 1 ∧
      intersectScene ratMath insideOrigin grazingDir [] [glassSphere] (decide ((0 : Int) = 0))
        = some grazingHit ∧
      grazingHit.hitLight = false ∧
      ¬ (grazingHit.material.isMirror = true ∧ 0 < grazingHit.material.reflectivity) ∧
      grazingHit.material.isTransparent = true ∧ 0 < grazingHit.material.transparency ∧
      refractVec ratMath grazingDir grazingHit.nGeom
        ((3 / 2) / (if grazingHit.frontFace = true then glassIor grazingHit.material else 1))
        = none) ∧
    ∃ refl,
      traceRay ratMath 6
        (offsetOrigin grazingHit.p grazingHit.nGeom
          (normalize ratMath (reflectVec grazingDir grazingHit.nGeom)))
        (normalize ratMath (reflectVec grazingDir grazingHit.nGeom)) [] [glassSphere] []
        whiteBackdrop (0 + 1) (3 / 2) = some refl ∧
      traceRay ratMath (6 + 1) insideOrigin grazingDir [] [glassSphere] [] whiteBackdrop 0
          (3 / 2)
        = some ((((shadeDirect ratMath grazingHit [] whiteBackdrop [] [glassSphere]).smul
              (1 - min grazingHit.material.transparency 1)).add
            (refl.smul (min grazingHit.material.transparency 1))).clamp 0 1) :=
  ⟨⟨by decide, by decide, by decide!, rfl, by decide!, rfl, by decide!, by decide!⟩,
   traceRay_total_internal_reflection ratMath 6 insideOrigin grazingDir [] [glassSphere] []
    whiteBackdrop 0 (3 / 2) grazingHit (by decide) (by decide) (by decide!) rfl (by decide!) rfl
    (by decide!) (by decide!)⟩

/-- C12: if the hit that `intersectScene` returns at `depth < MAX_DEPTH` belongs to a primitive
flagged `isLight`, `traceRay` returns exactly `(1, 1, 1)`, whatever the primitive's material,
the lights and the scene colours are, already with bound 1, that is without any nested call. -/
theorem traceRay_light_marker (m : MathFns F) (fuel : Nat) (origin dirUnit : Vec3 F)
    (meshes : List (RTMesh F)) (spheres : List (RTSphere F)) (lights : List (Light F))
    (scene : Scene F) (depth : Int) (environmentIor : F) (hit : HitInfo F)
    (hd : depth < MAX_DEPTH)
    (hhit : intersectScene m origin dirUnit meshes spheres (decide (depth = 0)) = some hit)
    (hprim : (∃ s ∈ spheres, s.isLight = true ∧
          sphereCandidate m origin dirUnit (decide (depth = 0)) s = some hit) ∨
        (∃ rt ∈ meshes, rt.isLight = true ∧
          meshCandidate m origin dirUnit (decide (depth = 0)) rt = some hit)) :
    traceRay m (fuel + 1) origin dirUnit meshes spheres lights scene depth environmentIor
      = some ⟨1, 1, 1⟩ := by
  have hl : hit.hitLight = true := by
    rcases hprim with ⟨s, -, hs, hc⟩ | ⟨rt, -, hr, hc⟩
    · unfold sphereCandidate at hc
      split_ifs at hc
      obtain ⟨h0, -, rfl⟩ := Option.map_eq_some'.mp hc
      exact hs
    · unfold meshCandidate at hc
      split_ifs at hc
      obtain ⟨h0, -, rfl⟩ := Option.map_eq_some'.mp hc
      exact hr
  exact traceRay_light m fuel origin dirUnit meshes spheres lights scene depth environmentIor
    hit hd hhit hl

/-- A primary ray on the sphere flagged `isLight`, under the bright light, with bound 1. -/
theorem traceRay_light_marker_witness :
    ((0 : Int) < MAX_DEPTH ∧
      intersectScene ratMath ⟨0, 0, 5⟩ ⟨0, 0, -1⟩ [] [lampSphere] (decide ((0 : Int) = 0))
        = some { frontHit matteMat with hitLight := true } ∧
      ((∃ s ∈ [lampSphere], s.isLight = true ∧
          sphereCandidate ratMath ⟨0, 0, 5⟩ ⟨0, 0, -1⟩ (decide ((0 : Int) = 0)) s
            = some { frontHit matteMat with hitLight := true }) ∨
        (∃ rt ∈ ([] : List (RTMesh ℚ)), rt.isLight = true ∧
          meshCandidate ratMath ⟨0, 0, 5⟩ ⟨0, 0, -1⟩ (decide ((0 : Int) = 0)) rt
            = some { frontHit matteMat with hitLight := true }))) ∧
    traceRay ratMath (0 + 1) ⟨0, 0, 5⟩ ⟨0, 0, -1⟩ [] [lampSphere] [brightLight] whiteBackdrop 0 1
      = some ⟨1, 1, 1⟩ :=
  ⟨⟨by decide, by decide!,
      Or.inl ⟨lampSphere, List.mem_singleton.mpr rfl, rfl, by decide!⟩⟩,
   traceRay_light_marker ratMath 0 ⟨0, 0, 5⟩ ⟨0, 0, -1⟩ [] [lampSphere] [brightLight]
    whiteBackdrop 0 1 { frontHit matteMat with hitLight := true } (by decide) (by decide!)
    (Or.inl ⟨lampSphere, List.mem_singleton.mpr rfl, rfl, by decide!⟩)⟩

/-- C13: `intersectScene` called with the primary flag `true` gives the same result as on the
scene with all hidden primitives removed (with either flag), so it never returns a hit on a
primitive flagged `isHidden`; called with the flag `false` its result does not depend on any
`isHidden` flag; `inShadow` does not depend on any `isHidden` flag either.  `traceRay` passes
the flag `true` at `depth = 0` (a primary ray that the visible primitives miss returns the
background) and `false` below: for `depth >= 1` its result does not depend on any `isHidden`
flag. -/
theorem hidden_only_for_primary (m : MathFns F) (fuel : Nat) (origin dirUnit : Vec3 F)
    (meshes : List (RTMesh F)) (spheres : List (RTSphere F)) (lights : List (Light F))
    (scene : Scene F) (depth : Int) (environmentIor : F) (fm : RTMesh F → Bool)
    (fs : RTSphere F → Bool) (p Ng lightDir : Vec3 F) (maxDist : F) :
    (∀ flag, intersectScene m origin dirUnit meshes spheres true
      = intersectScene m origin dirUnit (meshes.filter (fun r => !r.isHidden))
          (spheres.filter (fun s => !s.isHidden)) flag) ∧
    intersectScene m origin dirUnit (meshes.map (fun r => { r with isHidden := fm r }))
        (spheres.map (fun s => { s with isHidden := fs s })) false
      = intersectScene m origin dirUnit meshes spheres false ∧
    inShadow m p Ng lightDir maxDist (meshes.map (fun r => { r with isHidden := fm r }))
        (spheres.map (fun s => { s with isHidden := fs s }))
      = inShadow m p Ng lightDir maxDist meshes spheres ∧
    (intersectScene m origin dirUnit (meshes.filter (fun r => !r.isHidden))
          (spheres.filter (fun s => !s.isHidden)) false = none →
      traceRay m (fuel + 1) origin dirUnit meshes spheres lights scene 0 environmentIor
        = some scene.backgroundColor) ∧
    (1 ≤ depth →
      traceRay m fuel origin dirUnit (meshes.map (fun r => { r with isHidden := fm r }))
          (spheres.map (fun s => { s with isHidden := fs s })) lights scene depth environmentIor
        = traceRay m fuel origin dirUnit meshes spheres lights scene depth environmentIor) := by
  have hvis : ∀ flag, intersectScene m origin dirUnit meshes spheres true
      = intersectScene m origin dirUnit (meshes.filter (fun r => !r.isHidden))
          (spheres.filter (fun s => !s.isHidden)) flag := by
    intro flag
    rw [intersectScene_eq_foldl, intersectScene_eq_foldl, sceneCandidates_visible]
  refine ⟨hvis, intersectScene_relabel m origin dirUnit meshes spheres fm fs,
    inShadow_relabel m p Ng lightDir maxDist meshes spheres fm fs, fun hmiss => ?_,
    traceRay_relabel m meshes spheres lights scene fm fs fuel origin dirUnit depth
      environmentIor⟩
  apply traceRay_miss
  rw [show decide ((0 : Int) = 0) = true from rfl, hvis false]
  exact hmiss

/-- A hidden sphere in front of the camera: the primary ray (`depth = 0`) returns the
background, and at `depth = 1` hiding or showing the sphere changes nothing. -/
theorem hidden_only_for_primary_witness :
    (intersectScene ratMath ⟨0, 0, 5⟩ ⟨0, 0, -1⟩
        (([] : List (RTMesh ℚ)).filter (fun r => !r.isHidden))
        ([hiddenSphere].filter (fun s => !s.isHidden)) false = none ∧ (1 : Int) ≤ 1) ∧
    traceRay ratMath (6 + 1) ⟨0, 0, 5⟩ ⟨0, 0, -1⟩ [] [hiddenSphere] [brightLight] whiteBackdrop
        0 1 = some whiteBackdrop.backgroundColor ∧
    traceRay ratMath 7 ⟨0, 0, 5⟩ ⟨0, 0, -1⟩ (([] : List (RTMesh ℚ)).map
          (fun r => { r with isHidden := false }))
        ([hiddenSphere].map (fun s => { s with isHidden := false })) [brightLight]
        whiteBackdrop 1 1
      = traceRay ratMath 7 ⟨0, 0, 5⟩ ⟨0, 0, -1⟩ [] [hiddenSphere] [brightLight] whiteBackdrop
          1 1 :=
  ⟨⟨by decide!, by decide⟩,
   (hidden_only_for_primary ratMath 6 ⟨0, 0, 5⟩ ⟨0, 0, -1⟩ [] [hiddenSphere] [brightLight]
      whiteBackdrop 1 1 (fun _ => false) (fun _ => false) ⟨0, 0, 0⟩ ⟨0, 0, 1⟩ ⟨0, 0, 1⟩
      1).2.2.2.1 (by decide!),
   (hidden_only_for_primary ratMath 7 ⟨0, 0, 5⟩ ⟨0, 0, -1⟩ [] [hiddenSphere] [brightLight]
      whiteBackdrop 1 1 (fun _ => false) (fun _ => false) ⟨0, 0, 0⟩ ⟨0, 0, 1⟩ ⟨0, 0, 1⟩
      1).2.2.2.2 (by decide)⟩

/-- C14 (amended): `intersectScene` reports a hit if and only if at least one tested sphere or
mesh reports an intersection with `EPS < t < FLT_MAX`, and then the returned hit record is the
one with the smallest `t` among the reported intersections with `t > EPS`; on an exact tie the
primitive tested first (spheres before meshes, list order within each) is kept. -/
theorem intersectScene_nearest (m : MathFns F) (origin dirUnit : Vec3 F)
    (meshes : List (RTMesh F)) (spheres : List (RTSphere F)) (skip : Bool) :
    (intersectScene m origin dirUnit meshes spheres skip ≠ none ↔
      ∃ h ∈ sceneCandidates m origin dirUnit meshes spheres skip, EPS < h.t ∧ h.t < FLT_MAX) ∧
    ∀ hit, intersectScene m origin dirUnit meshes spheres skip = some hit →
      ∃ pre post, sceneCandidates m origin dirUnit meshes spheres skip = pre ++ hit :: post ∧
        EPS < hit.t ∧ hit.t < FLT_MAX ∧
        (∀ x ∈ pre, EPS < x.t → hit.t < x.t) ∧ (∀ x ∈ post, EPS < x.t → hit.t ≤ x.t) := by
  rw [intersectScene_eq_foldl]
  have inv := scanInv_foldl (sceneCandidates m origin dirUnit meshes spheres skip)
  generalize (sceneCandidates m origin dirUnit meshes spheres skip).foldl pickStep
    ⟨FLT_MAX, none⟩ = st at inv
  rcases inv with ⟨hout, -, hall⟩ | ⟨h, pre, post, hout, -, hl, h1, h2, hpre, hpost⟩
  · refine ⟨⟨fun hne => absurd hout hne, ?_⟩, ?_⟩
    · rintro ⟨h, hh, hv⟩; exact absurd hv (hall h hh)
    · intro hit hhit; rw [hout] at hhit; exact absurd hhit (Option.noConfusion)
  · refine ⟨⟨fun _ => ⟨h, ?_, h1, h2⟩, fun _ => ?_⟩, ?_⟩
    · rw [hl]; simp
    · rw [hout]; exact Option.some_ne_none h
    · intro hit hhit
      rw [hout] at hhit
      cases hhit
      exact ⟨pre, post, hl, h1, h2, hpre, hpost⟩

/-- Two spheres on the ray from `(0, 0, 5)` along `(0, 0, -1)`: the far one is tested first,
the near one (`t = 4`) is returned. -/
theorem intersectScene_nearest_witness :
    intersectScene ratMath ⟨0, 0, 5⟩ ⟨0, 0, -1⟩ [] [farSphere, matteSphere] true
      = some (frontHit matteMat) ∧
    ∃ pre post,
      sceneCandidates ratMath ⟨0, 0, 5⟩ ⟨0, 0, -1⟩ [] [farSphere, matteSphere] true
        = pre ++ frontHit matteMat :: post ∧
      EPS < (frontHit matteMat).t ∧ (frontHit matteMat).t < FLT_MAX ∧
      (∀ x ∈ pre, EPS < x.t → (frontHit matteMat).t < x.t) ∧
      (∀ x ∈ post, EPS < x.t → (frontHit matteMat).t ≤ x.t) :=
  ⟨by decide!,
   (intersectScene_nearest ratMath ⟨0, 0, 5⟩ ⟨0, 0, -1⟩ [] [farSphere, matteSphere] true).2
    (frontHit matteMat) (by decide!)⟩

/-- C14 fails as stated: the sphere of radius `FLT_MAX` around the ray origin reports an
intersection at `t = FLT_MAX > EPS`, the only one in the scene, and `intersectScene` reports
no hit, because `t < nearest` fails against the initial `nearest = FLT_MAX`. -/
theorem intersectScene_rejects_flt_max :
    (intersectSphere ratMath ⟨0, 0, 0⟩ ⟨0, 0, -1⟩ hugeSphere).map (fun h => h.t)
      = some FLT_MAX ∧
    (EPS : ℚ) < FLT_MAX ∧
    intersectScene ratMath ⟨0, 0, 0⟩ ⟨0, 0, -1⟩ [] [hugeSphere] false = none := by
  decide!

/-- C15 (amended): `inShadow(p, Ng, L, maxDist)` returns true if and only if some shadow-casting
primitive (a sphere that is not transparent, or a mesh that is neither a light marker nor
transparent) is reported intersected by the ray from `o = p + s * EPS * normalize(Ng)` along
`L` at a parameter `t` with `EPS < t < maxDist - EPS`, where `s = +1` if `L·Ng > 0` and `-1`
otherwise; and `(o - p)·L >= 0`.  Reported intersected means that `intersectSphere`,
respectively `intersectMesh`, returns a hit with that `t`; `intersectMesh` reports the
nearest triangle among those met at a local-space parameter above `EPS`.  The square root
is assumed exact at `Ng·Ng`. -/
theorem inShadow_iff (m : MathFns F) (p Ng lightDir : Vec3 F) (maxDist : F)
    (meshes : List (RTMesh F)) (spheres : List (RTSphere F))
    (hs0 : 0 ≤ m.sqrt (dot Ng Ng))
    (hsq : m.sqrt (dot Ng Ng) * m.sqrt (dot Ng Ng) = dot Ng Ng) :
    (inShadow m p Ng lightDir maxDist meshes spheres = true ↔
      (∃ s ∈ spheres, ¬ (s.material.isTransparent = true ∧ s.material.transparency > 0) ∧
        ∃ h, intersectSphere m (specShadowOrigin m p Ng lightDir) lightDir s = some h ∧
          EPS < h.t ∧ h.t < maxDist - EPS) ∨
      (∃ rt ∈ meshes, rt.isLight = false ∧
        ¬ (rt.mesh.material.isTransparent = true ∧ rt.mesh.material.transparency > 0) ∧
        ∃ h, intersectMesh m (specShadowOrigin m p Ng lightDir) lightDir rt = some h ∧
          EPS < h.t ∧ h.t < maxDist - EPS)) ∧
    0 ≤ dot ((specShadowOrigin m p Ng lightDir).sub p) lightDir := by
  have ho : specShadowOrigin m p Ng lightDir
      = p.add ((normalize m Ng).smul (if dot lightDir (normalize m Ng) > 0 then EPS
          else -EPS)) := by
    unfold specShadowOrigin
    by_cases h : dot lightDir Ng > 0
    · rw [if_pos h, if_pos ((dot_normalize_pos_iff m lightDir Ng hs0 hsq).mpr h), one_mul]
    · rw [if_neg h, if_neg (fun h' => h ((dot_normalize_pos_iff m lightDir Ng hs0 hsq).mp h'))]
      congr 2
      ring
  rw [ho]
  exact ⟨inShadow_iff_exists m p Ng lightDir maxDist meshes spheres,
    offsetOrigin_side p (normalize m Ng) lightDir⟩

/-- The point `(0, 0, 1)` on the unit sphere, a light 4 units above it, and an opaque sphere
in between. -/
theorem inShadow_iff_witness :
    ((0 : ℚ) ≤ ratMath.sqrt (dot (⟨0, 0, 1⟩ : Vec3 ℚ) ⟨0, 0, 1⟩) ∧
      ratMath.sqrt (dot (⟨0, 0, 1⟩ : Vec3 ℚ) ⟨0, 0, 1⟩)
          * ratMath.sqrt (dot (⟨0, 0, 1⟩ : Vec3 ℚ) ⟨0, 0, 1⟩)
        = dot (⟨0, 0, 1⟩ : Vec3 ℚ) ⟨0, 0, 1⟩) ∧
    inShadow ratMath ⟨0, 0, 1⟩ ⟨0, 0, 1⟩ ⟨0, 0, 1⟩ 4 [] [matteSphere, blocker matteMat] = true ∧
    0 ≤ dot ((specShadowOrigin ratMath ⟨0, 0, 1⟩ ⟨0, 0, 1⟩ ⟨0, 0, 1⟩).sub ⟨0, 0, 1⟩)
      (⟨0, 0, 1⟩ : Vec3 ℚ) :=
  ⟨⟨by decide!, by decide!⟩, by decide!,
   (inShadow_iff ratMath ⟨0, 0, 1⟩ ⟨0, 0, 1⟩ ⟨0, 0, 1⟩ 4 [] [matteSphere, blocker matteMat]
      (by decide!) (by decide!)).2⟩

/-- C15 fails as stated: the flattened `bigMesh` (scale 10, opaque, not a light marker) is a
shadow caster whose world triangle `(-10,-10,0), (10,-10,0), (0,10,0)` is met by the shadow
ray from `o = (0, 0, 1/200)` along `L = (0, 0, -1)` at `t = 1/200`, inside the window
`EPS < t < maxDist - EPS` for `maxDist = 1`; yet `inShadow` returns false, because
`intersectMesh` drops the triangle on its local-space test `tLocal <= EPS`
(`tLocal = 1/2000`). -/
theorem inShadow_misses_scaled_mesh :
    specShadowOrigin ratMath ⟨0, 0, 3 / 500⟩ ⟨0, 0, -1⟩ ⟨0, 0, -1⟩ = (⟨0, 0, 1 / 200⟩ : Vec3 ℚ) ∧
    (flattenMesh ratSetup bigMesh).isLight = false ∧
    (flattenMesh ratSetup bigMesh).mesh.material.isTransparent = false ∧
    ((flattenMesh ratSetup bigMesh).model.mulVec ((⟨-1, -1, 0⟩ : Vec3 ℚ).withW 1)).xyz
      = ⟨-10, -10, 0⟩ ∧
    ((flattenMesh ratSetup bigMesh).model.mulVec ((⟨1, -1, 0⟩ : Vec3 ℚ).withW 1)).xyz
      = ⟨10, -10, 0⟩ ∧
    ((flattenMesh ratSetup bigMesh).model.mulVec ((⟨0, 1, 0⟩ : Vec3 ℚ).withW 1)).xyz
      = ⟨0, 10, 0⟩ ∧
    MeetsTriangleAt (⟨0, 0, 1 / 200⟩ : Vec3 ℚ) ⟨0, 0, -1⟩ ⟨-10, -10, 0⟩ ⟨10, -10, 0⟩ ⟨0, 10, 0⟩
      (1 / 200) ∧
    ((EPS : ℚ) < 1 / 200 ∧ (1 / 200 : ℚ) < 1 - EPS) ∧
    intersectMesh ratMath ⟨0, 0, 1 / 200⟩ ⟨0, 0, -1⟩ (flattenMesh ratSetup bigMesh) = none ∧
    inShadow ratMath ⟨0, 0, 3 / 500⟩ ⟨0, 0, -1⟩ ⟨0, 0, -1⟩ 1 [flattenMesh ratSetup bigMesh] []
      = false :=
  ⟨by decide!, by decide!, by decide!, by decide!, by decide!, by decide!,
   ⟨1 / 4, 1 / 2, by decide!, by decide!, by decide!, by decide!⟩,
   by decide!, by decide!, by decide!⟩

/-- C16 (amended): a mesh flagged `isLight`, and a sphere or mesh whose material has
`isTransparent` set and `transparency > 0`, never occludes a light in `inShadow`: inserting it
anywhere in, or removing it from, the scene's list leaves the result unchanged. -/
theorem inShadow_ignores (m : MathFns F) (p Ng lightDir : Vec3 F) (maxDist : F)
    (meshes pre post : List (RTMesh F)) (spheres preS postS : List (RTSphere F))
    (s : RTSphere F) (rt : RTMesh F)
    (hs : s.material.isTransparent = true ∧ s.material.transparency > 0)
    (hr : rt.isLight = true ∨
      (rt.mesh.material.isTransparent = true ∧ rt.mesh.material.transparency > 0)) :
    inShadow m p Ng lightDir maxDist meshes (preS ++ s :: postS)
      = inShadow m p Ng lightDir maxDist meshes (preS ++ postS) ∧
    inShadow m p Ng lightDir maxDist (pre ++ rt :: post) spheres
      = inShadow m p Ng lightDir maxDist (pre ++ post) spheres := by
  unfold inShadow
  constructor
  · simp only [List.any_append, List.any_cons, if_pos hs, Bool.false_or]
  · rcases hr with hl | ht
    · simp only [List.any_append, List.any_cons, hl, if_true, Bool.false_or]
    · cases hl : rt.isLight <;>
        simp only [List.any_append, List.any_cons, hl, if_true, if_pos ht, Bool.false_or,
          Bool.false_eq_true, if_false]

/-- A glass sphere and an opaque light-marker triangle between the point `(0, 0, 1)` and a light
4 units above it: neither changes the result, which is `false`. -/
theorem inShadow_ignores_witness :
    (((blocker glassMat).material.isTransparent = true ∧
        (blocker glassMat).material.transparency > 0) ∧
      ((panel "LightCapsule" matteMat true).isLight = true ∨
        ((panel "LightCapsule" matteMat true).mesh.material.isTransparent = true ∧
          (panel "LightCapsule" matteMat true).mesh.material.transparency > 0))) ∧
    inShadow ratMath ⟨0, 0, 1⟩ ⟨0, 0, 1⟩ ⟨0, 0, 1⟩ 4 [] ([] ++ blocker glassMat :: [])
      = inShadow ratMath ⟨0, 0, 1⟩ ⟨0, 0, 1⟩ ⟨0, 0, 1⟩ 4 [] ([] ++ []) ∧
    inShadow ratMath ⟨0, 0, 1⟩ ⟨0, 0, 1⟩ ⟨0, 0, 1⟩ 4
        ([] ++ panel "LightCapsule" matteMat true :: []) []
      = inShadow ratMath ⟨0, 0, 1⟩ ⟨0, 0, 1⟩ ⟨0, 0, 1⟩ 4 ([] ++ []) [] :=
  ⟨⟨⟨rfl, by decide!⟩, Or.inl rfl⟩,
   inShadow_ignores ratMath ⟨0, 0, 1⟩ ⟨0, 0, 1⟩ ⟨0, 0, 1⟩ 4 [] [] [] [] [] []
    (blocker glassMat) (panel "LightCapsule" matteMat true) ⟨rfl, by decide!⟩ (Or.inl rfl)⟩

/-- C16 fails as stated: the sphere of material `frostedMat` has nonzero transparency (`7/10`)
but `isTransparent` is off; between the point `(0, 0, 1)` and a light 4 units above it, it
occludes the light, and removing it changes the result of `inShadow`.  The same opaque panel
that is ignored when flagged `isLight` occludes when it is not. -/
theorem inShadow_needs_isTransparent :
    (blocker frostedMat).material.transparency ≠ 0 ∧
    inShadow ratMath ⟨0, 0, 1⟩ ⟨0, 0, 1⟩ ⟨0, 0, 1⟩ 4 [] [blocker frostedMat] = true ∧
    inShadow ratMath ⟨0, 0, 1⟩ ⟨0, 0, 1⟩ ⟨0, 0, 1⟩ 4 [] [] = false ∧
    inShadow ratMath ⟨0, 0, 1⟩ ⟨0, 0, 1⟩ ⟨0, 0, 1⟩ 4 [panel "Wall" matteMat false] [] = true ∧
    inShadow ratMath ⟨0, 0, 1⟩ ⟨0, 0, 1⟩ ⟨0, 0, 1⟩ 4 [panel "Wall" matteMat true] [] = false := by
  decide!

/-- C17 (amended): for a `W x H` image (`W, H > 0`) and a scene with a camera, `renderToImage`
writes the pixels `(x, y)` once each, row by row; the colour of pixel `(x, y)` is the colour
`traceRay` returns (at depth 0, `environmentIor = 1`) for the ray whose origin is the camera
position and whose direction is the normalised image, under the rotational part of the inverse
view matrix, of the camera-space vector
`((2(x+0.5)/W - 1) * aspect * tan(fov/2), (1 - 2(y+0.5)/H) * tan(fov/2), -1)`, where `fov` is
the camera's field of view converted from degrees to radians and `aspect = W / H` is the
aspect ratio of the image.  The square root is assumed exact at the three squared lengths
involved. -/
theorem renderToImage_rays [FloorRing F] (m : MathFns F) (g : SetupFns F) (width height : Nat)
    (scene : SceneGraph F) (cam : Camera F) (hcam : scene.camera = some cam)
    (hW : 0 < width) (hH : 0 < height) :
    (renderToImage m g width height scene).map Prod.fst
      = (List.range height).flatMap (fun y => (List.range width).map (fun x => (x, y))) ∧
    ∀ x y, x < width → y < height →
      ExactSqrtAt m (dot
        (specCameraVector ((width : F) / (height : F)) (m.tan (g.radians cam.fov * (1 / 2)))
          width height x y)
        (specCameraVector ((width : F) / (height : F)) (m.tan (g.radians cam.fov * (1 / 2)))
          width height x y)) →
      ExactSqrtAt m (dot
        ((g.inverse4 (getViewMatrix m cam)).linear.mulVec
          (specCameraVector ((width : F) / (height : F)) (m.tan (g.radians cam.fov * (1 / 2)))
            width height x y))
        ((g.inverse4 (getViewMatrix m cam)).linear.mulVec
          (specCameraVector ((width : F) / (height : F)) (m.tan (g.radians cam.fov * (1 / 2)))
            width height x y))) →
      ExactSqrtAt m (dot
        ((g.inverse4 (getViewMatrix m cam)).linear.mulVec (normalize m
          (specCameraVector ((width : F) / (height : F)) (m.tan (g.radians cam.fov * (1 / 2)))
            width height x y)))
        ((g.inverse4 (getViewMatrix m cam)).linear.mulVec (normalize m
          (specCameraVector ((width : F) / (height : F)) (m.tan (g.radians cam.fov * (1 / 2)))
            width height x y)))) →
      ∃ c,
        traceRay m (MAX_DEPTH.toNat + 1) cam.position
          (normalize m ((g.inverse4 (getViewMatrix m cam)).linear.mulVec
            (specCameraVector ((width : F) / (height : F))
              (m.tan (g.radians cam.fov * (1 / 2))) width height x y)))
          (buildRTObjects g scene).1 (buildRTObjects g scene).2 scene.getLights
          (scene.toScene cam) 0 1 = some c ∧
        ((x, y), some (toSFMLColor m c)) ∈ renderToImage m g width height scene := by
  have hsize : ¬ (width = 0 ∨ height = 0) := by omega
  constructor
  · unfold renderToImage
    simp only [hcam, if_neg hsize, List.map_flatMap, List.map_map]
    rfl
  · intro x y hx hy ha hb hc
    have hv : specCameraVector ((width : F) / (height : F))
        (m.tan (g.radians cam.fov * (1 / 2))) width height x y
        = ⟨(2 * ((x : F) + 1 / 2) / (width : F) - 1)
            * ((width : F) / (height : F) * m.tan (g.radians cam.fov * (1 / 2))),
           (1 - 2 * ((y : F) + 1 / 2) / (height : F)) * m.tan (g.radians cam.fov * (1 / 2)),
           -1⟩ := by
      unfold specCameraVector
      simp only [Vec3.mk.injEq, and_true, true_and]
      ring
    have hdir : (primaryRay m cam.position (g.inverse4 (getViewMatrix m cam))
        ((width : F) / (height : F)) (m.tan (g.radians cam.fov * (1 / 2))) width height x y).2
        = normalize m ((g.inverse4 (getViewMatrix m cam)).linear.mulVec
            (specCameraVector ((width : F) / (height : F))
              (m.tan (g.radians cam.fov * (1 / 2))) width height x y)) := by
      rw [← normalize_mulVec_normalize m _ _ (by rw [hv]; exact dot_cameraVector_ne_zero _ _)
        ha hb hc, hv]
      unfold primaryRay
      simp only [mulVec_withW_zero]
    obtain ⟨c, hc', -⟩ := traceRay_returns m (buildRTObjects g scene).1
      (buildRTObjects g scene).2 scene.getLights (scene.toScene cam) (MAX_DEPTH.toNat + 1)
      cam.position
      (normalize m ((g.inverse4 (getViewMatrix m cam)).linear.mulVec
        (specCameraVector ((width : F) / (height : F))
          (m.tan (g.radians cam.fov * (1 / 2))) width height x y))) 0 1 (by decide)
    refine ⟨c, hc', ?_⟩
    unfold renderToImage
    simp only [hcam, if_neg hsize, List.mem_flatMap, List.mem_map, List.mem_range]
    refine ⟨y, hy, x, hx, ?_⟩
    rw [hdir]
    show ((x, y), Option.map (toSFMLColor m) (traceRay m (MAX_DEPTH.toNat + 1) cam.position _
      _ _ _ _ 0 1)) = _
    rw [hc']
    rfl

/-- Pixel `(2, 0)` of the `3 x 2` image of `ballScene`: the camera-space vector is
`(1, 1/2, -1)`, of length `3/2`. -/
theorem renderToImage_rays_witness :
    (ballScene.camera = some wideCamera ∧ 0 < 3 ∧ 0 < 2 ∧ 2 < 3 ∧ 0 < 2) ∧
    ∃ c,
      traceRay ratMathImage (MAX_DEPTH.toNat + 1) wideCamera.position
        (normalize ratMathImage
          ((ratSetup.inverse4 (getViewMatrix ratMathImage wideCamera)).linear.mulVec
            (specCameraVector (((3 : Nat) : ℚ) / ((2 : Nat) : ℚ))
              (ratMathImage.tan (ratSetup.radians wideCamera.fov * (1 / 2))) 3 2 2 0)))
        (buildRTObjects ratSetup ballScene).1 (buildRTObjects ratSetup ballScene).2
        ballScene.getLights (ballScene.toScene wideCamera) 0 1 = some c ∧
      ((2, 0), some (toSFMLColor ratMathImage c)) ∈ renderToImage ratMathImage ratSetup 3 2
        ballScene :=
  ⟨⟨rfl, by decide, by decide, by decide, by decide⟩,
   (renderToImage_rays ratMathImage ratSetup 3 2 ballScene wideCamera rfl (by decide)
      (by decide)).2 2 0 (by decide) (by decide) ⟨by decide!, by decide!⟩
      ⟨by decide!, by decide!⟩ ⟨by decide!, by decide!⟩⟩

/-- C17 fails as stated: `wideCamera` has `aspectRatio = 16/9`, the image is `3 x 2`.  For
pixel `(2, 0)` the code traces the direction `(2/3, 1/3, -2/3)`, the normalised
`(1, 1/2, -1)` computed with `aspect = 3/2`; the claimed camera-space vector, computed with
the camera's aspect ratio, is `(32/27, 1/2, -1)`, which is not parallel to it.  The sphere of
`ballScene` lies on the traced ray and the pixel is written white, while the ray along the
claimed vector misses the sphere and returns the black background. -/
theorem renderToImage_uses_image_aspect :
    ballScene.camera = some wideCamera ∧ wideCamera.aspectRatio = 16 / 9 ∧
    primaryRay ratMathImage wideCamera.position
        (ratSetup.inverse4 (getViewMatrix ratMathImage wideCamera)) (((3 : Nat) : ℚ) / (2 : Nat))
        (ratMathImage.tan (ratSetup.radians wideCamera.fov * (1 / 2))) 3 2 2 0
      = (⟨0, 0, 5⟩, ⟨2 / 3, 1 / 3, -2 / 3⟩) ∧
    (ratSetup.inverse4 (getViewMatrix ratMathImage wideCamera)).linear.mulVec
        (specCameraVector wideCamera.aspectRatio
          (ratMathImage.tan (ratSetup.radians wideCamera.fov * (1 / 2))) 3 2 2 0)
      = ⟨32 / 27, 1 / 2, -1⟩ ∧
    cross (⟨2 / 3, 1 / 3, -2 / 3⟩ : Vec3 ℚ) ⟨32 / 27, 1 / 2, -1⟩ ≠ ⟨0, 0, 0⟩ ∧
    renderToImage ratMathImage ratSetup 3 2 ballScene
      = [((0, 0), some (0, 0, 0)), ((1, 0), some (0, 0, 0)), ((2, 0), some (255, 255, 255)),
         ((0, 1), some (0, 0, 0)), ((1, 1), some (0, 0, 0)), ((2, 1), some (0, 0, 0))] ∧
    traceRay ratMathImage 7 ⟨0, 0, 5⟩ (normalize ratMathImage ⟨32 / 27, 1 / 2, -1⟩)
        (buildRTObjects ratSetup ballScene).1 (buildRTObjects ratSetup ballScene).2 []
        (ballScene.toScene wideCamera) 0 1
      = some ⟨0, 0, 0⟩ :=
  ⟨rfl, by decide!⟩

/-- C18 (amended): with a square root that is exact where it is applied, the directions handed
from one stage to the next have norm 1: the primary direction passed to `traceRay` whenever the
inverse view matrix maps the camera-space direction to a non-zero vector; the reflection and
refraction directions passed to the recursive `traceRay` calls whenever the incoming
direction and the hit's geometric normal are unit-length; and the light direction passed to
`inShadow` (for every light farther than `1e-6` from the hit point). -/
theorem directions_unit (m : MathFns F) (cameraPosition : Vec3 F) (invView : Mat4 F)
    (aspect scale : F) (width height x y : Nat) (dirUnit N T : Vec3 F) (eta : F)
    (hitP lightPos : Vec3 F) :
    (ExactSqrtAt m (dot (primaryWorldVector m invView aspect scale width height x y)
        (primaryWorldVector m invView aspect scale width height x y)) →
      dot (primaryWorldVector m invView aspect scale width height x y)
        (primaryWorldVector m invView aspect scale width height x y) ≠ 0 →
      dot (primaryRay m cameraPosition invView aspect scale width height x y).2
        (primaryRay m cameraPosition invView aspect scale width height x y).2 = 1) ∧
    (dot dirUnit dirUnit = 1 → dot N N = 1 → ExactSqrtAt m 1 →
      dot (normalize m (reflectVec dirUnit N)) (normalize m (reflectVec dirUnit N)) = 1) ∧
    (dot dirUnit dirUnit = 1 → dot N N = 1 → ExactSqrtAt m 1 →
      ExactSqrtAt m (1 - dot ((dirUnit.add (N.smul (min (dot dirUnit.neg N) 1))).smul eta)
        ((dirUnit.add (N.smul (min (dot dirUnit.neg N) 1))).smul eta)) →
      refractVec m dirUnit N eta = some T →
      dot (normalize m T) (normalize m T) = 1) ∧
    (ExactSqrtAt m (dot (lightPos.sub hitP) (lightPos.sub hitP)) →
      ¬ length m (lightPos.sub hitP) ≤ 1 / 1000000 →
      dot ((lightPos.sub hitP).sdiv (length m (lightPos.sub hitP)))
        ((lightPos.sub hitP).sdiv (length m (lightPos.sub hitP))) = 1) := by
  refine ⟨fun h hv => ?_, fun hd hn h1 => ?_, fun hd hn h1 hk hT => ?_, fun h hfar => ?_⟩
  · rw [primaryRay_dir]
    exact normalize_unit m _ h hv
  · have hR := reflectVec_unit dirUnit N hd hn
    exact normalize_unit m _ (by rw [hR]; exact h1) (by rw [hR]; exact one_ne_zero)
  · have hTT := refractVec_unit m dirUnit N T eta hd hn hk hT
    exact normalize_unit m _ (by rw [hTT]; exact h1) (by rw [hTT]; exact one_ne_zero)
  · apply sdiv_unit _ _ h.2
    intro h0
    apply hfar
    unfold length
    rw [h0]
    norm_num

/-- The primary ray of pixel `(2, 0)` of `wideCamera`, and the reflection, refraction and light
directions at the hit of the vertical ray on the glass sphere. -/
theorem directions_unit_witness :
    dot (primaryRay ratMathImage wideCamera.position
        (ratSetup.inverse4 (getViewMatrix ratMathImage wideCamera)) (3 / 2) 1 3 2 2 0).2
      (primaryRay ratMathImage wideCamera.position
        (ratSetup.inverse4 (getViewMatrix ratMathImage wideCamera)) (3 / 2) 1 3 2 2 0).2 = 1 ∧
    dot (normalize ratMathImage (reflectVec grazingDir ⟨-1, 0, 0⟩))
      (normalize ratMathImage (reflectVec grazingDir ⟨-1, 0, 0⟩)) = 1 ∧
    dot (normalize ratMathImage (⟨0, 0, -1⟩ : Vec3 ℚ)) (normalize ratMathImage ⟨0, 0, -1⟩) = 1 ∧
    dot ((brightLight.position.sub ⟨0, 0, 1⟩).sdiv
        (length ratMathImage (brightLight.position.sub ⟨0, 0, 1⟩)))
      ((brightLight.position.sub ⟨0, 0, 1⟩).sdiv
        (length ratMathImage (brightLight.position.sub ⟨0, 0, 1⟩))) = 1 :=
  ⟨(directions_unit ratMathImage wideCamera.position
      (ratSetup.inverse4 (getViewMatrix ratMathImage wideCamera)) (3 / 2) 1 3 2 2 0
      grazingDir ⟨-1, 0, 0⟩ ⟨0, 0, -1⟩ (2 / 3) ⟨0, 0, 1⟩ brightLight.position).1
      ⟨by decide!, by decide!⟩ (by decide!),
   (directions_unit ratMathImage wideCamera.position
      (ratSetup.inverse4 (getViewMatrix ratMathImage wideCamera)) (3 / 2) 1 3 2 2 0
      grazingDir ⟨-1, 0, 0⟩ ⟨0, 0, -1⟩ (2 / 3) ⟨0, 0, 1⟩ brightLight.position).2.1
      (by decide!) (by decide!) ⟨by decide!, by decide!⟩,
   (directions_unit ratMathImage wideCamera.position
      (ratSetup.inverse4 (getViewMatrix ratMathImage wideCamera)) (3 / 2) 1 3 2 2 0
      ⟨0, 0, -1⟩ ⟨0, 0, 1⟩ ⟨0, 0, -1⟩ (2 / 3) ⟨0, 0, 1⟩ brightLight.position).2.2.1
      (by decide!) (by decide!) ⟨by decide!, by decide!⟩ ⟨by decide!, by decide!⟩ (by decide!),
   (directions_unit ratMathImage wideCamera.position
      (ratSetup.inverse4 (getViewMatrix ratMathImage wideCamera)) (3 / 2) 1 3 2 2 0
      grazingDir ⟨-1, 0, 0⟩ ⟨0, 0, -1⟩ (2 / 3) ⟨0, 0, 1⟩ brightLight.position).2.2.2
      ⟨by decide!, by decide!⟩ (by decide!)⟩

/-- C18 fails as stated: for `zenithCamera`, straight above its target with `up` parallel to
the viewing direction, `cross(up, zaxis)` is the zero vector, the view matrix is singular and
the primary direction handed to `traceRay` is not a unit vector (here the zero vector; in
`float` arithmetic, NaN). -/
theorem primary_direction_not_unit :
    cross zenithCamera.up (normalize ratMathImage
        (zenithCamera.position.sub zenithCamera.target)) = ⟨0, 0, 0⟩ ∧
    Mat4.det (getViewMatrix ratMathImage zenithCamera) = 0 ∧
    (primaryRay ratMathImage zenithCamera.position
        (ratSetup.inverse4 (getViewMatrix ratMathImage zenithCamera)) (((3 : Nat) : ℚ) / (2 : Nat))
        (ratMathImage.tan (ratSetup.radians zenithCamera.fov * (1 / 2))) 3 2 2 0).2
      = ⟨0, 0, 0⟩ ∧
    dot (primaryRay ratMathImage zenithCamera.position
        (ratSetup.inverse4 (getViewMatrix ratMathImage zenithCamera)) (((3 : Nat) : ℚ) / (2 : Nat))
        (ratMathImage.tan (ratSetup.radians zenithCamera.fov * (1 / 2))) 3 2 2 0).2
      (primaryRay ratMathImage zenithCamera.position
        (ratSetup.inverse4 (getViewMatrix ratMathImage zenithCamera)) (((3 : Nat) : ℚ) / (2 : Nat))
        (ratMathImage.tan (ratSetup.radians zenithCamera.fov * (1 / 2))) 3 2 2 0).2 ≠ 1 := by
  decide!

/-- C19: `toSFMLColor` maps each linear channel `c` to the 8-bit value
`floor(255 * clamp(c, 0, 1)^(1/2.2) + 0.5)`; the result always lies in `0..255`, is `0` for
every `c <= 0`, is `255` for every `c >= 1`, and is monotonically non-decreasing in `c`.
Assumed of `std::pow` at the exponent `1/2.2`: `pow(0) = 0`, `pow(1) = 1`, and it is
non-decreasing on `[0, 1]`. -/
theorem toSFMLColor_channel [FloorRing F] (m : MathFns F)
    (hp0 : m.pow 0 (1 / (22 / 10)) = 0) (hp1 : m.pow 1 (1 / (22 / 10)) = 1)
    (hmono : ∀ a b, 0 ≤ a → a ≤ b → b ≤ 1 →
      m.pow a (1 / (22 / 10)) ≤ m.pow b (1 / (22 / 10))) :
    (∀ v : Vec3 F, toSFMLColor m v
      = (toSFMLChannel m v.x, toSFMLChannel m v.y, toSFMLChannel m v.z)) ∧
    (∀ c, toSFMLChannel m c
      = Int.toNat ⌊255 * m.pow (min (max c 0) 1) (1 / (22 / 10)) + 1 / 2⌋) ∧
    (∀ c, toSFMLChannel m c ≤ 255) ∧
    (∀ c, c ≤ 0 → toSFMLChannel m c = 0) ∧
    (∀ c, 1 ≤ c → toSFMLChannel m c = 255) ∧
    (∀ c c', c ≤ c' → toSFMLChannel m c ≤ toSFMLChannel m c') := by
  have hc0 : ∀ c : F, 0 ≤ min (max c 0) 1 := fun c => le_min (le_max_right c 0) zero_le_one
  have hc1 : ∀ c : F, min (max c 0) 1 ≤ 1 := fun c => min_le_right _ _
  have hpow0 : ∀ c : F, 0 ≤ m.pow (min (max c 0) 1) (1 / (22 / 10)) := fun c =>
    le_of_eq_of_le hp0.symm (hmono 0 _ (le_refl 0) (hc0 c) (hc1 c))
  have hpow1 : ∀ c : F, m.pow (min (max c 0) 1) (1 / (22 / 10)) ≤ 1 := fun c =>
    le_of_le_of_eq (hmono _ 1 (hc0 c) (hc1 c) (le_refl 1)) hp1
  refine ⟨fun v => rfl, fun c => ?_, fun c => toByte_le _, fun c hc => ?_, fun c hc => ?_,
    fun c c' h => ?_⟩
  · unfold toSFMLChannel
    rw [toByte_eq, clampS_of_mem (hpow0 c) (hpow1 c), mul_comm]
  · unfold toSFMLChannel
    rw [max_eq_right hc, min_eq_left zero_le_one, hp0, toByte_zero]
  · unfold toSFMLChannel
    rw [max_eq_left (le_trans zero_le_one hc), min_eq_right hc, hp1, toByte_one]
  · unfold toSFMLChannel
    apply toByte_mono
    apply hmono _ _ (hc0 c) _ (hc1 c')
    exact min_le_min (max_le_max h (le_refl 0)) (le_refl 1)

/-- The hypotheses on the power hold for the real power function; the channels of black and
white are `0` and `255`. -/
theorem toSFMLColor_channel_witness :
    toSFMLChannel (⟨Real.sqrt, fun x y => x ^ y, Real.tan⟩ : MathFns ℝ) 0 = 0 ∧
    toSFMLChannel (⟨Real.sqrt, fun x y => x ^ y, Real.tan⟩ : MathFns ℝ) 1 = 255 :=
  ⟨(toSFMLColor_channel (⟨Real.sqrt, fun x y => x ^ y, Real.tan⟩ : MathFns ℝ)
      (Real.zero_rpow (by norm_num)) (Real.one_rpow _)
      (fun a b ha hab _ => Real.rpow_le_rpow ha hab (by norm_num))).2.2.2.1 0 (le_refl 0),
   (toSFMLColor_channel (⟨Real.sqrt, fun x y => x ^ y, Real.tan⟩ : MathFns ℝ)
      (Real.zero_rpow (by norm_num)) (Real.one_rpow _)
      (fun a b ha hab _ => Real.rpow_le_rpow ha hab (by norm_num))).2.2.2.2.1 1 (le_refl 1)⟩

/-- C20: every sphere produced by `buildRTObjects` comes from a mesh of the scene whose name
contains `"Sphere"`, has centre equal to that mesh's position and radius equal to
`max(1e-4, max(|scale.x|, |scale.y|, |scale.z|))`; hence its radius is `>= 1e-4 > 0`, for
every source scale including zero and negative components. -/
theorem buildRTObjects_sphere (g : SetupFns F) (scene : SceneGraph F) (s : RTSphere F)
    (hs : s ∈ (buildRTObjects g scene).2) :
    (∃ msh ∈ scene.getAllMeshes, nameContains msh.name "Sphere" = true ∧
      s.center = msh.position ∧
      s.radius = max (1 / 10000) (max (max |msh.scale.x| |msh.scale.y|) |msh.scale.z|)) ∧
    1 / 10000 ≤ s.radius ∧ 0 < s.radius := by
  rw [buildRTObjects_eq] at hs
  obtain ⟨msh, hmem, rfl⟩ := List.mem_map.mp hs
  obtain ⟨hin, hname⟩ := List.mem_filter.mp hmem
  have hr : (1 / 10000 : F) ≤ (flattenSphere msh).radius := le_max_left _ _
  exact ⟨⟨msh, hin, hname, rfl, rfl⟩, hr, lt_of_lt_of_le (by norm_num) hr⟩

/-- The two spheres of `pointBallScene`: scale `(0, -3, 2)` gives radius `3`, scale
`(0, 0, 0)` gives radius `1e-4`; the wall mesh gives no sphere. -/
theorem buildRTObjects_sphere_witness :
    (buildRTObjects ratSetup pointBallScene).2
      = [{ center := ⟨1, 2, 3⟩, radius := 3, material := glassMat, isLight := false,
           isHidden := false },
         { center := ⟨0, 0, 0⟩, radius := 1 / 10000, material := matteMat, isLight := false,
           isHidden := false }] ∧
    (1 / 10000 : ℚ) ≤ 1 / 10000 ∧ (0 : ℚ) < 1 / 10000 :=
  ⟨by decide!,
   (buildRTObjects_sphere ratSetup pointBallScene
      { center := ⟨0, 0, 0⟩, radius := 1 / 10000, material := matteMat, isLight := false,
        isHidden := false } (by decide!)).2⟩

/-- C21: `buildRTObjects` produces exactly one flattened entry per scene-graph node that owns
a mesh, visiting the nodes in depth-first pre-order: the meshes whose name contains `"Sphere"`
become the spheres and the others the triangle meshes, each list in pre-order, and
`|outMeshes| + |outSpheres|` is the number of nodes with a mesh. -/
theorem buildRTObjects_one_entry_per_mesh (g : SetupFns F) (scene : SceneGraph F) :
    scene.getAllMeshes = (preorder scene.root).filterMap SceneNode.mesh ∧
    (buildRTObjects g scene).1
      = ((((preorder scene.root).filterMap SceneNode.mesh).filter
          (fun msh => !nameContains msh.name "Sphere")).map (flattenMesh g)) ∧
    (buildRTObjects g scene).2
      = ((((preorder scene.root).filterMap SceneNode.mesh).filter
          (fun msh => nameContains msh.name "Sphere")).map flattenSphere) ∧
    (buildRTObjects g scene).1.length + (buildRTObjects g scene).2.length
      = ((preorder scene.root).filter (fun node => node.mesh.isSome)).length := by
  have h0 : scene.getAllMeshes = (preorder scene.root).filterMap SceneNode.mesh :=
    collectMeshes_preorder scene.root
  rw [buildRTObjects_eq, h0]
  refine ⟨rfl, rfl, rfl, ?_⟩
  simp only [List.length_map]
  rw [length_filter_add, length_filterMap_mesh]

/-- C22 (amended): every flattened triangle mesh carries the name-derived flags (`isLight` if
and only if the name of its mesh contains `"LightCapsule"` or `"Light_"`, `isHidden` if and
only if the name equals `"Wall_FrontWall"`); every flattened sphere has both flags `false`,
whatever the name of its source mesh, which is never `"Wall_FrontWall"`. -/
theorem buildRTObjects_flags (g : SetupFns F) (scene : SceneGraph F) :
    (∀ rt ∈ (buildRTObjects g scene).1,
      rt.mesh ∈ scene.getAllMeshes ∧ nameContains rt.mesh.name "Sphere" = false ∧
      (rt.isLight = true ↔ (nameContains rt.mesh.name "LightCapsule" = true ∨
        nameContains rt.mesh.name "Light_" = true)) ∧
      (rt.isHidden = true ↔ rt.mesh.name = "Wall_FrontWall")) ∧
    (∀ s ∈ (buildRTObjects g scene).2, s.isLight = false ∧ s.isHidden = false) ∧
    (∀ msh ∈ scene.getAllMeshes, nameContains msh.name "Sphere" = true →
      flattenSphere msh ∈ (buildRTObjects g scene).2 ∧ msh.name ≠ "Wall_FrontWall") := by
  rw [buildRTObjects_eq]
  refine ⟨fun rt hrt => ?_, fun s hs => ?_, fun msh hmsh hname => ?_⟩
  · obtain ⟨msh, hmem, rfl⟩ := List.mem_map.mp hrt
    obtain ⟨hin, hname⟩ := List.mem_filter.mp hmem
    refine ⟨hin, by simpa using hname, ?_, ?_⟩
    · simp [flattenMesh]
    · simp [flattenMesh]
  · obtain ⟨msh, -, rfl⟩ := List.mem_map.mp hs
    exact ⟨rfl, rfl⟩
  · exact ⟨List.mem_map.mpr ⟨msh, List.mem_filter.mpr ⟨hmsh, hname⟩, rfl⟩,
      nameContains_sphere_ne_frontWall msh.name hname⟩

/-- The flattened entries of `lampBallScene`: the light capsule and the front wall carry
their flags, the two spheres carry none. -/
theorem buildRTObjects_flags_witness :
    (flattenMesh ratSetup (panelMesh "Wall_FrontWall" matteMat)
        ∈ (buildRTObjects ratSetup lampBallScene).1 ∧
      lampBallMesh ∈ lampBallScene.getAllMeshes ∧
      nameContains lampBallMesh.name "Sphere" = true) ∧
    ((flattenMesh ratSetup (panelMesh "Wall_FrontWall" matteMat)).isHidden = true ↔
      (flattenMesh ratSetup (panelMesh "Wall_FrontWall" matteMat)).mesh.name
        = "Wall_FrontWall") ∧
    flattenSphere lampBallMesh ∈ (buildRTObjects ratSetup lampBallScene).2 :=
  ⟨⟨by decide!, by decide!, by decide⟩,
   ((buildRTObjects_flags ratSetup lampBallScene).1
      (flattenMesh ratSetup (panelMesh "Wall_FrontWall" matteMat)) (by decide!)).2.2.2,
   ((buildRTObjects_flags ratSetup lampBallScene).2.2 lampBallMesh (by decide!)
      (by decide)).1⟩

/-- C22 fails as stated: the mesh named `"Light_Sphere"` contains `"Light_"`, yet the sphere
flattened from it has `isLight = false`; the triangle mesh named `"LightCapsule"` of the same
scene has `isLight = true`. -/
theorem buildRTObjects_sphere_never_light :
    lampBallScene.getAllMeshes
      = [panelMesh "LightCapsule" matteMat, lampBallMesh,
         { name := "Sphere", faces := [], position := ⟨2, 1, 3⟩, rotation := ⟨0, 0, 0⟩,
           scale := ⟨1 / 8, 1 / 8, 1 / 8⟩, material := matteMat },
         panelMesh "Wall_FrontWall" matteMat] ∧
    nameContains lampBallMesh.name "Light_" = true ∧
    (buildRTObjects ratSetup lampBallScene).2
      = [{ center := ⟨0, 4, 0⟩, radius := 1, material := matteMat, isLight := false,
           isHidden := false },
         { center := ⟨2, 1, 3⟩, radius := 1 / 8, material := matteMat, isLight := false,
           isHidden := false }] ∧
    (buildRTObjects ratSetup lampBallScene).1.map (fun rt => (rt.mesh.name, rt.isLight,
        rt.isHidden))
      = [("LightCapsule", true, false), ("Wall_FrontWall", false, true)] := by
  decide!

/-- C23: for every flattened mesh, `model` is
`translation(position) * rotationX(rotation.x) * rotationY(rotation.y) * rotationZ(rotation.z)
* scaling(scale)` of its mesh, an affine matrix that maps a local point `p` to
`position + Rx(Ry(Rz(scale ⊙ p)))`; and whenever the three scale components are nonzero the
matrix is invertible (its determinant is `scale.x * scale.y * scale.z`) and `invModel * model`
is the identity.  Assumed of the library: `cos² + sin² = 1` at the three angles, and
`glm::inverse` returns a left inverse of every matrix of nonzero determinant. -/
theorem flattened_model (g : SetupFns F) (scene : SceneGraph F) (rt : RTMesh F)
    (hrt : rt ∈ (buildRTObjects g scene).1)
    (hinv : ∀ M : Mat4 F, M.det ≠ 0 → (g.inverse4 M).mul M = Mat4.identity)
    (hx : g.cos rt.mesh.rotation.x * g.cos rt.mesh.rotation.x
      + g.sin rt.mesh.rotation.x * g.sin rt.mesh.rotation.x = 1)
    (hy : g.cos rt.mesh.rotation.y * g.cos rt.mesh.rotation.y
      + g.sin rt.mesh.rotation.y * g.sin rt.mesh.rotation.y = 1)
    (hz : g.cos rt.mesh.rotation.z * g.cos rt.mesh.rotation.z
      + g.sin rt.mesh.rotation.z * g.sin rt.mesh.rotation.z = 1) :
    rt.model
      = ((((translation rt.mesh.position).mul (rotationX g rt.mesh.rotation.x)).mul
          (rotationY g rt.mesh.rotation.y)).mul (rotationZ g rt.mesh.rotation.z)).mul
          (scaling rt.mesh.scale) ∧
    (∀ p : Vec3 F, (rt.model.mulVec (p.withW 1)).xyz = specModelPoint g rt.mesh p) ∧
    (rt.model.c0.w = 0 ∧ rt.model.c1.w = 0 ∧ rt.model.c2.w = 0 ∧ rt.model.c3.w = 1) ∧
    rt.model.det = rt.mesh.scale.x * rt.mesh.scale.y * rt.mesh.scale.z ∧
    (rt.mesh.scale.x ≠ 0 → rt.mesh.scale.y ≠ 0 → rt.mesh.scale.z ≠ 0 →
      rt.model.det ≠ 0 ∧ rt.invModel.mul rt.model = Mat4.identity) := by
  rw [buildRTObjects_eq] at hrt
  obtain ⟨msh, -, rfl⟩ := List.mem_map.mp hrt
  have hdet : (getTransformMatrix g msh).det = msh.scale.x * msh.scale.y * msh.scale.z := by
    have hx1 : g.cos msh.rotation.x * g.cos msh.rotation.x
      + g.sin msh.rotation.x * g.sin msh.rotation.x = 1 := hx
    have hy1 : g.cos msh.rotation.y * g.cos msh.rotation.y
      + g.sin msh.rotation.y * g.sin msh.rotation.y = 1 := hy
    have hz1 : g.cos msh.rotation.z * g.cos msh.rotation.z
      + g.sin msh.rotation.z * g.sin msh.rotation.z = 1 := hz
    rw [getTransformMatrix_det, hx1, hy1, hz1]
    ring
  refine ⟨rfl, fun p => getTransformMatrix_point g msh p, getTransformMatrix_affine g msh, hdet,
    fun h1 h2 h3 => ?_⟩
  have hne : (getTransformMatrix g msh).det ≠ 0 := by
    rw [hdet]
    exact mul_ne_zero (mul_ne_zero h1 h2) h3
  exact ⟨hne, hinv _ hne⟩

/-- The flattened `stretchedMesh` (scale `(2, 1, 1/2)`, no rotation): determinant `1`, and the
local point `(1, 1, 1)` goes to `(2, 1, -5/2)`. -/
theorem flattened_model_witness :
    flattenMesh ratSetup stretchedMesh ∈ (buildRTObjects ratSetup stretchedScene).1 ∧
    (flattenMesh ratSetup stretchedMesh).model.det = 1 ∧
    (((flattenMesh ratSetup stretchedMesh).model.mulVec
        ((⟨1, 1, 1⟩ : Vec3 ℚ).withW 1)).xyz = ⟨2, 1, -5 / 2⟩ ∧
      specModelPoint ratSetup stretchedMesh ⟨1, 1, 1⟩ = ⟨2, 1, -5 / 2⟩) ∧
    (flattenMesh ratSetup stretchedMesh).invModel.mul (flattenMesh ratSetup stretchedMesh).model
      = Mat4.identity :=
  ⟨by decide!, by decide!, by decide!,
   ((flattened_model ratSetup stretchedScene (flattenMesh ratSetup stretchedMesh) (by decide!)
      (fun M h => cofactorInverse_mul M h) (by decide!) (by decide!) (by decide!)).2.2.2.2
      (by decide!) (by decide!) (by decide!)).2⟩

/-- C24: in the scene of one white sphere of radius 1 at the origin and one white light of
intensity 1 at `(0, 5, 0)`, with the default ambient and background colours and the camera at
`(0, 0, 5)`, the primary ray through the sphere's centre returns `(1/10, 1/10, 1/10)`, which
is strictly brighter in every channel than what a primary ray that misses the sphere
returns, and the latter is exactly the background colour.  Only `sqrt(1) = 1` is assumed of
the square root. -/
theorem traceRay_centre_brighter (m : MathFns F) (mat : Material F) (missDir : Vec3 F)
    (h1 : m.sqrt 1 = 1) (hwhite : mat.diffuseColor = ⟨1, 1, 1⟩) (hmir : mat.isMirror = false)
    (htr : mat.isTransparent = false)
    (hmiss : intersectSphere m ⟨0, 0, 5⟩ missDir (unitSphere mat) = none) :
    ∃ centre miss,
      traceRay m (MAX_DEPTH.toNat + 1) defaultScene.cameraPosition ⟨0, 0, -1⟩ []
        [unitSphere mat] [topLight] defaultScene 0 1 = some centre ∧
      traceRay m (MAX_DEPTH.toNat + 1) defaultScene.cameraPosition missDir []
        [unitSphere mat] [topLight] defaultScene 0 1 = some miss ∧
      centre = ⟨1 / 10, 1 / 10, 1 / 10⟩ ∧
      miss = defaultScene.backgroundColor ∧
      miss.x < centre.x ∧ miss.y < centre.y ∧ miss.z < centre.z := by
  have hs := intersectSphere_unit_centre m mat h1
  have hhit := intersectScene_single m ⟨0, 0, 5⟩ ⟨0, 0, -1⟩ (unitSphere mat) _ rfl hs
    (by simp only [EPS]; norm_num) (FLT_MAX_gt _ (by norm_num)) (decide ((0 : Int) = 0))
  have hc := traceRay_diffuse m 6 ⟨0, 0, 5⟩ ⟨0, 0, -1⟩ [] [unitSphere mat] [topLight]
    defaultScene 0 1 _ (by decide) hhit rfl
    (by rw [hmir]; exact fun h => Bool.false_ne_true h.1)
    (by rw [htr]; exact fun h => Bool.false_ne_true h.1)
  have hm := traceRay_miss m 6 ⟨0, 0, 5⟩ missDir [] [unitSphere mat] [topLight]
    defaultScene 0 1 (intersectScene_single_miss m _ _ _ hmiss _)
  refine ⟨_, _, hc, hm, ?_, rfl, ?_⟩
  · have := shadeDirect_topLight m mat h1 [] [unitSphere mat]
    simp only [unitSphere] at this ⊢
    rw [this, hwhite]
    simp only [Vec3.mul, Vec3.splat, Vec3.clamp, Vec3.mk.injEq]
    norm_num
  · have := shadeDirect_topLight m mat h1 [] [unitSphere mat]
    simp only [unitSphere] at this ⊢
    rw [this, hwhite]
    simp only [Vec3.mul, Vec3.splat, Vec3.clamp, defaultScene]
    norm_num

/-- The scene with the matte white sphere, over the rationals: the primary ray along
`(0, 1, 0)` misses the sphere. -/
theorem traceRay_centre_brighter_witness :
    (ratMath.sqrt 1 = 1 ∧
      intersectSphere ratMath ⟨0, 0, 5⟩ ⟨0, 1, 0⟩ (unitSphere matteMat) = none) ∧
    ∃ centre miss,
      traceRay ratMath (MAX_DEPTH.toNat + 1) defaultScene.cameraPosition ⟨0, 0, -1⟩ []
        [unitSphere matteMat] [topLight] defaultScene 0 1 = some centre ∧
      traceRay ratMath (MAX_DEPTH.toNat + 1) defaultScene.cameraPosition ⟨0, 1, 0⟩ []
        [unitSphere matteMat] [topLight] defaultScene 0 1 = some miss ∧
      centre = ⟨1 / 10, 1 / 10, 1 / 10⟩ ∧
      miss = defaultScene.backgroundColor ∧
      miss.x < centre.x ∧ miss.y < centre.y ∧ miss.z < centre.z :=
  ⟨⟨by decide!, by decide!⟩,
   traceRay_centre_brighter ratMath matteMat ⟨0, 1, 0⟩ (by decide!) rfl rfl rfl (by decide!)⟩

/-- In exact arithmetic: for a unit direction `d` (and a square root that is exact at the
discriminant when it is non-negative), `intersectSphere` reports a hit if and only if the
quadratic `|o + t d - c|² = r²` has a root greater than `EPS`; the roots are the two values
`(-halfB ∓ sqrtD) / a`, the returned `t` is the smaller one when it is `> EPS` and the larger
one otherwise, which makes it the least root above `EPS`, and the returned hit point is
`p = o + t d` with `|p - c|² = r²`. -/
theorem intersectSphere_quadratic_exact (m : MathFns F) (o d : Vec3 F) (s : RTSphere F)
    (hd : dot d d = 1) (hsq : 0 ≤ sphereDisc o d s → ExactSqrtAt m (sphereDisc o d s)) :
    ((∃ h, intersectSphere m o d s = some h) ↔ ∃ t, EPS < t ∧ OnSphereAt o d s t) ∧
    ∀ h, intersectSphere m o d s = some h →
      (sphereNearRoot m o d s ≤ sphereFarRoot m o d s ∧
        ∀ t, OnSphereAt o d s t ↔ (t = sphereNearRoot m o d s ∨ t = sphereFarRoot m o d s)) ∧
      h.t = (if EPS < sphereNearRoot m o d s then sphereNearRoot m o d s
        else sphereFarRoot m o d s) ∧
      EPS < h.t ∧ OnSphereAt o d s h.t ∧ (∀ t, EPS < t → OnSphereAt o d s t → h.t ≤ t) ∧
      h.p = o.add (d.smul h.t) ∧
      dot (h.p.sub s.center) (h.p.sub s.center) = s.radius * s.radius := by
  have hle : 0 ≤ sphereDisc o d s → sphereNearRoot m o d s ≤ sphereFarRoot m o d s := by
    intro h0
    obtain ⟨h1, -⟩ := hsq h0
    unfold sphereNearRoot sphereFarRoot
    rw [hd, div_one, div_one]
    linarith
  constructor
  · rw [intersectSphere_eq]
    constructor
    · rintro ⟨h, hh⟩
      split_ifs at hh with h0 h1 h2
      · exact ⟨_, not_le.mp h2,
          (onSphereAt_roots m o d s _ hd (hsq (not_lt.mp h0))).mpr (Or.inr rfl)⟩
      · exact ⟨_, not_le.mp h1,
          (onSphereAt_roots m o d s _ hd (hsq (not_lt.mp h0))).mpr (Or.inl rfl)⟩
    · rintro ⟨t, ht, hon⟩
      have h0 := onSphereAt_disc_nonneg o d s t hd hon
      rw [if_neg (not_lt.mpr h0)]
      by_cases h1 : sphereNearRoot m o d s ≤ EPS
      · rw [if_pos h1]
        have h2 : ¬ sphereFarRoot m o d s ≤ EPS := by
          intro h2
          rcases (onSphereAt_roots m o d s t hd (hsq h0)).mp hon with e | e
          · rw [e] at ht; exact absurd h1 (not_le.mpr ht)
          · rw [e] at ht; exact absurd h2 (not_le.mpr ht)
        rw [if_neg h2]
        exact ⟨_, rfl⟩
      · rw [if_neg h1]
        exact ⟨_, rfl⟩
  · intro h hh
    rw [intersectSphere_eq] at hh
    have key : ∀ t0, h = sphereHit m o d s t0 → EPS < t0 → OnSphereAt o d s t0 →
        (∀ t, EPS < t → OnSphereAt o d s t → t0 ≤ t) →
        EPS < h.t ∧ OnSphereAt o d s h.t ∧ (∀ t, EPS < t → OnSphereAt o d s t → h.t ≤ t) ∧
        h.p = o.add (d.smul h.t) ∧
        dot (h.p.sub s.center) (h.p.sub s.center) = s.radius * s.radius := by
      intro t0 e h1 h2 h3
      subst e
      exact ⟨h1, h2, h3, rfl, h2⟩
    split_ifs at hh with h0 h1 h2
    · have hex := hsq (not_lt.mp h0)
      have e : h = sphereHit m o d s (sphereFarRoot m o d s) := (Option.some.inj hh).symm
      have ht : h.t = sphereFarRoot m o d s := by rw [e]; rfl
      refine ⟨⟨hle (not_lt.mp h0), fun t => onSphereAt_roots m o d s t hd hex⟩, ?_,
        key _ e (not_le.mp h2) ((onSphereAt_roots m o d s _ hd hex).mpr (Or.inr rfl)) ?_⟩
      · rw [ht, if_neg (not_lt.mpr h1)]
      · intro t ht1 hon
        rcases (onSphereAt_roots m o d s t hd hex).mp hon with e1 | e1
        · rw [e1] at ht1; exact absurd h1 (not_le.mpr ht1)
        · exact le_of_eq e1.symm
    · have hex := hsq (not_lt.mp h0)
      have e : h = sphereHit m o d s (sphereNearRoot m o d s) := (Option.some.inj hh).symm
      have ht : h.t = sphereNearRoot m o d s := by rw [e]; rfl
      refine ⟨⟨hle (not_lt.mp h0), fun t => onSphereAt_roots m o d s t hd hex⟩, ?_,
        key _ e (not_le.mp h1) ((onSphereAt_roots m o d s _ hd hex).mpr (Or.inl rfl)) ?_⟩
      · rw [ht, if_pos (not_le.mp h1)]
      · intro t _ hon
        rcases (onSphereAt_roots m o d s t hd hex).mp hon with e1 | e1
        · exact le_of_eq e1.symm
        · rw [e1]; exact hle (not_lt.mp h0)

/-- C27 (amended): in every arithmetic, `intersectSphere` reports a miss exactly when the
discriminant `disc = halfB² - a c` it computes is negative or both values
`(-halfB - sqrt(disc)) / a` and `(-halfB + sqrt(disc)) / a` it computes are `<= EPS`;
otherwise it returns the first value unless that is `<= EPS`, and then the second, the
returned `t` is never `<= EPS`, and the hit point is computed as `p = o + d * t`.  In exact
arithmetic, for a unit direction, the two values are the roots of `|o + t d - c|² = r²`: a
hit is reported if and only if there is a root greater than `EPS`, `t` is the least such
root and `|p - c|² = r²`.  In binary32 the two values are roots only up to the rounding of
the discriminant. -/
theorem intersectSphere_computed {R : Type} (A : FloatOps R) (o d : Vec3 R)
    (s : RTSphere R) :
    (Fl.intersectSphere A o d s = none ↔
      (A.lt (Fl.sphereDisc A o d s) (A.lit 0) = true ∨
        (A.le (Fl.sphereNear A o d s) (Fl.EPS A) = true ∧
          A.le (Fl.sphereFar A o d s) (Fl.EPS A) = true))) ∧
    (∀ h, Fl.intersectSphere A o d s = some h →
      h.t = (if A.le (Fl.sphereNear A o d s) (Fl.EPS A) = true then Fl.sphereFar A o d s
        else Fl.sphereNear A o d s) ∧
      A.le h.t (Fl.EPS A) = false ∧
      h.p = Fl.vadd A o (Fl.vscale A d h.t)) ∧
    (∀ (m : MathFns F) (o d : Vec3 F) (s : RTSphere F), dot d d = 1 →
      (0 ≤ sphereDisc o d s → ExactSqrtAt m (sphereDisc o d s)) →
      ((∃ h, Fl.intersectSphere (exactOps m) o d s = some h) ↔
        ∃ t, EPS < t ∧ OnSphereAt o d s t) ∧
      ∀ h, Fl.intersectSphere (exactOps m) o d s = some h →
        (sphereNearRoot m o d s ≤ sphereFarRoot m o d s ∧
          ∀ t, OnSphereAt o d s t ↔ (t = sphereNearRoot m o d s ∨ t = sphereFarRoot m o d s)) ∧
        h.t = (if EPS < sphereNearRoot m o d s then sphereNearRoot m o d s
          else sphereFarRoot m o d s) ∧
        EPS < h.t ∧ OnSphereAt o d s h.t ∧ (∀ t, EPS < t → OnSphereAt o d s t → h.t ≤ t) ∧
        h.p = o.add (d.smul h.t) ∧
        dot (h.p.sub s.center) (h.p.sub s.center) = s.radius * s.radius) := by
  refine ⟨?_, ?_, ?_⟩
  · rw [fl_intersectSphere_eq]
    by_cases h0 : A.lt (Fl.sphereDisc A o d s) (A.lit 0) = true
    · rw [if_pos h0]
      exact ⟨fun _ => Or.inl h0, fun _ => rfl⟩
    · rw [if_neg h0]
      by_cases h1 : A.le (Fl.sphereNear A o d s) (Fl.EPS A) = true
      · rw [if_pos h1]
        by_cases h2 : A.le (Fl.sphereFar A o d s) (Fl.EPS A) = true
        · rw [if_pos h2]
          exact ⟨fun _ => Or.inr ⟨h1, h2⟩, fun _ => rfl⟩
        · rw [if_neg h2]
          constructor
          · intro h
            exact absurd h (by simp)
          · rintro (h | ⟨-, h⟩)
            · exact absurd h h0
            · exact absurd h h2
      · rw [if_neg h1]
        constructor
        · intro h
          exact absurd h (by simp)
        · rintro (h | ⟨h, -⟩)
          · exact absurd h h0
          · exact absurd h h1
  · intro h hh
    rw [fl_intersectSphere_eq] at hh
    by_cases h0 : A.lt (Fl.sphereDisc A o d s) (A.lit 0) = true
    · rw [if_pos h0] at hh
      exact absurd hh (by simp)
    · rw [if_neg h0] at hh
      by_cases h1 : A.le (Fl.sphereNear A o d s) (Fl.EPS A) = true
      · rw [if_pos h1] at hh
        by_cases h2 : A.le (Fl.sphereFar A o d s) (Fl.EPS A) = true
        · rw [if_pos h2] at hh
          exact absurd hh (by simp)
        · rw [if_neg h2] at hh
          have e := (Option.some.inj hh).symm
          subst e
          rw [if_pos h1]
          exact ⟨rfl, Bool.eq_false_iff.mpr h2, rfl⟩
      · rw [if_neg h1] at hh
        have e := (Option.some.inj hh).symm
        subst e
        rw [if_neg h1]
        exact ⟨rfl, Bool.eq_false_iff.mpr h1, rfl⟩
  · intro m o d s hd hsq
    rw [fl_intersectSphere_exact]
    exact intersectSphere_quadratic_exact m o d s hd hsq

/-- Witness of C27 in binary32: the unit sphere seen from `(0, 0, 5)` along `(0, 0, -1)`:
discriminant `1`, values `4` and `6`, hit at `t = 4`, `p = (0, 0, 1)`. -/
theorem intersectSphere_computed_witness :
    (Fl.sphereDisc f32 (Vec3.toF32 ⟨0, 0, 5⟩) (Vec3.toF32 ⟨0, 0, -1⟩)
        (unitSphere matteMat).toF32 = F32.fin 1 ∧
      Fl.sphereNear f32 (Vec3.toF32 ⟨0, 0, 5⟩) (Vec3.toF32 ⟨0, 0, -1⟩)
        (unitSphere matteMat).toF32 = F32.fin 4 ∧
      Fl.sphereFar f32 (Vec3.toF32 ⟨0, 0, 5⟩) (Vec3.toF32 ⟨0, 0, -1⟩)
        (unitSphere matteMat).toF32 = F32.fin 6 ∧
      Fl.intersectSphere f32 (Vec3.toF32 ⟨0, 0, 5⟩) (Vec3.toF32 ⟨0, 0, -1⟩)
          (unitSphere matteMat).toF32
        = some (Fl.sphereHit f32 (Vec3.toF32 ⟨0, 0, 5⟩) (Vec3.toF32 ⟨0, 0, -1⟩)
            (unitSphere matteMat).toF32 (F32.fin 4))) ∧
    (Fl.sphereHit f32 (Vec3.toF32 ⟨0, 0, 5⟩) (Vec3.toF32 ⟨0, 0, -1⟩)
        (unitSphere matteMat).toF32 (F32.fin 4)).p
      = Fl.vadd f32 (Vec3.toF32 ⟨0, 0, 5⟩) (Fl.vscale f32 (Vec3.toF32 ⟨0, 0, -1⟩)
          (Fl.sphereHit f32 (Vec3.toF32 ⟨0, 0, 5⟩) (Vec3.toF32 ⟨0, 0, -1⟩)
            (unitSphere matteMat).toF32 (F32.fin 4)).t) :=
  ⟨by decide!,
   ((intersectSphere_computed (F := ℚ) f32 (Vec3.toF32 ⟨0, 0, 5⟩) (Vec3.toF32 ⟨0, 0, -1⟩)
      (unitSphere matteMat).toF32).2.1 _ (by decide!)).2.2⟩

/-- C27 fails as stated in binary32: for the ray from `(0, 0, 128)` along `(0, 0, -1)` and
the sphere of radius `1/64` at the origin, the roots of the quadratic are
`128 - 1/64` and `128 + 1/64` (discriminant `r² = 2⁻¹²`), but the discriminant computed is
`0`, the returned `t = 128` is not a root, and the returned hit point is the centre:
`|p - c|² = 0`, not `r²`. -/
theorem intersectSphere_not_a_root :
    dot (⟨0, 0, -1⟩ : Vec3 ℚ) ⟨0, 0, -1⟩ = 1 ∧
    sphereDisc (⟨0, 0, 128⟩ : Vec3 ℚ) ⟨0, 0, -1⟩ tinySphere = 1 / 4096 ∧
    (∀ t : ℚ, OnSphereAt ⟨0, 0, 128⟩ ⟨0, 0, -1⟩ tinySphere t ↔
      (t = 128 - 1 / 64 ∨ t = 128 + 1 / 64)) ∧
    (tinySphere.toF32.radius = F32.fin (1 / 64) ∧
      Vec3.toF32 ⟨0, 0, 128⟩ = ⟨F32.fin 0, F32.fin 0, F32.fin 128⟩) ∧
    Fl.sphereDisc f32 (Vec3.toF32 ⟨0, 0, 128⟩) (Vec3.toF32 ⟨0, 0, -1⟩) tinySphere.toF32
      = F32.fin 0 ∧
    (Fl.intersectSphere f32 (Vec3.toF32 ⟨0, 0, 128⟩) (Vec3.toF32 ⟨0, 0, -1⟩)
        tinySphere.toF32).map (fun h => (h.t, h.p))
      = some (F32.fin 128, ⟨F32.fin 0, F32.fin 0, F32.fin 0⟩) ∧
    ¬ OnSphereAt (⟨0, 0, 128⟩ : Vec3 ℚ) ⟨0, 0, -1⟩ tinySphere 128 ∧
    dot ((⟨0, 0, 0⟩ : Vec3 ℚ).sub tinySphere.center) ((⟨0, 0, 0⟩ : Vec3 ℚ).sub tinySphere.center)
      ≠ tinySphere.radius * tinySphere.radius := by
  refine ⟨by decide!, by decide!, ?_, by decide!, by decide!, by decide!,
    by unfold OnSphereAt; decide!, by decide!⟩
  intro t
  have h := onSphereAt_roots ratMath ⟨0, 0, 128⟩ ⟨0, 0, -1⟩ tinySphere t (by decide!)
    (by unfold ExactSqrtAt; decide!)
  rw [h, (by decide! : sphereNearRoot ratMath ⟨0, 0, 128⟩ ⟨0, 0, -1⟩ tinySphere
      = 128 - 1 / 64),
    (by decide! : sphereFarRoot ratMath ⟨0, 0, 128⟩ ⟨0, 0, -1⟩ tinySphere = 128 + 1 / 64)]

/-- In exact arithmetic: whenever `rayTri` returns true for a ray `(o, d)` and a triangle
`(v0, v1, v2)`, its outputs satisfy `u >= 0`, `v >= 0`, `u + v <= 1`, `t > 1e-6` and
`o + t d = (1 - u - v) v0 + u v1 + v v2`. -/
theorem rayTri_barycentric_exact (o d v0 v1 v2 : Vec3 F) (t u v : F)
    (h : rayTri o d v0 v1 v2 = some (t, u, v)) :
    0 ≤ u ∧ 0 ≤ v ∧ u + v ≤ 1 ∧ 1 / 1000000 < t ∧
    o.add (d.smul t) = ((v0.smul (1 - u - v)).add (v1.smul u)).add (v2.smul v) := by
  obtain ⟨h1, hu, hv, ht, h2, -, h4, h5, h6⟩ := (rayTri_some_iff o d v0 v1 v2 t u v).mp h
  have hdet : dot (v1.sub v0) (cross d (v2.sub v0)) ≠ 0 := by
    intro h0
    rw [h0, abs_zero] at h1
    exact h1 EPS_MT_pos
  refine ⟨h2, h4, h5, h6, ?_⟩
  rw [ht, hu, hv]
  exact moller_trumbore o d v0 v1 v2 hdet

/-- C28 (amended): in every arithmetic, whenever `rayTri` returns true none of the tests
`u < 0`, `u > 1`, `v < 0`, `u + v > 1` holds, `t > 1e-6` holds, the test `|det| < 1e-6` has
failed, and `u`, `v`, `t` are the quotients `(tv·p) / det`, `(d·q) / det`, `(e2·q) / det`
as the code computes them (each a product with `1 / det`).  In exact arithmetic these are
the ray parameter and the barycentric coordinates of the intersection point,
`o + t d = (1 - u - v) v0 + u v1 + v v2`; in binary32 they are so only up to rounding. -/
theorem rayTri_outputs {R : Type} (A : FloatOps R) (o d v0 v1 v2 : Vec3 R) (t u v : R)
    (h : Fl.rayTri A o d v0 v1 v2 = some (t, u, v)) :
    (A.lt u (A.lit 0) = false ∧ A.lt (A.lit 1) u = false ∧
      A.lt v (A.lit 0) = false ∧ A.lt (A.lit 1) (A.add u v) = false ∧
      A.lt (Fl.EPS_MT A) t = true ∧
      A.lt (A.abs (Fl.rayTriDet A d v0 v1 v2)) (Fl.EPS_MT A) = false) ∧
    (u = A.mul (Fl.dot A (Fl.vsub A o v0) (Fl.cross A d (Fl.vsub A v2 v0)))
        (A.div (A.lit 1) (Fl.rayTriDet A d v0 v1 v2)) ∧
      v = A.mul (Fl.dot A d (Fl.cross A (Fl.vsub A o v0) (Fl.vsub A v1 v0)))
        (A.div (A.lit 1) (Fl.rayTriDet A d v0 v1 v2)) ∧
      t = A.mul (Fl.dot A (Fl.vsub A v2 v0) (Fl.cross A (Fl.vsub A o v0) (Fl.vsub A v1 v0)))
        (A.div (A.lit 1) (Fl.rayTriDet A d v0 v1 v2))) ∧
    (∀ (m : MathFns F) (o d v0 v1 v2 : Vec3 F) (t u v : F),
      Fl.rayTri (exactOps m) o d v0 v1 v2 = some (t, u, v) →
        0 ≤ u ∧ 0 ≤ v ∧ u + v ≤ 1 ∧ 1 / 1000000 < t ∧
        o.add (d.smul t) = ((v0.smul (1 - u - v)).add (v1.smul u)).add (v2.smul v)) := by
  obtain ⟨h1, hu, hv, ht, h2, h3, h4, h5, h6⟩ := fl_rayTri_some A o d v0 v1 v2 t u v h
  refine ⟨⟨h2, h3, h4, h5, h6, h1⟩, ⟨hu, hv, ht⟩, ?_⟩
  intro m o d v0 v1 v2 t u v hh
  rw [fl_rayTri_exact] at hh
  exact rayTri_barycentric_exact o d v0 v1 v2 t u v hh

/-- Witness of C28 in binary32: the ray from `(1/4, 1/4, 2)` along `(0, 0, -1)` on the
triangle `(0,0,0), (1,0,0), (0,1,0)` gives `t = 2`, `u = v = 1/4`. -/
theorem rayTri_outputs_witness :
    Fl.rayTri f32 (Vec3.toF32 ⟨1 / 4, 1 / 4, 2⟩) (Vec3.toF32 ⟨0, 0, -1⟩)
        (Vec3.toF32 ⟨0, 0, 0⟩) (Vec3.toF32 ⟨1, 0, 0⟩) (Vec3.toF32 ⟨0, 1, 0⟩)
      = some (F32.fin 2, F32.fin (1 / 4), F32.fin (1 / 4)) ∧
    (f32.lt (F32.fin (1 / 4)) (f32.lit 0) = false ∧
      f32.lt (f32.lit 1) (F32.fin (1 / 4)) = false ∧
      f32.lt (F32.fin (1 / 4)) (f32.lit 0) = false ∧
      f32.lt (f32.lit 1) (f32.add (F32.fin (1 / 4)) (F32.fin (1 / 4))) = false ∧
      f32.lt (Fl.EPS_MT f32) (F32.fin 2) = true ∧
      f32.lt (f32.abs (Fl.rayTriDet f32 (Vec3.toF32 ⟨0, 0, -1⟩) (Vec3.toF32 ⟨0, 0, 0⟩)
        (Vec3.toF32 ⟨1, 0, 0⟩) (Vec3.toF32 ⟨0, 1, 0⟩))) (Fl.EPS_MT f32) = false) :=
  ⟨by decide!,
   (rayTri_outputs (F := ℚ) f32 (Vec3.toF32 ⟨1 / 4, 1 / 4, 2⟩) (Vec3.toF32 ⟨0, 0, -1⟩)
      (Vec3.toF32 ⟨0, 0, 0⟩) (Vec3.toF32 ⟨1, 0, 0⟩) (Vec3.toF32 ⟨0, 1, 0⟩) (F32.fin 2)
      (F32.fin (1 / 4)) (F32.fin (1 / 4)) (by decide!)).1⟩

/-- C28 fails as stated in binary32: for the collinear vertices `(1,-2,-1), (-5,1,1),
(-11,4,3)` and the ray from `(-2.6f, -0.5f, -0.8f)` along `(0.6f, 0, 0.8f)`, `rayTri`
returns true with `t = 11184811/2²³`, `u = 15379115/2²⁵`, `v = 6990507/2²⁴`; the point
`o + t d` of the ray has `x > -1.9`, the point `(1 - u - v) v0 + u v1 + v v2` has
`x < -6.6`: they are more than 4.7 apart. -/
theorem rayTri_outputs_off :
    cross ((⟨-5, 1, 1⟩ : Vec3 ℚ).sub ⟨1, -2, -1⟩) ((⟨-11, 4, 3⟩ : Vec3 ℚ).sub ⟨1, -2, -1⟩)
      = ⟨0, 0, 0⟩ ∧
    Fl.rayTri f32 (Vec3.toF32 ⟨-13 / 5, -1 / 2, -4 / 5⟩) (Vec3.toF32 ⟨3 / 5, 0, 4 / 5⟩)
        (Vec3.toF32 ⟨1, -2, -1⟩) (Vec3.toF32 ⟨-5, 1, 1⟩) (Vec3.toF32 ⟨-11, 4, 3⟩)
      = some (F32.fin (11184811 / 8388608), F32.fin (15379115 / 33554432),
          F32.fin (6990507 / 16777216)) ∧
    -19 / 10 < ((Vec3.toF32 ⟨-13 / 5, -1 / 2, -4 / 5⟩).ofF32.add
        ((Vec3.toF32 ⟨3 / 5, 0, 4 / 5⟩).ofF32.smul (11184811 / 8388608))).x ∧
    ((((⟨1, -2, -1⟩ : Vec3 ℚ).smul (1 - 15379115 / 33554432 - 6990507 / 16777216)).add
        ((⟨-5, 1, 1⟩ : Vec3 ℚ).smul (15379115 / 33554432))).add
        ((⟨-11, 4, 3⟩ : Vec3 ℚ).smul (6990507 / 16777216))).x < -66 / 10 ∧
    (Vec3.toF32 ⟨-13 / 5, -1 / 2, -4 / 5⟩).ofF32.add
        ((Vec3.toF32 ⟨3 / 5, 0, 4 / 5⟩).ofF32.smul (11184811 / 8388608))
      ≠ (((⟨1, -2, -1⟩ : Vec3 ℚ).smul (1 - 15379115 / 33554432 - 6990507 / 16777216)).add
        ((⟨-5, 1, 1⟩ : Vec3 ℚ).smul (15379115 / 33554432))).add
        ((⟨-11, 4, 3⟩ : Vec3 ℚ).smul (6990507 / 16777216)) := by
  decide!

/-- C29: for every mesh whose model matrix is affine with `model * invModel` the identity,
and every unit world direction, a hit record returned by `intersectMesh` satisfies
`p = origin + t * dir`: the reported world-space hit point lies on the original world ray at
the reported parameter `t`, for every scaling, uniform or not. -/
theorem intersectMesh_point_on_ray (m : MathFns F) (originWorld dirWorldUnit : Vec3 F)
    (rt : RTMesh F) (h : HitInfo F)
    (haff : rt.model.c0.w = 0 ∧ rt.model.c1.w = 0 ∧ rt.model.c2.w = 0 ∧ rt.model.c3.w = 1)
    (hinv : rt.model.mul rt.invModel = Mat4.identity)
    (hd : dot dirWorldUnit dirWorldUnit = 1)
    (hh : intersectMesh m originWorld dirWorldUnit rt = some h) :
    h.p = originWorld.add (dirWorldUnit.smul h.t) := by
  rw [intersectMesh_eq_foldl] at hh
  have hmem : h ∈ triangleHits m originWorld dirWorldUnit rt := by
    rcases scanInv_foldl (triangleHits m originWorld dirWorldUnit rt) with h1 | h1
    · rw [h1.1] at hh; exact absurd hh (by simp)
    · obtain ⟨h', pre, post, e1, -, e2, -⟩ := h1
      rw [e1] at hh
      rw [e2, ← Option.some.inj hh]
      simp
  obtain ⟨tri, -, htri⟩ := List.mem_filterMap.mp hmem
  obtain ⟨tL, u, v, -, -, hp, ht⟩ := triangleHit_some m originWorld dirWorldUnit rt _ _ tri h htri
  rw [mesh_world_point m originWorld dirWorldUnit rt tL hinv haff.1 haff.2.1 haff.2.2.1
    haff.2.2.2] at hp
  rw [ht, hp]
  simp only [dot, Vec3.add, Vec3.sub, Vec3.smul, Vec3.mk.injEq] at hd ⊢
  generalize (1 / m.sqrt _ * tL) = k
  refine ⟨?_, ?_, ?_⟩
  · linear_combination (-(dirWorldUnit.x * k)) * hd
  · linear_combination (-(dirWorldUnit.y * k)) * hd
  · linear_combination (-(dirWorldUnit.z * k)) * hd

/-- The flattened `stretchedMesh` (scale `(2, 1, 1/2)`) is hit from `(0, 0, 5)` along
`(0, 0, -1)` at `t = 8`, at the point `(0, 0, -3) = (0, 0, 5) + 8 * (0, 0, -1)`. -/
theorem intersectMesh_point_on_ray_witness :
    intersectMesh ratMath ⟨0, 0, 5⟩ ⟨0, 0, -1⟩ (flattenMesh ratSetup stretchedMesh)
      = some stretchedHit ∧
    stretchedHit.p = (⟨0, 0, 5⟩ : Vec3 ℚ).add ((⟨0, 0, -1⟩ : Vec3 ℚ).smul stretchedHit.t) :=
  ⟨by decide!,
   intersectMesh_point_on_ray ratMath ⟨0, 0, 5⟩ ⟨0, 0, -1⟩ (flattenMesh ratSetup stretchedMesh)
    stretchedHit (by decide!) (by decide!) (by decide!) (by decide!)⟩

/-- C30 (amended): `intersectMesh` tests, for every face with `n >= 3` vertices, exactly the
triangles `(V0, Vi, Vi+1)` for `i = 1 .. n - 2`, in order, and nothing for a face with fewer
than 3 vertices.  It reports a hit if and only if, for one of these triangles, `rayTri`
reports an intersection with the local ray at a local parameter `tLocal > EPS` whose
world-space parameter `tWorld = dot(worldP - origin, dir)` lies strictly between `EPS` and
`FLT_MAX`; the reported `t` is the smallest such world-space parameter. -/
theorem intersectMesh_nearest (m : MathFns F) (originWorld dirWorldUnit : Vec3 F)
    (rt : RTMesh F) :
    (∀ vs : List (Vertex F), (fanTriangles vs).length = vs.length - 2 ∧
      ∀ (k : Nat) (hk : k + 2 < vs.length), (fanTriangles vs)[k]?
        = some (vs.get ⟨0, by omega⟩, vs.get ⟨k + 1, by omega⟩, vs.get ⟨k + 2, hk⟩)) ∧
    (∀ h, h ∈ triangleHits m originWorld dirWorldUnit rt ↔
      ∃ face ∈ rt.mesh.faces, ∃ tri ∈ fanTriangles face.vertices,
        triangleHit m originWorld dirWorldUnit rt (meshLocalO originWorld rt)
          (meshLocalD m dirWorldUnit rt) tri = some h) ∧
    (∀ tri, (∃ h, triangleHit m originWorld dirWorldUnit rt (meshLocalO originWorld rt)
          (meshLocalD m dirWorldUnit rt) tri = some h) ↔
      ∃ tL u v, rayTri (meshLocalO originWorld rt) (meshLocalD m dirWorldUnit rt)
          tri.1.position tri.2.1.position tri.2.2.position = some (tL, u, v) ∧ EPS < tL) ∧
    (∀ tri h, triangleHit m originWorld dirWorldUnit rt (meshLocalO originWorld rt)
          (meshLocalD m dirWorldUnit rt) tri = some h →
      ∃ tL u v, rayTri (meshLocalO originWorld rt) (meshLocalD m dirWorldUnit rt)
          tri.1.position tri.2.1.position tri.2.2.position = some (tL, u, v) ∧ EPS < tL ∧
        h.p = (rt.model.mulVec (((meshLocalO originWorld rt).add
          ((meshLocalD m dirWorldUnit rt).smul tL)).withW 1)).xyz ∧
        h.t = dot (h.p.sub originWorld) dirWorldUnit) ∧
    ((∃ h, intersectMesh m originWorld dirWorldUnit rt = some h) ↔
      ∃ x ∈ triangleHits m originWorld dirWorldUnit rt, EPS < x.t ∧ x.t < FLT_MAX) ∧
    (∀ h, intersectMesh m originWorld dirWorldUnit rt = some h →
      h ∈ triangleHits m originWorld dirWorldUnit rt ∧ EPS < h.t ∧ h.t < FLT_MAX ∧
      ∀ x ∈ triangleHits m originWorld dirWorldUnit rt, EPS < x.t → h.t ≤ x.t) := by
  refine ⟨fun vs => ⟨fanTriangles_length vs, fun k hk => fanTriangles_getElem vs k hk⟩,
    fun h => ?_, fun tri => triangleHit_isSome_iff m _ _ rt _ _ tri,
    fun tri h hh => triangleHit_some m _ _ rt _ _ tri h hh, ?_, fun h hh => ?_⟩
  · simp only [triangleHits, meshTriangles, List.mem_filterMap, List.mem_flatMap]
    constructor
    · rintro ⟨tri, ⟨face, hf, ht⟩, hh⟩
      exact ⟨face, hf, tri, ht, hh⟩
    · rintro ⟨face, hf, tri, ht, hh⟩
      exact ⟨tri, ⟨face, hf, ht⟩, hh⟩
  · rw [intersectMesh_eq_foldl]
    rcases scanInv_foldl (triangleHits m originWorld dirWorldUnit rt) with h1 | h1
    · rw [h1.1]
      constructor
      · rintro ⟨h, hh⟩; exact absurd hh (by simp)
      · rintro ⟨x, hx, hx1, hx2⟩; exact absurd ⟨hx1, hx2⟩ (h1.2.2 x hx)
    · obtain ⟨h', pre, post, e1, -, e2, e3, e4, -⟩ := h1
      rw [e1]
      exact ⟨fun _ => ⟨h', by rw [e2]; simp, e3, e4⟩, fun _ => ⟨h', rfl⟩⟩
  · rw [intersectMesh_eq_foldl] at hh
    rcases scanInv_foldl (triangleHits m originWorld dirWorldUnit rt) with h1 | h1
    · rw [h1.1] at hh; exact absurd hh (by simp)
    · obtain ⟨h', pre, post, e1, -, e2, e3, e4, e5, e6⟩ := h1
      rw [e1] at hh
      have e := Option.some.inj hh
      subst e
      refine ⟨by rw [e2]; simp, e3, e4, fun x hx hxt => ?_⟩
      rw [e2] at hx
      rcases List.mem_append.mp hx with hx | hx
      · exact le_of_lt (e5 x hx hxt)
      · rcases List.mem_cons.mp hx with hx | hx
        · rw [hx]
        · exact e6 x hx hxt

/-- The flattened `stretchedMesh` from `(0, 0, 5)` along `(0, 0, -1)`: its one triangle is
accepted and reported at the world parameter `8`. -/
theorem intersectMesh_nearest_witness :
    intersectMesh ratMath ⟨0, 0, 5⟩ ⟨0, 0, -1⟩ (flattenMesh ratSetup stretchedMesh)
      = some stretchedHit ∧
    triangleHits ratMath ⟨0, 0, 5⟩ ⟨0, 0, -1⟩ (flattenMesh ratSetup stretchedMesh)
      = [stretchedHit] ∧
    (stretchedHit ∈ triangleHits ratMath ⟨0, 0, 5⟩ ⟨0, 0, -1⟩
        (flattenMesh ratSetup stretchedMesh) ∧ EPS < stretchedHit.t ∧
      stretchedHit.t < FLT_MAX ∧
      ∀ x ∈ triangleHits ratMath ⟨0, 0, 5⟩ ⟨0, 0, -1⟩ (flattenMesh ratSetup stretchedMesh),
        EPS < x.t → stretchedHit.t ≤ x.t) :=
  ⟨by decide!, by decide!,
   (intersectMesh_nearest ratMath ⟨0, 0, 5⟩ ⟨0, 0, -1⟩
      (flattenMesh ratSetup stretchedMesh)).2.2.2.2.2 stretchedHit (by decide!)⟩

/-- C30 fails as stated: the flattened `bigMesh` has the model matrix `scaling(10)`, so its
triangle is `(-10,-10,0), (10,-10,0), (0,10,0)` in world space.  The world ray from
`(0, 0, 1/200)` along `(0, 0, -1)` meets it at the world parameter `t = 1/200 > EPS`, yet
`intersectMesh` reports no hit: the local parameter is `1/2000`, and the test
`tLocal <= EPS` rejects it before the world parameter is computed. -/
theorem intersectMesh_local_epsilon :
    (flattenMesh ratSetup bigMesh).model = scaling ⟨10, 10, 10⟩ ∧
    meshTriangles (flattenMesh ratSetup bigMesh)
      = [(⟨⟨-1, -1, 0⟩, ⟨0, 0, 1⟩⟩, ⟨⟨1, -1, 0⟩, ⟨0, 0, 1⟩⟩, ⟨⟨0, 1, 0⟩, ⟨0, 0, 1⟩⟩)] ∧
    ((flattenMesh ratSetup bigMesh).model.mulVec ((⟨-1, -1, 0⟩ : Vec3 ℚ).withW 1)).xyz
      = ⟨-10, -10, 0⟩ ∧
    ((flattenMesh ratSetup bigMesh).model.mulVec ((⟨1, -1, 0⟩ : Vec3 ℚ).withW 1)).xyz
      = ⟨10, -10, 0⟩ ∧
    ((flattenMesh ratSetup bigMesh).model.mulVec ((⟨0, 1, 0⟩ : Vec3 ℚ).withW 1)).xyz
      = ⟨0, 10, 0⟩ ∧
    rayTri (⟨0, 0, 1 / 200⟩ : Vec3 ℚ) ⟨0, 0, -1⟩ ⟨-10, -10, 0⟩ ⟨10, -10, 0⟩ ⟨0, 10, 0⟩
      = some (1 / 200, 1 / 4, 1 / 2) ∧
    (EPS : ℚ) < 1 / 200 ∧
    rayTri (meshLocalO (⟨0, 0, 1 / 200⟩ : Vec3 ℚ) (flattenMesh ratSetup bigMesh))
        (meshLocalD ratMath ⟨0, 0, -1⟩ (flattenMesh ratSetup bigMesh))
        ⟨-1, -1, 0⟩ ⟨1, -1, 0⟩ ⟨0, 1, 0⟩
      = some (1 / 2000, 1 / 4, 1 / 2) ∧
    (1 / 2000 : ℚ) ≤ EPS ∧
    intersectMesh ratMath ⟨0, 0, 1 / 200⟩ ⟨0, 0, -1⟩ (flattenMesh ratSetup bigMesh) = none := by
  decide!

/-- C26: every face of the mesh returned by `loadFromFile` has exactly 3 vertices; an `f`
line with `n >= 3` vertex tokens appends the `n - 2` triangles `(t0, ti, ti+1)` for
`i = 1 .. n - 2`, in that order, an `f` line with fewer than 3 tokens appends no face, the
other lines append none; and a triangle whose computed normal is undefined (the edge cross
product is the zero vector) gets the normal `(0, 1, 0)`, any other the normalised cross
product. -/
theorem loadFromFile_triangles (m : MathFns F) (lines : List (ObjLine F)) :
    (∀ face ∈ loadFromFile m lines, face.vertices.length = 3 ∧
      ∃ a b c : Vertex F, face.vertices = [a, b, c] ∧
        (calculateNormal m face.vertices = none → face.normal = ⟨0, 1, 0⟩) ∧
        face.normal
          = if dot (cross (b.position.sub a.position) (c.position.sub a.position))
                (cross (b.position.sub a.position) (c.position.sub a.position)) = 0
            then ⟨0, 1, 0⟩
            else normalize m (cross (b.position.sub a.position) (c.position.sub a.position))) ∧
    (∀ line, loadState m (lines ++ [line]) = loadStep m (loadState m lines) line) ∧
    (∀ (st : LoaderState F) (tokens : List FaceToken), tokens.length < 3 →
      (loadStep m st (.f tokens)).faces = st.faces) ∧
    (∀ (st : LoaderState F) (tokens : List FaceToken), 3 ≤ tokens.length →
      ∃ added : List (LoadedFace F),
        (loadStep m st (.f tokens)).faces = st.faces ++ added ∧
        added.length = tokens.length - 2 ∧
        ∀ (k : Nat) (hk : k + 2 < tokens.length),
          added[k]? = some (loaderTriangle m
            (tokenVertex st.vertices st.normals (tokens.get ⟨0, by omega⟩),
             tokenVertex st.vertices st.normals (tokens.get ⟨k + 1, by omega⟩),
             tokenVertex st.vertices st.normals (tokens.get ⟨k + 2, hk⟩)))) ∧
    (∀ (st : LoaderState F) (p : Vec3 F),
      (loadStep m st (.v p)).faces = st.faces ∧ (loadStep m st (.vn p)).faces = st.faces ∧
      (loadStep m st .vt).faces = st.faces ∧ (loadStep m st .other).faces = st.faces) := by
  refine ⟨?_, fun line => ?_, fun st tokens hlt => ?_, fun st tokens hge => ?_,
    fun st p => ⟨rfl, rfl, rfl, rfl⟩⟩
  · apply loadState_faces m
    intro tri
    refine ⟨rfl, tri.1, tri.2.1, tri.2.2, rfl, ?_, loaderTriangle_normal m tri⟩
    intro hnone
    show (calculateNormal m [tri.1, tri.2.1, tri.2.2]).getD ⟨0, 1, 0⟩ = ⟨0, 1, 0⟩
    have hnone2 : calculateNormal m [tri.1, tri.2.1, tri.2.2] = none := hnone
    rw [hnone2]
    rfl
  · unfold loadState
    rw [List.foldl_append, List.foldl_cons, List.foldl_nil]
  · unfold loadStep
    simp only [List.length_map]
    rw [if_neg (by omega)]
  · refine ⟨(fanTriangles (tokens.map (tokenVertex st.vertices st.normals))).map
      (loaderTriangle m), ?_, ?_, fun k hk => ?_⟩
    · unfold loadStep
      simp only [List.length_map]
      rw [if_pos (by omega)]
    · rw [List.length_map, fanTriangles_length, List.length_map]
    · rw [fanTriangles_map_getElem (loaderTriangle m) _ k (by rw [List.length_map]; exact hk)]
      simp only [List.get_eq_getElem, List.getElem_map]

/-- The faces loaded from `quadFile`: the quad gives the triangles `(1,2,3)` and `(1,3,4)`
with normal `(0, 0, 1)`, the two-token face nothing, the triangle with a repeated vertex the
normal `(0, 1, 0)`. -/
theorem loadFromFile_triangles_witness :
    loadFromFile ratMath quadFile
      = [⟨[⟨⟨0, 0, 0⟩, ⟨0, 0, 0⟩⟩, ⟨⟨1, 0, 0⟩, ⟨0, 0, 0⟩⟩, ⟨⟨1, 1, 0⟩, ⟨0, 0, 0⟩⟩], ⟨0, 0, 1⟩⟩,
         ⟨[⟨⟨0, 0, 0⟩, ⟨0, 0, 0⟩⟩, ⟨⟨1, 1, 0⟩, ⟨0, 0, 0⟩⟩, ⟨⟨0, 1, 0⟩, ⟨0, 0, 0⟩⟩], ⟨0, 0, 1⟩⟩,
         ⟨[⟨⟨0, 0, 0⟩, ⟨0, 0, 0⟩⟩, ⟨⟨1, 0, 0⟩, ⟨0, 0, 0⟩⟩, ⟨⟨1, 0, 0⟩, ⟨0, 0, 0⟩⟩], ⟨0, 1, 0⟩⟩] ∧
    (loadStep ratMath (loadState ratMath (quadFile.take 4))
        (.f [⟨1, none, none⟩, ⟨2, none, none⟩])).faces
      = (loadState ratMath (quadFile.take 4)).faces :=
  ⟨by decide!,
   (loadFromFile_triangles ratMath quadFile).2.2.1 (loadState ratMath (quadFile.take 4))
      [⟨1, none, none⟩, ⟨2, none, none⟩] (by decide)⟩

/-- C25 (amended): for a glass sphere (`isTransparent`, transparency 1, not a mirror,
refractive index `3/2`, diffuse colour `s` with channels in `[0, 1]`) between the camera and
an opaque wall, in any scene with any lights, ambient colour and background colour `B` in
`[0, 1]`, the primary ray through the sphere's centre returns (in exact arithmetic)
`360576/390625 * (s ⊙ s ⊙ W)` plus a term that depends on `s` and `B` only, where `W` is the
wall's shaded colour clamped to `[0, 1]`; hence changing the wall's colour changes the
returned colour if and only if it changes `W` in a channel where `s` is not zero.  The
scenario is given by what the five rays of the recursion meet: the primary ray `(o, d)` the
near side of the sphere head-on, the ray continuing inside the far side head-on, the ray
leaving there the wall, the ray reflected inside the entry point again, and the ray leaving
towards the camera nothing. -/
theorem traceRay_glass_wall (m : MathFns F) (meshes : List (RTMesh F))
    (spheres : List (RTSphere F)) (lights : List (Light F)) (scene : Scene F)
    (o d : Vec3 F) (s : Vec3 F) (near far back wall : HitInfo F)
    (h1 : m.sqrt 1 = 1) (hd : dot d d = 1) (hs : s.InUnit)
    (hB : scene.backgroundColor.InUnit)
    (hglass : ∀ h : HitInfo F, h = near ∨ h = far ∨ h = back →
      h.hitLight = false ∧ h.material.isMirror = false ∧ h.material.isTransparent = true ∧
      h.material.transparency = 1 ∧ h.material.refractiveIndex = 3 / 2 ∧
      h.material.diffuseColor = s)
    (hnear : intersectScene m o d meshes spheres true = some near)
    (hnearN : near.nGeom = d.neg ∧ near.frontFace = true)
    (hfar : intersectScene m (near.p.add (d.smul EPS)) d meshes spheres false = some far)
    (hfarN : far.nGeom = d.neg ∧ far.frontFace = false)
    (hwall : intersectScene m (far.p.add (d.smul EPS)) d meshes spheres false = some wall)
    (hwallM : wall.hitLight = false ∧
      ¬ (wall.material.isMirror = true ∧ wall.material.reflectivity > 0) ∧
      ¬ (wall.material.isTransparent = true ∧ wall.material.transparency > 0))
    (hback : intersectScene m (far.p.add (d.neg.smul EPS)) d.neg meshes spheres false
      = some back)
    (hbackN : back.nGeom = d ∧ back.frontFace = false ∧ back.p = near.p)
    (haway : intersectScene m (near.p.add (d.neg.smul EPS)) d.neg meshes spheres false
      = none) :
    traceRay m (MAX_DEPTH.toNat + 1) o d meshes spheres lights scene 0 1
      = some (centreRayColour s scene.backgroundColor
          ((shadeDirect m wall lights scene meshes spheres).clamp 0 1)) ∧
    (∃ c : Vec3 F, ∀ W : Vec3 F, W.InUnit →
      centreRayColour s scene.backgroundColor W
        = (((s.mul s).mul W).smul (360576 / 390625)).add c) ∧
    ∀ W W2 : Vec3 F, W.InUnit → W2.InUnit →
      (centreRayColour s scene.backgroundColor W = centreRayColour s scene.backgroundColor W2 ↔
        ((s.x = 0 ∨ W.x = W2.x) ∧ (s.y = 0 ∨ W.y = W2.y) ∧ (s.z = 0 ∨ W.z = W2.z))) := by
  obtain ⟨gl1, gm1, gt1, gr1, gi1, gs1⟩ := hglass near (Or.inl rfl)
  obtain ⟨gl2, gm2, gt2, gr2, gi2, gs2⟩ := hglass far (Or.inr (Or.inl rfl))
  obtain ⟨gl3, gm3, gt3, gr3, gi3, gs3⟩ := hglass back (Or.inr (Or.inr rfl))
  have hdn : dot d.neg d.neg = 1 := by rw [dot_neg_neg, hd]
  have hbn : back.nGeom = d.neg.neg := by rw [vec3_neg_neg]; exact hbackN.1
  -- the three kinds of nested calls
  have away : ∀ (fuel : Nat) (depth : Int), depth ≠ 0 →
      traceRay m (fuel + 1) (near.p.add (d.neg.smul EPS)) d.neg meshes spheres lights scene
        depth 1 = some scene.backgroundColor := by
    intro fuel depth h0
    apply traceRay_miss
    rw [decide_eq_false h0]
    exact haway
  have wallc : ∀ (fuel : Nat) (depth : Int), depth ≠ 0 → depth < MAX_DEPTH →
      traceRay m (fuel + 1) (far.p.add (d.smul EPS)) d meshes spheres lights scene depth 1
        = some ((shadeDirect m wall lights scene meshes spheres).clamp 0 1) := by
    intro fuel depth h0 hlt
    exact traceRay_diffuse m fuel _ _ meshes spheres lights scene depth 1 wall hlt
      (by rw [decide_eq_false h0]; exact hwall) hwallM.1 hwallM.2.1 hwallM.2.2
  have farc : ∀ (fuel : Nat) (depth : Int) (refl refr : Vec3 F), depth ≠ 0 →
      depth < MAX_DEPTH →
      traceRay m fuel (far.p.add (d.neg.smul EPS)) d.neg meshes spheres lights scene
        (depth + 1) (3 / 2) = some refl →
      traceRay m fuel (far.p.add (d.smul EPS)) d meshes spheres lights scene (depth + 1) 1
        = some refr →
      traceRay m (fuel + 1) (near.p.add (d.smul EPS)) d meshes spheres lights scene depth
        (3 / 2) = some (glassBlend s refl refr) := by
    intro fuel depth refl refr h0 hlt hr ht
    have h := glass_head_on m fuel _ d meshes spheres lights scene depth (3 / 2) far refl refr
      h1 hd hlt (by rw [decide_eq_false h0]; exact hfar) gl2 hfarN.1 gm2 gt2 gr2 gi2
      (Or.inr ⟨rfl, hfarN.2⟩) hr (by rw [hfarN.2]; exact ht)
    rw [h, gs2]
  have backc : ∀ (fuel : Nat) (depth : Int) (refl refr : Vec3 F), depth ≠ 0 →
      depth < MAX_DEPTH →
      traceRay m fuel (near.p.add (d.smul EPS)) d meshes spheres lights scene
        (depth + 1) (3 / 2) = some refl →
      traceRay m fuel (near.p.add (d.neg.smul EPS)) d.neg meshes spheres lights scene
        (depth + 1) 1 = some refr →
      traceRay m (fuel + 1) (far.p.add (d.neg.smul EPS)) d.neg meshes spheres lights scene
        depth (3 / 2) = some (glassBlend s refl refr) := by
    intro fuel depth refl refr h0 hlt hr ht
    have h := glass_head_on m fuel _ d.neg meshes spheres lights scene depth (3 / 2) back
      refl refr h1 hdn hlt (by rw [decide_eq_false h0]; exact hback) gl3 hbn gm3 gt3 gr3 gi3
      (Or.inr ⟨rfl, hbackN.2.1⟩)
      (by rw [vec3_neg_neg, hbackN.2.2]; exact hr)
      (by rw [hbackN.2.1, hbackN.2.2]; exact ht)
    rw [h, gs3]
  have deep : ∀ (p v : Vec3 F) (env : F),
      traceRay m 1 p v meshes spheres lights scene (5 + 1) env = some scene.backgroundColor :=
    fun p v env => traceRay_deep m 0 p v meshes spheres lights scene (5 + 1) env (by decide)
  have c5 := farc 1 5 _ _ (by decide) (by decide) (deep _ _ _) (deep _ _ _)
  have c4 := backc 2 4 _ _ (by decide) (by decide) c5 (away 1 (4 + 1) (by decide))
  have c3 := farc 3 3 _ _ (by decide) (by decide) c4 (wallc 2 (3 + 1) (by decide) (by decide))
  have c2 := backc 4 2 _ _ (by decide) (by decide) c3 (away 3 (2 + 1) (by decide))
  have c1 := farc 5 1 _ _ (by decide) (by decide) c2 (wallc 4 (1 + 1) (by decide) (by decide))
  have c0 := glass_head_on m 6 o d meshes spheres lights scene 0 1 near _ _ h1 hd (by decide)
    hnear gl1 hnearN.1 gm1 gt1 gr1 gi1 (Or.inl ⟨rfl, hnearN.2⟩) (away 5 (0 + 1) (by decide))
    (by rw [hnearN.2]; exact c1)
  refine ⟨?_, ⟨_, fun W hW => centreRayColour_affine s scene.backgroundColor W hs hB hW⟩, ?_⟩
  · rw [gs1] at c0
    exact c0
  · intro W W2 hW hW2
    rw [centreRayColour_affine s _ W hs hB hW, centreRayColour_affine s _ W2 hs hB hW2]
    simp only [Vec3.mul, Vec3.smul, Vec3.add, Vec3.mk.injEq]
    rw [weighted_eq_iff, weighted_eq_iff, weighted_eq_iff]

/-- Witness of C25: the unit glass sphere of colour `(1, 1/2, 0)` at the origin, seen from
`(0, 0, 5)` in front of a wall of colour `(1/2, 1/4, 1)` in the plane `z = -3`, with the
light of intensity 10 near the wall and a coloured background. -/
theorem traceRay_glass_wall_witness :
    (intersectScene ratMath ⟨0, 0, 5⟩ ⟨0, 0, -1⟩ [backWall (wallMat ⟨1 / 2, 1 / 4, 1⟩)]
        [unitSphere (tintedGlass ⟨1, 1 / 2, 0⟩)] true
      = some (frontHit (tintedGlass ⟨1, 1 / 2, 0⟩)) ∧
     (shadeDirect ratMath (wallHit (1999 / 1000) (wallMat ⟨1 / 2, 1 / 4, 1⟩)) [wallLight]
        skyScene [backWall (wallMat ⟨1 / 2, 1 / 4, 1⟩)]
        [unitSphere (tintedGlass ⟨1, 1 / 2, 0⟩)]).clamp 0 1 = ⟨1, 1, 1⟩ ∧
     centreRayColour (⟨1, 1 / 2, 0⟩ : Vec3 ℚ) ⟨1 / 5, 2 / 5, 1⟩ ⟨1, 1, 1⟩
      = ⟨1832929 / 1953125, 305738762 / 1220703125, 1 / 25⟩) ∧
    traceRay ratMath (MAX_DEPTH.toNat + 1) ⟨0, 0, 5⟩ ⟨0, 0, -1⟩
        [backWall (wallMat ⟨1 / 2, 1 / 4, 1⟩)] [unitSphere (tintedGlass ⟨1, 1 / 2, 0⟩)]
        [wallLight] skyScene 0 1
      = some (centreRayColour ⟨1, 1 / 2, 0⟩ skyScene.backgroundColor
          ((shadeDirect ratMath (wallHit (1999 / 1000) (wallMat ⟨1 / 2, 1 / 4, 1⟩)) [wallLight]
            skyScene [backWall (wallMat ⟨1 / 2, 1 / 4, 1⟩)]
            [unitSphere (tintedGlass ⟨1, 1 / 2, 0⟩)]).clamp 0 1)) :=
  ⟨⟨by decide!, by decide!, by decide!⟩,
   (traceRay_glass_wall ratMath [backWall (wallMat ⟨1 / 2, 1 / 4, 1⟩)]
      [unitSphere (tintedGlass ⟨1, 1 / 2, 0⟩)] [wallLight] skyScene ⟨0, 0, 5⟩ ⟨0, 0, -1⟩
      ⟨1, 1 / 2, 0⟩ (frontHit (tintedGlass ⟨1, 1 / 2, 0⟩))
      (rearHit (tintedGlass ⟨1, 1 / 2, 0⟩)) (innerHit (tintedGlass ⟨1, 1 / 2, 0⟩))
      (wallHit (1999 / 1000) (wallMat ⟨1 / 2, 1 / 4, 1⟩))
      (by decide!) (by decide!) (by unfold Vec3.InUnit; decide!)
      (by unfold Vec3.InUnit; decide!)
      (fun h hh => by rcases hh with rfl | rfl | rfl <;> decide!)
      (by decide!) (by decide!) (by decide!) (by decide!) (by decide!) (by decide!)
      (by decide!) (by decide!) (by decide!)).1⟩

/-- C25 fails as stated: with the default ambient light `1/10`, a white glass sphere and a
light of intensity 10 in front of the wall, the wall's shaded colour is saturated at
`(1, 1, 1)` for the white wall and for the grey wall of diffuse colour `1/2`; the primary
ray through the sphere's centre returns the same colour for both walls. -/
theorem traceRay_glass_wall_saturated :
    traceRay ratMath (MAX_DEPTH.toNat + 1) ⟨0, 0, 5⟩ ⟨0, 0, -1⟩ [backWall (wallMat ⟨1, 1, 1⟩)]
        [unitSphere (tintedGlass ⟨1, 1, 1⟩)] [wallLight] defaultScene 0 1
      = some ⟨360576 / 390625, 360576 / 390625, 360576 / 390625⟩ ∧
    traceRay ratMath (MAX_DEPTH.toNat + 1) ⟨0, 0, 5⟩ ⟨0, 0, -1⟩
        [backWall (wallMat ⟨1 / 2, 1 / 2, 1 / 2⟩)]
        [unitSphere (tintedGlass ⟨1, 1, 1⟩)] [wallLight] defaultScene 0 1
      = some ⟨360576 / 390625, 360576 / 390625, 360576 / 390625⟩ ∧
    (wallMat ⟨1, 1, 1⟩).diffuseColor ≠ (wallMat ⟨1 / 2, 1 / 2, 1 / 2⟩).diffuseColor ∧
    (defaultScene : Scene ℚ).ambientLight = ⟨1 / 10, 1 / 10, 1 / 10⟩ ∧
    traceRay ratMath MAX_DEPTH.toNat ⟨0, 0, -1001 / 1000⟩ ⟨0, 0, -1⟩
        [backWall (wallMat ⟨1, 1, 1⟩)] [unitSphere (tintedGlass ⟨1, 1, 1⟩)] [wallLight]
        defaultScene 2 1 = some ⟨1, 1, 1⟩ ∧
    traceRay ratMath MAX_DEPTH.toNat ⟨0, 0, -1001 / 1000⟩ ⟨0, 0, -1⟩
        [backWall (wallMat ⟨1 / 2, 1 / 2, 1 / 2⟩)] [unitSphere (tintedGlass ⟨1, 1, 1⟩)]
        [wallLight] defaultScene 2 1 = some ⟨1, 1, 1⟩ := by
  decide!

/-- C38: for every vector `v` and unit vector `n`, `reflectVec(v, n)` has the same length as
`v`, its normal component is `dot(reflectVec(v, n), n) = -dot(v, n)`, its tangential component
is that of `v`, and `reflectVec(reflectVec(v, n), n) = v`. -/
theorem reflectVec_properties (m : MathFns F) (v n : Vec3 F) (hn : dot n n = 1) :
    dot (reflectVec v n) (reflectVec v n) = dot v v ∧
    length m (reflectVec v n) = length m v ∧
    dot (reflectVec v n) n = -dot v n ∧
    (reflectVec v n).sub (n.smul (dot (reflectVec v n) n)) = v.sub (n.smul (dot v n)) ∧
    reflectVec (reflectVec v n) n = v := by
  refine ⟨reflectVec_dot_self v n hn, ?_, reflectVec_dot_normal v n hn,
    reflectVec_tangent v n hn, reflectVec_involution v n hn⟩
  unfold length
  rw [reflectVec_dot_self v n hn]

/-- The vector `(3, 4, -12)` of length 13 reflected at the plane of normal `(0, 0, 1)`. -/
theorem reflectVec_properties_witness :
    dot (⟨0, 0, 1⟩ : Vec3 ℚ) ⟨0, 0, 1⟩ = 1 ∧
    reflectVec (⟨3, 4, -12⟩ : Vec3 ℚ) ⟨0, 0, 1⟩ = ⟨3, 4, 12⟩ ∧
    length ratMath (⟨3, 4, -12⟩ : Vec3 ℚ) = 13 ∧
    length ratMath (reflectVec (⟨3, 4, -12⟩ : Vec3 ℚ) ⟨0, 0, 1⟩)
      = length ratMath (⟨3, 4, -12⟩ : Vec3 ℚ) :=
  ⟨by decide!, by decide!, by decide!,
   (reflectVec_properties ratMath ⟨3, 4, -12⟩ ⟨0, 0, 1⟩ (by decide!)).2.1⟩

/-- C39: for all `n1, n2 > 0` and every `cosTheta`, `schlick(cosTheta, n1, n2)` lies in
`[r0, 1]` with `r0 = ((n1 - n2)/(n1 + n2))² < 1`, equals `r0` for `cosTheta >= 1` and `1` for
`cosTheta <= 0`, is monotonically non-increasing in `cosTheta`, and is symmetric in `n1` and
`n2`. -/
theorem schlick_properties (n1 n2 : F) (h1 : 0 < n1) (h2 : 0 < n2) :
    (0 ≤ schlickR0 n1 n2 ∧ schlickR0 n1 n2 < 1) ∧
    (∀ c, schlickR0 n1 n2 ≤ schlick c n1 n2 ∧ schlick c n1 n2 ≤ 1) ∧
    (∀ c, 1 ≤ c → schlick c n1 n2 = schlickR0 n1 n2) ∧
    (∀ c, c ≤ 0 → schlick c n1 n2 = 1) ∧
    (∀ c c2, c ≤ c2 → schlick c2 n1 n2 ≤ schlick c n1 n2) ∧
    (∀ c, schlick c n1 n2 = schlick c n2 n1) := by
  obtain ⟨hr0, hr1⟩ := schlickR0_lt_one n1 n2 h1 h2
  have hx : ∀ c : F, 0 ≤ 1 - clampS c 0 1 ∧ 1 - clampS c 0 1 ≤ 1 := fun c => by
    obtain ⟨ha, hb⟩ := clampS_mem c
    constructor <;> linarith
  refine ⟨⟨hr0, hr1⟩, fun c => ?_, fun c hc => ?_, fun c hc => ?_, fun c c2 hc => ?_,
    fun c => ?_⟩
  · rw [schlick_eq]
    have hp0 : 0 ≤ (1 - clampS c 0 1) ^ 5 := pow_nonneg (hx c).1 5
    have hp1 : (1 - clampS c 0 1) ^ 5 ≤ 1 := pow_le_one₀ (hx c).1 (hx c).2
    constructor
    · nlinarith
    · nlinarith
  · have e : clampS c 0 1 = 1 := by
      unfold clampS
      rcases lt_or_eq_of_le hc with h | h
      · rw [if_neg (by linarith), if_pos h]
      · rw [← h, if_neg (by norm_num), if_neg (lt_irrefl _)]
    rw [schlick_eq, e]
    ring
  · have e : clampS c 0 1 = 0 := by
      unfold clampS
      rcases lt_or_eq_of_le hc with h | h
      · rw [if_pos h]
      · rw [h, if_neg (lt_irrefl _), if_neg (by norm_num)]
    rw [schlick_eq, e]
    ring
  · rw [schlick_eq, schlick_eq]
    have hm := clampS_mono hc
    have hp : (1 - clampS c2 0 1) ^ 5 ≤ (1 - clampS c 0 1) ^ 5 :=
      pow_le_pow_left₀ (hx c2).1 (by linarith) 5
    nlinarith
  · rw [schlick_eq, schlick_eq, schlickR0_symm]

/-- Air to glass (`n1 = 1`, `n2 = 3/2`): `r0 = 1/25`; at `cosTheta = 1/2` the value is
`7/100`. -/
theorem schlick_properties_witness :
    ((0 : ℚ) < 1 ∧ (0 : ℚ) < 3 / 2 ∧ schlickR0 (1 : ℚ) (3 / 2) = 1 / 25 ∧
      schlick (1 / 2 : ℚ) 1 (3 / 2) = 7 / 100) ∧
    schlickR0 (1 : ℚ) (3 / 2) ≤ schlick (1 / 2) 1 (3 / 2) ∧ schlick (1 / 2 : ℚ) 1 (3 / 2) ≤ 1 :=
  ⟨by decide!,
   (schlick_properties (1 : ℚ) (3 / 2) (by decide!) (by decide!)).2.1 (1 / 2)⟩

/-- C33: for unit vectors `I` and `N` with `I·N <= 0` and `eta > 0` (and a square root that
is exact at `k = 1 - eta² (1 - (I·N)²)` when `k >= 0`), `refractVec` returns false exactly
when `eta² (1 - (I·N)²) > 1`; otherwise it returns a unit vector `T` with
`T·N = -sqrt(k) <= 0` whose component perpendicular to `N` is `eta` times that of `I`, and
for `eta = 1` it returns `T = I`. -/
theorem refractVec_snell (m : MathFns F) (I N : Vec3 F) (eta : F) (hI : dot I I = 1)
    (hN : dot N N = 1) (hIN : dot I N ≤ 0) (_heta : 0 < eta)
    (hsq : 0 ≤ specRefractK I N eta → ExactSqrtAt m (specRefractK I N eta)) :
    (refractVec m I N eta = none ↔ eta * eta * (1 - dot I N * dot I N) > 1) ∧
    ∀ T, refractVec m I N eta = some T →
      dot T T = 1 ∧ dot T N = -(m.sqrt (specRefractK I N eta)) ∧ dot T N ≤ 0 ∧
      T.sub (N.smul (dot T N)) = (I.sub (N.smul (dot I N))).smul eta ∧
      (eta = 1 → T = I) := by
  rw [refractVec_eq m I N eta hI hN]
  constructor
  · unfold specRefractK
    constructor
    · intro h
      split_ifs at h with hk
      linarith
    · intro h
      rw [if_pos (by linarith)]
  · intro T hT
    split_ifs at hT with hk
    obtain ⟨hs0, hs2⟩ := hsq (not_lt.mp hk)
    have e := (Option.some.inj hT).symm
    have hTN : dot T N = -(m.sqrt (specRefractK I N eta)) := by
      rw [e]
      have h0 := refract_perp_normal I N eta hN
      simp only [dot, Vec3.add, Vec3.smul] at h0 hN ⊢
      linear_combination h0 + (-(m.sqrt (specRefractK I N eta))) * hN
    have hTT : dot T T = 1 := by
      rw [e, dot_add_smul_self, refract_perp_normal I N eta hN, refract_perp_dot I N eta hI hN,
        hN]
      unfold specRefractK at hs2 ⊢
      linear_combination hs2
    refine ⟨hTT, hTN, by rw [hTN]; linarith, ?_, fun h1 => ?_⟩
    · rw [hTN, e]
      simp only [dot, Vec3.add, Vec3.sub, Vec3.smul, Vec3.mk.injEq]
      refine ⟨?_, ?_, ?_⟩ <;> ring
    · have hkk : specRefractK I N eta = dot I N * dot I N := by
        unfold specRefractK
        rw [h1]
        ring
      have hsqrt : m.sqrt (specRefractK I N eta) = -dot I N := by
        apply eq_of_mul_self_eq hs0 (by linarith)
        rw [hs2, hkk]
        ring
      rw [e, hsqrt, h1]
      simp only [dot, Vec3.add, Vec3.smul]
      cases I
      simp only [Vec3.mk.injEq]
      refine ⟨?_, ?_, ?_⟩ <;> ring

/-- Incidence at sine `4/5` from inside glass: with `eta = 3/2` refraction is impossible
(`eta² (1 - (I·N)²) = 36/25 > 1`); with `eta = 3/4` the refracted ray is `(-4/5, 3/5, 0)`. -/
theorem refractVec_snell_witness :
    (dot grazingDir grazingDir = 1 ∧ dot (⟨-1, 0, 0⟩ : Vec3 ℚ) ⟨-1, 0, 0⟩ = 1 ∧
      dot grazingDir (⟨-1, 0, 0⟩ : Vec3 ℚ) ≤ 0 ∧
      refractVec ratMath grazingDir ⟨-1, 0, 0⟩ (3 / 2) = none ∧
      refractVec ratMath grazingDir ⟨-1, 0, 0⟩ (3 / 4) = some ⟨4 / 5, 3 / 5, 0⟩) ∧
    (3 / 2 : ℚ) * (3 / 2) * (1 - dot grazingDir (⟨-1, 0, 0⟩ : Vec3 ℚ)
      * dot grazingDir (⟨-1, 0, 0⟩ : Vec3 ℚ)) > 1 :=
  ⟨by decide!,
   (refractVec_snell ratMath grazingDir ⟨-1, 0, 0⟩ (3 / 2) (by decide!) (by decide!)
      (by decide!) (by decide!) (fun h => absurd h (by decide!))).1.mp (by decide!)⟩

/-- In exact arithmetic: `rayTri` reports a miss for every ray against every zero-area
triangle (the edge cross product is the zero vector), and it evaluates `1 / det` only when
`|det| >= 1e-6`: the divisor of the triangle test is never zero. -/
theorem rayTri_degenerate_exact (o d v0 v1 v2 : Vec3 F) :
    (cross (v1.sub v0) (v2.sub v0) = ⟨0, 0, 0⟩ → rayTri o d v0 v1 v2 = none) ∧
    (∀ x ∈ rayTriDivisors d v0 v1 v2, 1 / 1000000 ≤ |x| ∧ x ≠ 0) ∧
    (rayTriDivisors d v0 v1 v2 = [] → rayTri o d v0 v1 v2 = none) ∧
    (∀ r, rayTri o d v0 v1 v2 = some r →
      rayTriDivisors d v0 v1 v2 = [dot (v1.sub v0) (cross d (v2.sub v0))]) := by
  have hdiv : ¬ |dot (v1.sub v0) (cross d (v2.sub v0))| < EPS_MT →
      (1 / 1000000 : F) ≤ |dot (v1.sub v0) (cross d (v2.sub v0))| ∧
      dot (v1.sub v0) (cross d (v2.sub v0)) ≠ 0 := by
    intro h
    have h1 : (1 / 1000000 : F) ≤ |dot (v1.sub v0) (cross d (v2.sub v0))| := not_lt.mp h
    refine ⟨h1, fun h0 => ?_⟩
    rw [h0, abs_zero] at h1
    norm_num at h1
  refine ⟨fun hc => ?_, fun x hx => ?_, fun he => ?_, fun r hr => ?_⟩
  · have hdet : dot (v1.sub v0) (cross d (v2.sub v0)) = 0 := by
      have hx := congrArg Vec3.x hc
      have hy := congrArg Vec3.y hc
      have hz := congrArg Vec3.z hc
      simp only [cross, dot, Vec3.sub] at hx hy hz ⊢
      linear_combination (-d.x) * hx - d.y * hy - d.z * hz
    unfold rayTri
    simp only []
    rw [hdet, abs_zero, if_pos EPS_MT_pos]
  · unfold rayTriDivisors at hx
    simp only [] at hx
    split_ifs at hx with h
    · exact absurd hx (List.not_mem_nil x)
    · rw [List.mem_singleton.mp hx]
      exact hdiv h
  · unfold rayTriDivisors at he
    simp only [] at he
    split_ifs at he with h
    unfold rayTri
    simp only []
    rw [if_pos h]
  · unfold rayTriDivisors
    simp only []
    split_ifs with h
    · unfold rayTri at hr
      simp only [] at hr
      rw [if_pos h] at hr
      exact absurd hr (by simp)
    · rfl

/-- C35 (amended): in every arithmetic, `rayTri` reports a miss whenever the determinant it
computes satisfies `|det| < 1e-6`, and it evaluates `1 / det` only when that test has
failed, so the divisor is never zero (zero passes the test).  In exact arithmetic the
determinant of every zero-area triangle is zero, so that every ray misses it; in binary32
the computed determinant of a zero-area triangle need not be below `1e-6`. -/
theorem rayTri_small_determinant {R : Type} (A : FloatOps R)
    (hz : A.lt (A.abs (A.lit 0)) (Fl.EPS_MT A) = true) (o d v0 v1 v2 : Vec3 R) :
    (A.lt (A.abs (Fl.rayTriDet A d v0 v1 v2)) (Fl.EPS_MT A) = true →
      Fl.rayTri A o d v0 v1 v2 = none) ∧
    (∀ x ∈ Fl.rayTriDivisors A d v0 v1 v2,
      A.lt (A.abs x) (Fl.EPS_MT A) = false ∧ x ≠ A.lit 0) ∧
    (Fl.rayTriDivisors A d v0 v1 v2 = [] → Fl.rayTri A o d v0 v1 v2 = none) ∧
    (∀ r, Fl.rayTri A o d v0 v1 v2 = some r →
      Fl.rayTriDivisors A d v0 v1 v2 = [Fl.rayTriDet A d v0 v1 v2]) ∧
    (∀ (m : MathFns F) (o d v0 v1 v2 : Vec3 F),
      cross (v1.sub v0) (v2.sub v0) = ⟨0, 0, 0⟩ →
        Fl.rayTri (exactOps m) o d v0 v1 v2 = none) := by
  refine ⟨fl_rayTri_small_det A o d v0 v1 v2, ?_, ?_, ?_, ?_⟩
  · intro x hx
    unfold Fl.rayTriDivisors at hx
    by_cases h : A.lt (A.abs (Fl.rayTriDet A d v0 v1 v2)) (Fl.EPS_MT A) = true
    · rw [if_pos h] at hx
      exact absurd hx (List.not_mem_nil _)
    · rw [if_neg h] at hx
      have e := List.mem_singleton.mp hx
      subst e
      refine ⟨Bool.eq_false_iff.mpr h, ?_⟩
      intro h0
      rw [h0] at h
      exact h hz
  · intro h0
    unfold Fl.rayTriDivisors at h0
    by_cases h : A.lt (A.abs (Fl.rayTriDet A d v0 v1 v2)) (Fl.EPS_MT A) = true
    · exact fl_rayTri_small_det A o d v0 v1 v2 h
    · rw [if_neg h] at h0
      exact absurd h0 (by simp)
  · intro r hr
    obtain ⟨t, u, v⟩ := r
    have h := (fl_rayTri_some A o d v0 v1 v2 t u v hr).1
    unfold Fl.rayTriDivisors
    rw [if_neg (by rw [h]; simp)]
  · intro m o d v0 v1 v2 hc
    rw [fl_rayTri_exact]
    exact (rayTri_degenerate_exact o d v0 v1 v2).1 hc

/-- Witness of C35 in binary32: the triangle `(0,0,0), (1,0,0), (2,0,0)` has the computed
determinant `0` and is missed; the unit triangle hit from `(1/4, 1/4, 2)` has the divisor
`1`. -/
theorem rayTri_small_determinant_witness :
    (f32.lt (f32.abs (f32.lit 0)) (Fl.EPS_MT f32) = true ∧
      Fl.rayTriDet f32 (Vec3.toF32 ⟨0, 0, -1⟩) (Vec3.toF32 ⟨0, 0, 0⟩) (Vec3.toF32 ⟨1, 0, 0⟩)
        (Vec3.toF32 ⟨2, 0, 0⟩) = F32.fin 0 ∧
      Fl.rayTriDivisors f32 (Vec3.toF32 ⟨0, 0, -1⟩) (Vec3.toF32 ⟨0, 0, 0⟩)
        (Vec3.toF32 ⟨1, 0, 0⟩) (Vec3.toF32 ⟨0, 1, 0⟩) = [F32.fin 1]) ∧
    Fl.rayTri f32 (Vec3.toF32 ⟨1, 0, 2⟩) (Vec3.toF32 ⟨0, 0, -1⟩) (Vec3.toF32 ⟨0, 0, 0⟩)
      (Vec3.toF32 ⟨1, 0, 0⟩) (Vec3.toF32 ⟨2, 0, 0⟩) = none :=
  ⟨by decide!,
   (rayTri_small_determinant (F := ℚ) f32 (by decide!) (Vec3.toF32 ⟨1, 0, 2⟩)
      (Vec3.toF32 ⟨0, 0, -1⟩) (Vec3.toF32 ⟨0, 0, 0⟩) (Vec3.toF32 ⟨1, 0, 0⟩)
      (Vec3.toF32 ⟨2, 0, 0⟩)).1 (by decide!)⟩

/-- C35 fails as stated in binary32: the vertices `(0,-3,-2), (1,1,3), (2,5,8)` are
collinear (the triangle has zero area), yet for the ray from `(0.9f, 2.2f, 5.5f)` along
`(0.6f, 0.8f, 0)` the rounded products leave the determinant `2⁻¹⁹ >= 1e-6`, and `rayTri`
reports a hit with `t = 1/2`, `u = 1`, `v = 0`. -/
theorem rayTri_hits_zero_area :
    cross ((⟨1, 1, 3⟩ : Vec3 ℚ).sub ⟨0, -3, -2⟩) ((⟨2, 5, 8⟩ : Vec3 ℚ).sub ⟨0, -3, -2⟩)
      = ⟨0, 0, 0⟩ ∧
    (Vec3.toF32 ⟨0, -3, -2⟩ = ⟨F32.fin 0, F32.fin (-3), F32.fin (-2)⟩ ∧
      Vec3.toF32 ⟨1, 1, 3⟩ = ⟨F32.fin 1, F32.fin 1, F32.fin 3⟩ ∧
      Vec3.toF32 ⟨2, 5, 8⟩ = ⟨F32.fin 2, F32.fin 5, F32.fin 8⟩) ∧
    Fl.rayTriDet f32 (Vec3.toF32 ⟨3 / 5, 4 / 5, 0⟩) (Vec3.toF32 ⟨0, -3, -2⟩)
      (Vec3.toF32 ⟨1, 1, 3⟩) (Vec3.toF32 ⟨2, 5, 8⟩) = F32.fin (1 / 2 ^ 19) ∧
    f32.lt (F32.fin (1 / 2 ^ 19)) (Fl.EPS_MT f32) = false ∧
    Fl.rayTri f32 (Vec3.toF32 ⟨9 / 10, 11 / 5, 11 / 2⟩) (Vec3.toF32 ⟨3 / 5, 4 / 5, 0⟩)
        (Vec3.toF32 ⟨0, -3, -2⟩) (Vec3.toF32 ⟨1, 1, 3⟩) (Vec3.toF32 ⟨2, 5, 8⟩)
      = some (F32.fin (1 / 2), F32.fin 1, F32.fin 0) := by
  decide!

/-- C34: for every flattened mesh whose model matrix has an invertible linear part `M`, the
normal matrix `normalMat = transpose(inverse(M))` satisfies `(normalMat n)·(M v) = n·v` for
all vectors `n` and `v`; hence a normal perpendicular to a local tangent stays perpendicular
to the transformed tangent, whatever the scaling.  Assumed of the library: `glm::inverse`
undoes every 3x3 matrix of nonzero determinant. -/
theorem normalMat_preserves_dot (g : SetupFns F) (scene : SceneGraph F) (rt : RTMesh F)
    (hrt : rt ∈ (buildRTObjects g scene).1)
    (hinv : ∀ A : Mat3 F, A.det ≠ 0 → ∀ v, (g.inverse3 A).mulVec (A.mulVec v) = v)
    (hdet : rt.model.linear.det ≠ 0) :
    rt.normalMat = (g.inverse3 rt.model.linear).transpose ∧
    (∀ n v, dot (rt.normalMat.mulVec n) (rt.model.linear.mulVec v) = dot n v) ∧
    (∀ n v, dot n v = 0 → dot (rt.normalMat.mulVec n) (rt.model.linear.mulVec v) = 0) := by
  rw [buildRTObjects_eq] at hrt
  obtain ⟨msh, -, rfl⟩ := List.mem_map.mp hrt
  have key : ∀ n v, dot ((flattenMesh g msh).normalMat.mulVec n)
      ((flattenMesh g msh).model.linear.mulVec v) = dot n v := by
    intro n v
    show dot ((g.inverse3 (flattenMesh g msh).model.linear).transpose.mulVec n) _ = _
    rw [mat3_transpose_dot, hinv _ hdet]
  exact ⟨rfl, key, fun n v h => by rw [key, h]⟩

/-- The flattened `stretchedMesh` (scale `(2, 1, 1/2)`): the normal `(1, 0, 1)` and the
tangent `(1, 0, -1)` are perpendicular, and so are their images `(1/2, 0, 2)` and
`(2, 0, -1/2)`. -/
theorem normalMat_preserves_dot_witness :
    (flattenMesh ratSetup stretchedMesh ∈ (buildRTObjects ratSetup stretchedScene).1 ∧
      (flattenMesh ratSetup stretchedMesh).model.linear.det ≠ 0 ∧
      (flattenMesh ratSetup stretchedMesh).normalMat.mulVec ⟨1, 0, 1⟩ = ⟨1 / 2, 0, 2⟩ ∧
      (flattenMesh ratSetup stretchedMesh).model.linear.mulVec ⟨1, 0, -1⟩ = ⟨2, 0, -1 / 2⟩ ∧
      dot (⟨1, 0, 1⟩ : Vec3 ℚ) ⟨1, 0, -1⟩ = 0) ∧
    dot ((flattenMesh ratSetup stretchedMesh).normalMat.mulVec ⟨1, 0, 1⟩)
      ((flattenMesh ratSetup stretchedMesh).model.linear.mulVec ⟨1, 0, -1⟩) = 0 :=
  ⟨by decide!,
   (normalMat_preserves_dot ratSetup stretchedScene (flattenMesh ratSetup stretchedMesh)
      (by decide!) (fun A h v => mat3_cofactorInverse_mulVec A v h) (by decide!)).2.2
      ⟨1, 0, 1⟩ ⟨1, 0, -1⟩ (by decide!)⟩

/-- C36: in every `traceRay` call reachable from a primary call with `environmentIor = 1`,
the refractive indices of the transparent branch satisfy `n1 > 0` and `n2 > 0` at every hit on
every material, also when `refractiveIndex` is zero or negative (it is replaced by `3/2`
whenever it is `<= 1e-4`); hence the divisors `n2` of `eta = n1 / n2` and `n1 + n2` of
Schlick's `(n1 - n2) / (n1 + n2)` are not zero. -/
theorem refraction_indices_positive (m : MathFns F) (meshes : List (RTMesh F))
    (spheres : List (RTSphere F)) (root c : RayCall F) (hroot : root.environmentIor = 1)
    (hreach : Reachable m meshes spheres root c) :
    0 < c.environmentIor ∧
    ∀ hit : HitInfo F,
      (hit.material.refractiveIndex ≤ 1 / 10000 → glassIor hit.material = 3 / 2) ∧
      (refractionIndices c.environmentIor hit).1 = c.environmentIor ∧
      (refractionIndices c.environmentIor hit).2
        = (if hit.frontFace = true then glassIor hit.material else 1) ∧
      0 < (refractionIndices c.environmentIor hit).1 ∧
      0 < (refractionIndices c.environmentIor hit).2 ∧
      (refractionIndices c.environmentIor hit).2 ≠ 0 ∧
      (refractionIndices c.environmentIor hit).1 + (refractionIndices c.environmentIor hit).2
        ≠ 0 := by
  have henv : 0 < c.environmentIor :=
    reachable_env_pos m meshes spheres root c (by rw [hroot]; exact one_pos) hreach
  refine ⟨henv, fun hit => ?_⟩
  have h2 : 0 < (refractionIndices c.environmentIor hit).2 := by
    show 0 < (if hit.frontFace = true then glassIor hit.material else 1)
    split_ifs
    · exact (glassIor_pos hit.material).1
    · exact one_pos
  have h1 : 0 < (refractionIndices c.environmentIor hit).1 := henv
  exact ⟨(glassIor_pos hit.material).2.1, rfl, rfl, h1, h2, ne_of_gt h2,
    ne_of_gt (add_pos h1 h2)⟩

/-- The primary ray on the glass sphere and the refraction call it makes, inside the glass
with `environmentIor = 3/2`; a material with `refractiveIndex = 0` is given the index
`3/2`. -/
theorem refraction_indices_positive_witness :
    ((⟨⟨0, 0, 5⟩, ⟨0, 0, -1⟩, 0, 1⟩ : RayCall ℚ).environmentIor = 1 ∧
      nestedCalls ratMath [] [glassSphere] ⟨⟨0, 0, 5⟩, ⟨0, 0, -1⟩, 0, 1⟩
        = [⟨⟨0, 0, 1001 / 1000⟩, ⟨0, 0, 1⟩, 1, 1⟩,
           ⟨⟨0, 0, 999 / 1000⟩, ⟨0, 0, -1⟩, 1, 3 / 2⟩] ∧
      glassIor { glassMat with refractiveIndex := 0 } = 3 / 2) ∧
    0 < (⟨⟨0, 0, 999 / 1000⟩, ⟨0, 0, -1⟩, 1, 3 / 2⟩ : RayCall ℚ).environmentIor :=
  ⟨by decide!,
   (refraction_indices_positive ratMath [] [glassSphere] ⟨⟨0, 0, 5⟩, ⟨0, 0, -1⟩, 0, 1⟩
      ⟨⟨0, 0, 999 / 1000⟩, ⟨0, 0, -1⟩, 1, 3 / 2⟩ rfl
      (Reachable.step _ _ Reachable.root (by decide!))).1⟩

/-- C37: for a camera whose `up` is not parallel to `position - target` (square root exact at
the two squared lengths that `getViewMatrix` normalises and at `1`, `glm::inverse` a left
inverse on matrices of nonzero determinant), `getViewMatrix` maps the position to the
origin and the target to `(0, 0, -|target - position|)`, its linear part preserves the dot
product (is orthonormal), and the primary ray through the centre of an image of odd size
has direction `normalize(target - position)`. -/
theorem getViewMatrix_frame (m : MathFns F) (g : SetupFns F) (cam : Camera F)
    (aspect scale : F) (x y : Nat)
    (hnp : cross cam.up (cam.position.sub cam.target) ≠ ⟨0, 0, 0⟩)
    (hz : ExactSqrtAt m (dot (cam.position.sub cam.target) (cam.position.sub cam.target)))
    (hx : ExactSqrtAt m (dot (cross cam.up (normalize m (cam.position.sub cam.target)))
      (cross cam.up (normalize m (cam.position.sub cam.target)))))
    (h1 : ExactSqrtAt m 1)
    (hinv : ∀ M : Mat4 F, M.det ≠ 0 → (g.inverse4 M).mul M = Mat4.identity) :
    (getViewMatrix m cam).mulVec (cam.position.withW 1) = ⟨0, 0, 0, 1⟩ ∧
    (getViewMatrix m cam).mulVec (cam.target.withW 1)
      = ⟨0, 0, -(length m (cam.target.sub cam.position)), 1⟩ ∧
    (∀ v w : Vec3 F, dot ((getViewMatrix m cam).linear.mulVec v)
      ((getViewMatrix m cam).linear.mulVec w) = dot v w) ∧
    (getViewMatrix m cam).det = 1 ∧
    (primaryRay m cam.position (g.inverse4 (getViewMatrix m cam)) aspect scale
      (2 * x + 1) (2 * y + 1) x y).2 = normalize m (cam.target.sub cam.position) := by
  obtain ⟨hX, hY, hZ, hXY, hXZ, hYZ, hs⟩ := view_frame m cam hnp hz hx
  have h11 := exactSqrt_one m h1
  have hdet := view_det m cam hX hZ hXZ
  have hI := hinv (getViewMatrix m cam) (by rw [hdet]; exact one_ne_zero)
  have htp := viewZ_smul m cam hs
  refine ⟨?_, ?_, ?_, hdet, ?_⟩
  · rw [view_mulVec_point]
    simp [dot, Vec3.sub]
  · rw [view_mulVec_point, htp, dot_smul_right, dot_smul_right, dot_smul_right, hXZ, hYZ, hZ]
    unfold length
    rw [← htp, dot_sub_swap cam.target cam.position]
    simp
  · intro v w
    rw [view_linear_mulVec, view_linear_mulVec]
    have h := frame_complete (viewX m cam) (viewZ m cam) v w hX hZ hXZ
    simp only [viewY]
    rw [← h]
    simp only [dot]
  · rw [primaryRay_dir,
      centre_world_vector m cam _ aspect scale x y h11 hZ hXZ hYZ hI]
    have hzz : dot (viewZ m cam).neg (viewZ m cam).neg = 1 := by
      rw [dot_neg_left, dot_neg_right, hZ]
      ring
    have e1 : normalize m (viewZ m cam).neg = (viewZ m cam).neg := by
      unfold normalize
      rw [hzz, h11]
      simp [Vec3.smul]
    rw [e1]
    have hne := ne_of_gt hs
    unfold normalize
    rw [dot_sub_swap cam.target cam.position]
    simp only [viewZ, normalize, Vec3.neg, Vec3.smul, Vec3.sub, Vec3.mk.injEq]
    refine ⟨?_, ?_, ?_⟩ <;> field_simp

/-- Witness of C37: the default camera position `(0, 0, 5)` looking at the origin, and the
centre pixel `(1, 1)` of a `3 x 3` image. -/
theorem getViewMatrix_frame_witness :
    cross wideCamera.up (wideCamera.position.sub wideCamera.target) ≠ ⟨0, 0, 0⟩ ∧
    (getViewMatrix ratMathImage wideCamera).mulVec (wideCamera.position.withW 1)
      = ⟨0, 0, 0, 1⟩ ∧
    (getViewMatrix ratMathImage wideCamera).mulVec (wideCamera.target.withW 1)
      = ⟨0, 0, -(length ratMathImage (wideCamera.target.sub wideCamera.position)), 1⟩ ∧
    (∀ v w : Vec3 ℚ, dot ((getViewMatrix ratMathImage wideCamera).linear.mulVec v)
      ((getViewMatrix ratMathImage wideCamera).linear.mulVec w) = dot v w) ∧
    (getViewMatrix ratMathImage wideCamera).det = 1 ∧
    (primaryRay ratMathImage wideCamera.position
      (ratSetup.inverse4 (getViewMatrix ratMathImage wideCamera)) (16 / 9) 1
      (2 * 1 + 1) (2 * 1 + 1) 1 1).2
      = normalize ratMathImage (wideCamera.target.sub wideCamera.position) :=
  ⟨by decide!,
   getViewMatrix_frame ratMathImage ratSetup wideCamera (16 / 9) 1 1 1 (by decide!)
     (by unfold ExactSqrtAt; decide!) (by unfold ExactSqrtAt; decide!)
     (by unfold ExactSqrtAt; decide!) (fun M hM => cofactorInverse_mul M hM)⟩

/-- C40 (the code departs from the claim): at the angle of the 3-4-5 triangle
(`cos = 4/5`, `sin = 3/5`) `rotationAroundAxis` about each coordinate axis is the transpose
of `rotationX`, `rotationY`, `rotationZ`, so the two constructors differ, and
`rotateAroundCenterX` turns the vertex `(0, 2, 0)` of a centred mesh to `(0, 8/5, -6/5)`
while the rotation field turns it to `(0, 8/5, 6/5)`. -/
theorem rotationAroundAxis_transposed :
    rotationAroundAxis ratMath turnSetup ⟨1, 0, 0⟩ turnAngle
      = ⟨⟨1, 0, 0, 0⟩, ⟨0, 4 / 5, -3 / 5, 0⟩, ⟨0, 3 / 5, 4 / 5, 0⟩, ⟨0, 0, 0, 1⟩⟩ ∧
    rotationX turnSetup turnAngle
      = ⟨⟨1, 0, 0, 0⟩, ⟨0, 4 / 5, 3 / 5, 0⟩, ⟨0, -3 / 5, 4 / 5, 0⟩, ⟨0, 0, 0, 1⟩⟩ ∧
    rotationAroundAxis ratMath turnSetup ⟨0, 1, 0⟩ turnAngle
      = ⟨⟨4 / 5, 0, 3 / 5, 0⟩, ⟨0, 1, 0, 0⟩, ⟨-3 / 5, 0, 4 / 5, 0⟩, ⟨0, 0, 0, 1⟩⟩ ∧
    rotationY turnSetup turnAngle
      = ⟨⟨4 / 5, 0, -3 / 5, 0⟩, ⟨0, 1, 0, 0⟩, ⟨3 / 5, 0, 4 / 5, 0⟩, ⟨0, 0, 0, 1⟩⟩ ∧
    rotationAroundAxis ratMath turnSetup ⟨0, 0, 1⟩ turnAngle
      = ⟨⟨4 / 5, -3 / 5, 0, 0⟩, ⟨3 / 5, 4 / 5, 0, 0⟩, ⟨0, 0, 1, 0⟩, ⟨0, 0, 0, 1⟩⟩ ∧
    rotationZ turnSetup turnAngle
      = ⟨⟨4 / 5, 3 / 5, 0, 0⟩, ⟨-3 / 5, 4 / 5, 0, 0⟩, ⟨0, 0, 1, 0⟩, ⟨0, 0, 0, 1⟩⟩ ∧
    rotationAroundAxis ratMath turnSetup ⟨1, 0, 0⟩ turnAngle ≠ rotationX turnSetup turnAngle ∧
    rotationAroundAxis ratMath turnSetup ⟨0, 1, 0⟩ turnAngle ≠ rotationY turnSetup turnAngle ∧
    rotationAroundAxis ratMath turnSetup ⟨0, 0, 1⟩ turnAngle ≠ rotationZ turnSetup turnAngle ∧
    getCenter (centredMesh ⟨0, 0, 0⟩) = ⟨0, 0, 0⟩ ∧
    worldVertices turnSetup
        (rotateAroundCenterX ratMath turnSetup (centredMesh ⟨0, 0, 0⟩) turnAngle)
      = [⟨0, 8 / 5, -6 / 5⟩, ⟨0, -1 / 5, 7 / 5⟩, ⟨0, -7 / 5, -1 / 5⟩] ∧
    worldVertices turnSetup (centredMesh ⟨turnAngle, 0, 0⟩)
      = [⟨0, 8 / 5, 6 / 5⟩, ⟨0, -7 / 5, 1 / 5⟩, ⟨0, -1 / 5, -7 / 5⟩] := by
  refine ⟨?_, ?_, ?_, ?_, ?_, ?_, ?_, ?_, ?_, ?_, ?_, ?_⟩ <;> decide!

end Claims

end CornwallRT
